import Mathlib

/-! Embedded Learning Library: graph rewriting handlers and layout negotiation.

A shallow embedding of

* `libraries/nodes/src/SimpleConvolutionNode.cpp`
  (`SimpleConvolutionNode`, `SimpleConvolutionComputeNode`: constructors, `Copy`, `Refine`,
  `Compute`, `WriteToArchive`, `ReadFromArchive`, `Compile`, and the two kernel emitters
  with the loop nests they emit),
* `tools/utilities/profile/src/ReplaceSourceAndSinkNodesPass.cpp`
  (`TryReplaceSourceNode`, `TryReplaceSinkNode`, `ReplaceSourceOrSinkNode`, `OptimizeNode`,
  `AddToRegistry`),
* `libraries/utilities/include/IntegerNArray.h` (`MakeNArray`),
* `libraries/model/include/InputNodeBase.h` (`TrySetOutputLayout`),
* `libraries/nodes/include/BinaryFunctionNode.h` and `ReorderDataNode.h`
  (`CanAcceptInputLayout`).

The `ModelTransformer`, `Model`, `PortMemoryLayout` and tensor classes these functions call
are not part of the listed sources; they are modelled from the specification and marked so.

Conventions of the embedding:

* C++ `int` is `Int` kept in the 32-bit range, `size_t` is `Nat` below `2^64`; conversions
  between them are written out (`toSizeT`, `toInt`).
* A method that mutates the transformer and may throw is a function
  `ModelTransformer → Except Error α × ModelTransformer`: the state is returned also when an
  exception is raised, as a C++ caller would observe it.
* The transformer carries the trace of the calls made on it (`calls`), so that statements of
  the form "calls `MapNodeOutput` exactly once" can be made about the handlers.
-/

namespace ell

/-! ## Errors -/

/-- The kinds of `utilities::LogicException` (Exception.h is not among the sources). -/
inductive LogicExceptionErrors where
  | illegalState
  | notImplemented
  deriving DecidableEq, Repr

/-- The error taxonomy of the specification (section 7), plus the other ways the embedded
code stops: the outcome of an out-of-range index into a `std::vector`, which C++ leaves
undefined; a `utilities::LogicException`; a failed `assert`; and the failure of an
unarchiver that does not find a value of the requested type under the requested name. -/
inductive Error where
  | ConstructionError
  | UnmappedReferenceError
  | RefinementNonConvergence
  | UnsupportedOperationError
  | ArchiveVersionError
  | LayoutMismatchError
  | IndexOutOfRange
  | LogicException (kind : LogicExceptionErrors)
  | AssertionFailure
  | InputException
  deriving DecidableEq, Repr

deriving instance DecidableEq for Except

/-! ## Machine integers -/

/-- Range of a C++ `int` (32 bits, two's complement). -/
def IsInt (i : Int) : Prop := -(2 : Int) ^ 31 ≤ i ∧ i < (2 : Int) ^ 31

instance (i : Int) : Decidable (IsInt i) := by
  unfold IsInt
  exact inferInstance

/-- Conversion of an `int` argument to a `size_t` parameter (64 bits): reduction modulo `2^64`. -/
def toSizeT (i : Int) : Nat := (i % (2 : Int) ^ 64).toNat

/-- The conversion `static_cast<int>(n)` of a `size_t`: reduction modulo `2^32` into the
signed range. -/
def toInt (n : Nat) : Int :=
  if n % 2 ^ 32 < 2 ^ 31 then ((n % 2 ^ 32 : Nat) : Int) else ((n % 2 ^ 32 : Nat) : Int) - (2 : Int) ^ 32

/-! ## Ports and memory layouts -/

/-- Element kinds a port or a node template can be instantiated with. -/
inductive ValueType where
  | float
  | double
  | int
  | int64
  | bool
  deriving DecidableEq, Repr

/-- Element values held by tensors, constant nodes and the buffers of the emitted code. The
element types are `float` and `double`; their values are modelled as integers, and the
additions and multiplications of the kernels as exact arithmetic. -/
abbrev Value := Int

/-- Per-dimension sizes (`std::vector<int>`). -/
abbrev MemoryShape := List Int

/-- A dimension permutation (`utilities::DimensionOrder`). -/
abbrev DimensionOrder := List Int

/-- Modelled from the spec: `PortMemoryLayout` (PortMemoryLayout.h is not among the sources).
For each dimension an active size, a stride (allocated extent) and an offset (leading
padding), plus the permutation giving the logical dimension order. -/
structure PortMemoryLayout where
  size : MemoryShape
  stride : MemoryShape
  offset : MemoryShape
  order : DimensionOrder
  deriving DecidableEq, Repr

namespace PortMemoryLayout

/-- Accessor `GetActiveSize()`. -/
def GetActiveSize (l : PortMemoryLayout) : MemoryShape := l.size

/-- Accessor `GetStride()`. -/
def GetStride (l : PortMemoryLayout) : MemoryShape := l.stride

/-- Accessor `GetOffset()`. -/
def GetOffset (l : PortMemoryLayout) : MemoryShape := l.offset

/-- Accessor `GetLogicalDimensionOrder()`. -/
def GetLogicalDimensionOrder (l : PortMemoryLayout) : DimensionOrder := l.order

/-- Number of elements of the allocated memory: the product of the extents. -/
def GetMemorySize (l : PortMemoryLayout) : Nat := (l.stride.foldl (· * ·) 1).toNat

/-- Modelled from the spec: the canonical layout over a shape (no padding, identity order),
as built by `PortMemoryLayout(shape)`. -/
def ofShape (shape : MemoryShape) : PortMemoryLayout :=
  { size := shape, stride := shape, offset := shape.map (fun _ => 0),
    order := (List.range shape.length).map (fun i => (i : Int)) }

end PortMemoryLayout

/-- Identity of an output port: the handle of the owning node and the index of the port
among that node's outputs. -/
structure PortId where
  node : Nat
  index : Nat
  deriving DecidableEq, Repr

/-- Modelled from the spec: `OutputPortBase`, owned by one node, with a port type and a
memory layout. -/
structure OutputPortBase where
  id : PortId
  type : ValueType
  layout : PortMemoryLayout
  deriving DecidableEq, Repr

namespace OutputPortBase

/-- Accessor `GetMemoryLayout()`. -/
def GetMemoryLayout (p : OutputPortBase) : PortMemoryLayout := p.layout

/-- Accessor `GetType()`. -/
def GetType (p : OutputPortBase) : ValueType := p.type

/-- Number of elements of the port, `Size()`. -/
def Size (p : OutputPortBase) : Nat := p.layout.GetMemorySize

end OutputPortBase

/-- One range of a `PortElements`: (source-output identity, start index, count). -/
structure PortRange where
  port : PortId
  start : Nat
  count : Nat
  deriving DecidableEq, Repr

/-- Modelled from the spec: `PortElements`, an ordered list of ranges. -/
abbrev PortElements := List PortRange

/-- The `PortElements` that selects a whole output port (the implicit conversion applied when
an `OutputPort` is passed where `PortElements` are expected). -/
def PortElements.ofPort (p : OutputPortBase) : PortElements :=
  [{ port := p.id, start := 0, count := p.Size }]

/-- Elements `start .. start + count - 1` of a list of ranges. -/
def PortElements.slice : PortElements → Nat → Nat → PortElements
  | [], _, _ => []
  | r :: rs, start, count =>
    if count = 0 then []
    else if r.count ≤ start then PortElements.slice rs (start - r.count) count
    else
      { port := r.port, start := r.start + start, count := min (r.count - start) count } ::
        PortElements.slice rs 0 (count - min (r.count - start) count)

/-! ## Tensors -/

/-- Modelled from the spec: the row-major matrix of the math library (an external
collaborator), as far as `ToArray` needs it. -/
structure Matrix where
  numRows : Nat
  numColumns : Nat
  increment : Nat
  data : List Value
  deriving DecidableEq, Repr

/-- Modelled from the spec: `ToArray()` of the math library, the elements of the matrix
row by row. -/
def Matrix.ToArray (m : Matrix) : List Value :=
  (List.range m.numRows).flatMap fun i =>
    (List.range m.numColumns).map fun j => m.data.getD (i * m.increment + j) 0

/-- Modelled from the spec: the (row, column, channel) tensor of the math library holding
the filter weights, stored contiguously with the channel index running fastest. Its
dimensions are `size_t` values. -/
structure Tensor where
  numRows : Nat
  numColumns : Nat
  numChannels : Nat
  data : List Value
  deriving DecidableEq, Repr

namespace Tensor

/-- Accessor `NumRows()`, a `size_t`. -/
def NumRows (t : Tensor) : Nat := t.numRows

/-- Accessor `NumColumns()`, a `size_t`. -/
def NumColumns (t : Tensor) : Nat := t.numColumns

/-- Accessor `NumChannels()`, a `size_t`. -/
def NumChannels (t : Tensor) : Nat := t.numChannels

/-- Modelled from the spec: `ReferenceAsMatrix()`, the same memory viewed as a matrix with
one row per tensor row and `numColumns * numChannels` columns. -/
def ReferenceAsMatrix (t : Tensor) : Matrix :=
  { numRows := t.numRows, numColumns := t.numColumns * t.numChannels,
    increment := t.numColumns * t.numChannels, data := t.data }

end Tensor

/-! ## Nodes -/

/-- A `SimpleConvolutionNode<ValueType>`: its members as declared by the class. -/
structure SimpleConvolutionNode where
  input : PortElements
  output : OutputPortBase
  inputMemoryLayout : PortMemoryLayout
  filterWeights : Tensor
  stride : Int
  isDepthwiseSeparable : Bool
  deriving DecidableEq, Repr

/-- A `SimpleConvolutionComputeNode<ValueType>`: its members as declared by the class. -/
structure SimpleConvolutionComputeNode where
  input : PortElements
  filterWeights : PortElements
  output : OutputPortBase
  inputMemoryLayout : PortMemoryLayout
  filterSize : Int
  stride : Int
  isDepthwiseSeparable : Bool
  deriving DecidableEq, Repr

/-- Modelled from the spec: a `ConstantNode<ValueType>` (ConstantNode.h is not among the
sources), a node without inputs that stores the values it outputs. -/
structure ConstantNode where
  values : List Value
  output : OutputPortBase
  deriving DecidableEq, Repr

/-- The class `InputNodeBase`: it refers to the output port of the derived node. -/
structure InputNodeBase where
  outputBase : OutputPortBase
  deriving DecidableEq, Repr

/-- The class `SourceNodeBase`: an input node that also has an input port (the timestamps)
and a callback name. -/
structure SourceNodeBase extends InputNodeBase where
  input : PortElements
  callbackName : String
  deriving DecidableEq, Repr

/-- Modelled from the spec: `InputNode<ValueType>` (InputNode.h is not among the sources),
an `InputNodeBase` with no further state. -/
structure InputNode extends InputNodeBase where
  deriving DecidableEq, Repr

/-- Modelled from the spec: `SourceNode<ValueType>` (SourceNode.h is not among the sources),
a `SourceNodeBase`; `output` is its output port. -/
structure SourceNode extends SourceNodeBase where
  deriving DecidableEq, Repr

/-- Modelled from the spec: `OutputNode<ValueType>` (OutputNode.h is not among the sources). -/
structure OutputNode where
  input : PortElements
  output : OutputPortBase
  deriving DecidableEq, Repr

/-- Modelled from the spec: `SinkNode<ValueType>` (SinkNode.h is not among the sources); only
the members read by the pass are kept. -/
structure SinkNode where
  input : PortElements
  output : OutputPortBase
  shape : MemoryShape
  callbackName : String
  deriving DecidableEq, Repr

/-- A `BinaryFunctionNode<ValueType, FunctionType>`: its members as declared by the class;
the function object is kept as an identifier. -/
structure BinaryFunctionNode where
  input1 : PortElements
  input2 : PortElements
  inputLayout : PortMemoryLayout
  output : OutputPortBase
  function : Nat
  paddingValue : Value
  deriving DecidableEq, Repr

/-- A `ReorderDataNode<ValueType>`: its members as declared by the class. -/
structure ReorderDataNode where
  input : PortElements
  output : OutputPortBase
  inputMemoryLayout : PortMemoryLayout
  paddingValue : Value
  deriving DecidableEq, Repr

/-- Any node of a class not listed above, as far as the transformer sees it. -/
structure OtherNode where
  typeName : String
  inputs : List PortElements
  output : OutputPortBase
  deriving DecidableEq, Repr

/-- The closed set of node variants; the dynamic type of a `model::Node`. The `ValueType` is
the template argument of the class. -/
inductive Node where
  | SimpleConvolution (V : ValueType) (n : SimpleConvolutionNode)
  | SimpleConvolutionCompute (V : ValueType) (n : SimpleConvolutionComputeNode)
  | Constant (V : ValueType) (n : ConstantNode)
  | Input (V : ValueType) (n : InputNode)
  | Output (V : ValueType) (n : OutputNode)
  | Source (V : ValueType) (n : SourceNode)
  | Sink (V : ValueType) (n : SinkNode)
  | BinaryFunction (V : ValueType) (n : BinaryFunctionNode)
  | ReorderData (V : ValueType) (n : ReorderDataNode)
  | Other (n : OtherNode)
  deriving DecidableEq, Repr

namespace Node

/-- The `PortElements` bound to the input ports of a node, in declaration order. -/
def inputs : Node → List PortElements
  | SimpleConvolution _ n => [n.input]
  | SimpleConvolutionCompute _ n => [n.input, n.filterWeights]
  | Constant _ _ => []
  | Input _ _ => []
  | Output _ n => [n.input]
  | Source _ n => [n.input]
  | Sink _ n => [n.input]
  | BinaryFunction _ n => [n.input1, n.input2]
  | ReorderData _ n => [n.input]
  | Other n => n.inputs

/-- The single output port every node variant has. -/
def output : Node → OutputPortBase
  | SimpleConvolution _ n => n.output
  | SimpleConvolutionCompute _ n => n.output
  | Constant _ n => n.output
  | Input _ n => n.outputBase
  | Output _ n => n.output
  | Source _ n => n.outputBase
  | Sink _ n => n.output
  | BinaryFunction _ n => n.output
  | ReorderData _ n => n.output
  | Other n => n.output

end Node

/-! ## Model and transformer -/

/-- Modelled from the spec: a `Model` owns its nodes; the handle of a node is its position
in the order of insertion. -/
structure Model where
  nodes : List Node
  deriving DecidableEq, Repr

/-- A call made on a `ModelTransformer`, with its arguments. -/
inductive Call where
  | TransformPortElements (old : PortElements)
  | AddNode (node : Node)
  | MapNodeOutput (old : PortId) (new : PortElements)
  deriving DecidableEq, Repr

/-- Modelled from the spec: a `ModelTransformer` owns the target model under construction
and the mapping from old output identities to new `PortElements` (the entries in the order
they were recorded). `calls` is the trace of the calls made on the transformer. -/
structure ModelTransformer where
  model : Model
  elementsMap : List (PortId × PortElements)
  calls : List Call
  deriving DecidableEq, Repr

/-- A computation that may mutate the transformer and may throw. -/
def TransformerM (α : Type) : Type := ModelTransformer → Except Error α × ModelTransformer

namespace TransformerM

/-- Normal return. -/
def ret {α : Type} (a : α) : TransformerM α := fun t => (Except.ok a, t)

/-- Sequencing: an exception raised by the first computation skips the second. -/
def andThen {α β : Type} (m : TransformerM α) (f : α → TransformerM β) : TransformerM β :=
  fun t =>
    match m t with
    | (Except.ok a, t1) => f a t1
    | (Except.error e, t1) => (Except.error e, t1)

instance : Monad TransformerM where
  pure := ret
  bind := andThen

end TransformerM

namespace ModelTransformer

/-- The entry recorded for an old output, if any. -/
def lookup (m : List (PortId × PortElements)) (old : PortId) : Option PortElements :=
  (m.find? fun e => e.1 = old).map Prod.snd

/-- Rewrite of each range through the mapping; `none` when a referenced output has no entry. -/
def transformRanges (m : List (PortId × PortElements)) : PortElements → Option PortElements
  | [] => some []
  | r :: rs =>
    match lookup m r.port, transformRanges m rs with
    | some new, some rest => some (PortElements.slice new r.start r.count ++ rest)
    | _, _ => none

/-- The elements `new` refer to nodes of the target model only. -/
def InTarget (t : ModelTransformer) (new : PortElements) : Prop :=
  ∀ q ∈ new, q.port.node < t.model.nodes.length

/-- The old output `old` is mapped: it has an entry in the mapping, and the entry refers to
nodes of the target model. -/
def IsMappedPort (t : ModelTransformer) (old : PortId) : Prop :=
  match lookup t.elementsMap old with
  | some new => t.InTarget new
  | none => False

/-- The input `pe` of a node is mapped: every old output it references is mapped. -/
def IsMapped (t : ModelTransformer) (pe : PortElements) : Prop :=
  ∀ r ∈ pe, t.IsMappedPort r.port

/-- Every entry of the mapping refers to nodes of the target model only. -/
def TargetClosed (t : ModelTransformer) : Prop :=
  ∀ e ∈ t.elementsMap, t.InTarget e.2

/-- Modelled from the spec: `TransformPortElements(oldElements)` rewrites an old
`PortElements` by looking up each referenced old output in the mapping; an old output
without an entry yields an `UnmappedReferenceError`. -/
def TransformPortElements (old : PortElements) : TransformerM PortElements := fun t =>
  let t1 := { t with calls := t.calls ++ [Call.TransformPortElements old] }
  match transformRanges t.elementsMap old with
  | some new => (Except.ok new, t1)
  | none => (Except.error Error.UnmappedReferenceError, t1)

/-- Modelled from the spec: `AddNode<NodeKind>(args...)` constructs the node (`make`, given
the handle the node will have), takes ownership and returns it; it fails with a
`ConstructionError` if an argument `PortElements` references a node the target model does
not own. `inj` is the upcast to `Node`. -/
def AddNode {α : Type} (inj : α → Node) (make : Nat → Except Error α) : TransformerM α := fun t =>
  match make t.model.nodes.length with
  | Except.error e => (Except.error e, t)
  | Except.ok a =>
    let t1 := { t with calls := t.calls ++ [Call.AddNode (inj a)] }
    if (inj a).inputs.all (fun pe => pe.all fun r => decide (r.port.node < t.model.nodes.length)) then
      (Except.ok a, { t1 with model := { nodes := t.model.nodes ++ [inj a] } })
    else (Except.error Error.ConstructionError, t1)

/-- Modelled from the spec: `MapNodeOutput(oldOutput, newOutput)` records the
correspondence. -/
def MapNodeOutput (oldPort newPort : OutputPortBase) : TransformerM Unit := fun t =>
  (Except.ok (),
    { t with
      elementsMap := t.elementsMap ++ [(oldPort.id, PortElements.ofPort newPort)]
      calls := t.calls ++ [Call.MapNodeOutput oldPort.id (PortElements.ofPort newPort)] })

end ModelTransformer

/-! ## SimpleConvolutionNode.cpp -/

/-- The expression
`(filterWeights.NumChannels() == 1) && (inputMemoryLayout.GetActiveSize()[2] > 1)`;
the index is only evaluated when the first operand holds, and is out of range for a layout
with fewer than three dimensions. -/
def isDepthwiseSeparableOf (filterWeights : Tensor) (inputMemoryLayout : PortMemoryLayout) :
    Except Error Bool :=
  if filterWeights.NumChannels = 1 then
    match inputMemoryLayout.GetActiveSize.get? 2 with
    | some d => Except.ok (decide (d > 1))
    | none => Except.error Error.IndexOutOfRange
  else Except.ok false

namespace SimpleConvolutionNode

/-- Accessor `GetOutputMemoryLayout()`. -/
def GetOutputMemoryLayout (n : SimpleConvolutionNode) : PortMemoryLayout :=
  n.output.GetMemoryLayout

/-- The constructor
`SimpleConvolutionNode(input, inputMemoryLayout, outputMemoryLayout, filterWeights, stride)`
of a node of element type `V`; `self` is the identity of the node under construction. -/
def ctor (V : ValueType) (self : Nat) (input : PortElements)
    (inputMemoryLayout outputMemoryLayout : PortMemoryLayout) (filterWeights : Tensor)
    (stride : Nat) : Except Error SimpleConvolutionNode :=
  match isDepthwiseSeparableOf filterWeights inputMemoryLayout with
  | Except.error e => Except.error e
  | Except.ok b =>
    Except.ok
      { input := input
        output := { id := { node := self, index := 0 }, type := V, layout := outputMemoryLayout }
        inputMemoryLayout := inputMemoryLayout
        filterWeights := filterWeights
        stride := toInt stride
        isDepthwiseSeparable := b }

end SimpleConvolutionNode

namespace SimpleConvolutionComputeNode

/-- Accessor `GetOutputMemoryLayout()`. -/
def GetOutputMemoryLayout (n : SimpleConvolutionComputeNode) : PortMemoryLayout :=
  n.output.GetMemoryLayout

/-- The constructor `SimpleConvolutionComputeNode(input, filterWeights, inputMemoryLayout,
outputMemoryLayout, filterSize, stride, isDepthwiseSeparable)`. -/
def ctor (V : ValueType) (self : Nat) (input filterWeights : PortElements)
    (inputMemoryLayout outputMemoryLayout : PortMemoryLayout) (filterSize stride : Int)
    (isDepthwiseSeparable : Bool) : Except Error SimpleConvolutionComputeNode :=
  Except.ok
    { input := input
      filterWeights := filterWeights
      output := { id := { node := self, index := 0 }, type := V, layout := outputMemoryLayout }
      inputMemoryLayout := inputMemoryLayout
      filterSize := filterSize
      stride := stride
      isDepthwiseSeparable := isDepthwiseSeparable }

/-- The method `SimpleConvolutionComputeNode<ValueType>::Copy(transformer)`. -/
def Copy (V : ValueType) (this : SimpleConvolutionComputeNode) : TransformerM Unit := do
  let newInput ← ModelTransformer.TransformPortElements this.input
  let newFilterWeights ← ModelTransformer.TransformPortElements this.filterWeights
  let newNode ← ModelTransformer.AddNode (Node.SimpleConvolutionCompute V) fun self =>
    ctor V self newInput newFilterWeights this.inputMemoryLayout this.GetOutputMemoryLayout
      this.filterSize this.stride this.isDepthwiseSeparable
  ModelTransformer.MapNodeOutput this.output newNode.output

end SimpleConvolutionComputeNode

namespace ConstantNode

/-- Modelled from the spec: the constructor `ConstantNode(values)`; the output holds as many
elements as there are values. -/
def ctor (V : ValueType) (self : Nat) (values : List Value) : Except Error ConstantNode :=
  Except.ok
    { values := values
      output :=
        { id := { node := self, index := 0 }, type := V,
          layout := PortMemoryLayout.ofShape [(values.length : Int)] } }

end ConstantNode

namespace SimpleConvolutionNode

/-- The method `SimpleConvolutionNode<ValueType>::Copy(transformer)`. The `int` member
`_stride` is passed for the `size_t` parameter of the constructor. -/
def Copy (V : ValueType) (this : SimpleConvolutionNode) : TransformerM Unit := do
  let newInput ← ModelTransformer.TransformPortElements this.input
  let newNode ← ModelTransformer.AddNode (Node.SimpleConvolution V) fun self =>
    ctor V self newInput this.inputMemoryLayout this.GetOutputMemoryLayout this.filterWeights
      (toSizeT this.stride)
  ModelTransformer.MapNodeOutput this.output newNode.output

/-- The method `SimpleConvolutionNode<ValueType>::Refine(transformer)`. -/
def Refine (V : ValueType) (this : SimpleConvolutionNode) : TransformerM Bool := do
  let newInput ← ModelTransformer.TransformPortElements this.input
  let weightsMatrix := this.filterWeights.ReferenceAsMatrix
  let weightsValues := weightsMatrix.ToArray
  let filterSize : Int := toInt this.filterWeights.NumColumns
  let weightsNode ← ModelTransformer.AddNode (Node.Constant V) fun self =>
    ConstantNode.ctor V self weightsValues
  let convNode ← ModelTransformer.AddNode (Node.SimpleConvolutionCompute V) fun self =>
    SimpleConvolutionComputeNode.ctor V self newInput (PortElements.ofPort weightsNode.output)
      this.inputMemoryLayout this.GetOutputMemoryLayout filterSize this.stride
      this.isDepthwiseSeparable
  ModelTransformer.MapNodeOutput this.output convNode.output
  return true

end SimpleConvolutionNode

/-! ## InputNodeBase.h, BinaryFunctionNode.h, ReorderDataNode.h -/

namespace InputNodeBase

/-- Accessor `GetOutputPort()`. -/
def GetOutputPort (this : InputNodeBase) : OutputPortBase := this.outputBase

/-- Accessor `GetOutputType()`. -/
def GetOutputType (this : InputNodeBase) : ValueType := this.outputBase.GetType

/-- Modelled from the spec: `GetMemoryLayout()` (declared in InputNodeBase.h, defined
elsewhere), the memory layout of the output port. -/
def GetMemoryLayout (this : InputNodeBase) : PortMemoryLayout := this.outputBase.GetMemoryLayout

/-- Modelled from the spec: `GetShape()` (declared in InputNodeBase.h, defined elsewhere),
the per-dimension active sizes of the output. -/
def GetShape (this : InputNodeBase) : MemoryShape := this.GetMemoryLayout.GetActiveSize

/-- The method `InputNodeBase::TrySetOutputLayout(order)`. It is not `const`, so the node
after the call is returned together with the answer. -/
def TrySetOutputLayout (this : InputNodeBase) (order : DimensionOrder) : Bool × InputNodeBase :=
  (decide (this.outputBase.GetMemoryLayout.GetLogicalDimensionOrder = order), this)

end InputNodeBase

namespace BinaryFunctionNode

/-- Accessor `GetInputMemoryLayout()`. -/
def GetInputMemoryLayout (this : BinaryFunctionNode) : PortMemoryLayout := this.inputLayout

/-- Accessor `GetOutputMemoryLayout()`. -/
def GetOutputMemoryLayout (this : BinaryFunctionNode) : PortMemoryLayout :=
  this.output.GetMemoryLayout

/-- The `const` method `BinaryFunctionNode::CanAcceptInputLayout(order)`. -/
def CanAcceptInputLayout (this : BinaryFunctionNode) (order : DimensionOrder) : Bool :=
  decide (this.GetInputMemoryLayout.GetLogicalDimensionOrder = order)

end BinaryFunctionNode

namespace ReorderDataNode

/-- Accessor `GetInputMemoryLayout()`. -/
def GetInputMemoryLayout (this : ReorderDataNode) : PortMemoryLayout := this.inputMemoryLayout

/-- Accessor `GetOutputMemoryLayout()`. -/
def GetOutputMemoryLayout (this : ReorderDataNode) : PortMemoryLayout :=
  this.output.GetMemoryLayout

/-- Accessor `GetPaddingValue()`. -/
def GetPaddingValue (this : ReorderDataNode) : Value := this.paddingValue

/-- The `const` method `ReorderDataNode::CanAcceptInputLayout(order)`. -/
def CanAcceptInputLayout (this : ReorderDataNode) (order : DimensionOrder) : Bool :=
  decide (this.GetInputMemoryLayout.GetLogicalDimensionOrder = order)

end ReorderDataNode

/-- A node that states which input layout order it accepts. -/
inductive LayoutConsumer where
  | BinaryFunction (n : BinaryFunctionNode)
  | ReorderData (n : ReorderDataNode)
  deriving DecidableEq, Repr

/-- Dispatch of the virtual method `CanAcceptInputLayout`. -/
def LayoutConsumer.CanAcceptInputLayout : LayoutConsumer → DimensionOrder → Bool
  | LayoutConsumer.BinaryFunction n, order => n.CanAcceptInputLayout order
  | LayoutConsumer.ReorderData n, order => n.CanAcceptInputLayout order

/-- Modelled from the spec: validation of the connection from a producer, through the
adapter nodes placed between them (in order), to a consumer. Each stage must accept the
logical order of the layout handed to it; a rejection is a `LayoutMismatchError`
(sections 4.6 and 7; the validating code is not among the sources). -/
def ValidateConnection (producer : PortMemoryLayout) :
    List ReorderDataNode → LayoutConsumer → Except Error Unit
  | [], consumer =>
    if consumer.CanAcceptInputLayout producer.GetLogicalDimensionOrder then Except.ok ()
    else Except.error Error.LayoutMismatchError
  | a :: rest, consumer =>
    if a.CanAcceptInputLayout producer.GetLogicalDimensionOrder then
      ValidateConnection a.GetOutputMemoryLayout rest consumer
    else Except.error Error.LayoutMismatchError

/-! ## ReplaceSourceAndSinkNodesPass.cpp -/

namespace InputNode

/-- Modelled from the spec: the constructor `InputNode<ValueType>(shape)`; the output has the
canonical layout over `shape`. -/
def ctor (V : ValueType) (self : Nat) (shape : MemoryShape) : Except Error InputNode :=
  Except.ok
    { outputBase :=
        { id := { node := self, index := 0 }, type := V, layout := PortMemoryLayout.ofShape shape } }

end InputNode

namespace OutputNode

/-- Modelled from the spec: the constructor `OutputNode<ValueType>(input, shape)`. -/
def ctor (V : ValueType) (self : Nat) (input : PortElements) (shape : MemoryShape) :
    Except Error OutputNode :=
  Except.ok
    { input := input
      output :=
        { id := { node := self, index := 0 }, type := V, layout := PortMemoryLayout.ofShape shape } }

/-- Shape of the output of an `OutputNode`. -/
def GetShape (this : OutputNode) : MemoryShape := this.output.GetMemoryLayout.GetActiveSize

end OutputNode

/-- Modelled from the spec: `SinkNode::GetShape()`. -/
def SinkNode.GetShape (this : SinkNode) : MemoryShape := this.shape

namespace Node

/-- The cast `dynamic_cast<const nodes::SourceNode<ValueType>*>(&node)`. -/
def asSourceNode (V : ValueType) : Node → Option SourceNode
  | Source W n => if W = V then some n else none
  | _ => none

/-- The cast `dynamic_cast<const nodes::SinkNode<ValueType>*>(&node)`. -/
def asSinkNode (V : ValueType) : Node → Option SinkNode
  | Sink W n => if W = V then some n else none
  | _ => none

/-- The virtual call `node.Copy(transformer)`. The overrides of the two convolution classes
are those of SimpleConvolutionNode.cpp; the overrides of the other classes are not among the
sources and are supplied by `copyOther`. -/
def Copy (copyOther : Node → TransformerM Unit) : Node → TransformerM Unit
  | SimpleConvolution V n => n.Copy V
  | SimpleConvolutionCompute V n => n.Copy V
  | node => copyOther node

end Node

/-- The function template `TryReplaceSourceNode<ValueType>(node, transformer)`. -/
def TryReplaceSourceNode (V : ValueType) (node : Node) : TransformerM Bool :=
  match node.asSourceNode V with
  | none => pure false
  | some thisNode => do
    let shape := thisNode.GetShape
    let newNode ← ModelTransformer.AddNode (Node.Input V) fun self => InputNode.ctor V self shape
    ModelTransformer.MapNodeOutput thisNode.outputBase newNode.outputBase
    return true

/-- The function template `TryReplaceSinkNode<ValueType>(node, transformer)`. -/
def TryReplaceSinkNode (V : ValueType) (node : Node) : TransformerM Bool :=
  match node.asSinkNode V with
  | none => pure false
  | some thisNode => do
    let shape := thisNode.GetShape
    let newInput ← ModelTransformer.TransformPortElements thisNode.input
    let newNode ← ModelTransformer.AddNode (Node.Output V) fun self =>
      OutputNode.ctor V self newInput shape
    ModelTransformer.MapNodeOutput thisNode.output newNode.output
    return true

/-- The function `ReplaceSourceOrSinkNode(node, transformer)`. -/
def ReplaceSourceOrSinkNode (copyOther : Node → TransformerM Unit) (node : Node) :
    TransformerM Unit := do
  if ← TryReplaceSourceNode ValueType.float node then pure ()
  else if ← TryReplaceSourceNode ValueType.double node then pure ()
  else if ← TryReplaceSinkNode ValueType.float node then pure ()
  else if ← TryReplaceSinkNode ValueType.double node then pure ()
  else node.Copy copyOther

/-- Modelled from the spec: the `ModelOptimizerContext` handed to a pass; `GetTransformer()`
gives access to the transformer of the walk. -/
structure ModelOptimizerContext where
  transformer : ModelTransformer
  deriving DecidableEq, Repr

/-- The method `ReplaceSourceAndSinkNodesPass::OptimizeNode(node, settings, context)`. The
type of `settings` (`MapCompilerOptions`) is not among the sources and is a parameter. -/
def ReplaceSourceAndSinkNodesPass.OptimizeNode {MapCompilerOptions : Type}
    (copyOther : Node → TransformerM Unit) (node : Node) (_settings : MapCompilerOptions)
    (context : ModelOptimizerContext) : Except Error Unit × ModelOptimizerContext :=
  match ReplaceSourceOrSinkNode copyOther node context.transformer with
  | (r, t) => (r, { context with transformer := t })

/-! ## Helpers for stating the properties -/

/-- The old outputs of the `MapNodeOutput` calls of a trace, in order. -/
def mapNodeOutputCalls : List Call → List PortId
  | [] => []
  | Call.MapNodeOutput old _ :: cs => old :: mapNodeOutputCalls cs
  | _ :: cs => mapNodeOutputCalls cs

/-- The nodes of the `AddNode` calls of a trace, in order. -/
def addNodeCalls : List Call → List Node
  | [] => []
  | Call.AddNode n :: cs => n :: addNodeCalls cs
  | _ :: cs => addNodeCalls cs

/-- The arguments of the `TransformPortElements` calls of a trace, in order. -/
def transformCalls : List Call → List PortElements
  | [] => []
  | Call.TransformPortElements pe :: cs => pe :: transformCalls cs
  | _ :: cs => transformCalls cs

/-- Class invariant of `SimpleConvolutionNode`: `_stride` is an `int`, and
`_isDepthwiseSeparable` holds the value the constructor and `ReadFromArchive` compute from
the weights and the input layout. -/
def SimpleConvolutionNode.Invariant (n : SimpleConvolutionNode) : Prop :=
  IsInt n.stride ∧
    isDepthwiseSeparableOf n.filterWeights n.inputMemoryLayout = Except.ok n.isDepthwiseSeparable

instance (n : SimpleConvolutionNode) : Decidable n.Invariant := by
  unfold SimpleConvolutionNode.Invariant
  exact inferInstance

instance (t : ModelTransformer) (new : PortElements) : Decidable (t.InTarget new) := by
  unfold ModelTransformer.InTarget
  exact inferInstance

instance (t : ModelTransformer) (old : PortId) : Decidable (t.IsMappedPort old) := by
  unfold ModelTransformer.IsMappedPort
  cases ModelTransformer.lookup t.elementsMap old with
  | none => exact instDecidableFalse
  | some new => exact inferInstanceAs (Decidable (t.InTarget new))

instance (t : ModelTransformer) (pe : PortElements) : Decidable (t.IsMapped pe) := by
  unfold ModelTransformer.IsMapped
  exact inferInstance

instance (t : ModelTransformer) : Decidable t.TargetClosed := by
  unfold ModelTransformer.TargetClosed
  exact inferInstance

/-- Running `m` on `t` records exactly one mapping, and it is for the old output `old`:
the trace gains one `MapNodeOutput` call, with `old` as its old output, and the mapping gains
one entry, for `old`. -/
def RecordsExactlyOne {α : Type} (m : TransformerM α) (t : ModelTransformer) (old : PortId) :
    Prop :=
  mapNodeOutputCalls (m t).2.calls = mapNodeOutputCalls t.calls ++ [old] ∧
    (m t).2.elementsMap.map Prod.fst = t.elementsMap.map Prod.fst ++ [old]

instance {α : Type} (m : TransformerM α) (t : ModelTransformer) (old : PortId) :
    Decidable (RecordsExactlyOne m t old) := by
  unfold RecordsExactlyOne
  exact inferInstance

/-! ## Worked examples (used to instantiate the theorems) -/

namespace Example

/-- A 3 x 3 x 2 layout padded by one element on each side in rows and columns. -/
def paddedLayout : PortMemoryLayout :=
  { size := [3, 3, 2], stride := [5, 5, 2], offset := [1, 1, 0], order := [0, 1, 2] }

/-- A 3 x 3 x 1 layout without padding. -/
def plainLayout : PortMemoryLayout := PortMemoryLayout.ofShape [3, 3, 1]

/-- One 3 x 3 filter over two channels: 3 rows, 3 columns, 2 channels. -/
def weights : Tensor :=
  { numRows := 3, numColumns := 3, numChannels := 2,
    data := [1, 2, 3, 4, 5, 6, 7, 8, 9, 10, 11, 12, 13, 14, 15, 16, 17, 18] }

/-- The output port of node 0 of the source model. -/
def port0 : OutputPortBase :=
  { id := { node := 0, index := 0 }, type := ValueType.float, layout := paddedLayout }

/-- A transformer that has already visited node 0 of the source model and mapped its output
to the output of node 0 of the target model, an `InputNode`. -/
def transformer : ModelTransformer :=
  { model := { nodes := [Node.Input ValueType.float { outputBase := port0 }] }
    elementsMap := [({ node := 0, index := 0 }, PortElements.ofPort port0)]
    calls := [] }

/-- A convolution node, node 1 of the source model, reading all 50 elements of node 0. -/
def convNode : SimpleConvolutionNode :=
  { input := [{ port := { node := 0, index := 0 }, start := 0, count := 50 }]
    output := { id := { node := 1, index := 0 }, type := ValueType.float, layout := plainLayout }
    inputMemoryLayout := paddedLayout
    filterWeights := weights
    stride := 1
    isDepthwiseSeparable := false }

/-- The compute node a refinement of `convNode` produces, seen as node 2 of a source model
whose node 1 is the constant node holding the weights. -/
def computeNode : SimpleConvolutionComputeNode :=
  { input := [{ port := { node := 0, index := 0 }, start := 0, count := 50 }]
    filterWeights := [{ port := { node := 0, index := 0 }, start := 0, count := 18 }]
    output := { id := { node := 2, index := 0 }, type := ValueType.float, layout := plainLayout }
    inputMemoryLayout := paddedLayout
    filterSize := 3
    stride := 1
    isDepthwiseSeparable := false }

/-- An empty weights tensor with no rows, no channels and `2^31` columns. -/
def wideWeights : Tensor :=
  { numRows := 0, numColumns := 2147483648, numChannels := 0, data := [] }

/-- The node `convNode` with `wideWeights` as its filter weights. -/
def wideNode : SimpleConvolutionNode :=
  { input := [{ port := { node := 0, index := 0 }, start := 0, count := 50 }]
    output := { id := { node := 1, index := 0 }, type := ValueType.float, layout := plainLayout }
    inputMemoryLayout := paddedLayout
    filterWeights := wideWeights
    stride := 1
    isDepthwiseSeparable := false }

/-- A source node of element type `V` (node 1 of the source model) fed by the timestamps of
node 0. -/
def sourceNode (V : ValueType) : SourceNode :=
  { outputBase := { id := { node := 1, index := 0 }, type := V, layout := plainLayout }
    input := [{ port := { node := 0, index := 0 }, start := 0, count := 1 }]
    callbackName := "cb" }

/-- A sink node of element type `V` (node 1 of the source model) consuming nine elements of
node 0. -/
def sinkNode (V : ValueType) : SinkNode :=
  { input := [{ port := { node := 0, index := 0 }, start := 4, count := 9 }]
    output := { id := { node := 1, index := 0 }, type := V, layout := plainLayout }
    shape := [3, 3, 1]
    callbackName := "cb" }

/-- A stand-in for the `Copy` overrides that are not among the sources: it adds a node
without inputs that has the layout of the copied node's output, and maps the output. -/
def copyOther (node : Node) : TransformerM Unit := do
  let newNode ← ModelTransformer.AddNode Node.Other fun self =>
    Except.ok
      { typeName := "Copy", inputs := [],
        output := { id := { node := self, index := 0 }, type := node.output.type,
                    layout := node.output.layout } }
  ModelTransformer.MapNodeOutput node.output newNode.output

/-- The planar layout {channel, row, column} of a 3 x 3 x 2 image. -/
def planarLayout : PortMemoryLayout :=
  { size := [2, 3, 3], stride := [2, 3, 3], offset := [0, 0, 0], order := [2, 0, 1] }

/-- The interleaved layout {row, column, channel} of a 3 x 3 x 2 image. -/
def interleavedLayout : PortMemoryLayout :=
  { size := [3, 3, 2], stride := [3, 3, 2], offset := [0, 0, 0], order := [0, 1, 2] }

/-- An input node producing interleaved data. -/
def inputNode : InputNodeBase :=
  { outputBase := { id := { node := 0, index := 0 }, type := ValueType.float,
                    layout := interleavedLayout } }

/-- A coordinatewise addition over planar data. -/
def binaryNode : BinaryFunctionNode :=
  { input1 := [{ port := { node := 0, index := 0 }, start := 0, count := 18 }]
    input2 := [{ port := { node := 0, index := 0 }, start := 0, count := 18 }]
    inputLayout := planarLayout
    output := { id := { node := 1, index := 0 }, type := ValueType.float, layout := planarLayout }
    function := 0
    paddingValue := 0 }

/-- A reordering node that takes planar data. -/
def planarReorderNode : ReorderDataNode :=
  { input := [{ port := { node := 0, index := 0 }, start := 0, count := 18 }]
    output := { id := { node := 1, index := 0 }, type := ValueType.float,
                layout := interleavedLayout }
    inputMemoryLayout := planarLayout
    paddingValue := 0 }

/-- The adapter from interleaved to planar data. -/
def adapterNode : ReorderDataNode :=
  { input := [{ port := { node := 0, index := 0 }, start := 0, count := 18 }]
    output := { id := { node := 1, index := 0 }, type := ValueType.float, layout := planarLayout }
    inputMemoryLayout := interleavedLayout
    paddingValue := 0 }

end Example

/-! ## SimpleConvolutionNode.cpp: Compute and archiving -/

/-- The values interpreted evaluation has written to output ports (`SetOutput`). -/
abbrev OutputValues := List (PortId × List Value)

/-- The method `SimpleConvolutionNode<ValueType>::Compute()`: `inputValues` are the current
values of the input port and `outputs` the output values before the call; the outcome is
paired with the output values after the call. -/
def SimpleConvolutionNode.Compute (_V : ValueType) (_this : SimpleConvolutionNode)
    (_inputValues : List Value) (outputs : OutputValues) : Except Error Unit × OutputValues :=
  (Except.error (Error.LogicException LogicExceptionErrors.notImplemented), outputs)

/-- The method `SimpleConvolutionComputeNode<ValueType>::Compute()`, with the current values
of its two input ports. -/
def SimpleConvolutionComputeNode.Compute (_V : ValueType) (_this : SimpleConvolutionComputeNode)
    (_inputValues _filterWeightsValues : List Value) (outputs : OutputValues) :
    Except Error Unit × OutputValues :=
  (Except.error (Error.LogicException LogicExceptionErrors.notImplemented), outputs)

/-- A value an archive holds under a name. -/
inductive ArchivedValue where
  | port (elements : PortElements)
  | layout (memoryLayout : PortMemoryLayout)
  | int (value : Int)
  | tensor (values : Tensor)
  deriving DecidableEq, Repr

/-- Modelled from the spec: the `Archiver` collaborator, a named key-value write; the
entries written so far, in order. -/
structure Archiver where
  entries : List (String × ArchivedValue)
  deriving DecidableEq, Repr

/-- The statement `archiver[name] << value`. -/
def Archiver.write (name : String) (value : ArchivedValue) (archiver : Archiver) : Archiver :=
  { entries := archiver.entries ++ [(name, value)] }

/-- Modelled from the spec: the `Unarchiver` collaborator, a named key-value read; the
entries it holds and the names read from it so far, in order. -/
structure Unarchiver where
  entries : List (String × ArchivedValue)
  keysRead : List String
  deriving DecidableEq, Repr

namespace Unarchiver

/-- The value the unarchiver returns under a name, if it holds one. -/
def lookup (archiver : Unarchiver) (name : String) : Option ArchivedValue :=
  (archiver.entries.find? fun e => e.1 = name).map Prod.snd

/-- The unarchiver after a read of `name`. -/
def noteRead (name : String) (archiver : Unarchiver) : Unarchiver :=
  { archiver with keysRead := archiver.keysRead ++ [name] }

/-- The statement `archiver[name] >> port` for an input port. -/
def readPort (name : String) (archiver : Unarchiver) : Except Error PortElements × Unarchiver :=
  match archiver.lookup name with
  | some (ArchivedValue.port elements) => (Except.ok elements, archiver.noteRead name)
  | _ => (Except.error Error.InputException, archiver.noteRead name)

/-- The statement `archiver[name] >> layout` for a `PortMemoryLayout`. -/
def readLayout (name : String) (archiver : Unarchiver) :
    Except Error PortMemoryLayout × Unarchiver :=
  match archiver.lookup name with
  | some (ArchivedValue.layout memoryLayout) => (Except.ok memoryLayout, archiver.noteRead name)
  | _ => (Except.error Error.InputException, archiver.noteRead name)

/-- The statement `archiver[name] >> value` for an `int`. -/
def readInt (name : String) (archiver : Unarchiver) : Except Error Int × Unarchiver :=
  match archiver.lookup name with
  | some (ArchivedValue.int value) => (Except.ok value, archiver.noteRead name)
  | _ => (Except.error Error.InputException, archiver.noteRead name)

end Unarchiver

namespace TensorArchiver

/-- Modelled from the spec: `math::TensorArchiver::Write(tensor, name, archiver)` (not among
the sources) writes the tensor under `name`. -/
def Write (tensor : Tensor) (name : String) (archiver : Archiver) : Archiver :=
  archiver.write name (ArchivedValue.tensor tensor)

/-- Modelled from the spec: `math::TensorArchiver::Read(tensor, name, archiver)` (not among
the sources) reads the tensor written under `name`. -/
def Read (name : String) (archiver : Unarchiver) : Except Error Tensor × Unarchiver :=
  match archiver.lookup name with
  | some (ArchivedValue.tensor values) => (Except.ok values, archiver.noteRead name)
  | _ => (Except.error Error.InputException, archiver.noteRead name)

end TensorArchiver

/-- The constant `defaultInputPortName` (declared outside the listed sources). -/
def defaultInputPortName : String := "input"

namespace SimpleConvolutionNode

/-- The method `SimpleConvolutionNode<ValueType>::WriteToArchive(archiver)`. The base-class
method `CompilableNode::WriteToArchive` is not among the sources and is the parameter
`baseWrite`. -/
def WriteToArchive (baseWrite : Archiver → Archiver) (this : SimpleConvolutionNode)
    (archiver : Archiver) : Archiver :=
  let a0 := baseWrite archiver
  let a1 := a0.write defaultInputPortName (ArchivedValue.port this.input)
  let a2 := a1.write "inputLayout" (ArchivedValue.layout this.inputMemoryLayout)
  let a3 := a2.write "outputLayout" (ArchivedValue.layout this.GetOutputMemoryLayout)
  let a4 := a3.write "stride" (ArchivedValue.int this.stride)
  TensorArchiver.Write this.filterWeights "weights" a4

/-- The method `SimpleConvolutionNode<ValueType>::ReadFromArchive(archiver)`: the outcome,
the node after the call and the unarchiver after the call. An exception leaves the members
read so far assigned. The base-class method `CompilableNode::ReadFromArchive` is not among
the sources and is the parameter `baseRead`; the members it can reach are not those of this
class. -/
def ReadFromArchive (baseRead : Unarchiver → Except Error Unit × Unarchiver)
    (this : SimpleConvolutionNode) (archiver : Unarchiver) :
    Except Error Unit × SimpleConvolutionNode × Unarchiver :=
  match baseRead archiver with
  | (Except.error e, u0) => (Except.error e, this, u0)
  | (Except.ok (), u0) =>
    match u0.readPort defaultInputPortName with
    | (Except.error e, u1) => (Except.error e, this, u1)
    | (Except.ok input, u1) =>
      let n1 := { this with input := input }
      match u1.readLayout "inputLayout" with
      | (Except.error e, u2) => (Except.error e, n1, u2)
      | (Except.ok inputMemoryLayout, u2) =>
        let n2 := { n1 with inputMemoryLayout := inputMemoryLayout }
        match u2.readLayout "outputLayout" with
        | (Except.error e, u3) => (Except.error e, n2, u3)
        | (Except.ok outputMemoryLayout, u3) =>
          let n3 := { n2 with output := { n2.output with layout := outputMemoryLayout } }
          match u3.readInt "stride" with
          | (Except.error e, u4) => (Except.error e, n3, u4)
          | (Except.ok stride, u4) =>
            let n4 := { n3 with stride := stride }
            match TensorArchiver.Read "weights" u4 with
            | (Except.error e, u5) => (Except.error e, n4, u5)
            | (Except.ok filterWeights, u5) =>
              let n5 := { n4 with filterWeights := filterWeights }
              match isDepthwiseSeparableOf n5.filterWeights n5.inputMemoryLayout with
              | Except.error e => (Except.error e, n5, u5)
              | Except.ok b => (Except.ok (), { n5 with isDepthwiseSeparable := b }, u5)

end SimpleConvolutionNode

/-- An unarchiver that returns, under each name the node's own `WriteToArchive` statements
write, the value written under it. -/
def Unarchiver.Returns (archiver : Unarchiver) (written : SimpleConvolutionNode) : Prop :=
  ∀ e ∈ (written.WriteToArchive (fun a => a) { entries := [] }).entries,
    archiver.lookup e.1 = some e.2

instance (archiver : Unarchiver) (written : SimpleConvolutionNode) :
    Decidable (archiver.Returns written) := by
  unfold Unarchiver.Returns
  exact inferInstance

/-! ## ReplaceSourceAndSinkNodesPass.cpp: registration -/

/-- The class `ReplaceSourceAndSinkNodesPass`: it has no data members. -/
structure ReplaceSourceAndSinkNodesPass where
  deriving DecidableEq, Repr

/-- Modelled from the spec: a pass instance, as owned by a `std::unique_ptr` to the pass
base class: a `ReplaceSourceAndSinkNodesPass` or an instance of a pass class that is not
among the sources. -/
inductive OptimizationPass where
  | ReplaceSourceAndSinkNodes (pass : ReplaceSourceAndSinkNodesPass)
  | Other (name : String)
  deriving DecidableEq, Repr

/-- Modelled from the spec: `model::OptimizationPassInfo`, a pass name, an applicability
predicate over the optimizer configuration and a factory producing a pass instance. The type
of the configuration (`ModelOptimizerOptions`) is not among the sources and is a
parameter. -/
structure OptimizationPassInfo (ModelOptimizerOptions : Type) where
  name : String
  isValidFunction : ModelOptimizerOptions → Bool
  createFunction : Unit → OptimizationPass

/-- Modelled from the spec: the pass registry, the entries in the order they were added. -/
structure OptimizationPassRegistry (ModelOptimizerOptions : Type) where
  passes : List (OptimizationPassInfo ModelOptimizerOptions)

/-- Modelled from the spec: `OptimizationPassRegistry::AddPass(info)` appends the entry. -/
def OptimizationPassRegistry.AddPass {ModelOptimizerOptions : Type}
    (info : OptimizationPassInfo ModelOptimizerOptions)
    (registry : OptimizationPassRegistry ModelOptimizerOptions) :
    OptimizationPassRegistry ModelOptimizerOptions :=
  { passes := registry.passes ++ [info] }

/-- The static method `ReplaceSourceAndSinkNodesPass::AddToRegistry()`, as a function of the
state of the registry. -/
def ReplaceSourceAndSinkNodesPass.AddToRegistry {ModelOptimizerOptions : Type}
    (registry : OptimizationPassRegistry ModelOptimizerOptions) :
    OptimizationPassRegistry ModelOptimizerOptions :=
  let info : OptimizationPassInfo ModelOptimizerOptions :=
    { name := "ReplaceSourceAndSinkNodesPass"
      isValidFunction := fun _settings => true
      createFunction := fun _ => OptimizationPass.ReplaceSourceAndSinkNodes {} }
  OptimizationPassRegistry.AddPass info registry

/-- The virtual call `pass.OptimizeNode(node, settings, context)` on a pass instance; the
passes that are not among the sources are supplied by `optimizeOther`. -/
def OptimizationPass.OptimizeNode {MapCompilerOptions : Type}
    (optimizeOther : String → Node → MapCompilerOptions → ModelOptimizerContext →
      Except Error Unit × ModelOptimizerContext)
    (copyOther : Node → TransformerM Unit) :
    OptimizationPass → Node → MapCompilerOptions → ModelOptimizerContext →
      Except Error Unit × ModelOptimizerContext
  | OptimizationPass.ReplaceSourceAndSinkNodes _, node, settings, context =>
    ReplaceSourceAndSinkNodesPass.OptimizeNode copyOther node settings context
  | OptimizationPass.Other name, node, settings, context =>
    optimizeOther name node settings context

/-! ## IntegerNArray.h -/

/-- The pack `0, 1, ..., N-1` of `std::make_index_sequence<N>`. -/
def make_index_sequence (N : Nat) : List Nat := List.range N

/-- The function template `detail::MakeNArrayImpl<N, I...>(std::index_sequence<I...>)`: the
array `std::array<int, N>{ I... }`. The elements are the values of the pack (a value that
does not fit an `int` makes the braced initialisation ill-formed, so none is ever changed by
the conversion), followed by zeros when the pack has fewer than `N` values. -/
def MakeNArrayImpl (N : Nat) (I : List Nat) : List Int :=
  List.map (fun i : Nat => (i : Int)) I ++ List.replicate (N - I.length) 0

/-- The function template `MakeNArray<N>()`. -/
def MakeNArray (N : Nat) : List Int := MakeNArrayImpl N (make_index_sequence N)

/-! ## Refinement -/

namespace Node

/-- Modelled from the spec: the `Refine` a node class inherits when it does not define one:
it adds nothing and returns false ("use Copy instead"). -/
def defaultRefine : TransformerM Bool := pure false

/-- The virtual call `node.Refine(transformer)`. `SimpleConvolutionNode` overrides it;
`SimpleConvolutionComputeNode`, `BinaryFunctionNode` and `ReorderDataNode` declare no
override and inherit the default; the classes that are not among the sources are supplied
by `refineOther`. -/
def Refine (refineOther : Node → TransformerM Bool) : Node → TransformerM Bool
  | SimpleConvolution V n => n.Refine V
  | SimpleConvolutionCompute _ _ => defaultRefine
  | BinaryFunction _ _ => defaultRefine
  | ReorderData _ _ => defaultRefine
  | node => refineOther node

/-- The node is a `SimpleConvolutionNode`. -/
def isSimpleConvolution : Node → Bool
  | SimpleConvolution _ _ => true
  | _ => false

end Node

/-- Modelled from the spec: one step of the driving loop of a refinement pass: it attempts
`Refine` and falls back to `Copy` if `Refine` returns false. It returns whether the node was
decomposed. -/
def RefineNode (refineOther : Node → TransformerM Bool) (copyOther : Node → TransformerM Unit)
    (node : Node) : TransformerM Bool := do
  let refined ← node.Refine refineOther
  if refined then pure true
  else do
    node.Copy copyOther
    pure false

/-- Modelled from the spec: the driving loop over the nodes of the source model, in the
order of the model; it returns the number of nodes that were decomposed. -/
def RefineNodes (refineOther : Node → TransformerM Bool) (copyOther : Node → TransformerM Unit) :
    List Node → TransformerM Nat
  | [] => pure 0
  | node :: rest => do
    let refined ← RefineNode refineOther copyOther node
    let count ← RefineNodes refineOther copyOther rest
    pure (if refined then count + 1 else count)

/-- Modelled from the spec: the same loop with `Copy` only. -/
def CopyNodes (copyOther : Node → TransformerM Unit) : List Node → TransformerM Unit
  | [] => pure ()
  | node :: rest => do
    node.Copy copyOther
    CopyNodes copyOther rest

/-- Modelled from the spec: a transformer at the start of a pass: an empty target model and
an empty mapping. -/
def ModelTransformer.initial : ModelTransformer :=
  { model := { nodes := [] }, elementsMap := [], calls := [] }

/-- Modelled from the spec: a single refinement pass over a model; it yields the number of
decompositions and the transformer holding the new, independent target model. -/
def RefineModel (refineOther : Node → TransformerM Bool) (copyOther : Node → TransformerM Unit)
    (model : Model) : Except Error Nat × ModelTransformer :=
  RefineNodes refineOther copyOther model.nodes ModelTransformer.initial

/-! ## SimpleConvolutionNode.cpp: code generation -/

namespace PortMemoryLayout

/-- The accessor `GetActiveSize(index)`; the index is not checked by the C++ code. -/
def GetActiveSizeAt (l : PortMemoryLayout) (index : Nat) : Except Error Int :=
  match l.size.get? index with
  | some v => Except.ok v
  | none => Except.error Error.IndexOutOfRange

/-- The accessor `GetStride(index)`; the index is not checked by the C++ code. -/
def GetStrideAt (l : PortMemoryLayout) (index : Nat) : Except Error Int :=
  match l.stride.get? index with
  | some v => Except.ok v
  | none => Except.error Error.IndexOutOfRange

/-- The accessor `GetOffset(index)`; the index is not checked by the C++ code. -/
def GetOffsetAt (l : PortMemoryLayout) (index : Nat) : Except Error Int :=
  match l.offset.get? index with
  | some v => Except.ok v
  | none => Except.error Error.IndexOutOfRange

/-- The active size in dimension `d`, for `d` within the rank of the layout. -/
def ActiveSize (l : PortMemoryLayout) (d : Nat) : Int := l.size.getD d 0

/-- The stride (allocated extent) in dimension `d`, for `d` within the rank of the layout. -/
def Stride (l : PortMemoryLayout) (d : Nat) : Int := l.stride.getD d 0

/-- The offset (leading padding) in dimension `d`, for `d` within the rank of the layout. -/
def Offset (l : PortMemoryLayout) (d : Nat) : Int := l.offset.getD d 0

/-- For each dimension the product of the extents of the dimensions after it. -/
def cumulativeIncrement : List Int → List Int
  | [] => []
  | _ :: rest => rest.foldl (· * ·) 1 :: cumulativeIncrement rest

/-- Modelled from the spec: `GetCumulativeIncrement()`, the per-dimension flat-address
multipliers derived from the strides. -/
def GetCumulativeIncrement (l : PortMemoryLayout) : List Int := cumulativeIncrement l.stride

end PortMemoryLayout

/-- An `llvm::Value*` that names a buffer of the emitted function. -/
abbrev Pointer := Nat

/-- The memory the emitted code runs on: for each buffer, the value at each offset. -/
abbrev Memory := Pointer → Int → Value

/-- One memory access of the emitted code: a load or a store, the buffer, the flat offset
in the buffer and, when the access goes through a tensor or array view, the coordinates of
the element. -/
structure Access where
  isWrite : Bool
  buffer : Pointer
  address : Int
  element : List Int
  deriving DecidableEq, Repr

/-- The meaning of emitted code: what it does to the memory, and the accesses it makes, in
order. -/
abbrev Code := Memory → Memory × List Access

/-- The meaning of an emitted expression: its value and the accesses made to evaluate it. -/
abbrev Expression := Memory → Value × List Access

/-- A load through a pointer: `pointer[index]`. -/
def load (buffer : Pointer) (address : Int) : Expression := fun memory =>
  (memory buffer address,
    [{ isWrite := false, buffer := buffer, address := address, element := [] }])

/-- The flat offset of the element with the given coordinates in a row-major view with the
given extents. -/
def rowMajorOffset : List Int → List Int → Int → Int
  | extent :: extents, coordinate :: coordinates, offset =>
    rowMajorOffset extents coordinates (offset * extent + coordinate)
  | _, _, offset => offset

/-- Modelled from the spec: the view `function.LocalTensor(data, extents, RowMajorTensorLayout)`
or `function.LocalMultidimArray(data, extents)` of a buffer. -/
structure LocalTensor where
  data : Pointer
  extents : List Int
  deriving DecidableEq, Repr

namespace LocalTensor

/-- The flat offset of an element of the view. -/
def offsetOf (tensor : LocalTensor) (coordinates : List Int) : Int :=
  rowMajorOffset tensor.extents coordinates 0

/-- The expression `tensor({ coordinates })`. -/
def get (tensor : LocalTensor) (coordinates : List Int) : Expression := fun memory =>
  (memory tensor.data (tensor.offsetOf coordinates),
    [{ isWrite := false, buffer := tensor.data, address := tensor.offsetOf coordinates,
       element := coordinates }])

/-- The statement `tensor({ coordinates }) = value`. -/
def set (tensor : LocalTensor) (coordinates : List Int) (value : Value) : Code := fun memory =>
  (fun buffer address =>
      if buffer = tensor.data ∧ address = tensor.offsetOf coordinates then value
      else memory buffer address,
    [{ isWrite := true, buffer := tensor.data, address := tensor.offsetOf coordinates,
       element := coordinates }])

end LocalTensor

/-- The loop of `function.DotProduct`: the terms `left[i] * right[i]` for the listed `i` are
added to `sum`, in order. -/
def dotProductLoop (left right : Pointer × Int) : List Nat → Value → Expression
  | [], sum, _ => (sum, [])
  | i :: rest, sum, memory =>
    let a := load left.1 (left.2 + i) memory
    let b := load right.1 (right.2 + i) memory
    let r := dotProductLoop left right rest (sum + a.1 * b.1) memory
    (r.1, a.2 ++ b.2 ++ r.2)

/-- Modelled from the spec: the primitive `function.DotProduct(size, left, right)` on two
offset pointers. -/
def DotProduct (size : Int) (left right : Pointer × Int) : Expression :=
  dotProductLoop left right (List.range size.toNat) 0

/-- The statements `body i` for the listed `i`, one after the other. -/
def forEach (body : Int → Code) : List Nat → Code
  | [], memory => (memory, [])
  | i :: rest, memory =>
    let first := body i memory
    let others := forEach body rest first.1
    (others.1, first.2 ++ others.2)

/-- Modelled from the spec: the loop `function.For(count, body)`, a bounded-count sequential
loop from 0. -/
def For (count : Int) (body : Int → Code) : Code := forEach body (List.range count.toNat)

/-- Modelled from the spec: the loop `function.ParallelFor(count, captured, body)`, a
bounded-count parallel loop; its iterations are run here in increasing order. -/
def ParallelFor (count : Int) (body : Int → Code) : Code := forEach body (List.range count.toNat)

/-- The values captured by the loop nest a convolution kernel emits. -/
structure ConvolutionKernel where
  input : Pointer
  filterWeights : Pointer
  result : Pointer
  inputLayout : PortMemoryLayout
  outputLayout : PortMemoryLayout
  filterSize : Int
  stride : Int
  deriving DecidableEq, Repr

namespace SimpleConvolutionCode

/-- The view `outputTensor` of the result buffer. -/
def outputTensor (k : ConvolutionKernel) : LocalTensor :=
  { data := k.result, extents := k.outputLayout.GetStride }

/-- The flag `canCombineColumns`. -/
def canCombineColumns (k : ConvolutionKernel) : Bool :=
  decide (k.inputLayout.ActiveSize 1 = k.inputLayout.Stride 1) && decide (k.stride = 1)

/-- The unrolled loop over `windowColumn` (the branch taken when columns cannot be
combined), for the listed window columns: `val = val + DotProduct(inputDepth, ...)`. -/
def windowColumns (k : ConvolutionKernel) (filterIndex outputRow outputColumn : Int)
    (windowRow : Nat) : List Nat → Value → Expression
  | [], val, _ => (val, [])
  | windowColumn :: rest, val, memory =>
    let inputMemoryIncrements := k.inputLayout.GetCumulativeIncrement
    let inputDepth := k.inputLayout.ActiveSize 2
    let inputRow := outputRow * k.stride
    let inputColumn := outputColumn * k.stride
    let inputOffset := (inputRow + windowRow) * inputMemoryIncrements.getD 0 0 +
      (inputColumn + windowColumn) * inputMemoryIncrements.getD 1 0
    let filterOffset := inputDepth * (k.filterSize * windowRow + windowColumn) +
      filterIndex * (k.filterSize * k.filterSize * inputDepth)
    let product := DotProduct inputDepth (k.input, inputOffset) (k.filterWeights, filterOffset)
      memory
    let r := windowColumns k filterIndex outputRow outputColumn windowRow rest
      (val + product.1) memory
    (r.1, product.2 ++ r.2)

/-- The value added to `val` for one window row, by either branch. -/
def windowRow (k : ConvolutionKernel) (filterIndex outputRow outputColumn : Int)
    (windowRow : Nat) (val : Value) : Expression := fun memory =>
  let inputMemoryIncrements := k.inputLayout.GetCumulativeIncrement
  let inputDepth := k.inputLayout.ActiveSize 2
  if canCombineColumns k then
    let inputOffset := (outputRow + windowRow) * inputMemoryIncrements.getD 0 0 +
      outputColumn * inputMemoryIncrements.getD 1 0
    let filterOffset := inputDepth * (k.filterSize * windowRow) +
      filterIndex * (k.filterSize * k.filterSize * inputDepth)
    let product := DotProduct (k.filterSize * inputDepth) (k.input, inputOffset)
      (k.filterWeights, filterOffset) memory
    (val + product.1, product.2)
  else
    windowColumns k filterIndex outputRow outputColumn windowRow
      (List.range k.filterSize.toNat) val memory

/-- The unrolled loop over `windowRow`, for the listed window rows: the value for the row is
added to `val`, and `val` is stored to the output element. -/
def windowRows (k : ConvolutionKernel) (filterIndex outputRow outputColumn : Int) :
    List Nat → Value → Code
  | [], _, memory => (memory, [])
  | row :: rest, val, memory =>
    let sum := windowRow k filterIndex outputRow outputColumn row val memory
    let stored := (outputTensor k).set [outputRow, outputColumn, filterIndex] sum.1 memory
    let others := windowRows k filterIndex outputRow outputColumn rest sum.1 stored.1
    (others.1, sum.2 ++ stored.2 ++ others.2)

/-- The body of the loop over output columns: the code for one output element. -/
def element (k : ConvolutionKernel) (filterIndex outputRow outputColumn : Int) : Code :=
  windowRows k filterIndex outputRow outputColumn (List.range k.filterSize.toNat) 0

/-- The body of the `ParallelFor` over filters: one iteration. -/
def iteration (k : ConvolutionKernel) (filterIndex : Int) : Code :=
  For (k.outputLayout.ActiveSize 0) fun outputRow =>
    For (k.outputLayout.ActiveSize 1) fun outputColumn =>
      element k filterIndex outputRow outputColumn

/-- The loop nest emitted by `EmitSimpleConvolutionCode`. -/
def run (k : ConvolutionKernel) : Code :=
  ParallelFor (k.outputLayout.ActiveSize 2) (iteration k)

end SimpleConvolutionCode

namespace SimpleDepthwiseSeparableConvolutionCode

/-- The view `inputTensor` of the input buffer. -/
def inputTensor (k : ConvolutionKernel) : LocalTensor :=
  { data := k.input, extents := k.inputLayout.GetStride }

/-- The view `outputTensor` of the result buffer. -/
def outputTensor (k : ConvolutionKernel) : LocalTensor :=
  { data := k.result, extents := k.outputLayout.GetStride }

/-- The view `filter` of the weights buffer. -/
def filter (k : ConvolutionKernel) : LocalTensor :=
  { data := k.filterWeights, extents := [k.inputLayout.Stride 2, k.filterSize, k.filterSize] }

/-- The unrolled loop over `windowColumn`, for the listed window columns:
`val += inputVal * filterVal`. -/
def windowColumns (k : ConvolutionKernel) (outputRow outputColumn filterIndex : Int)
    (windowRow : Nat) : List Nat → Value → Expression
  | [], val, _ => (val, [])
  | windowColumn :: rest, val, memory =>
    let inputRow := outputRow * k.stride
    let inputColumn := outputColumn * k.stride
    let filterRow : Int := windowRow
    let filterColumn : Int := windowColumn
    let inputVal := (inputTensor k).get
      [inputRow + windowRow, inputColumn + windowColumn, filterIndex] memory
    let filterVal := (filter k).get [filterIndex, filterRow, filterColumn] memory
    let r := windowColumns k outputRow outputColumn filterIndex windowRow rest
      (val + inputVal.1 * filterVal.1) memory
    (r.1, inputVal.2 ++ filterVal.2 ++ r.2)

/-- The unrolled loop over `windowRow`, for the listed window rows. -/
def windowRows (k : ConvolutionKernel) (outputRow outputColumn filterIndex : Int) :
    List Nat → Value → Expression
  | [], val, _ => (val, [])
  | row :: rest, val, memory =>
    let columns := windowColumns k outputRow outputColumn filterIndex row
      (List.range k.filterSize.toNat) val memory
    let r := windowRows k outputRow outputColumn filterIndex rest columns.1 memory
    (r.1, columns.2 ++ r.2)

/-- The body of the loop over filters: the code for one output element. -/
def element (k : ConvolutionKernel) (outputRow outputColumn filterIndex : Int) : Code :=
  fun memory =>
    let val := windowRows k outputRow outputColumn filterIndex (List.range k.filterSize.toNat) 0
      memory
    let stored := (outputTensor k).set [outputRow, outputColumn, filterIndex] val.1 memory
    (stored.1, val.2 ++ stored.2)

/-- The body of the `ParallelFor` over output rows: one iteration. -/
def iteration (k : ConvolutionKernel) (outputRow : Int) : Code :=
  For (k.outputLayout.ActiveSize 1) fun outputColumn =>
    For (k.outputLayout.ActiveSize 2) fun filterIndex =>
      element k outputRow outputColumn filterIndex

/-- The loop nest emitted by `EmitSimpleDepthwiseSeparableConvolutionCode`. -/
def run (k : ConvolutionKernel) : Code :=
  ParallelFor (k.outputLayout.ActiveSize 0) (iteration k)

end SimpleDepthwiseSeparableConvolutionCode

/-- A loop nest emitted into a function. -/
inductive EmittedCode where
  | SimpleConvolution (k : ConvolutionKernel)
  | SimpleDepthwiseSeparableConvolution (k : ConvolutionKernel)
  deriving DecidableEq, Repr

/-- The meaning of an emitted loop nest. -/
def EmittedCode.run : EmittedCode → Code
  | EmittedCode.SimpleConvolution k => SimpleConvolutionCode.run k
  | EmittedCode.SimpleDepthwiseSeparableConvolution k =>
    SimpleDepthwiseSeparableConvolutionCode.run k

/-- Modelled from the spec: the `IRFunctionEmitter` collaborator, as far as the convolution
kernels use it: the loop nests emitted into the function so far, in order. -/
structure IRFunctionEmitter where
  code : List EmittedCode
  deriving DecidableEq, Repr

/-- The function emitter after a loop nest has been emitted. -/
def IRFunctionEmitter.Emit (function : IRFunctionEmitter) (emitted : EmittedCode) :
    IRFunctionEmitter :=
  { code := function.code ++ [emitted] }

/-- The function template `EmitSimpleConvolutionCode<ValueType>(function, input,
filterWeights, inputLayout, outputLayout, filterSize, stride, result)`. Whether `assert` is
compiled in is the parameter `assertionsEnabled`. The layout accessors in the bodies of the
loops are evaluated once, when the loop nest is emitted: `outputLayout.GetActiveSize` of 2,
0 and 1, `inputLayout.GetActiveSize` of 1 and 2, `inputLayout.GetStride(1)` and the first two
cumulative increments of the input layout. -/
def EmitSimpleConvolutionCode (assertionsEnabled : Bool) (function : IRFunctionEmitter)
    (input filterWeights : Pointer) (inputLayout outputLayout : PortMemoryLayout)
    (filterSize stride : Int) (result : Pointer) : Except Error IRFunctionEmitter :=
  match inputLayout.GetOffsetAt 0 with
  | Except.error e => Except.error e
  | Except.ok inputPadding =>
    if assertionsEnabled && decide (inputPadding ≠ filterSize.tdiv 2) then
      Except.error Error.AssertionFailure
    else if 3 ≤ outputLayout.size.length ∧ 3 ≤ inputLayout.size.length ∧
        2 ≤ inputLayout.stride.length then
      Except.ok
        (function.Emit
          (EmittedCode.SimpleConvolution
            { input := input, filterWeights := filterWeights, result := result,
              inputLayout := inputLayout, outputLayout := outputLayout,
              filterSize := filterSize, stride := stride }))
    else Except.error Error.IndexOutOfRange

/-- The function template `EmitSimpleDepthwiseSeparableConvolutionCode<ValueType>(function,
input, filterWeights, inputLayout, outputLayout, filterSize, stride, result)`. Whether
`assert` is compiled in is the parameter `assertionsEnabled`. The layout accessors in the
bodies of the loops are evaluated once, when the loop nest is emitted:
`outputLayout.GetActiveSize` of 0, 1 and 2 and `inputLayout.GetStride(2)`. -/
def EmitSimpleDepthwiseSeparableConvolutionCode (assertionsEnabled : Bool)
    (function : IRFunctionEmitter) (input filterWeights : Pointer)
    (inputLayout outputLayout : PortMemoryLayout) (filterSize stride : Int) (result : Pointer) :
    Except Error IRFunctionEmitter :=
  match inputLayout.GetActiveSizeAt 2 with
  | Except.error e => Except.error e
  | Except.ok inputDepth =>
    match inputLayout.GetOffsetAt 0 with
    | Except.error e => Except.error e
    | Except.ok inputPadding =>
      if assertionsEnabled && decide (inputPadding ≠ filterSize.tdiv 2) then
        Except.error Error.AssertionFailure
      else
        match outputLayout.GetActiveSizeAt 2 with
        | Except.error e => Except.error e
        | Except.ok numFilters =>
          if assertionsEnabled && decide (numFilters ≠ inputDepth) then
            Except.error Error.AssertionFailure
          else if 3 ≤ outputLayout.size.length ∧ 3 ≤ inputLayout.stride.length then
            Except.ok
              (function.Emit
                (EmittedCode.SimpleDepthwiseSeparableConvolution
                  { input := input, filterWeights := filterWeights, result := result,
                    inputLayout := inputLayout, outputLayout := outputLayout,
                    filterSize := filterSize, stride := stride }))
          else Except.error Error.IndexOutOfRange

/-- A port, as the compiler identifies it: the input port of a node with the given position
among the node's inputs, or an output port. -/
inductive PortKey where
  | InputPort (node : Nat) (index : Nat)
  | OutputPort (id : PortId)
  deriving DecidableEq, Repr

/-- Modelled from the spec: the `IRMapCompiler`, as far as `Compile` uses it: the target
value of every port emitted so far, and the trace of the `EnsurePortEmitted` calls. -/
structure IRMapCompiler where
  emitted : List (PortKey × Pointer)
  calls : List PortKey
  deriving DecidableEq, Repr

/-- Modelled from the spec: `EnsurePortEmitted(port)` returns the already-produced target
value for a port if previously emitted in this compilation unit, else triggers emission and
caches the result. -/
def IRMapCompiler.EnsurePortEmitted (port : PortKey) (compiler : IRMapCompiler) :
    Pointer × IRMapCompiler :=
  match (compiler.emitted.find? fun e => e.1 = port).map Prod.snd with
  | some value => (value, { compiler with calls := compiler.calls ++ [port] })
  | none =>
    (compiler.emitted.length,
      { emitted := compiler.emitted ++ [(port, compiler.emitted.length)],
        calls := compiler.calls ++ [port] })

namespace SimpleConvolutionComputeNode

/-- Accessor `GetInputMemoryLayout()`. -/
def GetInputMemoryLayout (this : SimpleConvolutionComputeNode) : PortMemoryLayout :=
  this.inputMemoryLayout

/-- The port `this->input`. -/
def inputPort (this : SimpleConvolutionComputeNode) : PortKey :=
  PortKey.InputPort this.output.id.node 0

/-- The port `this->filterWeights`. -/
def filterWeightsPort (this : SimpleConvolutionComputeNode) : PortKey :=
  PortKey.InputPort this.output.id.node 1

/-- The port `this->output`. -/
def outputPort (this : SimpleConvolutionComputeNode) : PortKey :=
  PortKey.OutputPort this.output.id

/-- The method `SimpleConvolutionComputeNode<ValueType>::Compile(compiler, function)`: the
outcome, the compiler after the call and the function emitter after the call. Whether
`assert` is compiled in is the parameter `assertionsEnabled`. -/
def Compile (assertionsEnabled : Bool) (this : SimpleConvolutionComputeNode)
    (compiler : IRMapCompiler) (function : IRFunctionEmitter) :
    Except Error Unit × IRMapCompiler × IRFunctionEmitter :=
  let pInput := compiler.EnsurePortEmitted this.inputPort
  let pWeights := pInput.2.EnsurePortEmitted this.filterWeightsPort
  let pOutput := pWeights.2.EnsurePortEmitted this.outputPort
  let inputLayout := this.GetInputMemoryLayout
  let outputLayout := this.GetOutputMemoryLayout
  match inputLayout.GetOffsetAt 0 with
  | Except.error e => (Except.error e, pOutput.2, function)
  | Except.ok inputPadding =>
    if assertionsEnabled && decide (inputPadding ≠ this.filterSize.tdiv 2) then
      (Except.error Error.AssertionFailure, pOutput.2, function)
    else if !this.isDepthwiseSeparable then
      match EmitSimpleConvolutionCode assertionsEnabled function pInput.1 pWeights.1 inputLayout
          outputLayout this.filterSize this.stride pOutput.1 with
      | Except.ok emitted => (Except.ok (), pOutput.2, emitted)
      | Except.error e => (Except.error e, pOutput.2, function)
    else
      match EmitSimpleDepthwiseSeparableConvolutionCode assertionsEnabled function pInput.1
          pWeights.1 inputLayout outputLayout this.filterSize this.stride pOutput.1 with
      | Except.ok emitted => (Except.ok (), pOutput.2, emitted)
      | Except.error e => (Except.error e, pOutput.2, function)

end SimpleConvolutionComputeNode

/-- The accesses code makes when run on a memory. -/
def accessesOf (code : Code) (memory : Memory) : List Access := (code memory).2

/-- The conditions under which `Compile` emits a kernel for a node: the layouts have the
dimensions the code indexes, and the conditions it asserts hold if `assert` is compiled
in. -/
def SimpleConvolutionComputeNode.CanCompile (assertionsEnabled : Bool)
    (this : SimpleConvolutionComputeNode) : Prop :=
  3 ≤ this.inputMemoryLayout.size.length ∧ 3 ≤ this.inputMemoryLayout.stride.length ∧
    1 ≤ this.inputMemoryLayout.offset.length ∧ 3 ≤ this.output.layout.size.length ∧
    (assertionsEnabled = true →
      this.inputMemoryLayout.Offset 0 = this.filterSize.tdiv 2 ∧
      (this.isDepthwiseSeparable = true →
        this.output.layout.ActiveSize 2 = this.inputMemoryLayout.ActiveSize 2))

instance (assertionsEnabled : Bool) (this : SimpleConvolutionComputeNode) :
    Decidable (this.CanCompile assertionsEnabled) := by
  unfold SimpleConvolutionComputeNode.CanCompile
  exact inferInstance

/-! ## Further helpers for stating the properties -/

/-- Running `m` on `t` adds no node to the target model and records no mapping: the target
model and the mapping are unchanged, and the trace gains no `AddNode` and no
`MapNodeOutput` call. -/
def AddsNothing {α : Type} (m : TransformerM α) (t : ModelTransformer) : Prop :=
  (m t).2.model = t.model ∧ (m t).2.elementsMap = t.elementsMap ∧
    addNodeCalls (m t).2.calls = addNodeCalls t.calls ∧
    mapNodeOutputCalls (m t).2.calls = mapNodeOutputCalls t.calls

instance {α : Type} (m : TransformerM α) (t : ModelTransformer) : Decidable (AddsNothing m t) := by
  unfold AddsNothing
  exact inferInstance

namespace Example

/-- A transformer at the start of a pass: nothing is mapped yet. -/
def emptyTransformer : ModelTransformer := ModelTransformer.initial

/-- A stand-in for the `Refine` of the classes that are not among the sources: none of them
decomposes. -/
def refineOther (_node : Node) : TransformerM Bool := pure false

end Example

namespace Example

/-- A stand-in for `CompilableNode::WriteToArchive`: it writes the identifier of the node. -/
def baseWrite (archiver : Archiver) : Archiver := archiver.write "id" (ArchivedValue.int 1)

/-- A stand-in for `CompilableNode::ReadFromArchive`: it reads the identifier of the node. -/
def baseRead (archiver : Unarchiver) : Except Error Unit × Unarchiver :=
  match archiver.readInt "id" with
  | (Except.ok _, u) => (Except.ok (), u)
  | (Except.error e, u) => (Except.error e, u)

/-- The unarchiver over what the example convolution node writes to an empty archive. -/
def convUnarchiver : Unarchiver :=
  { entries := (convNode.WriteToArchive baseWrite { entries := [] }).entries, keysRead := [] }

/-- A node as the default constructor leaves it (node 7 of some model): no input, empty
layouts, no weights. -/
def blankNode : SimpleConvolutionNode :=
  { input := []
    output := { id := { node := 7, index := 0 }, type := ValueType.float,
                layout := PortMemoryLayout.ofShape [0] }
    inputMemoryLayout := PortMemoryLayout.ofShape []
    filterWeights := { numRows := 0, numColumns := 0, numChannels := 0, data := [] }
    stride := 1
    isDepthwiseSeparable := false }

end Example

namespace Example

/-- A compiler that has emitted no port yet. -/
def compiler : IRMapCompiler := { emitted := [], calls := [] }

/-- A function into which no code has been emitted yet. -/
def function : IRFunctionEmitter := { code := [] }

/-- The compute node a refinement produces from a convolution of 3 x 3 filters whose input
has no padding: the input padding is 0 and the filter size is 3. -/
def unpaddedComputeNode : SimpleConvolutionComputeNode :=
  { input := [{ port := { node := 0, index := 0 }, start := 0, count := 9 }]
    filterWeights := [{ port := { node := 1, index := 0 }, start := 0, count := 9 }]
    output := { id := { node := 2, index := 0 }, type := ValueType.float, layout := plainLayout }
    inputMemoryLayout := plainLayout
    filterSize := 3
    stride := 1
    isDepthwiseSeparable := false }

/-- A 3 x 3 x 2 layout without padding. -/
def deepLayout : PortMemoryLayout := PortMemoryLayout.ofShape [3, 3, 2]

/-- A depthwise-separable compute node: two channels in, two channels out, 3 x 3 filters,
input padded by one row and one column. -/
def depthwiseComputeNode : SimpleConvolutionComputeNode :=
  { input := [{ port := { node := 0, index := 0 }, start := 0, count := 50 }]
    filterWeights := [{ port := { node := 1, index := 0 }, start := 0, count := 18 }]
    output := { id := { node := 2, index := 0 }, type := ValueType.float, layout := deepLayout }
    inputMemoryLayout := paddedLayout
    filterSize := 3
    stride := 1
    isDepthwiseSeparable := true }

/-- The kernel of a convolution with 3 x 3 filters over a 3 x 3 x 2 input padded by one row
and one column, into a 3 x 3 x 2 output. -/
def kernel : ConvolutionKernel :=
  { input := 0, filterWeights := 1, result := 2, inputLayout := paddedLayout,
    outputLayout := deepLayout, filterSize := 3, stride := 1 }

/-- A model of two nodes: an input node and the example convolution node fed by it. -/
def convModel : Model :=
  { nodes := [Node.Input ValueType.float { outputBase := port0 },
      Node.SimpleConvolution ValueType.float convNode] }

/-- A memory that holds 0 everywhere. -/
def memory : Memory := fun _ _ => 0

end Example

/-! ## SimpleConvolutionNode.cpp: the offsets computed by the standard kernel -/

namespace SimpleConvolutionCode

/-- The local `filterOffset` of the branch that loops over the window columns:
`inputDepth * (filterSize * windowRow + windowColumn) +
filterIndex * (filterSize * filterSize * inputDepth)`. -/
def filterOffset (k : ConvolutionKernel) (filterIndex : Int) (windowRow windowColumn : Nat) :
    Int :=
  k.inputLayout.ActiveSize 2 * (k.filterSize * windowRow + windowColumn) +
    filterIndex * (k.filterSize * k.filterSize * k.inputLayout.ActiveSize 2)

/-- The local `filterOffset` of the branch that combines the columns:
`inputDepth * (filterSize * windowRow) + filterIndex * (filterSize * filterSize * inputDepth)`. -/
def combinedFilterOffset (k : ConvolutionKernel) (filterIndex : Int) (windowRow : Nat) : Int :=
  k.inputLayout.ActiveSize 2 * (k.filterSize * windowRow) +
    filterIndex * (k.filterSize * k.filterSize * k.inputLayout.ActiveSize 2)

/-- The local `inputOffset` of the branch that loops over the window columns:
`(inputRow + windowRow) * inputMemoryIncrements[0] +
(inputColumn + windowColumn) * inputMemoryIncrements[1]`, with `inputRow = outputRow * stride`
and `inputColumn = outputColumn * stride`. -/
def inputOffset (k : ConvolutionKernel) (outputRow outputColumn : Int)
    (windowRow windowColumn : Nat) : Int :=
  (outputRow * k.stride + windowRow) * k.inputLayout.GetCumulativeIncrement.getD 0 0 +
    (outputColumn * k.stride + windowColumn) * k.inputLayout.GetCumulativeIncrement.getD 1 0

/-- The local `inputOffset` of the branch that combines the columns:
`(outputRow + windowRow) * inputMemoryIncrements[0] + outputColumn * inputMemoryIncrements[1]`. -/
def combinedInputOffset (k : ConvolutionKernel) (outputRow outputColumn : Int)
    (windowRow : Nat) : Int :=
  (outputRow + windowRow) * k.inputLayout.GetCumulativeIncrement.getD 0 0 +
    outputColumn * k.inputLayout.GetCumulativeIncrement.getD 1 0

end SimpleConvolutionCode

namespace Example

/-- One 3 x 3 filter over one channel. -/
def smallWeights : Tensor :=
  { numRows := 3, numColumns := 3, numChannels := 1, data := [1, 2, 3, 4, 5, 6, 7, 8, 9] }

/-- A convolution node with 3 x 3 filters whose input layout has no padding, as the
constructor builds it for node 1 of a model. -/
def unpaddedNode : SimpleConvolutionNode :=
  { input := [{ port := { node := 0, index := 0 }, start := 0, count := 9 }]
    output := { id := { node := 1, index := 0 }, type := ValueType.float, layout := plainLayout }
    inputMemoryLayout := plainLayout
    filterWeights := smallWeights
    stride := 1
    isDepthwiseSeparable := false }

/-- Two 3 x 3 filters over one channel each: 6 rows, 3 columns, 1 channel. -/
def depthwiseWeights : Tensor :=
  { numRows := 6, numColumns := 3, numChannels := 1,
    data := [1, 2, 3, 4, 5, 6, 7, 8, 9, 10, 11, 12, 13, 14, 15, 16, 17, 18] }

/-- A depthwise-separable convolution node over the padded 3 x 3 x 2 input, as the
constructor builds it for node 1 of a model. -/
def depthwiseNode : SimpleConvolutionNode :=
  { input := [{ port := { node := 0, index := 0 }, start := 0, count := 50 }]
    output := { id := { node := 1, index := 0 }, type := ValueType.float, layout := deepLayout }
    inputMemoryLayout := paddedLayout
    filterWeights := depthwiseWeights
    stride := 1
    isDepthwiseSeparable := true }

end Example

/-! ## Helpers for stating what the kernels compute

The element types of the kernels are `float` and `double`; `Value` models their values as
integers, with exact addition and multiplication. -/

/-- The memory after a store of `value` at offset `address` of `buffer`. -/
def storeAt (memory : Memory) (buffer : Pointer) (address : Int) (value : Value) : Memory :=
  fun b a => if b = buffer ∧ a = address then value else memory b a

/-- The memory after the listed stores (offset, value) into `buffer`, in order. -/
def applyWrites (buffer : Pointer) : List (Int × Value) → Memory → Memory
  | [], memory => memory
  | w :: ws, memory => applyWrites buffer ws (storeAt memory buffer w.1 w.2)

/-- The convolution sum in the words of C22: the sum over `windowRow`, `windowColumn` below
`filterSize` and `channel` below `inputDepth` of
`input[(r*stride+windowRow)*inc[0] + (c*stride+windowColumn)*inc[1] + channel] *
weights[f*filterSize*filterSize*inputDepth + (filterSize*windowRow+windowColumn)*inputDepth +
channel]`, the buffers being read in `memory`. -/
def convolutionSum (k : ConvolutionKernel) (memory : Memory) (r c f : Int) : Value :=
  (List.map
    (fun windowRow : Nat =>
      (List.map
        (fun windowColumn : Nat =>
          (List.map
            (fun channel : Nat =>
              memory k.input
                  ((r * k.stride + windowRow) * k.inputLayout.GetCumulativeIncrement.getD 0 0 +
                    (c * k.stride + windowColumn) *
                      k.inputLayout.GetCumulativeIncrement.getD 1 0 +
                    channel) *
                memory k.filterWeights
                  (f * k.filterSize * k.filterSize * k.inputLayout.ActiveSize 2 +
                    (k.filterSize * windowRow + windowColumn) * k.inputLayout.ActiveSize 2 +
                    channel))
            (List.range (k.inputLayout.ActiveSize 2).toNat)).sum)
        (List.range k.filterSize.toNat)).sum)
    (List.range k.filterSize.toNat)).sum

/-- The depthwise convolution sum in the words of C23: the sum over `windowRow`,
`windowColumn` below `filterSize` of
`input{r*stride+windowRow, c*stride+windowColumn, f} * filter{f, windowRow, windowColumn}`,
where the input element is an element of the row-major view of the input buffer over the
strides of the input layout, and the flat index of the filter element is
`f*filterSize*filterSize + windowRow*filterSize + windowColumn`. -/
def depthwiseConvolutionSum (k : ConvolutionKernel) (memory : Memory) (r c f : Int) : Value :=
  (List.map
    (fun windowRow : Nat =>
      (List.map
        (fun windowColumn : Nat =>
          memory k.input
              (rowMajorOffset k.inputLayout.GetStride
                [r * k.stride + windowRow, c * k.stride + windowColumn, f] 0) *
            memory k.filterWeights
              (f * k.filterSize * k.filterSize + windowRow * k.filterSize + windowColumn))
        (List.range k.filterSize.toNat)).sum)
    (List.range k.filterSize.toNat)).sum

namespace Example

/-- A kernel with 2 x 2 filters over a 2 x 2 x 1 input whose rows are padded (4 allocated
rows, offset 1), whose columns are not, and whose channel dimension is allocated 2 elements
per column for 1 active channel. -/
def channelPaddedKernel : ConvolutionKernel :=
  { input := 0, filterWeights := 1, result := 2,
    inputLayout := { size := [2, 2, 1], stride := [4, 2, 2], offset := [1, 0, 0],
                     order := [0, 1, 2] },
    outputLayout := PortMemoryLayout.ofShape [2, 1, 1], filterSize := 2, stride := 1 }

/-- A memory whose input buffer (buffer 0) holds its own offsets and whose other buffers hold
1 everywhere. -/
def rampMemory : Memory := fun buffer address => if buffer = 0 then address else 1

end Example

/-! ## ReplaceSourceAndSinkNodesPass.cpp: the walk of the pass -/

namespace Node

/-- The node is a `SourceNode` or a `SinkNode`, of whatever element type. -/
def isSourceOrSink : Node → Bool
  | Source _ _ => true
  | Sink _ _ => true
  | _ => false

/-- The node is an `InputNode` or an `OutputNode`, of whatever element type. -/
def isInputOrOutput : Node → Bool
  | Input _ _ => true
  | Output _ _ => true
  | _ => false

/-- The node is a `SourceNode` or a `SinkNode` of element type `float` or `double`, the
instantiations `ReplaceSourceOrSinkNode` casts to. -/
def isFloatOrDoubleSourceOrSink : Node → Bool
  | Source V _ => decide (V = ValueType.float ∨ V = ValueType.double)
  | Sink V _ => decide (V = ValueType.float ∨ V = ValueType.double)
  | _ => false

/-- Two nodes are of the same kind: the same class, instantiated with the same element
type. -/
def SameKind : Node → Node → Bool
  | SimpleConvolution V _, SimpleConvolution W _ => decide (V = W)
  | SimpleConvolutionCompute V _, SimpleConvolutionCompute W _ => decide (V = W)
  | Constant V _, Constant W _ => decide (V = W)
  | Input V _, Input W _ => decide (V = W)
  | Output V _, Output W _ => decide (V = W)
  | Source V _, Source W _ => decide (V = W)
  | Sink V _, Sink W _ => decide (V = W)
  | BinaryFunction V _, BinaryFunction W _ => decide (V = W)
  | ReorderData V _, ReorderData W _ => decide (V = W)
  | Other n, Other m => decide (n.typeName = m.typeName)
  | _, _ => false

/-- The node rebuilt for another model: the same class and state, bound to the given inputs
(in declaration order), its output port owned by node `self`. -/
def withInputs (self : Nat) (inputs : List PortElements) : Node → Node
  | SimpleConvolution V n =>
    SimpleConvolution V
      { n with input := inputs.getD 0 [],
               output := { n.output with id := { node := self, index := 0 } } }
  | SimpleConvolutionCompute V n =>
    SimpleConvolutionCompute V
      { n with input := inputs.getD 0 [], filterWeights := inputs.getD 1 [],
               output := { n.output with id := { node := self, index := 0 } } }
  | Constant V n =>
    Constant V { n with output := { n.output with id := { node := self, index := 0 } } }
  | Input V n =>
    Input V { n with outputBase := { n.outputBase with id := { node := self, index := 0 } } }
  | Output V n =>
    Output V
      { n with input := inputs.getD 0 [],
               output := { n.output with id := { node := self, index := 0 } } }
  | Source V n =>
    Source V
      { n with input := inputs.getD 0 [],
               outputBase := { n.outputBase with id := { node := self, index := 0 } } }
  | Sink V n =>
    Sink V
      { n with input := inputs.getD 0 [],
               output := { n.output with id := { node := self, index := 0 } } }
  | BinaryFunction V n =>
    BinaryFunction V
      { n with input1 := inputs.getD 0 [], input2 := inputs.getD 1 [],
               output := { n.output with id := { node := self, index := 0 } } }
  | ReorderData V n =>
    ReorderData V
      { n with input := inputs.getD 0 [],
               output := { n.output with id := { node := self, index := 0 } } }
  | Other n =>
    Other { n with inputs := inputs, output := { n.output with id := { node := self, index := 0 } } }

end Node

/-- The rewriting of the inputs of a node, one `TransformPortElements` call per input port,
in declaration order. -/
def ModelTransformer.TransformAll : List PortElements → TransformerM (List PortElements)
  | [] => pure []
  | old :: rest => do
    let new ← ModelTransformer.TransformPortElements old
    let others ← ModelTransformer.TransformAll rest
    pure (new :: others)

/-- Modelled from the spec: the `Copy` of the node classes whose override is not among the
sources, as section 4.2 states its contract: it "creates one corresponding node in the
transformer's target Model, with inputs rewritten through
`transformer.TransformPortElements`; calls `transformer.MapNodeOutput(oldOutput, newOutput)`
exactly once per OutputPort". -/
def Node.CopyByContract (node : Node) : TransformerM Unit := do
  let newInputs ← ModelTransformer.TransformAll node.inputs
  let newNode ← ModelTransformer.AddNode id fun self =>
    Except.ok (node.withInputs self newInputs)
  ModelTransformer.MapNodeOutput node.output newNode.output

/-- Modelled from the spec: the transformer walk of the pass (section 4.5): `OptimizeNode`
is called on each node of the source model, in the order of the model, with the context of
the walk; an exception ends the walk. -/
def ReplaceSourceAndSinkNodesPass.OptimizeNodes {MapCompilerOptions : Type}
    (copyOther : Node → TransformerM Unit) (settings : MapCompilerOptions) :
    List Node → ModelOptimizerContext → Except Error Unit × ModelOptimizerContext
  | [], context => (Except.ok (), context)
  | node :: rest, context =>
    match ReplaceSourceAndSinkNodesPass.OptimizeNode copyOther node settings context with
    | (Except.ok _, context1) =>
      ReplaceSourceAndSinkNodesPass.OptimizeNodes copyOther settings rest context1
    | (Except.error e, context1) => (Except.error e, context1)

/-- Modelled from the spec: a run of the pass over a model, as an independent transformer
walk: the outcome and the transformer of the walk, which holds the new model. -/
def ReplaceSourceAndSinkNodesPass.Run {MapCompilerOptions : Type}
    (copyOther : Node → TransformerM Unit) (settings : MapCompilerOptions) (model : Model) :
    Except Error Unit × ModelTransformer :=
  match ReplaceSourceAndSinkNodesPass.OptimizeNodes copyOther settings model.nodes
      { transformer := ModelTransformer.initial } with
  | (r, context) => (r, context.transformer)

/-! ## Helpers for stating the properties of the pass -/

/-- The mapping that sends the output of every listed node to itself. -/
def identityMap (nodes : List Node) : List (PortId × PortElements) :=
  List.map (fun node : Node => (node.output.id, PortElements.ofPort node.output)) nodes

/-- The range selects elements of the output of the node the listed nodes hold at the
handle it names. -/
def PortRange.ValidIn (nodes : List Node) (r : PortRange) : Prop :=
  ∃ node : Node, nodes.get? r.port.node = some node ∧ r.port = node.output.id ∧ 0 < r.count ∧
    r.start + r.count ≤ node.output.Size

/-- What the constructors establish beyond the members: the port type of a convolution node
is the element type of its class, and a `SimpleConvolutionNode` satisfies its class
invariant. -/
def Node.ClassInvariant : Node → Prop
  | Node.SimpleConvolution V n => n.Invariant ∧ n.output.type = V
  | Node.SimpleConvolutionCompute V n => n.output.type = V
  | _ => True

/-- A node fit to be added to the listed nodes: its output port is owned by the next handle,
and its inputs select elements of the listed nodes. -/
def Node.FitsAfter (nodes : List Node) (x : Node) : Prop :=
  x.output.id = { node := nodes.length, index := 0 } ∧ x.ClassInvariant ∧
    ∀ pe ∈ x.inputs, ∀ r ∈ pe, r.ValidIn nodes

/-- The nodes of a model built through `AddNode`: every node fits after the nodes before
it. -/
def WellFormedNodes (nodes : List Node) : Prop :=
  ∀ (i : Nat) (x : Node), nodes.get? i = some x → x.FitsAfter (nodes.take i)

/-- The mapping of a walk refers to whole outputs of nodes of the target model. -/
def ModelTransformer.MapsToOutputs (t : ModelTransformer) : Prop :=
  ∀ e ∈ t.elementsMap, ∃ node : Node, t.model.nodes.get? node.output.id.node = some node ∧
    e.2 = PortElements.ofPort node.output

/-- Hoare-style statement about a computation on the transformer: started in a state that
satisfies `P`, it ends in a state that satisfies `Q` of its result when it returns and in a
state that satisfies `E` when it throws. -/
def TransformerM.Ensures {α : Type} (P : ModelTransformer → Prop) (m : TransformerM α)
    (Q : α → ModelTransformer → Prop) (E : ModelTransformer → Prop) : Prop :=
  ∀ t : ModelTransformer, P t →
    (∀ (a : α) (t1 : ModelTransformer), m t = (Except.ok a, t1) → Q a t1) ∧
    (∀ (e : Error) (t1 : ModelTransformer), m t = (Except.error e, t1) → E t1)

/-- The transformer `t1` holds the target model and the mapping of `t0`. -/
def ModelTransformer.SameAs (t0 t1 : ModelTransformer) : Prop :=
  t1.model = t0.model ∧ t1.elementsMap = t0.elementsMap

/-- From `t0` to `t1` either nothing was added to the target model and the mapping, or one
node that satisfies `X` was added and the old output `old` was mapped to its output. -/
def ModelTransformer.Extends (t0 t1 : ModelTransformer) (old : PortId) (X : Node → Prop) :
    Prop :=
  t0.SameAs t1 ∨
    ∃ x : Node, X x ∧ t1.model.nodes = t0.model.nodes ++ [x] ∧
      t1.elementsMap = t0.elementsMap ++ [(old, PortElements.ofPort x.output)]

/-- No node of the target model is a `SourceNode` or a `SinkNode`. -/
def ModelTransformer.NoSourceOrSink (t : ModelTransformer) : Prop :=
  ∀ x ∈ t.model.nodes, x.isSourceOrSink = false

namespace Example

/-- A model of four nodes: an input node, a source node of element type double fed by it,
the example convolution node reading the input node, and a sink node of element type float
consuming nine elements of the source node. -/
def sourceSinkModel : Model :=
  { nodes :=
      [Node.Input ValueType.float { outputBase := port0 },
       Node.Source ValueType.double (sourceNode ValueType.double),
       Node.SimpleConvolution ValueType.float
        { convNode with output := { convNode.output with id := { node := 2, index := 0 } } },
       Node.Sink ValueType.float
        { input := [{ port := { node := 1, index := 0 }, start := 0, count := 9 }]
          output := { id := { node := 3, index := 0 }, type := ValueType.float,
                      layout := plainLayout }
          shape := [3, 3, 1]
          callbackName := "cb" }] }

end Example

/-! ## Auxiliary lemmas -/

/-- An `int` passed for a `size_t` parameter and cast back to `int` is unchanged. -/
theorem toInt_toSizeT (i : Int) (h : IsInt i) : toInt (toSizeT i) = i := by
  unfold IsInt at h
  unfold toInt toSizeT
  omega

/-- A `size_t` below `2^31` is unchanged by the conversion to `int`. -/
theorem toInt_of_lt (n : Nat) (h : n < 2 ^ 31) : toInt n = (n : Int) := by
  unfold toInt
  omega

/-- The conversion to `int` yields a value in the range of `int`. -/
theorem isInt_toInt (n : Nat) : IsInt (toInt n) := by
  unfold IsInt toInt
  omega

namespace TransformerM

theorem bind_apply {α β : Type} (m : TransformerM α) (f : α → TransformerM β)
    (t : ModelTransformer) :
    (m >>= f) t =
      match m t with
      | (Except.ok a, t1) => f a t1
      | (Except.error e, t1) => (Except.error e, t1) := rfl

theorem bind_ok {α β : Type} (m : TransformerM α) (f : α → TransformerM β)
    (t t1 : ModelTransformer) (a : α) (h : m t = (Except.ok a, t1)) : (m >>= f) t = f a t1 := by
  rw [bind_apply, h]

theorem bind_error {α β : Type} (m : TransformerM α) (f : α → TransformerM β)
    (t t1 : ModelTransformer) (e : Error) (h : m t = (Except.error e, t1)) :
    (m >>= f) t = (Except.error e, t1) := by
  rw [bind_apply, h]

theorem pure_apply {α : Type} (a : α) (t : ModelTransformer) :
    (pure a : TransformerM α) t = (Except.ok a, t) := rfl

end TransformerM

/-- A slice references only outputs the sliced elements reference. -/
theorem PortElements.slice_port (pe : PortElements) :
    ∀ (start count : Nat) (r : PortRange), r ∈ PortElements.slice pe start count →
      ∃ q ∈ pe, q.port = r.port := by
  induction pe with
  | nil => intro start count r h; simp [PortElements.slice] at h
  | cons p ps ih =>
    intro start count r h
    unfold PortElements.slice at h
    split at h
    · simp at h
    · split at h
      · obtain ⟨q, hq, hp⟩ := ih _ _ r h
        exact ⟨q, List.mem_cons_of_mem _ hq, hp⟩
      · rcases List.mem_cons.mp h with h1 | h1
        · exact ⟨p, List.mem_cons_self _ _, by rw [h1]⟩
        · obtain ⟨q, hq, hp⟩ := ih _ _ r h1
          exact ⟨q, List.mem_cons_of_mem _ hq, hp⟩

namespace ModelTransformer

theorem lookup_mem (m : List (PortId × PortElements)) (old : PortId) (new : PortElements)
    (h : lookup m old = some new) : (old, new) ∈ m := by
  unfold lookup at h
  cases hf : m.find? (fun e => decide (e.1 = old)) with
  | none => rw [hf] at h; simp at h
  | some e =>
    rw [hf] at h
    simp only [Option.map_some'] at h
    have h1 := List.find?_some hf
    have h2 := List.mem_of_find?_eq_some hf
    simp only [decide_eq_true_eq] at h1
    cases e with
    | mk a b =>
      simp only at h1
      simp only [Option.some.injEq] at h
      subst h1
      subst h
      exact h2

/-- Mapped elements are rewritten successfully, to elements of the target model. -/
theorem transformRanges_of_isMapped (t : ModelTransformer) (pe : PortElements)
    (h : t.IsMapped pe) :
    ∃ new, transformRanges t.elementsMap pe = some new ∧ t.InTarget new := by
  induction pe with
  | nil => exact ⟨[], rfl, fun q hq => by simp at hq⟩
  | cons r rs ih =>
    have hr : t.IsMappedPort r.port := h r (List.mem_cons_self _ _)
    obtain ⟨rest, hrest, hin⟩ := ih (fun q hq => h q (List.mem_cons_of_mem _ hq))
    unfold IsMappedPort at hr
    cases hl : lookup t.elementsMap r.port with
    | none => rw [hl] at hr; exact absurd hr id
    | some x =>
      rw [hl] at hr
      refine ⟨PortElements.slice x r.start r.count ++ rest, by simp [transformRanges, hl, hrest],
        ?_⟩
      intro q hq
      rcases List.mem_append.mp hq with h1 | h1
      · obtain ⟨q2, hq2, hp⟩ := PortElements.slice_port x _ _ q h1
        rw [← hp]
        exact hr q2 hq2
      · exact hin q h1

/-- In a transformer whose mapping refers to target nodes only, elements whose outputs
all have an entry are mapped. -/
theorem isMapped_of_targetClosed (t : ModelTransformer) (pe : PortElements)
    (hC : t.TargetClosed) (h : ∀ r ∈ pe, (lookup t.elementsMap r.port).isSome = true) :
    t.IsMapped pe := by
  intro r hr
  obtain ⟨x, hx⟩ := Option.isSome_iff_exists.mp (h r hr)
  unfold IsMappedPort
  rw [hx]
  exact hC _ (lookup_mem _ _ _ hx)

theorem TransformPortElements_ok (t : ModelTransformer) (old new : PortElements)
    (h : transformRanges t.elementsMap old = some new) :
    TransformPortElements old t =
      (Except.ok new, { t with calls := t.calls ++ [Call.TransformPortElements old] }) := by
  unfold TransformPortElements
  simp only [h]

theorem TransformPortElements_error (t : ModelTransformer) (old : PortElements)
    (h : transformRanges t.elementsMap old = none) :
    TransformPortElements old t =
      (Except.error Error.UnmappedReferenceError,
        { t with calls := t.calls ++ [Call.TransformPortElements old] }) := by
  unfold TransformPortElements
  simp only [h]

theorem AddNode_ok {α : Type} (inj : α → Node) (make : Nat → Except Error α)
    (t : ModelTransformer) (a : α) (hm : make t.model.nodes.length = Except.ok a)
    (hc : ∀ pe ∈ (inj a).inputs, ∀ r ∈ pe, r.port.node < t.model.nodes.length) :
    AddNode inj make t =
      (Except.ok a,
        { t with
          model := { nodes := t.model.nodes ++ [inj a] }
          calls := t.calls ++ [Call.AddNode (inj a)] }) := by
  unfold AddNode
  have : (inj a).inputs.all
      (fun pe => pe.all fun r => decide (r.port.node < t.model.nodes.length)) = true := by
    simp only [List.all_eq_true, decide_eq_true_eq]
    exact hc
  simp only [hm, this, if_true]

end ModelTransformer

/-! ## What each handler does to the transformer -/

/-- The constructor call made by `Copy` rebuilds the members of a node that satisfies the
class invariant. -/
theorem SimpleConvolutionNode.ctor_eq (V : ValueType) (self : Nat) (input : PortElements)
    (this : SimpleConvolutionNode) (h : this.Invariant) :
    SimpleConvolutionNode.ctor V self input this.inputMemoryLayout this.GetOutputMemoryLayout
        this.filterWeights (toSizeT this.stride) =
      Except.ok
        { input := input
          output :=
            { id := { node := self, index := 0 }, type := V, layout := this.output.layout }
          inputMemoryLayout := this.inputMemoryLayout
          filterWeights := this.filterWeights
          stride := this.stride
          isDepthwiseSeparable := this.isDepthwiseSeparable } := by
  unfold SimpleConvolutionNode.ctor
  rw [h.2, toInt_toSizeT _ h.1]
  rfl

/-- The constructor establishes the class invariant. -/
theorem SimpleConvolutionNode.ctor_invariant (V : ValueType) (self : Nat) (input : PortElements)
    (inputMemoryLayout outputMemoryLayout : PortMemoryLayout) (filterWeights : Tensor)
    (stride : Nat) (n : SimpleConvolutionNode)
    (h : SimpleConvolutionNode.ctor V self input inputMemoryLayout outputMemoryLayout
      filterWeights stride = Except.ok n) : n.Invariant := by
  unfold SimpleConvolutionNode.ctor at h
  cases hb : isDepthwiseSeparableOf filterWeights inputMemoryLayout with
  | error e => rw [hb] at h; simp at h
  | ok b =>
    rw [hb] at h
    simp only [Except.ok.injEq] at h
    subst h
    exact ⟨isInt_toInt stride, hb⟩

/-- The outcome of `SimpleConvolutionNode::Copy` when the input is rewritten to `newInput`. -/
theorem SimpleConvolutionNode.Copy_eq (V : ValueType) (this : SimpleConvolutionNode)
    (t : ModelTransformer) (newInput : PortElements)
    (hT : ModelTransformer.transformRanges t.elementsMap this.input = some newInput)
    (hC : ∀ r ∈ newInput, r.port.node < t.model.nodes.length) (hI : this.Invariant) :
    this.Copy V t =
      (Except.ok (),
        { model :=
            { nodes := t.model.nodes ++
                [Node.SimpleConvolution V
                  { input := newInput
                    output :=
                      { id := { node := t.model.nodes.length, index := 0 }, type := V,
                        layout := this.output.layout }
                    inputMemoryLayout := this.inputMemoryLayout
                    filterWeights := this.filterWeights
                    stride := this.stride
                    isDepthwiseSeparable := this.isDepthwiseSeparable }] }
          elementsMap := t.elementsMap ++
            [(this.output.id,
              PortElements.ofPort
                { id := { node := t.model.nodes.length, index := 0 }, type := V,
                  layout := this.output.layout })]
          calls := t.calls ++
            [Call.TransformPortElements this.input,
             Call.AddNode
              (Node.SimpleConvolution V
                { input := newInput
                  output :=
                    { id := { node := t.model.nodes.length, index := 0 }, type := V,
                      layout := this.output.layout }
                  inputMemoryLayout := this.inputMemoryLayout
                  filterWeights := this.filterWeights
                  stride := this.stride
                  isDepthwiseSeparable := this.isDepthwiseSeparable }),
             Call.MapNodeOutput this.output.id
              (PortElements.ofPort
                { id := { node := t.model.nodes.length, index := 0 }, type := V,
                  layout := this.output.layout })] }) := by
  unfold SimpleConvolutionNode.Copy
  rw [TransformerM.bind_ok _ _ _ _ _ (ModelTransformer.TransformPortElements_ok t _ _ hT)]
  rw [TransformerM.bind_ok _ _ _ _ _
    (ModelTransformer.AddNode_ok _ _ _ _ (SimpleConvolutionNode.ctor_eq V _ newInput this hI)
      (by
        intro pe hpe r hr
        simp only [Node.inputs, List.mem_singleton] at hpe
        subst hpe
        exact hC r hr))]
  simp [ModelTransformer.MapNodeOutput]

/-- The outcome of `SimpleConvolutionNode::Refine` when the input is rewritten to `newInput`. -/
theorem SimpleConvolutionNode.Refine_eq (V : ValueType) (this : SimpleConvolutionNode)
    (t : ModelTransformer) (newInput : PortElements)
    (hT : ModelTransformer.transformRanges t.elementsMap this.input = some newInput)
    (hC : ∀ r ∈ newInput, r.port.node < t.model.nodes.length) :
    this.Refine V t =
      (Except.ok true,
        { model :=
            { nodes := t.model.nodes ++
                [Node.Constant V
                  { values := this.filterWeights.ReferenceAsMatrix.ToArray
                    output :=
                      { id := { node := t.model.nodes.length, index := 0 }, type := V,
                        layout := PortMemoryLayout.ofShape
                          [(this.filterWeights.ReferenceAsMatrix.ToArray.length : Int)] } },
                 Node.SimpleConvolutionCompute V
                  { input := newInput
                    filterWeights :=
                      PortElements.ofPort
                        { id := { node := t.model.nodes.length, index := 0 }, type := V,
                          layout := PortMemoryLayout.ofShape
                            [(this.filterWeights.ReferenceAsMatrix.ToArray.length : Int)] }
                    output :=
                      { id := { node := t.model.nodes.length + 1, index := 0 }, type := V,
                        layout := this.output.layout }
                    inputMemoryLayout := this.inputMemoryLayout
                    filterSize := toInt this.filterWeights.NumColumns
                    stride := this.stride
                    isDepthwiseSeparable := this.isDepthwiseSeparable }] }
          elementsMap := t.elementsMap ++
            [(this.output.id,
              PortElements.ofPort
                { id := { node := t.model.nodes.length + 1, index := 0 }, type := V,
                  layout := this.output.layout })]
          calls := t.calls ++
            [Call.TransformPortElements this.input,
             Call.AddNode
              (Node.Constant V
                { values := this.filterWeights.ReferenceAsMatrix.ToArray
                  output :=
                    { id := { node := t.model.nodes.length, index := 0 }, type := V,
                      layout := PortMemoryLayout.ofShape
                        [(this.filterWeights.ReferenceAsMatrix.ToArray.length : Int)] } }),
             Call.AddNode
              (Node.SimpleConvolutionCompute V
                { input := newInput
                  filterWeights :=
                    PortElements.ofPort
                      { id := { node := t.model.nodes.length, index := 0 }, type := V,
                        layout := PortMemoryLayout.ofShape
                          [(this.filterWeights.ReferenceAsMatrix.ToArray.length : Int)] }
                  output :=
                    { id := { node := t.model.nodes.length + 1, index := 0 }, type := V,
                      layout := this.output.layout }
                  inputMemoryLayout := this.inputMemoryLayout
                  filterSize := toInt this.filterWeights.NumColumns
                  stride := this.stride
                  isDepthwiseSeparable := this.isDepthwiseSeparable }),
             Call.MapNodeOutput this.output.id
              (PortElements.ofPort
                { id := { node := t.model.nodes.length + 1, index := 0 }, type := V,
                  layout := this.output.layout })] }) := by
  unfold SimpleConvolutionNode.Refine
  rw [TransformerM.bind_ok _ _ _ _ _ (ModelTransformer.TransformPortElements_ok t _ _ hT)]
  rw [TransformerM.bind_ok _ _ _ _ _
    (ModelTransformer.AddNode_ok (Node.Constant V)
      (fun self => ConstantNode.ctor V self this.filterWeights.ReferenceAsMatrix.ToArray) _ _ rfl
      (by
        intro pe hpe r _
        simp [Node.inputs] at hpe))]
  rw [TransformerM.bind_ok _ _ _ _ _
    (ModelTransformer.AddNode_ok (Node.SimpleConvolutionCompute V)
      (fun self => SimpleConvolutionComputeNode.ctor V self newInput _ this.inputMemoryLayout
        this.GetOutputMemoryLayout (toInt this.filterWeights.NumColumns) this.stride
        this.isDepthwiseSeparable) _ _ rfl
      (by
        intro pe hpe r hr
        simp only [Node.inputs, List.mem_cons, List.mem_singleton, List.not_mem_nil,
          or_false] at hpe
        simp only [List.length_append, List.length_singleton]
        rcases hpe with hpe | hpe
        · subst hpe
          exact Nat.lt_succ_of_lt (hC r hr)
        · subst hpe
          simp only [PortElements.ofPort, List.mem_singleton] at hr
          subst hr
          exact Nat.lt_succ_self _))]
  simp [ModelTransformer.MapNodeOutput, TransformerM.bind_apply, TransformerM.pure_apply,
    SimpleConvolutionNode.GetOutputMemoryLayout, OutputPortBase.GetMemoryLayout]

/-- The outcome of `SimpleConvolutionComputeNode::Copy` when the inputs are rewritten to
`newInput` and `newFilterWeights`. -/
theorem SimpleConvolutionComputeNode.ComputeCopy_eq (V : ValueType)
    (this : SimpleConvolutionComputeNode) (t : ModelTransformer)
    (newInput newFilterWeights : PortElements)
    (hT : ModelTransformer.transformRanges t.elementsMap this.input = some newInput)
    (hW : ModelTransformer.transformRanges t.elementsMap this.filterWeights =
      some newFilterWeights)
    (hC : ∀ r ∈ newInput, r.port.node < t.model.nodes.length)
    (hD : ∀ r ∈ newFilterWeights, r.port.node < t.model.nodes.length) :
    this.Copy V t =
      (Except.ok (),
        { model :=
            { nodes := t.model.nodes ++
                [Node.SimpleConvolutionCompute V
                  { input := newInput
                    filterWeights := newFilterWeights
                    output :=
                      { id := { node := t.model.nodes.length, index := 0 }, type := V,
                        layout := this.output.layout }
                    inputMemoryLayout := this.inputMemoryLayout
                    filterSize := this.filterSize
                    stride := this.stride
                    isDepthwiseSeparable := this.isDepthwiseSeparable }] }
          elementsMap := t.elementsMap ++
            [(this.output.id,
              PortElements.ofPort
                { id := { node := t.model.nodes.length, index := 0 }, type := V,
                  layout := this.output.layout })]
          calls := t.calls ++
            [Call.TransformPortElements this.input,
             Call.TransformPortElements this.filterWeights,
             Call.AddNode
              (Node.SimpleConvolutionCompute V
                { input := newInput
                  filterWeights := newFilterWeights
                  output :=
                    { id := { node := t.model.nodes.length, index := 0 }, type := V,
                      layout := this.output.layout }
                  inputMemoryLayout := this.inputMemoryLayout
                  filterSize := this.filterSize
                  stride := this.stride
                  isDepthwiseSeparable := this.isDepthwiseSeparable }),
             Call.MapNodeOutput this.output.id
              (PortElements.ofPort
                { id := { node := t.model.nodes.length, index := 0 }, type := V,
                  layout := this.output.layout })] }) := by
  unfold SimpleConvolutionComputeNode.Copy
  rw [TransformerM.bind_ok _ _ _ _ _ (ModelTransformer.TransformPortElements_ok t _ _ hT)]
  rw [TransformerM.bind_ok _ _ _ _ _
    (ModelTransformer.TransformPortElements_ok _ _ _ (by exact hW))]
  rw [TransformerM.bind_ok _ _ _ _ _
    (ModelTransformer.AddNode_ok (Node.SimpleConvolutionCompute V)
      (fun self => SimpleConvolutionComputeNode.ctor V self newInput newFilterWeights
        this.inputMemoryLayout this.GetOutputMemoryLayout this.filterSize this.stride
        this.isDepthwiseSeparable) _ _ rfl
      (by
        intro pe hpe r hr
        simp only [Node.inputs, List.mem_cons, List.mem_singleton, List.not_mem_nil,
          or_false] at hpe
        rcases hpe with hpe | hpe
        · subst hpe
          exact hC r hr
        · subst hpe
          exact hD r hr))]
  simp [ModelTransformer.MapNodeOutput, SimpleConvolutionComputeNode.GetOutputMemoryLayout,
    OutputPortBase.GetMemoryLayout]

/-- The outcome of `TryReplaceSourceNode` when the cast succeeds. -/
theorem TryReplaceSourceNode_eq (V : ValueType) (node : Node) (thisNode : SourceNode)
    (t : ModelTransformer) (h : node.asSourceNode V = some thisNode) :
    TryReplaceSourceNode V node t =
      (Except.ok true,
        { model :=
            { nodes := t.model.nodes ++
                [Node.Input V
                  { outputBase :=
                      { id := { node := t.model.nodes.length, index := 0 }, type := V,
                        layout := PortMemoryLayout.ofShape thisNode.GetShape } }] }
          elementsMap := t.elementsMap ++
            [(thisNode.outputBase.id,
              PortElements.ofPort
                { id := { node := t.model.nodes.length, index := 0 }, type := V,
                  layout := PortMemoryLayout.ofShape thisNode.GetShape })]
          calls := t.calls ++
            [Call.AddNode
              (Node.Input V
                { outputBase :=
                    { id := { node := t.model.nodes.length, index := 0 }, type := V,
                      layout := PortMemoryLayout.ofShape thisNode.GetShape } }),
             Call.MapNodeOutput thisNode.outputBase.id
              (PortElements.ofPort
                { id := { node := t.model.nodes.length, index := 0 }, type := V,
                  layout := PortMemoryLayout.ofShape thisNode.GetShape })] }) := by
  unfold TryReplaceSourceNode
  rw [h]
  simp only []
  rw [TransformerM.bind_ok _ _ _ _ _
    (ModelTransformer.AddNode_ok (Node.Input V)
      (fun self => InputNode.ctor V self thisNode.GetShape) _ _ rfl
      (by
        intro pe hpe r _
        simp [Node.inputs] at hpe))]
  simp [ModelTransformer.MapNodeOutput, TransformerM.bind_apply, TransformerM.pure_apply]

/-- When the cast fails `TryReplaceSourceNode` returns false and touches nothing. -/
theorem TryReplaceSourceNode_none (V : ValueType) (node : Node) (t : ModelTransformer)
    (h : node.asSourceNode V = none) : TryReplaceSourceNode V node t = (Except.ok false, t) := by
  unfold TryReplaceSourceNode
  rw [h]
  rfl

/-- When the cast fails `TryReplaceSinkNode` returns false and touches nothing. -/
theorem TryReplaceSinkNode_none (V : ValueType) (node : Node) (t : ModelTransformer)
    (h : node.asSinkNode V = none) : TryReplaceSinkNode V node t = (Except.ok false, t) := by
  unfold TryReplaceSinkNode
  rw [h]
  rfl

/-- The outcome of `TryReplaceSinkNode` when the cast succeeds and the input is rewritten to
`newInput`. -/
theorem TryReplaceSinkNode_eq (V : ValueType) (node : Node) (thisNode : SinkNode)
    (t : ModelTransformer) (newInput : PortElements) (h : node.asSinkNode V = some thisNode)
    (hT : ModelTransformer.transformRanges t.elementsMap thisNode.input = some newInput)
    (hC : ∀ r ∈ newInput, r.port.node < t.model.nodes.length) :
    TryReplaceSinkNode V node t =
      (Except.ok true,
        { model :=
            { nodes := t.model.nodes ++
                [Node.Output V
                  { input := newInput
                    output :=
                      { id := { node := t.model.nodes.length, index := 0 }, type := V,
                        layout := PortMemoryLayout.ofShape thisNode.GetShape } }] }
          elementsMap := t.elementsMap ++
            [(thisNode.output.id,
              PortElements.ofPort
                { id := { node := t.model.nodes.length, index := 0 }, type := V,
                  layout := PortMemoryLayout.ofShape thisNode.GetShape })]
          calls := t.calls ++
            [Call.TransformPortElements thisNode.input,
             Call.AddNode
              (Node.Output V
                { input := newInput
                  output :=
                    { id := { node := t.model.nodes.length, index := 0 }, type := V,
                      layout := PortMemoryLayout.ofShape thisNode.GetShape } }),
             Call.MapNodeOutput thisNode.output.id
              (PortElements.ofPort
                { id := { node := t.model.nodes.length, index := 0 }, type := V,
                  layout := PortMemoryLayout.ofShape thisNode.GetShape })] }) := by
  unfold TryReplaceSinkNode
  rw [h]
  simp only []
  rw [TransformerM.bind_ok _ _ _ _ _ (ModelTransformer.TransformPortElements_ok t _ _ hT)]
  rw [TransformerM.bind_ok _ _ _ _ _
    (ModelTransformer.AddNode_ok (Node.Output V)
      (fun self => OutputNode.ctor V self newInput thisNode.GetShape) _ _ rfl
      (by
        intro pe hpe r hr
        simp only [Node.inputs, List.mem_singleton] at hpe
        subst hpe
        exact hC r hr))]
  simp [ModelTransformer.MapNodeOutput, TransformerM.bind_apply, TransformerM.pure_apply]

theorem Node.asSourceNode_eq_some (V : ValueType) (node : Node) (s : SourceNode) :
    node.asSourceNode V = some s ↔ node = Node.Source V s := by
  cases node <;> simp [Node.asSourceNode]

theorem Node.asSinkNode_eq_some (V : ValueType) (node : Node) (s : SinkNode) :
    node.asSinkNode V = some s ↔ node = Node.Sink V s := by
  cases node <;> simp [Node.asSinkNode]

/-- When all four casts fail `ReplaceSourceOrSinkNode` is `node.Copy`. -/
theorem ReplaceSourceOrSinkNode_unmatched (copyOther : Node → TransformerM Unit) (node : Node)
    (t : ModelTransformer)
    (h1 : node.asSourceNode ValueType.float = none)
    (h2 : node.asSourceNode ValueType.double = none)
    (h3 : node.asSinkNode ValueType.float = none)
    (h4 : node.asSinkNode ValueType.double = none) :
    ReplaceSourceOrSinkNode copyOther node t = node.Copy copyOther t := by
  unfold ReplaceSourceOrSinkNode
  rw [TransformerM.bind_ok _ _ _ _ _ (TryReplaceSourceNode_none _ node t h1)]
  simp only [Bool.false_eq_true, if_false]
  rw [TransformerM.bind_ok _ _ _ _ _ (TryReplaceSourceNode_none _ node t h2)]
  simp only [Bool.false_eq_true, if_false]
  rw [TransformerM.bind_ok _ _ _ _ _ (TryReplaceSinkNode_none _ node t h3)]
  simp only [Bool.false_eq_true, if_false]
  rw [TransformerM.bind_ok _ _ _ _ _ (TryReplaceSinkNode_none _ node t h4)]
  simp only [Bool.false_eq_true, if_false]

/-- On a float or double source node `ReplaceSourceOrSinkNode` is `TryReplaceSourceNode`. -/
theorem ReplaceSourceOrSinkNode_source (copyOther : Node → TransformerM Unit) (V : ValueType)
    (n : SourceNode) (t : ModelTransformer) (hV : V = ValueType.float ∨ V = ValueType.double) :
    ReplaceSourceOrSinkNode copyOther (Node.Source V n) t =
      (Except.ok (), (TryReplaceSourceNode V (Node.Source V n) t).2) := by
  have hs : (Node.Source V n).asSourceNode V = some n := by simp [Node.asSourceNode]
  unfold ReplaceSourceOrSinkNode
  rcases hV with hV | hV
  · subst hV
    rw [TransformerM.bind_ok _ _ _ _ _ (TryReplaceSourceNode_eq _ _ n t hs)]
    rw [TryReplaceSourceNode_eq _ _ n t hs]
    rfl
  · subst hV
    rw [TransformerM.bind_ok _ _ _ _ _
      (TryReplaceSourceNode_none ValueType.float _ t (by simp [Node.asSourceNode]))]
    simp only [Bool.false_eq_true, if_false]
    rw [TransformerM.bind_ok _ _ _ _ _ (TryReplaceSourceNode_eq _ _ n t hs)]
    rw [TryReplaceSourceNode_eq _ _ n t hs]
    rfl

/-- On a float or double sink node `ReplaceSourceOrSinkNode` is `TryReplaceSinkNode`. -/
theorem ReplaceSourceOrSinkNode_sink (copyOther : Node → TransformerM Unit) (V : ValueType)
    (n : SinkNode) (t : ModelTransformer) (newInput : PortElements)
    (hV : V = ValueType.float ∨ V = ValueType.double)
    (hT : ModelTransformer.transformRanges t.elementsMap n.input = some newInput)
    (hC : ∀ r ∈ newInput, r.port.node < t.model.nodes.length) :
    ReplaceSourceOrSinkNode copyOther (Node.Sink V n) t =
      (Except.ok (), (TryReplaceSinkNode V (Node.Sink V n) t).2) := by
  have hs : (Node.Sink V n).asSinkNode V = some n := by simp [Node.asSinkNode]
  unfold ReplaceSourceOrSinkNode
  rw [TransformerM.bind_ok _ _ _ _ _
    (TryReplaceSourceNode_none ValueType.float _ t (by simp [Node.asSourceNode]))]
  simp only [Bool.false_eq_true, if_false]
  rw [TransformerM.bind_ok _ _ _ _ _
    (TryReplaceSourceNode_none ValueType.double _ t (by simp [Node.asSourceNode]))]
  simp only [Bool.false_eq_true, if_false]
  rcases hV with hV | hV
  · subst hV
    rw [TransformerM.bind_ok _ _ _ _ _ (TryReplaceSinkNode_eq _ _ n t newInput hs hT hC)]
    rw [TryReplaceSinkNode_eq _ _ n t newInput hs hT hC]
    rfl
  · subst hV
    rw [TransformerM.bind_ok _ _ _ _ _
      (TryReplaceSinkNode_none ValueType.float _ t (by simp [Node.asSinkNode]))]
    simp only [Bool.false_eq_true, if_false]
    rw [TransformerM.bind_ok _ _ _ _ _ (TryReplaceSinkNode_eq _ _ n t newInput hs hT hC)]
    rw [TryReplaceSinkNode_eq _ _ n t newInput hs hT hC]
    rfl

theorem mapNodeOutputCalls_append (a b : List Call) :
    mapNodeOutputCalls (a ++ b) = mapNodeOutputCalls a ++ mapNodeOutputCalls b := by
  induction a with
  | nil => rfl
  | cons c cs ih => cases c <;> simp [mapNodeOutputCalls, ih]

theorem addNodeCalls_append (a b : List Call) :
    addNodeCalls (a ++ b) = addNodeCalls a ++ addNodeCalls b := by
  induction a with
  | nil => rfl
  | cons c cs ih => cases c <;> simp [addNodeCalls, ih]

theorem transformCalls_append (a b : List Call) :
    transformCalls (a ++ b) = transformCalls a ++ transformCalls b := by
  induction a with
  | nil => rfl
  | cons c cs ih => cases c <;> simp [transformCalls, ih]

/-! ## The hypotheses of the theorems below are invariants -/

/-- A transformer with an empty mapping refers to target nodes only. -/
theorem ModelTransformer.TargetClosed_initial (m : Model) :
    ModelTransformer.TargetClosed { model := m, elementsMap := [], calls := [] } := by
  intro e he
  simp at he

/-- Adding nodes and mapping an old output to the output of a target node keeps the mapping
within the target model. -/
theorem ModelTransformer.TargetClosed_extend (t : ModelTransformer) (h : t.TargetClosed)
    (extra : List Node) (old : PortId) (p : OutputPortBase) (cs : List Call)
    (hp : p.id.node < (t.model.nodes ++ extra).length) :
    ModelTransformer.TargetClosed
      { model := { nodes := t.model.nodes ++ extra }
        elementsMap := t.elementsMap ++ [(old, PortElements.ofPort p)]
        calls := cs } := by
  intro e he r hr
  simp only [List.mem_append, List.mem_singleton] at he
  rcases he with he | he
  · have := h e he r hr
    simp only [List.length_append]
    omega
  · subst he
    simp only [PortElements.ofPort, List.mem_singleton] at hr
    subst hr
    exact hp

/-- Each handler keeps the mapping within the target model. -/
theorem handlers_preserve_TargetClosed :
    (∀ (V : ValueType) (n : SimpleConvolutionNode) (t : ModelTransformer),
        t.TargetClosed → t.IsMapped n.input → n.Invariant → (n.Copy V t).2.TargetClosed) ∧
    (∀ (V : ValueType) (n : SimpleConvolutionNode) (t : ModelTransformer),
        t.TargetClosed → t.IsMapped n.input → (n.Refine V t).2.TargetClosed) ∧
    (∀ (V : ValueType) (n : SimpleConvolutionComputeNode) (t : ModelTransformer),
        t.TargetClosed → t.IsMapped n.input → t.IsMapped n.filterWeights →
        (n.Copy V t).2.TargetClosed) ∧
    (∀ (V : ValueType) (node : Node) (thisNode : SourceNode) (t : ModelTransformer),
        node.asSourceNode V = some thisNode → t.TargetClosed →
        (TryReplaceSourceNode V node t).2.TargetClosed) ∧
    (∀ (V : ValueType) (node : Node) (thisNode : SinkNode) (t : ModelTransformer),
        node.asSinkNode V = some thisNode → t.TargetClosed → t.IsMapped thisNode.input →
        (TryReplaceSinkNode V node t).2.TargetClosed) := by
  refine ⟨?_, ?_, ?_, ?_, ?_⟩
  · intro V n t hC hM hI
    obtain ⟨new, hnew, hcl⟩ := ModelTransformer.transformRanges_of_isMapped t _ hM
    rw [SimpleConvolutionNode.Copy_eq V n t new hnew
      hcl hI]
    exact ModelTransformer.TargetClosed_extend t hC _ _ _ _ (by simp)
  · intro V n t hC hM
    obtain ⟨new, hnew, hcl⟩ := ModelTransformer.transformRanges_of_isMapped t _ hM
    rw [SimpleConvolutionNode.Refine_eq V n t new hnew
      hcl]
    exact ModelTransformer.TargetClosed_extend t hC _ _ _ _ (by simp)
  · intro V n t hC hM hW
    obtain ⟨new, hnew, hcl⟩ := ModelTransformer.transformRanges_of_isMapped t _ hM
    obtain ⟨neww, hneww, hclw⟩ := ModelTransformer.transformRanges_of_isMapped t _ hW
    rw [SimpleConvolutionComputeNode.ComputeCopy_eq V n t new neww hnew hneww
      hcl
      hclw]
    exact ModelTransformer.TargetClosed_extend t hC _ _ _ _ (by simp)
  · intro V node thisNode t h hC
    rw [TryReplaceSourceNode_eq V node thisNode t h]
    exact ModelTransformer.TargetClosed_extend t hC _ _ _ _ (by simp)
  · intro V node thisNode t h hC hM
    obtain ⟨new, hnew, hcl⟩ := ModelTransformer.transformRanges_of_isMapped t _ hM
    rw [TryReplaceSinkNode_eq V node thisNode t new h hnew
      hcl]
    exact ModelTransformer.TargetClosed_extend t hC _ _ _ _ (by simp)

/-! ## Transformer completeness (C1) -/

/-- C1: each handler records exactly one mapping, for the output port of the node it handles.
For every transformer in which the inputs of the node are mapped (every old output they
reference has an entry in the mapping, to elements of the target model),
`SimpleConvolutionNode::Copy` (on a node satisfying the class invariant),
`SimpleConvolutionNode::Refine`, `SimpleConvolutionComputeNode::Copy`,
`TryReplaceSourceNode` on a match and `TryReplaceSinkNode` on a match return normally and
call `MapNodeOutput` exactly once, with the output port of the handled node as old output;
and `ReplaceSourceOrSinkNode` records exactly one mapping for the visited node whenever
`node.Copy` does. -/
theorem C1_handlers_record_exactly_one_mapping :
    (∀ (V : ValueType) (n : SimpleConvolutionNode) (t : ModelTransformer),
        t.IsMapped n.input → n.Invariant →
        (n.Copy V t).1 = Except.ok () ∧ RecordsExactlyOne (n.Copy V) t n.output.id) ∧
    (∀ (V : ValueType) (n : SimpleConvolutionNode) (t : ModelTransformer),
        t.IsMapped n.input →
        (n.Refine V t).1 = Except.ok true ∧ RecordsExactlyOne (n.Refine V) t n.output.id) ∧
    (∀ (V : ValueType) (n : SimpleConvolutionComputeNode) (t : ModelTransformer),
        t.IsMapped n.input → t.IsMapped n.filterWeights →
        (n.Copy V t).1 = Except.ok () ∧ RecordsExactlyOne (n.Copy V) t n.output.id) ∧
    (∀ (V : ValueType) (node : Node) (thisNode : SourceNode) (t : ModelTransformer),
        node.asSourceNode V = some thisNode →
        (TryReplaceSourceNode V node t).1 = Except.ok true ∧
          RecordsExactlyOne (TryReplaceSourceNode V node) t node.output.id) ∧
    (∀ (V : ValueType) (node : Node) (thisNode : SinkNode) (t : ModelTransformer),
        node.asSinkNode V = some thisNode → t.IsMapped thisNode.input →
        (TryReplaceSinkNode V node t).1 = Except.ok true ∧
          RecordsExactlyOne (TryReplaceSinkNode V node) t node.output.id) ∧
    (∀ (copyOther : Node → TransformerM Unit) (node : Node) (t : ModelTransformer),
        (∀ pe ∈ node.inputs, t.IsMapped pe) →
        RecordsExactlyOne (node.Copy copyOther) t node.output.id →
        RecordsExactlyOne (ReplaceSourceOrSinkNode copyOther node) t node.output.id) := by
  have hSource : ∀ (V : ValueType) (node : Node) (thisNode : SourceNode) (t : ModelTransformer),
      node.asSourceNode V = some thisNode →
      (TryReplaceSourceNode V node t).1 = Except.ok true ∧
        RecordsExactlyOne (TryReplaceSourceNode V node) t node.output.id := by
    intro V node thisNode t h
    have hn := (Node.asSourceNode_eq_some V node thisNode).mp h
    rw [RecordsExactlyOne, TryReplaceSourceNode_eq V node thisNode t h]
    subst hn
    simp [mapNodeOutputCalls_append, mapNodeOutputCalls, Node.output]
  have hSink : ∀ (V : ValueType) (node : Node) (thisNode : SinkNode) (t : ModelTransformer),
      node.asSinkNode V = some thisNode → t.IsMapped thisNode.input →
      (TryReplaceSinkNode V node t).1 = Except.ok true ∧
        RecordsExactlyOne (TryReplaceSinkNode V node) t node.output.id := by
    intro V node thisNode t h hM
    obtain ⟨new, hnew, hcl⟩ := ModelTransformer.transformRanges_of_isMapped t _ hM
    have hn := (Node.asSinkNode_eq_some V node thisNode).mp h
    rw [RecordsExactlyOne, TryReplaceSinkNode_eq V node thisNode t new h hnew
      hcl]
    subst hn
    simp [mapNodeOutputCalls_append, mapNodeOutputCalls, Node.output]
  refine ⟨?_, ?_, ?_, hSource, hSink, ?_⟩
  · intro V n t hM hI
    obtain ⟨new, hnew, hcl⟩ := ModelTransformer.transformRanges_of_isMapped t _ hM
    rw [RecordsExactlyOne, SimpleConvolutionNode.Copy_eq V n t new hnew
      hcl hI]
    simp [mapNodeOutputCalls_append, mapNodeOutputCalls]
  · intro V n t hM
    obtain ⟨new, hnew, hcl⟩ := ModelTransformer.transformRanges_of_isMapped t _ hM
    rw [RecordsExactlyOne, SimpleConvolutionNode.Refine_eq V n t new hnew
      hcl]
    simp [mapNodeOutputCalls_append, mapNodeOutputCalls]
  · intro V n t hM hW
    obtain ⟨new, hnew, hcl⟩ := ModelTransformer.transformRanges_of_isMapped t _ hM
    obtain ⟨neww, hneww, hclw⟩ := ModelTransformer.transformRanges_of_isMapped t _ hW
    rw [RecordsExactlyOne, SimpleConvolutionComputeNode.ComputeCopy_eq V n t new neww hnew hneww
      hcl
      hclw]
    simp [mapNodeOutputCalls_append, mapNodeOutputCalls]
  · intro copyOther node t hM hCopy
    by_cases h1 : node.asSourceNode ValueType.float = none
    · by_cases h2 : node.asSourceNode ValueType.double = none
      · by_cases h3 : node.asSinkNode ValueType.float = none
        · by_cases h4 : node.asSinkNode ValueType.double = none
          · unfold RecordsExactlyOne
            rw [ReplaceSourceOrSinkNode_unmatched copyOther node t h1 h2 h3 h4]
            exact hCopy
          · obtain ⟨s, hs⟩ := Option.ne_none_iff_exists'.mp h4
            have hn := (Node.asSinkNode_eq_some _ node s).mp hs
            have hM1 : t.IsMapped s.input := hM s.input (by subst hn; simp [Node.inputs])
            obtain ⟨new, hnew, hcl⟩ := ModelTransformer.transformRanges_of_isMapped t _ hM1
            have := (hSink _ node s t hs hM1).2
            unfold RecordsExactlyOne at this ⊢
            subst hn
            rw [ReplaceSourceOrSinkNode_sink copyOther _ s t new (Or.inr rfl) hnew
              hcl]
            exact this
        · obtain ⟨s, hs⟩ := Option.ne_none_iff_exists'.mp h3
          have hn := (Node.asSinkNode_eq_some _ node s).mp hs
          have hM1 : t.IsMapped s.input := hM s.input (by subst hn; simp [Node.inputs])
          obtain ⟨new, hnew, hcl⟩ := ModelTransformer.transformRanges_of_isMapped t _ hM1
          have := (hSink _ node s t hs hM1).2
          unfold RecordsExactlyOne at this ⊢
          subst hn
          rw [ReplaceSourceOrSinkNode_sink copyOther _ s t new (Or.inl rfl) hnew
            hcl]
          exact this
      · obtain ⟨s, hs⟩ := Option.ne_none_iff_exists'.mp h2
        have hn := (Node.asSourceNode_eq_some _ node s).mp hs
        have := (hSource _ node s t hs).2
        unfold RecordsExactlyOne at this ⊢
        subst hn
        rw [ReplaceSourceOrSinkNode_source copyOther _ s t (Or.inr rfl)]
        exact this
    · obtain ⟨s, hs⟩ := Option.ne_none_iff_exists'.mp h1
      have hn := (Node.asSourceNode_eq_some _ node s).mp hs
      have := (hSource _ node s t hs).2
      unfold RecordsExactlyOne at this ⊢
      subst hn
      rw [ReplaceSourceOrSinkNode_source copyOther _ s t (Or.inl rfl)]
      exact this

/-- C1, instantiated: on the example transformer, copying and refining the example
convolution node, copying the example compute node, and replacing the example source and
sink nodes each record exactly one mapping, for the output of the handled node. -/
theorem C1_handlers_record_exactly_one_mapping_witness :
    RecordsExactlyOne (Example.convNode.Copy ValueType.float) Example.transformer
        { node := 1, index := 0 } ∧
      RecordsExactlyOne (Example.convNode.Refine ValueType.float) Example.transformer
        { node := 1, index := 0 } ∧
      RecordsExactlyOne (Example.computeNode.Copy ValueType.float) Example.transformer
        { node := 2, index := 0 } ∧
      RecordsExactlyOne
        (ReplaceSourceOrSinkNode Example.copyOther
          (Node.Source ValueType.double (Example.sourceNode ValueType.double)))
        Example.transformer { node := 1, index := 0 } ∧
      RecordsExactlyOne
        (ReplaceSourceOrSinkNode Example.copyOther (Node.Sink ValueType.double (Example.sinkNode ValueType.double)))
        Example.transformer { node := 1, index := 0 } ∧
      RecordsExactlyOne
        (ReplaceSourceOrSinkNode Example.copyOther
          (Node.SimpleConvolution ValueType.float Example.convNode))
        Example.transformer { node := 1, index := 0 } :=
  ⟨(C1_handlers_record_exactly_one_mapping.1 ValueType.float Example.convNode
      Example.transformer (by decide) (by decide)).2,
    (C1_handlers_record_exactly_one_mapping.2.1 ValueType.float Example.convNode
      Example.transformer (by decide)).2,
    (C1_handlers_record_exactly_one_mapping.2.2.1 ValueType.float Example.computeNode
      Example.transformer (by decide) (by decide)).2,
    C1_handlers_record_exactly_one_mapping.2.2.2.2.2 Example.copyOther
      (Node.Source ValueType.double (Example.sourceNode ValueType.double)) Example.transformer
      (by decide) (by decide),
    C1_handlers_record_exactly_one_mapping.2.2.2.2.2 Example.copyOther
      (Node.Sink ValueType.double (Example.sinkNode ValueType.double)) Example.transformer
      (by decide) (by decide),
    C1_handlers_record_exactly_one_mapping.2.2.2.2.2 Example.copyOther
      (Node.SimpleConvolution ValueType.float Example.convNode) Example.transformer
      (by decide) (by decide)⟩

/-! ## Copy and Refine of the convolution nodes (C2, C3) -/

/-- C2: `Copy` creates one corresponding node. For every transformer in which the inputs of
the node are mapped, `SimpleConvolutionNode::Copy` (on a node satisfying the class
invariant) adds exactly one node to the target model, a `SimpleConvolutionNode` of the
same element type whose input is `TransformPortElements` of the old input and whose input
layout, output layout, filter weights, stride and depthwise flag are the original's; an
`int` stride survives the conversion to `size_t` and back; and
`SimpleConvolutionComputeNode::Copy` adds exactly one `SimpleConvolutionComputeNode` whose
two inputs are the transformed input and filter weights and whose layouts, filter size,
stride and depthwise flag are the original's. -/
theorem C2_copy_creates_one_corresponding_node :
    (∀ (V : ValueType) (n : SimpleConvolutionNode) (t : ModelTransformer),
        t.IsMapped n.input → n.Invariant →
        ∃ (newInput : PortElements) (newNode : SimpleConvolutionNode),
          (ModelTransformer.TransformPortElements n.input t).1 = Except.ok newInput ∧
          (n.Copy V t).1 = Except.ok () ∧
          (n.Copy V t).2.model.nodes = t.model.nodes ++ [Node.SimpleConvolution V newNode] ∧
          addNodeCalls (n.Copy V t).2.calls =
            addNodeCalls t.calls ++ [Node.SimpleConvolution V newNode] ∧
          newNode.input = newInput ∧
          newNode.inputMemoryLayout = n.inputMemoryLayout ∧
          newNode.GetOutputMemoryLayout = n.GetOutputMemoryLayout ∧
          newNode.filterWeights = n.filterWeights ∧
          newNode.stride = n.stride ∧
          newNode.isDepthwiseSeparable = n.isDepthwiseSeparable) ∧
    (∀ (stride : Int), IsInt stride → toInt (toSizeT stride) = stride) ∧
    (∀ (V : ValueType) (n : SimpleConvolutionComputeNode) (t : ModelTransformer),
        t.IsMapped n.input → t.IsMapped n.filterWeights →
        ∃ (newInput newFilterWeights : PortElements) (newNode : SimpleConvolutionComputeNode),
          (ModelTransformer.TransformPortElements n.input t).1 = Except.ok newInput ∧
          (ModelTransformer.TransformPortElements n.filterWeights t).1 =
            Except.ok newFilterWeights ∧
          (n.Copy V t).1 = Except.ok () ∧
          (n.Copy V t).2.model.nodes =
            t.model.nodes ++ [Node.SimpleConvolutionCompute V newNode] ∧
          addNodeCalls (n.Copy V t).2.calls =
            addNodeCalls t.calls ++ [Node.SimpleConvolutionCompute V newNode] ∧
          newNode.input = newInput ∧
          newNode.filterWeights = newFilterWeights ∧
          newNode.inputMemoryLayout = n.inputMemoryLayout ∧
          newNode.GetOutputMemoryLayout = n.GetOutputMemoryLayout ∧
          newNode.filterSize = n.filterSize ∧
          newNode.stride = n.stride ∧
          newNode.isDepthwiseSeparable = n.isDepthwiseSeparable) := by
  refine ⟨?_, toInt_toSizeT, ?_⟩
  · intro V n t hM hI
    obtain ⟨new, hnew, hcl⟩ := ModelTransformer.transformRanges_of_isMapped t _ hM
    refine ⟨new,
      { input := new
        output :=
          { id := { node := t.model.nodes.length, index := 0 }, type := V,
            layout := n.output.layout }
        inputMemoryLayout := n.inputMemoryLayout
        filterWeights := n.filterWeights
        stride := n.stride
        isDepthwiseSeparable := n.isDepthwiseSeparable },
      ?_, ?_, ?_, ?_, rfl, rfl, rfl, rfl, rfl, rfl⟩
    · rw [ModelTransformer.TransformPortElements_ok t _ _ hnew]
    · rw [SimpleConvolutionNode.Copy_eq V n t new hnew
        hcl hI]
    · rw [SimpleConvolutionNode.Copy_eq V n t new hnew
        hcl hI]
    · rw [SimpleConvolutionNode.Copy_eq V n t new hnew
        hcl hI]
      simp [addNodeCalls_append, addNodeCalls]
  · intro V n t hM hW
    obtain ⟨new, hnew, hcl⟩ := ModelTransformer.transformRanges_of_isMapped t _ hM
    obtain ⟨neww, hneww, hclw⟩ := ModelTransformer.transformRanges_of_isMapped t _ hW
    refine ⟨new, neww,
      { input := new
        filterWeights := neww
        output :=
          { id := { node := t.model.nodes.length, index := 0 }, type := V,
            layout := n.output.layout }
        inputMemoryLayout := n.inputMemoryLayout
        filterSize := n.filterSize
        stride := n.stride
        isDepthwiseSeparable := n.isDepthwiseSeparable },
      ?_, ?_, ?_, ?_, ?_, rfl, rfl, rfl, rfl, rfl, rfl, rfl⟩
    · rw [ModelTransformer.TransformPortElements_ok t _ _ hnew]
    · rw [ModelTransformer.TransformPortElements_ok t _ _ hneww]
    · rw [SimpleConvolutionComputeNode.ComputeCopy_eq V n t new neww hnew hneww
        hcl
        hclw]
    · rw [SimpleConvolutionComputeNode.ComputeCopy_eq V n t new neww hnew hneww
        hcl
        hclw]
    · rw [SimpleConvolutionComputeNode.ComputeCopy_eq V n t new neww hnew hneww
        hcl
        hclw]
      simp [addNodeCalls_append, addNodeCalls]

/-- C2, instantiated on the example transformer: the copy of the example convolution node,
the stride `-7`, and the copy of the example compute node. -/
theorem C2_copy_creates_one_corresponding_node_witness :
    (∃ (newInput : PortElements) (newNode : SimpleConvolutionNode),
        (ModelTransformer.TransformPortElements Example.convNode.input Example.transformer).1 =
          Except.ok newInput ∧
        (Example.convNode.Copy ValueType.float Example.transformer).1 = Except.ok () ∧
        (Example.convNode.Copy ValueType.float Example.transformer).2.model.nodes =
          Example.transformer.model.nodes ++ [Node.SimpleConvolution ValueType.float newNode] ∧
        addNodeCalls (Example.convNode.Copy ValueType.float Example.transformer).2.calls =
          addNodeCalls Example.transformer.calls ++
            [Node.SimpleConvolution ValueType.float newNode] ∧
        newNode.input = newInput ∧
        newNode.inputMemoryLayout = Example.convNode.inputMemoryLayout ∧
        newNode.GetOutputMemoryLayout = Example.convNode.GetOutputMemoryLayout ∧
        newNode.filterWeights = Example.convNode.filterWeights ∧
        newNode.stride = Example.convNode.stride ∧
        newNode.isDepthwiseSeparable = Example.convNode.isDepthwiseSeparable) ∧
      toInt (toSizeT (-7)) = -7 ∧
      (∃ (newInput newFilterWeights : PortElements) (newNode : SimpleConvolutionComputeNode),
        (ModelTransformer.TransformPortElements Example.computeNode.input
          Example.transformer).1 = Except.ok newInput ∧
        (ModelTransformer.TransformPortElements Example.computeNode.filterWeights
          Example.transformer).1 = Except.ok newFilterWeights ∧
        (Example.computeNode.Copy ValueType.float Example.transformer).1 = Except.ok () ∧
        (Example.computeNode.Copy ValueType.float Example.transformer).2.model.nodes =
          Example.transformer.model.nodes ++
            [Node.SimpleConvolutionCompute ValueType.float newNode] ∧
        addNodeCalls (Example.computeNode.Copy ValueType.float Example.transformer).2.calls =
          addNodeCalls Example.transformer.calls ++
            [Node.SimpleConvolutionCompute ValueType.float newNode] ∧
        newNode.input = newInput ∧
        newNode.filterWeights = newFilterWeights ∧
        newNode.inputMemoryLayout = Example.computeNode.inputMemoryLayout ∧
        newNode.GetOutputMemoryLayout = Example.computeNode.GetOutputMemoryLayout ∧
        newNode.filterSize = Example.computeNode.filterSize ∧
        newNode.stride = Example.computeNode.stride ∧
        newNode.isDepthwiseSeparable = Example.computeNode.isDepthwiseSeparable) :=
  ⟨C2_copy_creates_one_corresponding_node.1 ValueType.float Example.convNode
      Example.transformer (by decide) (by decide),
    C2_copy_creates_one_corresponding_node.2.1 (-7) (by decide),
    C2_copy_creates_one_corresponding_node.2.2 ValueType.float Example.computeNode
      Example.transformer (by decide) (by decide)⟩

/-- C3 as stated fails where the column count does not fit an `int`: refining the example
node whose weights have `2^31` columns yields a compute node (the last node added) whose
filter size is `-2^31`, not the number of columns. -/
theorem C3_refine_filter_size_counterexample :
    Example.transformer.IsMapped Example.wideNode.input ∧
      Example.wideNode.Invariant ∧
      (Example.wideNode.Refine ValueType.float Example.transformer).1 = Except.ok true ∧
      (Example.wideNode.Refine ValueType.float Example.transformer).2.model.nodes.getLast? =
        some
          (Node.SimpleConvolutionCompute ValueType.float
            { input := [{ port := { node := 0, index := 0 }, start := 0, count := 50 }]
              filterWeights := [{ port := { node := 1, index := 0 }, start := 0, count := 0 }]
              output :=
                { id := { node := 2, index := 0 }, type := ValueType.float,
                  layout := Example.plainLayout }
              inputMemoryLayout := Example.paddedLayout
              filterSize := -2147483648
              stride := 1
              isDepthwiseSeparable := false }) ∧
      Example.wideNode.filterWeights.NumColumns = 2147483648 := by
  decide

/-- C3, amended: for every `SimpleConvolutionNode` and every transformer in which the
input of the node is mapped, `Refine` returns true and adds exactly two nodes: a
`ConstantNode` holding the filter weights flattened from their matrix view, and a
`SimpleConvolutionComputeNode` connected to the transformed input and to the output of the
constant node, with the original input layout, output layout, stride and depthwise flag,
and with `filterSize` the column count of the weights converted to `int`, which is the
column count whenever that is below `2^31`; the original output is mapped to the output of
the compute node. -/
theorem C3_refine_adds_constant_and_compute_node (V : ValueType) (n : SimpleConvolutionNode)
    (t : ModelTransformer) (hM : t.IsMapped n.input) :
    ∃ (newInput : PortElements) (weightsNode : ConstantNode)
      (convNode : SimpleConvolutionComputeNode),
      (ModelTransformer.TransformPortElements n.input t).1 = Except.ok newInput ∧
      (n.Refine V t).1 = Except.ok true ∧
      (n.Refine V t).2.model.nodes =
        t.model.nodes ++ [Node.Constant V weightsNode, Node.SimpleConvolutionCompute V convNode] ∧
      addNodeCalls (n.Refine V t).2.calls =
        addNodeCalls t.calls ++
          [Node.Constant V weightsNode, Node.SimpleConvolutionCompute V convNode] ∧
      weightsNode.values = n.filterWeights.ReferenceAsMatrix.ToArray ∧
      convNode.input = newInput ∧
      convNode.filterWeights = PortElements.ofPort weightsNode.output ∧
      convNode.inputMemoryLayout = n.inputMemoryLayout ∧
      convNode.GetOutputMemoryLayout = n.GetOutputMemoryLayout ∧
      convNode.stride = n.stride ∧
      convNode.isDepthwiseSeparable = n.isDepthwiseSeparable ∧
      convNode.filterSize = toInt n.filterWeights.NumColumns ∧
      (n.filterWeights.NumColumns < 2 ^ 31 →
        convNode.filterSize = (n.filterWeights.NumColumns : Int)) ∧
      (n.Refine V t).2.elementsMap =
        t.elementsMap ++ [(n.output.id, PortElements.ofPort convNode.output)] ∧
      mapNodeOutputCalls (n.Refine V t).2.calls =
        mapNodeOutputCalls t.calls ++ [n.output.id] := by
  obtain ⟨new, hnew, hcl⟩ := ModelTransformer.transformRanges_of_isMapped t _ hM
  have hR := SimpleConvolutionNode.Refine_eq V n t new hnew
    hcl
  refine ⟨new,
    { values := n.filterWeights.ReferenceAsMatrix.ToArray
      output :=
        { id := { node := t.model.nodes.length, index := 0 }, type := V,
          layout := PortMemoryLayout.ofShape
            [(n.filterWeights.ReferenceAsMatrix.ToArray.length : Int)] } },
    { input := new
      filterWeights :=
        PortElements.ofPort
          { id := { node := t.model.nodes.length, index := 0 }, type := V,
            layout := PortMemoryLayout.ofShape
              [(n.filterWeights.ReferenceAsMatrix.ToArray.length : Int)] }
      output :=
        { id := { node := t.model.nodes.length + 1, index := 0 }, type := V,
          layout := n.output.layout }
      inputMemoryLayout := n.inputMemoryLayout
      filterSize := toInt n.filterWeights.NumColumns
      stride := n.stride
      isDepthwiseSeparable := n.isDepthwiseSeparable },
    ?_, ?_, ?_, ?_, rfl, rfl, rfl, rfl, rfl, rfl, rfl, rfl, ?_, ?_, ?_⟩
  · rw [ModelTransformer.TransformPortElements_ok t _ _ hnew]
  · rw [hR]
  · rw [hR]
  · rw [hR]
    simp [addNodeCalls_append, addNodeCalls]
  · intro h
    exact toInt_of_lt _ h
  · rw [hR]
  · rw [hR]
    simp [mapNodeOutputCalls_append, mapNodeOutputCalls]

/-- C3, instantiated: refining the example convolution node on the example transformer. -/
theorem C3_refine_adds_constant_and_compute_node_witness :
    ∃ (newInput : PortElements) (weightsNode : ConstantNode)
      (convNode : SimpleConvolutionComputeNode),
      (ModelTransformer.TransformPortElements Example.convNode.input Example.transformer).1 =
        Except.ok newInput ∧
      (Example.convNode.Refine ValueType.float Example.transformer).1 = Except.ok true ∧
      (Example.convNode.Refine ValueType.float Example.transformer).2.model.nodes =
        Example.transformer.model.nodes ++
          [Node.Constant ValueType.float weightsNode,
           Node.SimpleConvolutionCompute ValueType.float convNode] ∧
      addNodeCalls (Example.convNode.Refine ValueType.float Example.transformer).2.calls =
        addNodeCalls Example.transformer.calls ++
          [Node.Constant ValueType.float weightsNode,
           Node.SimpleConvolutionCompute ValueType.float convNode] ∧
      weightsNode.values = Example.convNode.filterWeights.ReferenceAsMatrix.ToArray ∧
      convNode.input = newInput ∧
      convNode.filterWeights = PortElements.ofPort weightsNode.output ∧
      convNode.inputMemoryLayout = Example.convNode.inputMemoryLayout ∧
      convNode.GetOutputMemoryLayout = Example.convNode.GetOutputMemoryLayout ∧
      convNode.stride = Example.convNode.stride ∧
      convNode.isDepthwiseSeparable = Example.convNode.isDepthwiseSeparable ∧
      convNode.filterSize = toInt Example.convNode.filterWeights.NumColumns ∧
      (Example.convNode.filterWeights.NumColumns < 2 ^ 31 →
        convNode.filterSize = (Example.convNode.filterWeights.NumColumns : Int)) ∧
      (Example.convNode.Refine ValueType.float Example.transformer).2.elementsMap =
        Example.transformer.elementsMap ++
          [(Example.convNode.output.id, PortElements.ofPort convNode.output)] ∧
      mapNodeOutputCalls (Example.convNode.Refine ValueType.float Example.transformer).2.calls =
        mapNodeOutputCalls Example.transformer.calls ++ [Example.convNode.output.id] :=
  C3_refine_adds_constant_and_compute_node ValueType.float Example.convNode Example.transformer
    (by decide)

/-! ## The pass that replaces source and sink nodes (C4, C5, C6) -/

/-- C4: unmatched nodes pass through unchanged. For every node that is not a
`SourceNode<float>`, `SourceNode<double>`, `SinkNode<float>` or `SinkNode<double>`, every
transformer state and every `settings` value of any type, `OptimizeNode` returns what
`node.Copy(transformer)` returns and leaves the transformer (target model, mapping and trace
of calls) exactly as `node.Copy(transformer)` leaves it. -/
theorem C4_unmatched_nodes_are_copied {MapCompilerOptions : Type}
    (copyOther : Node → TransformerM Unit) (node : Node) (settings : MapCompilerOptions)
    (context : ModelOptimizerContext)
    (hSource : ∀ n : SourceNode,
      node ≠ Node.Source ValueType.float n ∧ node ≠ Node.Source ValueType.double n)
    (hSink : ∀ n : SinkNode,
      node ≠ Node.Sink ValueType.float n ∧ node ≠ Node.Sink ValueType.double n) :
    ReplaceSourceAndSinkNodesPass.OptimizeNode copyOther node settings context =
      ((node.Copy copyOther context.transformer).1,
        { context with transformer := (node.Copy copyOther context.transformer).2 }) := by
  have h1 : node.asSourceNode ValueType.float = none := by
    cases h : node.asSourceNode ValueType.float with
    | none => rfl
    | some s => exact absurd ((Node.asSourceNode_eq_some _ _ _).mp h) (hSource s).1
  have h2 : node.asSourceNode ValueType.double = none := by
    cases h : node.asSourceNode ValueType.double with
    | none => rfl
    | some s => exact absurd ((Node.asSourceNode_eq_some _ _ _).mp h) (hSource s).2
  have h3 : node.asSinkNode ValueType.float = none := by
    cases h : node.asSinkNode ValueType.float with
    | none => rfl
    | some s => exact absurd ((Node.asSinkNode_eq_some _ _ _).mp h) (hSink s).1
  have h4 : node.asSinkNode ValueType.double = none := by
    cases h : node.asSinkNode ValueType.double with
    | none => rfl
    | some s => exact absurd ((Node.asSinkNode_eq_some _ _ _).mp h) (hSink s).2
  unfold ReplaceSourceAndSinkNodesPass.OptimizeNode
  rw [ReplaceSourceOrSinkNode_unmatched copyOther node context.transformer h1 h2 h3 h4]

/-- C4, instantiated: a source node and a sink node of element type `int` are copied, not
replaced, whatever the settings (here `()` and `true`). -/
theorem C4_unmatched_nodes_are_copied_witness :
    ReplaceSourceAndSinkNodesPass.OptimizeNode Example.copyOther
        (Node.Source ValueType.int (Example.sourceNode ValueType.int)) () { transformer := Example.transformer } =
      ((Example.copyOther (Node.Source ValueType.int (Example.sourceNode ValueType.int))
          Example.transformer).1,
        { transformer :=
            (Example.copyOther (Node.Source ValueType.int (Example.sourceNode ValueType.int))
              Example.transformer).2 }) ∧
      ReplaceSourceAndSinkNodesPass.OptimizeNode Example.copyOther
        (Node.Sink ValueType.int (Example.sinkNode ValueType.int)) true { transformer := Example.transformer } =
      ((Example.copyOther (Node.Sink ValueType.int (Example.sinkNode ValueType.int)) Example.transformer).1,
        { transformer :=
            (Example.copyOther (Node.Sink ValueType.int (Example.sinkNode ValueType.int))
              Example.transformer).2 }) :=
  ⟨C4_unmatched_nodes_are_copied Example.copyOther (Node.Source ValueType.int (Example.sourceNode ValueType.int))
      () { transformer := Example.transformer } (fun _ => ⟨by simp, by simp⟩)
      (fun _ => ⟨by simp, by simp⟩),
    C4_unmatched_nodes_are_copied Example.copyOther (Node.Sink ValueType.int (Example.sinkNode ValueType.int))
      true { transformer := Example.transformer } (fun _ => ⟨by simp, by simp⟩)
      (fun _ => ⟨by simp, by simp⟩)⟩

/-- C5: for every `SourceNode<V>` with `V` float or double, in every transformer state and
whatever the `Copy` overrides and the settings are, `OptimizeNode` returns normally, adds
exactly one node, an `InputNode<V>` without inputs whose shape is the source node's
`GetShape()`, and maps the source's output to the output of the new node; the trace gains an
`AddNode` and a `MapNodeOutput` call and nothing else (no `TransformPortElements` call), and
the outcome does not depend on the `Copy` overrides. -/
theorem C5_source_node_replaced_by_input_node {MapCompilerOptions : Type}
    (copyOther : Node → TransformerM Unit) (V : ValueType) (n : SourceNode)
    (settings : MapCompilerOptions) (context : ModelOptimizerContext)
    (hV : V = ValueType.float ∨ V = ValueType.double) :
    ∃ newNode : InputNode,
      ReplaceSourceAndSinkNodesPass.OptimizeNode copyOther (Node.Source V n) settings context =
        (Except.ok (),
          { context with
            transformer :=
              { model := { nodes := context.transformer.model.nodes ++ [Node.Input V newNode] }
                elementsMap := context.transformer.elementsMap ++
                  [(n.outputBase.id, PortElements.ofPort newNode.outputBase)]
                calls := context.transformer.calls ++
                  [Call.AddNode (Node.Input V newNode),
                   Call.MapNodeOutput n.outputBase.id
                    (PortElements.ofPort newNode.outputBase)] } }) ∧
      newNode.GetShape = n.GetShape ∧
      newNode.GetOutputType = V ∧
      newNode.outputBase.id = { node := context.transformer.model.nodes.length, index := 0 } ∧
      (Node.Input V newNode).inputs = [] ∧
      ∀ copyOther2 : Node → TransformerM Unit,
        ReplaceSourceAndSinkNodesPass.OptimizeNode copyOther2 (Node.Source V n) settings
            context =
          ReplaceSourceAndSinkNodesPass.OptimizeNode copyOther (Node.Source V n) settings
            context := by
  have hs : (Node.Source V n).asSourceNode V = some n := by simp [Node.asSourceNode]
  refine ⟨{ outputBase :=
              { id := { node := context.transformer.model.nodes.length, index := 0 }, type := V,
                layout := PortMemoryLayout.ofShape n.GetShape } },
    ?_, rfl, rfl, rfl, rfl, ?_⟩
  · unfold ReplaceSourceAndSinkNodesPass.OptimizeNode
    rw [ReplaceSourceOrSinkNode_source copyOther V n context.transformer hV,
      TryReplaceSourceNode_eq V _ n context.transformer hs]
  · intro copyOther2
    unfold ReplaceSourceAndSinkNodesPass.OptimizeNode
    rw [ReplaceSourceOrSinkNode_source copyOther V n context.transformer hV,
      ReplaceSourceOrSinkNode_source copyOther2 V n context.transformer hV]

/-- C5, instantiated: the example source node of element type double on the example
transformer. -/
theorem C5_source_node_replaced_by_input_node_witness :
    ∃ newNode : InputNode,
      ReplaceSourceAndSinkNodesPass.OptimizeNode Example.copyOther
          (Node.Source ValueType.double (Example.sourceNode ValueType.double)) ()
          { transformer := Example.transformer } =
        (Except.ok (),
          { transformer :=
              { model :=
                  { nodes := Example.transformer.model.nodes ++
                      [Node.Input ValueType.double newNode] }
                elementsMap := Example.transformer.elementsMap ++
                  [((Example.sourceNode ValueType.double).outputBase.id, PortElements.ofPort newNode.outputBase)]
                calls := Example.transformer.calls ++
                  [Call.AddNode (Node.Input ValueType.double newNode),
                   Call.MapNodeOutput (Example.sourceNode ValueType.double).outputBase.id
                    (PortElements.ofPort newNode.outputBase)] } }) ∧
      newNode.GetShape = (Example.sourceNode ValueType.double).GetShape ∧
      newNode.GetOutputType = ValueType.double ∧
      newNode.outputBase.id =
        { node := Example.transformer.model.nodes.length, index := 0 } ∧
      (Node.Input ValueType.double newNode).inputs = [] ∧
      ∀ copyOther2 : Node → TransformerM Unit,
        ReplaceSourceAndSinkNodesPass.OptimizeNode copyOther2
            (Node.Source ValueType.double (Example.sourceNode ValueType.double)) ()
            { transformer := Example.transformer } =
          ReplaceSourceAndSinkNodesPass.OptimizeNode Example.copyOther
            (Node.Source ValueType.double (Example.sourceNode ValueType.double)) ()
            { transformer := Example.transformer } :=
  C5_source_node_replaced_by_input_node Example.copyOther ValueType.double (Example.sourceNode ValueType.double) ()
    { transformer := Example.transformer } (Or.inr rfl)

/-- C6: for every `SinkNode<V>` with `V` float or double, on every transformer in which the
sink's input is mapped, and whatever the `Copy` overrides and the settings are,
`OptimizeNode` returns normally, adds exactly one node to the target model, an
`OutputNode<V>` whose input is `TransformPortElements` of the sink's input and whose shape
is the sink's `GetShape()`, and maps the sink's output to the output of the new node; the
outcome does not depend on the `Copy` overrides. -/
theorem C6_sink_node_replaced_by_output_node {MapCompilerOptions : Type}
    (copyOther : Node → TransformerM Unit) (V : ValueType) (n : SinkNode)
    (settings : MapCompilerOptions) (context : ModelOptimizerContext)
    (hV : V = ValueType.float ∨ V = ValueType.double)
    (hM : context.transformer.IsMapped n.input) :
    ∃ (newInput : PortElements) (newNode : OutputNode),
      (ModelTransformer.TransformPortElements n.input context.transformer).1 =
        Except.ok newInput ∧
      ReplaceSourceAndSinkNodesPass.OptimizeNode copyOther (Node.Sink V n) settings context =
        (Except.ok (),
          { context with
            transformer :=
              { model := { nodes := context.transformer.model.nodes ++ [Node.Output V newNode] }
                elementsMap := context.transformer.elementsMap ++
                  [(n.output.id, PortElements.ofPort newNode.output)]
                calls := context.transformer.calls ++
                  [Call.TransformPortElements n.input,
                   Call.AddNode (Node.Output V newNode),
                   Call.MapNodeOutput n.output.id (PortElements.ofPort newNode.output)] } }) ∧
      newNode.input = newInput ∧
      newNode.GetShape = n.GetShape ∧
      newNode.output.GetType = V ∧
      newNode.output.id = { node := context.transformer.model.nodes.length, index := 0 } ∧
      ∀ copyOther2 : Node → TransformerM Unit,
        ReplaceSourceAndSinkNodesPass.OptimizeNode copyOther2 (Node.Sink V n) settings
            context =
          ReplaceSourceAndSinkNodesPass.OptimizeNode copyOther (Node.Sink V n) settings
            context := by
  have hs : (Node.Sink V n).asSinkNode V = some n := by simp [Node.asSinkNode]
  obtain ⟨new, hnew, hcl⟩ := ModelTransformer.transformRanges_of_isMapped context.transformer _ hM
  refine ⟨new,
    { input := new
      output :=
        { id := { node := context.transformer.model.nodes.length, index := 0 }, type := V,
          layout := PortMemoryLayout.ofShape n.GetShape } },
    ?_, ?_, rfl, rfl, rfl, rfl, ?_⟩
  · rw [ModelTransformer.TransformPortElements_ok _ _ _ hnew]
  · unfold ReplaceSourceAndSinkNodesPass.OptimizeNode
    rw [ReplaceSourceOrSinkNode_sink copyOther V n context.transformer new hV hnew hcl,
      TryReplaceSinkNode_eq V _ n context.transformer new hs hnew hcl]
  · intro copyOther2
    unfold ReplaceSourceAndSinkNodesPass.OptimizeNode
    rw [ReplaceSourceOrSinkNode_sink copyOther V n context.transformer new hV hnew hcl,
      ReplaceSourceOrSinkNode_sink copyOther2 V n context.transformer new hV hnew hcl]

/-- C6, instantiated: the example sink node of element type float on the example
transformer. -/
theorem C6_sink_node_replaced_by_output_node_witness :
    ∃ (newInput : PortElements) (newNode : OutputNode),
      (ModelTransformer.TransformPortElements (Example.sinkNode ValueType.float).input Example.transformer).1 =
        Except.ok newInput ∧
      ReplaceSourceAndSinkNodesPass.OptimizeNode Example.copyOther
          (Node.Sink ValueType.float (Example.sinkNode ValueType.float)) ()
          { transformer := Example.transformer } =
        (Except.ok (),
          { transformer :=
              { model :=
                  { nodes := Example.transformer.model.nodes ++
                      [Node.Output ValueType.float newNode] }
                elementsMap := Example.transformer.elementsMap ++
                  [((Example.sinkNode ValueType.float).output.id, PortElements.ofPort newNode.output)]
                calls := Example.transformer.calls ++
                  [Call.TransformPortElements (Example.sinkNode ValueType.float).input,
                   Call.AddNode (Node.Output ValueType.float newNode),
                   Call.MapNodeOutput (Example.sinkNode ValueType.float).output.id
                    (PortElements.ofPort newNode.output)] } }) ∧
      newNode.input = newInput ∧
      newNode.GetShape = (Example.sinkNode ValueType.float).GetShape ∧
      newNode.output.GetType = ValueType.float ∧
      newNode.output.id = { node := Example.transformer.model.nodes.length, index := 0 } ∧
      ∀ copyOther2 : Node → TransformerM Unit,
        ReplaceSourceAndSinkNodesPass.OptimizeNode copyOther2
            (Node.Sink ValueType.float (Example.sinkNode ValueType.float)) ()
            { transformer := Example.transformer } =
          ReplaceSourceAndSinkNodesPass.OptimizeNode Example.copyOther
            (Node.Sink ValueType.float (Example.sinkNode ValueType.float)) ()
            { transformer := Example.transformer } :=
  C6_sink_node_replaced_by_output_node Example.copyOther ValueType.float (Example.sinkNode ValueType.float) ()
    { transformer := Example.transformer } (Or.inl rfl) (by decide)

/-! ## Layout negotiation (C7, C8, C9, C10) -/

/-- C7: for every input node and every dimension order, `TrySetOutputLayout(order)` returns
true if and only if the logical dimension order of the current output memory layout equals
`order`. -/
theorem C7_try_set_output_layout_iff (node : InputNodeBase) (order : DimensionOrder) :
    (node.TrySetOutputLayout order).1 = true ↔
      node.GetOutputPort.GetMemoryLayout.GetLogicalDimensionOrder = order := by
  unfold InputNodeBase.TrySetOutputLayout InputNodeBase.GetOutputPort
  exact decide_eq_true_iff

/-- C8: `TrySetOutputLayout` never mutates the node. Whatever it returns, the node after the
call is the node before the call, so the memory layout of the output port (active size,
stride, offset, order) and its type are unchanged, and a second call with the same order
gives the same answer. -/
theorem C8_try_set_output_layout_frame (node : InputNodeBase) (order : DimensionOrder) :
    (node.TrySetOutputLayout order).2 = node ∧
      (node.TrySetOutputLayout order).2.GetOutputPort.GetMemoryLayout.GetActiveSize =
        node.GetOutputPort.GetMemoryLayout.GetActiveSize ∧
      (node.TrySetOutputLayout order).2.GetOutputPort.GetMemoryLayout.GetStride =
        node.GetOutputPort.GetMemoryLayout.GetStride ∧
      (node.TrySetOutputLayout order).2.GetOutputPort.GetMemoryLayout.GetOffset =
        node.GetOutputPort.GetMemoryLayout.GetOffset ∧
      (node.TrySetOutputLayout order).2.GetOutputPort.GetMemoryLayout.GetLogicalDimensionOrder =
        node.GetOutputPort.GetMemoryLayout.GetLogicalDimensionOrder ∧
      (node.TrySetOutputLayout order).2.GetOutputType = node.GetOutputType ∧
      ((node.TrySetOutputLayout order).2.TrySetOutputLayout order).1 =
        (node.TrySetOutputLayout order).1 :=
  ⟨rfl, rfl, rfl, rfl, rfl, rfl, rfl⟩

/-- C9: `CanAcceptInputLayout` of `BinaryFunctionNode` and of `ReorderDataNode` returns true
if and only if the logical dimension order of the stored input memory layout equals `order`,
and two nodes whose input layouts have the same logical order give the same answer,
whatever their output layouts, padding values, inputs and other members are. (The method is
`const`: it is a function of the node and the order that returns the answer only.) -/
theorem C9_can_accept_input_layout_iff :
    (∀ (n : BinaryFunctionNode) (order : DimensionOrder),
        n.CanAcceptInputLayout order = true ↔
          n.GetInputMemoryLayout.GetLogicalDimensionOrder = order) ∧
    (∀ (n : ReorderDataNode) (order : DimensionOrder),
        n.CanAcceptInputLayout order = true ↔
          n.GetInputMemoryLayout.GetLogicalDimensionOrder = order) ∧
    (∀ (n m : BinaryFunctionNode) (order : DimensionOrder),
        n.GetInputMemoryLayout.GetLogicalDimensionOrder =
          m.GetInputMemoryLayout.GetLogicalDimensionOrder →
        n.CanAcceptInputLayout order = m.CanAcceptInputLayout order) ∧
    (∀ (n m : ReorderDataNode) (order : DimensionOrder),
        n.GetInputMemoryLayout.GetLogicalDimensionOrder =
          m.GetInputMemoryLayout.GetLogicalDimensionOrder →
        n.CanAcceptInputLayout order = m.CanAcceptInputLayout order) := by
  refine ⟨?_, ?_, ?_, ?_⟩
  · intro n order
    unfold BinaryFunctionNode.CanAcceptInputLayout
    exact decide_eq_true_iff
  · intro n order
    unfold ReorderDataNode.CanAcceptInputLayout
    exact decide_eq_true_iff
  · intro n m order h
    unfold BinaryFunctionNode.CanAcceptInputLayout
    rw [h]
  · intro n m order h
    unfold ReorderDataNode.CanAcceptInputLayout
    rw [h]

/-- C9, instantiated: the example planar consumers accept the planar order, and the example
reordering node answers as the adapter would if it had the same input order. -/
theorem C9_can_accept_input_layout_iff_witness :
    Example.binaryNode.CanAcceptInputLayout [2, 0, 1] = true ∧
      Example.planarReorderNode.CanAcceptInputLayout [2, 0, 1] = true ∧
      Example.binaryNode.CanAcceptInputLayout [0, 1, 2] =
        ({ Example.binaryNode with
            output := Example.port0, paddingValue := 5, input1 := [] } :
          BinaryFunctionNode).CanAcceptInputLayout [0, 1, 2] ∧
      Example.planarReorderNode.CanAcceptInputLayout [0, 1, 2] =
        ({ Example.adapterNode with inputMemoryLayout := Example.planarLayout } :
          ReorderDataNode).CanAcceptInputLayout [0, 1, 2] :=
  ⟨(C9_can_accept_input_layout_iff.1 Example.binaryNode [2, 0, 1]).mpr (by decide),
    (C9_can_accept_input_layout_iff.2.1 Example.planarReorderNode [2, 0, 1]).mpr (by decide),
    C9_can_accept_input_layout_iff.2.2.1 Example.binaryNode _ [0, 1, 2] (by decide),
    C9_can_accept_input_layout_iff.2.2.2 Example.planarReorderNode _ [0, 1, 2] (by decide)⟩

/-- C10: layout rejection. A `BinaryFunctionNode` or `ReorderDataNode` whose input layout has
logical order {2,0,1} rejects the order {0,1,2}; an input node whose output order is {0,1,2}
refuses `TrySetOutputLayout({2,0,1})` and stays as it is; and validating the direct
connection of that producer to either consumer, with no adapter node between them, yields a
`LayoutMismatchError`. -/
theorem C10_layout_rejection (b : BinaryFunctionNode) (r : ReorderDataNode)
    (producer : InputNodeBase)
    (hb : b.GetInputMemoryLayout.GetLogicalDimensionOrder = [2, 0, 1])
    (hr : r.GetInputMemoryLayout.GetLogicalDimensionOrder = [2, 0, 1])
    (hp : producer.GetOutputPort.GetMemoryLayout.GetLogicalDimensionOrder = [0, 1, 2]) :
    b.CanAcceptInputLayout [0, 1, 2] = false ∧
      r.CanAcceptInputLayout [0, 1, 2] = false ∧
      producer.TrySetOutputLayout [2, 0, 1] = (false, producer) ∧
      ValidateConnection producer.GetMemoryLayout [] (LayoutConsumer.BinaryFunction b) =
        Except.error Error.LayoutMismatchError ∧
      ValidateConnection producer.GetMemoryLayout [] (LayoutConsumer.ReorderData r) =
        Except.error Error.LayoutMismatchError := by
  have h1 : b.CanAcceptInputLayout [0, 1, 2] = false := by
    unfold BinaryFunctionNode.CanAcceptInputLayout
    rw [hb]
    decide
  have h2 : r.CanAcceptInputLayout [0, 1, 2] = false := by
    unfold ReorderDataNode.CanAcceptInputLayout
    rw [hr]
    decide
  have hp2 : producer.GetMemoryLayout.GetLogicalDimensionOrder = [0, 1, 2] := hp
  refine ⟨h1, h2, ?_, ?_, ?_⟩
  · unfold InputNodeBase.TrySetOutputLayout
    unfold InputNodeBase.GetOutputPort at hp
    rw [hp]
    rfl
  · unfold ValidateConnection
    rw [hp2]
    simp only [LayoutConsumer.CanAcceptInputLayout, h1]
    rfl
  · unfold ValidateConnection
    rw [hp2]
    simp only [LayoutConsumer.CanAcceptInputLayout, h2]
    rfl

/-- C10, instantiated: the interleaved example input node feeding the planar example
consumers. -/
theorem C10_layout_rejection_witness :
    Example.binaryNode.CanAcceptInputLayout [0, 1, 2] = false ∧
      Example.planarReorderNode.CanAcceptInputLayout [0, 1, 2] = false ∧
      Example.inputNode.TrySetOutputLayout [2, 0, 1] = (false, Example.inputNode) ∧
      ValidateConnection Example.inputNode.GetMemoryLayout []
          (LayoutConsumer.BinaryFunction Example.binaryNode) =
        Except.error Error.LayoutMismatchError ∧
      ValidateConnection Example.inputNode.GetMemoryLayout []
          (LayoutConsumer.ReorderData Example.planarReorderNode) =
        Except.error Error.LayoutMismatchError :=
  C10_layout_rejection Example.binaryNode Example.planarReorderNode Example.inputNode
    (by decide) (by decide) (by decide)

/-- With the example adapter between the interleaved producer and the planar consumer the
connection validates: the rejection above is due to the missing adapter. -/
theorem ValidateConnection_with_adapter :
    ValidateConnection Example.inputNode.GetMemoryLayout [Example.adapterNode]
        (LayoutConsumer.BinaryFunction Example.binaryNode) = Except.ok () := by
  decide

/-! ## Compute of the convolution nodes (C11) -/

/-- C11: `Compute` of the convolution nodes always fails. For every `SimpleConvolutionNode`
and every `SimpleConvolutionComputeNode`, whatever the element type, the input values and
the output values before the call are, `Compute` raises the not-implemented
`LogicException` and leaves the output values as they were. -/
theorem C11_compute_raises_not_implemented :
    (∀ (V : ValueType) (n : SimpleConvolutionNode) (inputValues : List Value)
        (outputs : OutputValues),
        n.Compute V inputValues outputs =
          (Except.error (Error.LogicException LogicExceptionErrors.notImplemented), outputs)) ∧
    (∀ (V : ValueType) (n : SimpleConvolutionComputeNode)
        (inputValues filterWeightsValues : List Value) (outputs : OutputValues),
        n.Compute V inputValues filterWeightsValues outputs =
          (Except.error (Error.LogicException LogicExceptionErrors.notImplemented), outputs)) :=
  ⟨fun _ _ _ _ => rfl, fun _ _ _ _ _ => rfl⟩


/-! ## Archiving of SimpleConvolutionNode (C12, C13) -/

/-- Noting a read does not change what the unarchiver returns. -/
theorem Unarchiver.lookup_noteRead (u : Unarchiver) (name key : String) :
    (u.noteRead name).lookup key = u.lookup key := rfl

/-- The entries `WriteToArchive` appends to what the base class writes. -/
theorem SimpleConvolutionNode.WriteToArchive_entries (baseWrite : Archiver → Archiver)
    (n : SimpleConvolutionNode) (archiver : Archiver) :
    (n.WriteToArchive baseWrite archiver).entries =
      (baseWrite archiver).entries ++
        [(defaultInputPortName, ArchivedValue.port n.input),
         ("inputLayout", ArchivedValue.layout n.inputMemoryLayout),
         ("outputLayout", ArchivedValue.layout n.GetOutputMemoryLayout),
         ("stride", ArchivedValue.int n.stride),
         ("weights", ArchivedValue.tensor n.filterWeights)] := by
  simp [SimpleConvolutionNode.WriteToArchive, TensorArchiver.Write, Archiver.write]

/-- The outcome of `ReadFromArchive` when the base class reads successfully and the
unarchiver returns a value of the right type under each of the five names. -/
theorem SimpleConvolutionNode.ReadFromArchive_eq
    (baseRead : Unarchiver → Except Error Unit × Unarchiver) (target : SimpleConvolutionNode)
    (unarchiver u0 : Unarchiver) (input : PortElements)
    (inputMemoryLayout outputMemoryLayout : PortMemoryLayout) (stride : Int)
    (filterWeights : Tensor) (b : Bool)
    (hBase : baseRead unarchiver = (Except.ok (), u0))
    (h1 : u0.lookup defaultInputPortName = some (ArchivedValue.port input))
    (h2 : u0.lookup "inputLayout" = some (ArchivedValue.layout inputMemoryLayout))
    (h3 : u0.lookup "outputLayout" = some (ArchivedValue.layout outputMemoryLayout))
    (h4 : u0.lookup "stride" = some (ArchivedValue.int stride))
    (h5 : u0.lookup "weights" = some (ArchivedValue.tensor filterWeights))
    (h6 : isDepthwiseSeparableOf filterWeights inputMemoryLayout = Except.ok b) :
    target.ReadFromArchive baseRead unarchiver =
      (Except.ok (),
        { input := input
          output :=
            { id := target.output.id, type := target.output.type, layout := outputMemoryLayout }
          inputMemoryLayout := inputMemoryLayout
          filterWeights := filterWeights
          stride := stride
          isDepthwiseSeparable := b },
        { entries := u0.entries
          keysRead := u0.keysRead ++
            [defaultInputPortName, "inputLayout", "outputLayout", "stride", "weights"] }) := by
  unfold SimpleConvolutionNode.ReadFromArchive
  simp only [hBase, Unarchiver.readPort, Unarchiver.readLayout, Unarchiver.readInt,
    TensorArchiver.Read, Unarchiver.lookup_noteRead, h1, h2, h3, h4, h5, h6]
  simp [Unarchiver.noteRead]

/-- C12: archive round trip. Let `n` be a node that satisfies the class invariant, and take
an unarchiver that, once the base class has read its part, returns under each name written
by `n.WriteToArchive` the value written under it. Then `ReadFromArchive`, on any receiving
node, returns normally and yields a node whose input memory layout, output memory layout,
stride, filter weights and depthwise flag (and input port) equal those of `n`; the names it
reads after the base class are the input port name, "inputLayout", "outputLayout", "stride"
and "weights", which are the names `WriteToArchive` writes after the base class, in the same
order. -/
theorem C12_archive_round_trip (baseWrite : Archiver → Archiver)
    (baseRead : Unarchiver → Except Error Unit × Unarchiver)
    (n target : SimpleConvolutionNode) (archiver : Archiver) (unarchiver u0 : Unarchiver)
    (hI : n.Invariant) (hBase : baseRead unarchiver = (Except.ok (), u0))
    (hReturns : u0.Returns n) :
    ∃ (read : SimpleConvolutionNode) (u : Unarchiver),
      target.ReadFromArchive baseRead unarchiver = (Except.ok (), read, u) ∧
      read.inputMemoryLayout = n.inputMemoryLayout ∧
      read.GetOutputMemoryLayout = n.GetOutputMemoryLayout ∧
      read.stride = n.stride ∧
      read.filterWeights = n.filterWeights ∧
      read.isDepthwiseSeparable = n.isDepthwiseSeparable ∧
      read.input = n.input ∧
      u.keysRead = u0.keysRead ++
        [defaultInputPortName, "inputLayout", "outputLayout", "stride", "weights"] ∧
      (n.WriteToArchive baseWrite archiver).entries.map Prod.fst =
        (baseWrite archiver).entries.map Prod.fst ++
          [defaultInputPortName, "inputLayout", "outputLayout", "stride", "weights"] := by
  have hw := SimpleConvolutionNode.WriteToArchive_entries (fun a => a) n { entries := [] }
  unfold Unarchiver.Returns at hReturns
  rw [hw] at hReturns
  have h1 := hReturns (defaultInputPortName, ArchivedValue.port n.input) (by simp)
  have h2 := hReturns ("inputLayout", ArchivedValue.layout n.inputMemoryLayout) (by simp)
  have h3 := hReturns ("outputLayout", ArchivedValue.layout n.GetOutputMemoryLayout) (by simp)
  have h4 := hReturns ("stride", ArchivedValue.int n.stride) (by simp)
  have h5 := hReturns ("weights", ArchivedValue.tensor n.filterWeights) (by simp)
  refine ⟨_, _,
    SimpleConvolutionNode.ReadFromArchive_eq baseRead target unarchiver u0 _ _ _ _ _ _ hBase
      h1 h2 h3 h4 h5 hI.2,
    rfl, rfl, rfl, rfl, rfl, rfl, rfl, ?_⟩
  rw [SimpleConvolutionNode.WriteToArchive_entries]
  simp

/-- C12, instantiated: the example convolution node is written to an empty archive and read
back into a blank node. -/
theorem C12_archive_round_trip_witness :
    ∃ (read : SimpleConvolutionNode) (u : Unarchiver),
      Example.blankNode.ReadFromArchive Example.baseRead Example.convUnarchiver =
        (Except.ok (), read, u) ∧
      read.inputMemoryLayout = Example.convNode.inputMemoryLayout ∧
      read.GetOutputMemoryLayout = Example.convNode.GetOutputMemoryLayout ∧
      read.stride = Example.convNode.stride ∧
      read.filterWeights = Example.convNode.filterWeights ∧
      read.isDepthwiseSeparable = Example.convNode.isDepthwiseSeparable ∧
      read.input = Example.convNode.input ∧
      u.keysRead = (Example.convUnarchiver.noteRead "id").keysRead ++
        [defaultInputPortName, "inputLayout", "outputLayout", "stride", "weights"] ∧
      (Example.convNode.WriteToArchive Example.baseWrite { entries := [] }).entries.map
          Prod.fst =
        (Example.baseWrite { entries := [] }).entries.map Prod.fst ++
          [defaultInputPortName, "inputLayout", "outputLayout", "stride", "weights"] :=
  C12_archive_round_trip Example.baseWrite Example.baseRead Example.convNode Example.blankNode
    { entries := [] } Example.convUnarchiver (Example.convUnarchiver.noteRead "id")
    (by decide) (by decide) (by decide)

/-- What a successful `ReadFromArchive` has read: the base class read successfully, the five
names were read after it, and the members of the node are the values the unarchiver returns
under them, with the depthwise flag recomputed. -/
theorem SimpleConvolutionNode.ReadFromArchive_ok
    (baseRead : Unarchiver → Except Error Unit × Unarchiver) (target : SimpleConvolutionNode)
    (unarchiver : Unarchiver) (read : SimpleConvolutionNode) (u : Unarchiver)
    (h : target.ReadFromArchive baseRead unarchiver = (Except.ok (), read, u)) :
    ∃ u0 : Unarchiver,
      baseRead unarchiver = (Except.ok (), u0) ∧
      u.entries = u0.entries ∧
      u.keysRead = u0.keysRead ++
        [defaultInputPortName, "inputLayout", "outputLayout", "stride", "weights"] ∧
      u0.lookup defaultInputPortName = some (ArchivedValue.port read.input) ∧
      u0.lookup "inputLayout" = some (ArchivedValue.layout read.inputMemoryLayout) ∧
      u0.lookup "outputLayout" = some (ArchivedValue.layout read.GetOutputMemoryLayout) ∧
      u0.lookup "stride" = some (ArchivedValue.int read.stride) ∧
      u0.lookup "weights" = some (ArchivedValue.tensor read.filterWeights) ∧
      isDepthwiseSeparableOf read.filterWeights read.inputMemoryLayout =
        Except.ok read.isDepthwiseSeparable ∧
      read.output.id = target.output.id ∧ read.output.type = target.output.type := by
  unfold SimpleConvolutionNode.ReadFromArchive at h
  cases hb : baseRead unarchiver with
  | mk r u0 =>
    rw [hb] at h
    cases r with
    | error e => simp at h
    | ok x =>
      cases x
      simp only [Unarchiver.readPort, Unarchiver.readLayout, Unarchiver.readInt,
        TensorArchiver.Read, Unarchiver.lookup_noteRead] at h
      cases h1 : u0.lookup defaultInputPortName with
      | none => simp [Unarchiver.lookup_noteRead, h1] at h
      | some v1 =>
        cases v1 with
        | layout _ => simp [Unarchiver.lookup_noteRead, h1] at h
        | int _ => simp [Unarchiver.lookup_noteRead, h1] at h
        | tensor _ => simp [Unarchiver.lookup_noteRead, h1] at h
        | port input =>
          simp only [Unarchiver.lookup_noteRead, h1] at h
          cases h2 : u0.lookup "inputLayout" with
          | none => simp [Unarchiver.lookup_noteRead, h2] at h
          | some v2 =>
            cases v2 with
            | port _ => simp [Unarchiver.lookup_noteRead, h2] at h
            | int _ => simp [Unarchiver.lookup_noteRead, h2] at h
            | tensor _ => simp [Unarchiver.lookup_noteRead, h2] at h
            | layout l1 =>
              simp only [Unarchiver.lookup_noteRead, h2] at h
              cases h3 : u0.lookup "outputLayout" with
              | none => simp [Unarchiver.lookup_noteRead, h3] at h
              | some v3 =>
                cases v3 with
                | port _ => simp [Unarchiver.lookup_noteRead, h3] at h
                | int _ => simp [Unarchiver.lookup_noteRead, h3] at h
                | tensor _ => simp [Unarchiver.lookup_noteRead, h3] at h
                | layout l2 =>
                  simp only [Unarchiver.lookup_noteRead, h3] at h
                  cases h4 : u0.lookup "stride" with
                  | none => simp [Unarchiver.lookup_noteRead, h4] at h
                  | some v4 =>
                    cases v4 with
                    | port _ => simp [Unarchiver.lookup_noteRead, h4] at h
                    | layout _ => simp [Unarchiver.lookup_noteRead, h4] at h
                    | tensor _ => simp [Unarchiver.lookup_noteRead, h4] at h
                    | int s =>
                      simp only [Unarchiver.lookup_noteRead, h4] at h
                      cases h5 : u0.lookup "weights" with
                      | none => simp [Unarchiver.lookup_noteRead, h5] at h
                      | some v5 =>
                        cases v5 with
                        | port _ => simp [Unarchiver.lookup_noteRead, h5] at h
                        | layout _ => simp [Unarchiver.lookup_noteRead, h5] at h
                        | int _ => simp [Unarchiver.lookup_noteRead, h5] at h
                        | tensor w =>
                          simp only [Unarchiver.lookup_noteRead, h5] at h
                          cases h6 : isDepthwiseSeparableOf w l1 with
                          | error e => simp [Unarchiver.lookup_noteRead, h6] at h
                          | ok b =>
                            simp only [Unarchiver.lookup_noteRead, h6, Prod.mk.injEq, true_and] at h
                            obtain ⟨hn, hu⟩ := h
                            subst hn
                            subst hu
                            exact ⟨u0, rfl, rfl, by simp [Unarchiver.noteRead], h1, h2, h3, h4,
                              h5, h6, rfl, rfl⟩

/-- C13 as stated fails: the example node writes its input port, that is its `PortElements`
binding, as the first entry of its own part of the archive, under the input port name; and
reading that archive into a blank node, whose input port has no binding, binds the input
port to what the archive holds under that name. -/
theorem C13_input_port_is_archived_counterexample :
    (Example.convNode.WriteToArchive (fun a => a) { entries := [] }).entries.head? =
        some
          (defaultInputPortName,
            ArchivedValue.port [{ port := { node := 0, index := 0 }, start := 0, count := 50 }]) ∧
      Example.convNode.input =
        [{ port := { node := 0, index := 0 }, start := 0, count := 50 }] ∧
      Example.blankNode.input = [] ∧
      (Example.blankNode.ReadFromArchive Example.baseRead Example.convUnarchiver).1 =
        Except.ok () ∧
      (Example.blankNode.ReadFromArchive Example.baseRead Example.convUnarchiver).2.1.input =
        [{ port := { node := 0, index := 0 }, start := 0, count := 50 }] ∧
      (Example.blankNode.ReadFromArchive Example.baseRead Example.convUnarchiver).2.2.keysRead =
        ["id", "input", "inputLayout", "outputLayout", "stride", "weights"] := by
  decide

/-- C13, amended: after what the base class writes, `WriteToArchive` writes exactly five
entries: the input port (its `PortElements` binding) under the input port name, the input
layout, the output layout, the stride and the filter weights; so two nodes that agree on
these write the same, whatever their depthwise flags and the identities and types of their
output ports are. `ReadFromArchive` never changes the identity and the type of the output
port; when it returns normally it has read exactly these five names after the base class,
the five members hold the values the unarchiver returns under them, and the depthwise flag
is the value recomputed from the weights and the input layout read. -/
theorem C13_archive_persists_input_port_and_state :
    (∀ (baseWrite : Archiver → Archiver) (n : SimpleConvolutionNode) (archiver : Archiver),
        (n.WriteToArchive baseWrite archiver).entries =
          (baseWrite archiver).entries ++
            [(defaultInputPortName, ArchivedValue.port n.input),
             ("inputLayout", ArchivedValue.layout n.inputMemoryLayout),
             ("outputLayout", ArchivedValue.layout n.GetOutputMemoryLayout),
             ("stride", ArchivedValue.int n.stride),
             ("weights", ArchivedValue.tensor n.filterWeights)]) ∧
    (∀ (baseWrite : Archiver → Archiver) (n m : SimpleConvolutionNode) (archiver : Archiver),
        n.input = m.input → n.inputMemoryLayout = m.inputMemoryLayout →
        n.GetOutputMemoryLayout = m.GetOutputMemoryLayout → n.stride = m.stride →
        n.filterWeights = m.filterWeights →
        n.WriteToArchive baseWrite archiver = m.WriteToArchive baseWrite archiver) ∧
    (∀ (baseRead : Unarchiver → Except Error Unit × Unarchiver)
        (target : SimpleConvolutionNode) (unarchiver : Unarchiver),
        (target.ReadFromArchive baseRead unarchiver).2.1.output.id = target.output.id ∧
        (target.ReadFromArchive baseRead unarchiver).2.1.output.type = target.output.type) ∧
    (∀ (baseRead : Unarchiver → Except Error Unit × Unarchiver)
        (target : SimpleConvolutionNode) (unarchiver : Unarchiver)
        (read : SimpleConvolutionNode) (u : Unarchiver),
        target.ReadFromArchive baseRead unarchiver = (Except.ok (), read, u) →
        ∃ u0 : Unarchiver,
          baseRead unarchiver = (Except.ok (), u0) ∧
          u.entries = u0.entries ∧
          u.keysRead = u0.keysRead ++
            [defaultInputPortName, "inputLayout", "outputLayout", "stride", "weights"] ∧
          u0.lookup defaultInputPortName = some (ArchivedValue.port read.input) ∧
          u0.lookup "inputLayout" = some (ArchivedValue.layout read.inputMemoryLayout) ∧
          u0.lookup "outputLayout" = some (ArchivedValue.layout read.GetOutputMemoryLayout) ∧
          u0.lookup "stride" = some (ArchivedValue.int read.stride) ∧
          u0.lookup "weights" = some (ArchivedValue.tensor read.filterWeights) ∧
          isDepthwiseSeparableOf read.filterWeights read.inputMemoryLayout =
            Except.ok read.isDepthwiseSeparable ∧
          read.output.id = target.output.id ∧ read.output.type = target.output.type) := by
  refine ⟨SimpleConvolutionNode.WriteToArchive_entries, ?_, ?_,
    SimpleConvolutionNode.ReadFromArchive_ok⟩
  · intro baseWrite n m archiver h1 h2 h3 h4 h5
    unfold SimpleConvolutionNode.WriteToArchive
    rw [h1, h2, h3, h4, h5]
  · intro baseRead target unarchiver
    unfold SimpleConvolutionNode.ReadFromArchive
    repeat' split
    all_goals first
      | exact ⟨rfl, rfl⟩
      | (dsimp only; split <;> exact ⟨rfl, rfl⟩)

/-- C13, instantiated: what the example node writes, and what reading it back into the
blank node (node 7) gives. -/
theorem C13_archive_persists_input_port_and_state_witness :
    (Example.convNode.WriteToArchive Example.baseWrite { entries := [] }).entries =
        [("id", ArchivedValue.int 1),
         ("input", ArchivedValue.port Example.convNode.input),
         ("inputLayout", ArchivedValue.layout Example.paddedLayout),
         ("outputLayout", ArchivedValue.layout Example.plainLayout),
         ("stride", ArchivedValue.int 1),
         ("weights", ArchivedValue.tensor Example.weights)] ∧
      SimpleConvolutionNode.WriteToArchive Example.baseWrite
          { Example.convNode with
            isDepthwiseSeparable := true
            output := { Example.convNode.output with id := { node := 9, index := 0 } } }
          { entries := [] } =
        Example.convNode.WriteToArchive Example.baseWrite { entries := [] } ∧
      (Example.blankNode.ReadFromArchive Example.baseRead Example.convUnarchiver).2.1.output.id =
        { node := 7, index := 0 } ∧
      ∃ u0 : Unarchiver,
        Example.baseRead Example.convUnarchiver = (Except.ok (), u0) ∧
        u0.lookup "stride" = some (ArchivedValue.int 1) :=
  ⟨by
      rw [C13_archive_persists_input_port_and_state.1]
      decide,
    (C13_archive_persists_input_port_and_state.2.1 Example.baseWrite _ Example.convNode _
      rfl rfl rfl rfl rfl),
    (C13_archive_persists_input_port_and_state.2.2.1 Example.baseRead Example.blankNode
      Example.convUnarchiver).1,
    by
      obtain ⟨u0, h0, _, _, _, _, _, h4, _⟩ :=
        C13_archive_persists_input_port_and_state.2.2.2 Example.baseRead Example.blankNode
          Example.convUnarchiver
          (Example.blankNode.ReadFromArchive Example.baseRead Example.convUnarchiver).2.1
          (Example.blankNode.ReadFromArchive Example.baseRead Example.convUnarchiver).2.2
          (by decide)
      exact ⟨u0, h0, by rw [h4]; decide⟩⟩

/-- Within the rank of the layout `GetOffset(index)` is the offset in that dimension. -/
theorem PortMemoryLayout.GetOffsetAt_of_lt (l : PortMemoryLayout) (d : Nat)
    (h : d < l.offset.length) : l.GetOffsetAt d = Except.ok (l.Offset d) := by
  simp [PortMemoryLayout.GetOffsetAt, PortMemoryLayout.Offset, List.getD,
    List.getElem?_eq_getElem h]

/-- Within the rank of the layout `GetActiveSize(index)` is the active size in that
dimension. -/
theorem PortMemoryLayout.GetActiveSizeAt_of_lt (l : PortMemoryLayout) (d : Nat)
    (h : d < l.size.length) : l.GetActiveSizeAt d = Except.ok (l.ActiveSize d) := by
  simp [PortMemoryLayout.GetActiveSizeAt, PortMemoryLayout.ActiveSize, List.getD,
    List.getElem?_eq_getElem h]

/-- The trace of the compiler after one `EnsurePortEmitted` call. -/
theorem IRMapCompiler.EnsurePortEmitted_calls (port : PortKey) (compiler : IRMapCompiler) :
    (compiler.EnsurePortEmitted port).2.calls = compiler.calls ++ [port] := by
  unfold IRMapCompiler.EnsurePortEmitted
  split <;> rfl

/-- C14 as stated fails where `assert` is compiled in: for the compute node of a
convolution of 3 x 3 filters over an input without padding, `Compile` makes the three
`EnsurePortEmitted` calls, then the assertion that the input padding is `filterSize / 2`
fails, and no kernel has been emitted. -/
theorem C14_compile_assertion_counterexample :
    Example.unpaddedComputeNode.inputMemoryLayout.GetOffsetAt 0 = Except.ok 0 ∧
      Example.unpaddedComputeNode.filterSize.tdiv 2 = 1 ∧
      (Example.unpaddedComputeNode.Compile true Example.compiler Example.function).1 =
        Except.error Error.AssertionFailure ∧
      (Example.unpaddedComputeNode.Compile true Example.compiler Example.function).2.1.calls =
        [PortKey.InputPort 2 0, PortKey.InputPort 2 1,
          PortKey.OutputPort { node := 2, index := 0 }] ∧
      (Example.unpaddedComputeNode.Compile true Example.compiler Example.function).2.2.code =
        [] := by
  decide

/-- C14, amended: for a node whose layouts have the three dimensions the code indexes and,
where `assert` is compiled in, whose input padding is `filterSize / 2` (and, for a
depthwise-separable node, whose output has as many channels as its input), `Compile`
returns normally; it has asked the compiler for the values of the input port, the
filterWeights port and the output port, once each and in this order, and changed the
compiler in no other way; and it has emitted exactly one kernel after the code already in
the function: the standard convolution kernel if and only if `isDepthwiseSeparable` is
false, otherwise the depthwise-separable kernel; the kernel is given the three values the
compiler returned and the node's input layout, output layout, filterSize and stride. -/
theorem C14_compile_emits_one_kernel (assertionsEnabled : Bool)
    (n : SimpleConvolutionComputeNode) (compiler : IRMapCompiler) (function : IRFunctionEmitter)
    (h : n.CanCompile assertionsEnabled) :
    ∃ (pInput pWeights pOutput : Pointer) (c1 c2 c3 : IRMapCompiler),
      compiler.EnsurePortEmitted n.inputPort = (pInput, c1) ∧
      c1.EnsurePortEmitted n.filterWeightsPort = (pWeights, c2) ∧
      c2.EnsurePortEmitted n.outputPort = (pOutput, c3) ∧
      n.Compile assertionsEnabled compiler function =
        (Except.ok (), c3,
          { code := function.code ++
              [(if n.isDepthwiseSeparable then EmittedCode.SimpleDepthwiseSeparableConvolution
                else EmittedCode.SimpleConvolution)
                { input := pInput, filterWeights := pWeights, result := pOutput,
                  inputLayout := n.GetInputMemoryLayout,
                  outputLayout := n.GetOutputMemoryLayout,
                  filterSize := n.filterSize, stride := n.stride }] }) ∧
      c3.calls = compiler.calls ++ [n.inputPort, n.filterWeightsPort, n.outputPort] ∧
      (∀ k : ConvolutionKernel,
        EmittedCode.SimpleConvolution k ∈
            (n.Compile assertionsEnabled compiler function).2.2.code.drop function.code.length ↔
          n.isDepthwiseSeparable = false ∧
            k = { input := pInput, filterWeights := pWeights, result := pOutput,
                  inputLayout := n.GetInputMemoryLayout,
                  outputLayout := n.GetOutputMemoryLayout,
                  filterSize := n.filterSize, stride := n.stride }) := by
  obtain ⟨h1, h2, h3, h4, h5⟩ := h
  have hCompile : n.Compile assertionsEnabled compiler function =
      (Except.ok (),
        (((compiler.EnsurePortEmitted n.inputPort).2.EnsurePortEmitted
          n.filterWeightsPort).2.EnsurePortEmitted n.outputPort).2,
        { code := function.code ++
            [(if n.isDepthwiseSeparable then EmittedCode.SimpleDepthwiseSeparableConvolution
              else EmittedCode.SimpleConvolution)
              { input := (compiler.EnsurePortEmitted n.inputPort).1,
                filterWeights := ((compiler.EnsurePortEmitted n.inputPort).2.EnsurePortEmitted
                  n.filterWeightsPort).1,
                result := (((compiler.EnsurePortEmitted n.inputPort).2.EnsurePortEmitted
                  n.filterWeightsPort).2.EnsurePortEmitted n.outputPort).1,
                inputLayout := n.GetInputMemoryLayout,
                outputLayout := n.GetOutputMemoryLayout,
                filterSize := n.filterSize, stride := n.stride }] }) := by
    have hOffset := PortMemoryLayout.GetOffsetAt_of_lt n.inputMemoryLayout 0 (by omega)
    have hIn := PortMemoryLayout.GetActiveSizeAt_of_lt n.inputMemoryLayout 2 (by omega)
    have hOut := PortMemoryLayout.GetActiveSizeAt_of_lt n.output.layout 2 (by omega)
    have hA : (assertionsEnabled &&
        decide (n.inputMemoryLayout.Offset 0 ≠ n.filterSize.tdiv 2)) = false := by
      cases assertionsEnabled with
      | false => rfl
      | true => simp [(h5 rfl).1]
    cases hFlag : n.isDepthwiseSeparable with
    | false =>
      simp only [SimpleConvolutionComputeNode.Compile,
        SimpleConvolutionComputeNode.GetInputMemoryLayout,
        SimpleConvolutionComputeNode.GetOutputMemoryLayout, OutputPortBase.GetMemoryLayout,
        EmitSimpleConvolutionCode, IRFunctionEmitter.Emit, hOffset, hA, hFlag]
      simp [h1, h2, h4, show 2 ≤ n.inputMemoryLayout.stride.length by omega]
    | true =>
      have hB : (assertionsEnabled &&
          decide (n.output.layout.ActiveSize 2 ≠ n.inputMemoryLayout.ActiveSize 2)) = false := by
        cases assertionsEnabled with
        | false => rfl
        | true => simp [(h5 rfl).2 hFlag]
      simp only [SimpleConvolutionComputeNode.Compile,
        SimpleConvolutionComputeNode.GetInputMemoryLayout,
        SimpleConvolutionComputeNode.GetOutputMemoryLayout, OutputPortBase.GetMemoryLayout,
        EmitSimpleDepthwiseSeparableConvolutionCode, IRFunctionEmitter.Emit, hOffset, hIn, hOut,
        hA, hB, hFlag]
      simp [h2, h4]
  refine ⟨(compiler.EnsurePortEmitted n.inputPort).1,
    ((compiler.EnsurePortEmitted n.inputPort).2.EnsurePortEmitted n.filterWeightsPort).1,
    (((compiler.EnsurePortEmitted n.inputPort).2.EnsurePortEmitted
      n.filterWeightsPort).2.EnsurePortEmitted n.outputPort).1,
    (compiler.EnsurePortEmitted n.inputPort).2,
    ((compiler.EnsurePortEmitted n.inputPort).2.EnsurePortEmitted n.filterWeightsPort).2,
    (((compiler.EnsurePortEmitted n.inputPort).2.EnsurePortEmitted
      n.filterWeightsPort).2.EnsurePortEmitted n.outputPort).2,
    rfl, rfl, rfl, hCompile, ?_, ?_⟩
  · simp [IRMapCompiler.EnsurePortEmitted_calls]
  · intro k
    rw [hCompile]
    cases hFlag : n.isDepthwiseSeparable <;> simp [eq_comm]

/-- C14, instantiated at the example compute node, with `assert` compiled in: the node can
be compiled, and compiling it with a fresh compiler into an empty function emits the
standard kernel over the three values the compiler returned; the example
depthwise-separable node gets the depthwise-separable kernel. -/
theorem C14_compile_emits_one_kernel_witness :
    Example.computeNode.CanCompile true ∧
      (∃ (pInput pWeights pOutput : Pointer) (c3 : IRMapCompiler),
        Example.computeNode.Compile true Example.compiler Example.function =
          (Except.ok (), c3,
            { code := Example.function.code ++
                [(if Example.computeNode.isDepthwiseSeparable then
                    EmittedCode.SimpleDepthwiseSeparableConvolution
                  else EmittedCode.SimpleConvolution)
                  { input := pInput, filterWeights := pWeights, result := pOutput,
                    inputLayout := Example.computeNode.GetInputMemoryLayout,
                    outputLayout := Example.computeNode.GetOutputMemoryLayout,
                    filterSize := Example.computeNode.filterSize,
                    stride := Example.computeNode.stride }] }) ∧
        c3.calls = Example.compiler.calls ++
          [Example.computeNode.inputPort, Example.computeNode.filterWeightsPort,
            Example.computeNode.outputPort]) ∧
      (Example.computeNode.Compile true Example.compiler Example.function).2.2.code =
        [EmittedCode.SimpleConvolution
          { input := 0, filterWeights := 1, result := 2,
            inputLayout := Example.paddedLayout, outputLayout := Example.plainLayout,
            filterSize := 3, stride := 1 }] ∧
      Example.depthwiseComputeNode.CanCompile true ∧
      (Example.depthwiseComputeNode.Compile true Example.compiler Example.function).2.2.code =
        [EmittedCode.SimpleDepthwiseSeparableConvolution
          { input := 0, filterWeights := 1, result := 2,
            inputLayout := Example.paddedLayout, outputLayout := Example.deepLayout,
            filterSize := 3, stride := 1 }] := by
  refine ⟨by decide, ?_, by decide, by decide, by decide⟩
  obtain ⟨pInput, pWeights, pOutput, _, _, c3, _, _, _, hCompile, hCalls, _⟩ :=
    C14_compile_emits_one_kernel true Example.computeNode Example.compiler Example.function
      (by decide)
  exact ⟨pInput, pWeights, pOutput, c3, hCompile, hCalls⟩

/-- Every access of a loop is an access of one of its iterations. -/
theorem forEach_accesses (body : Int → Code) (l : List Nat) (m : Memory) (a : Access)
    (h : a ∈ (forEach body l m).2) : ∃ i ∈ l, ∃ m' : Memory, a ∈ (body i m').2 := by
  induction l generalizing m with
  | nil => simp [forEach] at h
  | cons i rest ih =>
    simp only [forEach, List.mem_append] at h
    rcases h with h | h
    · exact ⟨i, List.mem_cons_self _ _, m, h⟩
    · obtain ⟨j, hj, m', hm'⟩ := ih _ h
      exact ⟨j, List.mem_cons_of_mem _ hj, m', hm'⟩

/-- A dot product only loads, through its two pointers. -/
theorem dotProductLoop_accesses (left right : Pointer × Int) (l : List Nat) (sum : Value)
    (m : Memory) (a : Access) (h : a ∈ (dotProductLoop left right l sum m).2) :
    a.isWrite = false ∧ (a.buffer = left.1 ∨ a.buffer = right.1) := by
  induction l generalizing sum with
  | nil => simp [dotProductLoop] at h
  | cons i rest ih =>
    simp only [dotProductLoop, load, List.mem_append, List.mem_singleton] at h
    rcases h with (h | h) | h
    · subst h; exact ⟨rfl, Or.inl rfl⟩
    · subst h; exact ⟨rfl, Or.inr rfl⟩
    · exact ih _ h

/-- The window-column loop of the standard kernel only loads, from the input and the filter
weights. -/
theorem SimpleConvolutionCode.windowColumns_accesses (k : ConvolutionKernel)
    (filterIndex outputRow outputColumn : Int) (windowRow : Nat) (l : List Nat) (val : Value)
    (m : Memory) (a : Access)
    (h : a ∈ (SimpleConvolutionCode.windowColumns k filterIndex outputRow outputColumn windowRow
      l val m).2) :
    a.isWrite = false ∧ (a.buffer = k.input ∨ a.buffer = k.filterWeights) := by
  induction l generalizing val with
  | nil => simp [SimpleConvolutionCode.windowColumns] at h
  | cons i rest ih =>
    simp only [SimpleConvolutionCode.windowColumns, List.mem_append] at h
    rcases h with h | h
    · exact dotProductLoop_accesses _ _ _ _ _ _ h
    · exact ih _ h

/-- One window row of the standard kernel only loads, from the input and the filter
weights. -/
theorem SimpleConvolutionCode.windowRow_accesses (k : ConvolutionKernel)
    (filterIndex outputRow outputColumn : Int) (row : Nat) (val : Value) (m : Memory)
    (a : Access)
    (h : a ∈ (SimpleConvolutionCode.windowRow k filterIndex outputRow outputColumn row val
      m).2) :
    a.isWrite = false ∧ (a.buffer = k.input ∨ a.buffer = k.filterWeights) := by
  unfold SimpleConvolutionCode.windowRow at h
  split at h
  · exact dotProductLoop_accesses _ _ _ _ _ _ h
  · exact SimpleConvolutionCode.windowColumns_accesses _ _ _ _ _ _ _ _ _ h

/-- The accesses of the code for one output element of the standard kernel: loads from the
input and the filter weights, and stores to the element. -/
theorem SimpleConvolutionCode.windowRows_accesses (k : ConvolutionKernel)
    (filterIndex outputRow outputColumn : Int) (l : List Nat) (val : Value) (m : Memory)
    (a : Access)
    (h : a ∈ (SimpleConvolutionCode.windowRows k filterIndex outputRow outputColumn l val m).2) :
    (a.isWrite = false ∧ (a.buffer = k.input ∨ a.buffer = k.filterWeights)) ∨
      a = { isWrite := true, buffer := k.result,
            address := rowMajorOffset k.outputLayout.GetStride
              [outputRow, outputColumn, filterIndex] 0,
            element := [outputRow, outputColumn, filterIndex] } := by
  induction l generalizing val m with
  | nil => simp [SimpleConvolutionCode.windowRows] at h
  | cons i rest ih =>
    simp only [SimpleConvolutionCode.windowRows, List.mem_append] at h
    rcases h with (h | h) | h
    · exact Or.inl (SimpleConvolutionCode.windowRow_accesses _ _ _ _ _ _ _ _ h)
    · right
      simpa [LocalTensor.set, LocalTensor.offsetOf, SimpleConvolutionCode.outputTensor] using h
    · exact ih _ _ h

/-- The accesses of one iteration of the parallel loop of the standard kernel: loads from
the input and the filter weights, and stores to the elements
`{row, column, filterIndex}` of the output, for the rows and columns of the output. -/
theorem SimpleConvolutionCode.iteration_accesses (k : ConvolutionKernel) (filterIndex : Int)
    (m : Memory) (a : Access)
    (h : a ∈ accessesOf (SimpleConvolutionCode.iteration k filterIndex) m) :
    (a.isWrite = false ∧ (a.buffer = k.input ∨ a.buffer = k.filterWeights)) ∨
      ∃ row column : Nat, row < (k.outputLayout.ActiveSize 0).toNat ∧
        column < (k.outputLayout.ActiveSize 1).toNat ∧
        a = { isWrite := true, buffer := k.result,
              address := rowMajorOffset k.outputLayout.GetStride
                [(row : Int), (column : Int), filterIndex] 0,
              element := [(row : Int), (column : Int), filterIndex] } := by
  unfold accessesOf SimpleConvolutionCode.iteration For at h
  obtain ⟨row, hRow, m1, h1⟩ := forEach_accesses _ _ _ _ h
  obtain ⟨column, hColumn, m2, h2⟩ := forEach_accesses _ _ _ _ h1
  rcases SimpleConvolutionCode.windowRows_accesses _ _ _ _ _ _ _ _ h2 with h3 | h3
  · exact Or.inl h3
  · exact Or.inr ⟨row, column, List.mem_range.1 hRow, List.mem_range.1 hColumn, h3⟩

/-- The window-column loop of the depthwise-separable kernel only loads, from the input and
the filter weights. -/
theorem SimpleDepthwiseSeparableConvolutionCode.depthwise_windowColumns_accesses
    (k : ConvolutionKernel) (outputRow outputColumn filterIndex : Int) (windowRow : Nat)
    (l : List Nat) (val : Value) (m : Memory) (a : Access)
    (h : a ∈ (SimpleDepthwiseSeparableConvolutionCode.windowColumns k outputRow outputColumn
      filterIndex windowRow l val m).2) :
    a.isWrite = false ∧ (a.buffer = k.input ∨ a.buffer = k.filterWeights) := by
  induction l generalizing val with
  | nil => simp [SimpleDepthwiseSeparableConvolutionCode.windowColumns] at h
  | cons i rest ih =>
    simp only [SimpleDepthwiseSeparableConvolutionCode.windowColumns, LocalTensor.get,
      List.mem_append, List.mem_singleton] at h
    rcases h with (h | h) | h
    · subst h; exact ⟨rfl, Or.inl rfl⟩
    · subst h; exact ⟨rfl, Or.inr rfl⟩
    · exact ih _ h

/-- The window-row loop of the depthwise-separable kernel only loads, from the input and the
filter weights. -/
theorem SimpleDepthwiseSeparableConvolutionCode.depthwise_windowRows_accesses
    (k : ConvolutionKernel) (outputRow outputColumn filterIndex : Int)
    (l : List Nat) (val : Value) (m : Memory) (a : Access)
    (h : a ∈ (SimpleDepthwiseSeparableConvolutionCode.windowRows k outputRow outputColumn
      filterIndex l val m).2) :
    a.isWrite = false ∧ (a.buffer = k.input ∨ a.buffer = k.filterWeights) := by
  induction l generalizing val with
  | nil => simp [SimpleDepthwiseSeparableConvolutionCode.windowRows] at h
  | cons i rest ih =>
    simp only [SimpleDepthwiseSeparableConvolutionCode.windowRows, List.mem_append] at h
    rcases h with h | h
    · exact SimpleDepthwiseSeparableConvolutionCode.depthwise_windowColumns_accesses
        _ _ _ _ _ _ _ _ _ h
    · exact ih _ h

/-- The accesses of one iteration of the parallel loop of the depthwise-separable kernel:
loads from the input and the filter weights, and stores to the elements
`{outputRow, column, filter}` of the output, for the columns and channels of the output. -/
theorem SimpleDepthwiseSeparableConvolutionCode.depthwise_iteration_accesses
    (k : ConvolutionKernel) (outputRow : Int) (m : Memory) (a : Access)
    (h : a ∈ accessesOf (SimpleDepthwiseSeparableConvolutionCode.iteration k outputRow) m) :
    (a.isWrite = false ∧ (a.buffer = k.input ∨ a.buffer = k.filterWeights)) ∨
      ∃ column filter : Nat, column < (k.outputLayout.ActiveSize 1).toNat ∧
        filter < (k.outputLayout.ActiveSize 2).toNat ∧
        a = { isWrite := true, buffer := k.result,
              address := rowMajorOffset k.outputLayout.GetStride
                [outputRow, (column : Int), (filter : Int)] 0,
              element := [outputRow, (column : Int), (filter : Int)] } := by
  unfold accessesOf SimpleDepthwiseSeparableConvolutionCode.iteration For at h
  obtain ⟨column, hColumn, m1, h1⟩ := forEach_accesses _ _ _ _ h
  obtain ⟨filter, hFilter, m2, h2⟩ := forEach_accesses _ _ _ _ h1
  simp only [SimpleDepthwiseSeparableConvolutionCode.element, List.mem_append] at h2
  rcases h2 with h3 | h3
  · exact Or.inl
      (SimpleDepthwiseSeparableConvolutionCode.depthwise_windowRows_accesses _ _ _ _ _ _ _ _ h3)
  · right
    refine ⟨column, filter, List.mem_range.1 hColumn, List.mem_range.1 hFilter, ?_⟩
    simpa [LocalTensor.set, LocalTensor.offsetOf,
      SimpleDepthwiseSeparableConvolutionCode.outputTensor] using h3

/-- A flat offset `x * extent + i` with `0 ≤ i < extent` determines `x` and `i`. -/
theorem flatOffset_injective (extent x y i j : Int) (hi : 0 ≤ i) (hi' : i < extent)
    (hj : 0 ≤ j) (hj' : j < extent) (h : x * extent + i = y * extent + j) : x = y ∧ i = j := by
  have hij : i = j := by
    have h1 : (x * extent + i) % extent = i := by
      rw [add_comm, Int.add_mul_emod_self]
      exact Int.emod_eq_of_lt hi hi'
    have h2 : (y * extent + j) % extent = j := by
      rw [add_comm, Int.add_mul_emod_self]
      exact Int.emod_eq_of_lt hj hj'
    rw [← h1, ← h2, h]
  subst hij
  have hpos : extent ≠ 0 := by omega
  exact ⟨mul_right_cancel₀ hpos (by linarith), rfl⟩

/-- The row-major flat offset of an element of a view with at least three extents, the last
of them positive. -/
theorem rowMajorOffset_three (l : PortMemoryLayout) (r c f : Int) (h : 0 < l.Stride 2) :
    rowMajorOffset l.GetStride [r, c, f] 0 = (r * l.Stride 1 + c) * l.Stride 2 + f := by
  unfold PortMemoryLayout.Stride at *
  unfold PortMemoryLayout.GetStride
  match hl : l.stride with
  | [] => rw [hl] at h; simp at h
  | [_] => rw [hl] at h; simp at h
  | [_, _] => rw [hl] at h; simp at h
  | s0 :: s1 :: s2 :: rest => simp [rowMajorOffset]

/-- C15: the parallel loops are over independent output slices. For every kernel `k`:
(1) in the standard kernel every store of the iteration for `filterIndex` goes to an element
`{row, column, filterIndex}` of the output view, at its row-major flat address, so two
iterations with different `filterIndex` store to different elements;
(2) in the depthwise-separable kernel every store of the iteration for `outputRow` goes to
an element `{outputRow, column, filter}`, so two iterations with different `outputRow`
store to different elements;
(3) if `activeSize(d) ≤ stride(d)` for the three dimensions of the output layout, the flat
addresses stored to by two different iterations of the parallel loop (of either kernel)
differ too;
(4) every load of an iteration goes through the input or the filter weights pointer, so no
iteration reads the output buffer when that is a buffer of its own. -/
theorem C15_parallel_iterations_are_independent (k : ConvolutionKernel) :
    (∀ (filterIndex filterIndex' : Nat) (m m' : Memory) (a b : Access),
        filterIndex ≠ filterIndex' →
        a ∈ accessesOf (SimpleConvolutionCode.iteration k filterIndex) m → a.isWrite = true →
        b ∈ accessesOf (SimpleConvolutionCode.iteration k filterIndex') m' → b.isWrite = true →
        a.buffer = k.result ∧ a.element.length = 3 ∧
          a.element.get? 2 = some (filterIndex : Int) ∧
          a.address = rowMajorOffset k.outputLayout.GetStride a.element 0 ∧
          a.element ≠ b.element) ∧
    (∀ (outputRow outputRow' : Nat) (m m' : Memory) (a b : Access),
        outputRow ≠ outputRow' →
        a ∈ accessesOf (SimpleDepthwiseSeparableConvolutionCode.iteration k outputRow) m →
        a.isWrite = true →
        b ∈ accessesOf (SimpleDepthwiseSeparableConvolutionCode.iteration k outputRow') m' →
        b.isWrite = true →
        a.buffer = k.result ∧ a.element.length = 3 ∧
          a.element.get? 0 = some (outputRow : Int) ∧
          a.address = rowMajorOffset k.outputLayout.GetStride a.element 0 ∧
          a.element ≠ b.element) ∧
    ((∀ d : Nat, d < 3 → k.outputLayout.ActiveSize d ≤ k.outputLayout.Stride d) →
      (∀ (filterIndex filterIndex' : Nat) (m m' : Memory) (a b : Access),
        filterIndex < (k.outputLayout.ActiveSize 2).toNat →
        filterIndex' < (k.outputLayout.ActiveSize 2).toNat →
        filterIndex ≠ filterIndex' →
        a ∈ accessesOf (SimpleConvolutionCode.iteration k filterIndex) m → a.isWrite = true →
        b ∈ accessesOf (SimpleConvolutionCode.iteration k filterIndex') m' → b.isWrite = true →
        a.address ≠ b.address) ∧
      (∀ (outputRow outputRow' : Nat) (m m' : Memory) (a b : Access),
        outputRow < (k.outputLayout.ActiveSize 0).toNat →
        outputRow' < (k.outputLayout.ActiveSize 0).toNat →
        outputRow ≠ outputRow' →
        a ∈ accessesOf (SimpleDepthwiseSeparableConvolutionCode.iteration k outputRow) m →
        a.isWrite = true →
        b ∈ accessesOf (SimpleDepthwiseSeparableConvolutionCode.iteration k outputRow') m' →
        b.isWrite = true →
        a.address ≠ b.address)) ∧
    (∀ (filterIndex : Nat) (m : Memory) (a : Access),
        a ∈ accessesOf (SimpleConvolutionCode.iteration k filterIndex) m → a.isWrite = false →
        (a.buffer = k.input ∨ a.buffer = k.filterWeights) ∧
          (k.result ≠ k.input → k.result ≠ k.filterWeights → a.buffer ≠ k.result)) ∧
    (∀ (outputRow : Nat) (m : Memory) (a : Access),
        a ∈ accessesOf (SimpleDepthwiseSeparableConvolutionCode.iteration k outputRow) m →
        a.isWrite = false →
        (a.buffer = k.input ∨ a.buffer = k.filterWeights) ∧
          (k.result ≠ k.input → k.result ≠ k.filterWeights → a.buffer ≠ k.result)) := by
  refine ⟨?_, ?_, ?_, ?_, ?_⟩
  · intro f f' m m' a b hne ha haw hb hbw
    rcases SimpleConvolutionCode.iteration_accesses k f m a ha with h | ⟨r, c, _, _, h⟩
    · rw [h.1] at haw; cases haw
    rcases SimpleConvolutionCode.iteration_accesses k f' m' b hb with h' | ⟨r', c', _, _, h'⟩
    · rw [h'.1] at hbw; cases hbw
    subst h
    subst h'
    refine ⟨rfl, rfl, rfl, rfl, ?_⟩
    intro he
    simp only [List.cons.injEq, Nat.cast_inj, and_true] at he
    exact hne he.2.2
  · intro R R' m m' a b hne ha haw hb hbw
    rcases SimpleDepthwiseSeparableConvolutionCode.depthwise_iteration_accesses k R m a ha with
      h | ⟨c, f, _, _, h⟩
    · rw [h.1] at haw; cases haw
    rcases SimpleDepthwiseSeparableConvolutionCode.depthwise_iteration_accesses k R' m' b hb with
      h' | ⟨c', f', _, _, h'⟩
    · rw [h'.1] at hbw; cases hbw
    subst h
    subst h'
    refine ⟨rfl, rfl, rfl, rfl, ?_⟩
    intro he
    simp only [List.cons.injEq, Nat.cast_inj, and_true] at he
    exact hne he.1
  · intro hStride
    have h1 := hStride 1 (by decide)
    have h2 := hStride 2 (by decide)
    constructor
    · intro f f' m m' a b hf hf' hne ha haw hb hbw
      rcases SimpleConvolutionCode.iteration_accesses k f m a ha with h | ⟨r, c, _, _, h⟩
      · rw [h.1] at haw; cases haw
      rcases SimpleConvolutionCode.iteration_accesses k f' m' b hb with h' | ⟨r', c', _, _, h'⟩
      · rw [h'.1] at hbw; cases hbw
      subst h
      subst h'
      have hfA : (f : Int) < k.outputLayout.ActiveSize 2 := by omega
      have hfA' : (f' : Int) < k.outputLayout.ActiveSize 2 := by omega
      intro he
      simp only at he
      rw [rowMajorOffset_three _ _ _ _ (by omega), rowMajorOffset_three _ _ _ _ (by omega)] at he
      have := (flatOffset_injective _ _ _ _ _ (by omega) (by omega) (by omega) (by omega) he).2
      exact hne (by exact_mod_cast this)
    · intro R R' m m' a b hR hR' hne ha haw hb hbw
      rcases SimpleDepthwiseSeparableConvolutionCode.depthwise_iteration_accesses k R m a ha with
        h | ⟨c, f, hc, hf, h⟩
      · rw [h.1] at haw; cases haw
      rcases SimpleDepthwiseSeparableConvolutionCode.depthwise_iteration_accesses k R' m' b hb
        with h' | ⟨c', f', hc', hf', h'⟩
      · rw [h'.1] at hbw; cases hbw
      subst h
      subst h'
      have hfA : (f : Int) < k.outputLayout.ActiveSize 2 := by omega
      have hfA' : (f' : Int) < k.outputLayout.ActiveSize 2 := by omega
      have hcA : (c : Int) < k.outputLayout.ActiveSize 1 := by omega
      have hcA' : (c' : Int) < k.outputLayout.ActiveSize 1 := by omega
      intro he
      simp only at he
      rw [rowMajorOffset_three _ _ _ _ (by omega), rowMajorOffset_three _ _ _ _ (by omega)] at he
      have hx := (flatOffset_injective _ _ _ _ _ (by omega) (by omega) (by omega) (by omega)
        he).1
      have := (flatOffset_injective _ _ _ _ _ (by omega) (by omega) (by omega) (by omega) hx).1
      exact hne (by exact_mod_cast this)
  · intro f m a ha har
    rcases SimpleConvolutionCode.iteration_accesses k f m a ha with h | ⟨r, c, _, _, h⟩
    · refine ⟨h.2, fun h1 h2 he => ?_⟩
      rcases h.2 with h3 | h3
      · exact h1 (he.symm.trans h3)
      · exact h2 (he.symm.trans h3)
    · subst h; cases har
  · intro R m a ha har
    rcases SimpleDepthwiseSeparableConvolutionCode.depthwise_iteration_accesses k R m a ha with
      h | ⟨c, f, _, _, h⟩
    · refine ⟨h.2, fun h1 h2 he => ?_⟩
      rcases h.2 with h3 | h3
      · exact h1 (he.symm.trans h3)
      · exact h2 (he.symm.trans h3)
    · subst h; cases har

/-- C15, instantiated at the example kernel: the first store of the standard kernel's
iterations for filters 0 and 1, and of the depthwise-separable kernel's iterations for
output rows 0 and 1, go to different elements at different addresses. -/
theorem C15_parallel_iterations_are_independent_witness :
    Example.kernel.outputLayout.ActiveSize 0 ≤ Example.kernel.outputLayout.Stride 0 ∧
      Example.kernel.outputLayout.ActiveSize 1 ≤ Example.kernel.outputLayout.Stride 1 ∧
      Example.kernel.outputLayout.ActiveSize 2 ≤ Example.kernel.outputLayout.Stride 2 ∧
      ({ isWrite := true, buffer := 2, address := 0, element := [0, 0, 0] } : Access) ∈
        accessesOf (SimpleConvolutionCode.iteration Example.kernel 0) Example.memory ∧
      ({ isWrite := true, buffer := 2, address := 1, element := [0, 0, 1] } : Access) ∈
        accessesOf (SimpleConvolutionCode.iteration Example.kernel 1) Example.memory ∧
      ({ isWrite := true, buffer := 2, address := 0, element := [0, 0, 0] } : Access) ∈
        accessesOf (SimpleDepthwiseSeparableConvolutionCode.iteration Example.kernel 0)
          Example.memory ∧
      ({ isWrite := true, buffer := 2, address := 6, element := [1, 0, 0] } : Access) ∈
        accessesOf (SimpleDepthwiseSeparableConvolutionCode.iteration Example.kernel 1)
          Example.memory ∧
      ([0, 0, 0] : List Int) ≠ [0, 0, 1] ∧ (0 : Int) ≠ 1 ∧
      ([0, 0, 0] : List Int) ≠ [1, 0, 0] ∧ (0 : Int) ≠ 6 :=
  ⟨by decide, by decide, by decide, by decide, by decide, by decide, by decide,
    ((C15_parallel_iterations_are_independent Example.kernel).1 0 1 Example.memory
      Example.memory { isWrite := true, buffer := 2, address := 0, element := [0, 0, 0] }
      { isWrite := true, buffer := 2, address := 1, element := [0, 0, 1] }
      (by decide) (by decide) rfl (by decide) rfl).2.2.2.2,
    (C15_parallel_iterations_are_independent Example.kernel).2.2.1 (by decide) |>.1 0 1
      Example.memory Example.memory
      { isWrite := true, buffer := 2, address := 0, element := [0, 0, 0] }
      { isWrite := true, buffer := 2, address := 1, element := [0, 0, 1] }
      (by decide) (by decide) (by decide) (by decide) rfl (by decide) rfl,
    ((C15_parallel_iterations_are_independent Example.kernel).2.1 0 1 Example.memory
      Example.memory { isWrite := true, buffer := 2, address := 0, element := [0, 0, 0] }
      { isWrite := true, buffer := 2, address := 6, element := [1, 0, 0] }
      (by decide) (by decide) rfl (by decide) rfl).2.2.2.2,
    (C15_parallel_iterations_are_independent Example.kernel).2.2.1 (by decide) |>.2 0 1
      Example.memory Example.memory
      { isWrite := true, buffer := 2, address := 0, element := [0, 0, 0] }
      { isWrite := true, buffer := 2, address := 6, element := [1, 0, 0] }
      (by decide) (by decide) (by decide) (by decide) rfl (by decide) rfl⟩
/-! ## Refinement fixed point (C16) -/

/-- When `SimpleConvolutionNode::Refine` returns, it returns true. -/
theorem SimpleConvolutionNode.Refine_returns_true (V : ValueType) (n : SimpleConvolutionNode)
    (t : ModelTransformer) (b : Bool) (h : (n.Refine V t).1 = Except.ok b) : b = true := by
  unfold SimpleConvolutionNode.Refine at h
  rw [TransformerM.bind_apply] at h
  cases h1 : ModelTransformer.TransformPortElements n.input t with
  | mk r1 t1 =>
    rw [h1] at h
    cases r1 with
    | error e => simp at h
    | ok newInput =>
      simp only [] at h
      rw [TransformerM.bind_apply] at h
      revert h
      cases ModelTransformer.AddNode (Node.Constant V)
        (fun self => ConstantNode.ctor V self n.filterWeights.ReferenceAsMatrix.ToArray) t1 with
      | mk r2 t2 =>
        cases r2 with
        | error e => simp
        | ok weightsNode =>
          simp only []
          rw [TransformerM.bind_apply]
          cases ModelTransformer.AddNode (Node.SimpleConvolutionCompute V)
            (fun self => SimpleConvolutionComputeNode.ctor V self newInput
              (PortElements.ofPort weightsNode.output) n.inputMemoryLayout
              n.GetOutputMemoryLayout (toInt n.filterWeights.NumColumns) n.stride
              n.isDepthwiseSeparable) t2 with
          | mk r3 t3 =>
            cases r3 with
            | error e => simp
            | ok convNode =>
              simp only [TransformerM.bind_apply, ModelTransformer.MapNodeOutput,
                TransformerM.pure_apply]
              intro h
              simp only [Except.ok.injEq] at h
              exact h.symm

/-- C16: refinement fixed point. For every node, and given that the `Refine` overrides that
are not among the sources return false for the node in every transformer state once they
return false in one, once `Refine` returns false it returns false again, in the state it
left and in every other state; and whenever `SimpleConvolutionNode::Refine` returns, in
whatever transformer state and after however many earlier calls, it returns true. -/
theorem C16_refine_fixed_point :
    (∀ (refineOther : Node → TransformerM Bool) (node : Node) (t t2 : ModelTransformer),
        (∀ u u2 : ModelTransformer, (refineOther node u).1 = Except.ok false →
          (refineOther node u2).1 = Except.ok false) →
        (node.Refine refineOther t).1 = Except.ok false →
        (node.Refine refineOther (node.Refine refineOther t).2).1 = Except.ok false ∧
          (node.Refine refineOther t2).1 = Except.ok false) ∧
    (∀ (V : ValueType) (n : SimpleConvolutionNode) (t : ModelTransformer) (b : Bool),
        (n.Refine V t).1 = Except.ok b → b = true) ∧
    (∀ (V : ValueType) (n : SimpleConvolutionNode) (t t2 : ModelTransformer) (b b2 : Bool),
        (n.Refine V t).1 = Except.ok b → (n.Refine V t2).1 = Except.ok b2 → b = b2) ∧
    (∀ (V : ValueType) (n : SimpleConvolutionNode) (t : ModelTransformer) (b : Bool),
        (n.Refine V (n.Refine V t).2).1 = Except.ok b → b = true) := by
  refine ⟨?_, ?_, ?_, ?_⟩
  · intro refineOther node t t2 hOther h
    have key : ∀ u : ModelTransformer, (node.Refine refineOther u).1 = Except.ok false := by
      intro u
      cases node with
      | SimpleConvolution V n =>
        have := SimpleConvolutionNode.Refine_returns_true V n t false h
        exact absurd this (by decide)
      | SimpleConvolutionCompute V n => rfl
      | BinaryFunction V n => rfl
      | ReorderData V n => rfl
      | Constant V n => exact hOther t u h
      | Input V n => exact hOther t u h
      | Output V n => exact hOther t u h
      | Source V n => exact hOther t u h
      | Sink V n => exact hOther t u h
      | Other n => exact hOther t u h
    exact ⟨key _, key _⟩
  · exact SimpleConvolutionNode.Refine_returns_true
  · intro V n t t2 b b2 h h2
    rw [SimpleConvolutionNode.Refine_returns_true V n t b h,
      SimpleConvolutionNode.Refine_returns_true V n t2 b2 h2]
  · intro V n t b h
    exact SimpleConvolutionNode.Refine_returns_true V n _ b h

/-- C16, instantiated: the example compute node reports no decomposition on the empty
transformer and again afterwards and on the example transformer; refining the example
convolution node on the example transformer returns true, also when repeated. -/
theorem C16_refine_fixed_point_witness :
    ((Node.SimpleConvolutionCompute ValueType.float Example.computeNode).Refine
        Example.refineOther
        ((Node.SimpleConvolutionCompute ValueType.float Example.computeNode).Refine
          Example.refineOther Example.emptyTransformer).2).1 = Except.ok false ∧
      ((Node.SimpleConvolutionCompute ValueType.float Example.computeNode).Refine
        Example.refineOther Example.transformer).1 = Except.ok false ∧
      ((Node.Constant ValueType.float
          { values := [1], output := Example.port0 }).Refine
        Example.refineOther Example.transformer).1 = Except.ok false ∧
      (Example.convNode.Refine ValueType.float Example.transformer).1 = Except.ok true ∧
      (Example.convNode.Refine ValueType.float
        (Example.convNode.Refine ValueType.float Example.transformer).2).1 = Except.ok true :=
  ⟨(C16_refine_fixed_point.1 Example.refineOther
      (Node.SimpleConvolutionCompute ValueType.float Example.computeNode)
      Example.emptyTransformer Example.transformer (fun _ _ _ => rfl) (by decide)).1,
    (C16_refine_fixed_point.1 Example.refineOther
      (Node.SimpleConvolutionCompute ValueType.float Example.computeNode)
      Example.emptyTransformer Example.transformer (fun _ _ _ => rfl) (by decide)).2,
    (C16_refine_fixed_point.1 Example.refineOther
      (Node.Constant ValueType.float { values := [1], output := Example.port0 })
      Example.emptyTransformer Example.transformer (fun _ _ _ => rfl) (by decide)).2,
    by decide, by decide⟩

/-! ## Registration of the pass (C17) -/

/-- C17: `AddToRegistry` appends exactly one entry to the pass registry, whatever the
registry holds: the entry is named "ReplaceSourceAndSinkNodesPass", its applicability
predicate returns true for every optimizer configuration, and its factory returns a
`ReplaceSourceAndSinkNodesPass` instance, constructed by the call, whose `OptimizeNode` is
that of the pass. -/
theorem C17_add_to_registry_appends_one_entry {ModelOptimizerOptions : Type}
    (registry : OptimizationPassRegistry ModelOptimizerOptions) :
    ∃ info : OptimizationPassInfo ModelOptimizerOptions,
      (ReplaceSourceAndSinkNodesPass.AddToRegistry registry).passes =
        registry.passes ++ [info] ∧
      (ReplaceSourceAndSinkNodesPass.AddToRegistry registry).passes.length =
        registry.passes.length + 1 ∧
      info.name = "ReplaceSourceAndSinkNodesPass" ∧
      (∀ settings : ModelOptimizerOptions, info.isValidFunction settings = true) ∧
      info.createFunction () = OptimizationPass.ReplaceSourceAndSinkNodes {} ∧
      ∀ (MapCompilerOptions : Type)
        (optimizeOther : String → Node → MapCompilerOptions → ModelOptimizerContext →
          Except Error Unit × ModelOptimizerContext)
        (copyOther : Node → TransformerM Unit) (node : Node) (settings : MapCompilerOptions)
        (context : ModelOptimizerContext),
        (info.createFunction ()).OptimizeNode optimizeOther copyOther node settings context =
          ReplaceSourceAndSinkNodesPass.OptimizeNode copyOther node settings context :=
  ⟨{ name := "ReplaceSourceAndSinkNodesPass"
     isValidFunction := fun _ => true
     createFunction := fun _ => OptimizationPass.ReplaceSourceAndSinkNodes {} },
    rfl, by simp [ReplaceSourceAndSinkNodesPass.AddToRegistry, OptimizationPassRegistry.AddPass],
    rfl, fun _ => rfl, rfl, fun _ _ _ _ _ _ => rfl⟩

/-! ## MakeNArray (C18) -/

/-- The array `MakeNArray<N>()` holds the values 0, 1, ..., N-1 in this order. -/
theorem MakeNArray_eq (N : Nat) :
    MakeNArray N = List.map (fun i : Nat => (i : Int)) (List.range N) := by
  simp [MakeNArray, MakeNArrayImpl, make_index_sequence]

/-- C18: for every N, `MakeNArray<N>()` is an array of exactly N elements whose element at
index i is i, for every i below N; so it is strictly increasing, it is the identity
enumeration of 0..N-1, and it is empty for N = 0. For N up to `2^31` (the instantiations
that compile) every element is an `int`. -/
theorem C18_make_n_array (N : Nat) :
    (MakeNArray N).length = N ∧
      (∀ i : Nat, i < N → (MakeNArray N).get? i = some (i : Int)) ∧
      (∀ i : Nat, N ≤ i → (MakeNArray N).get? i = none) ∧
      List.Pairwise (· < ·) (MakeNArray N) ∧
      MakeNArray N = List.map (fun i : Nat => (i : Int)) (List.range N) ∧
      MakeNArray 0 = [] ∧
      (N ≤ 2 ^ 31 → ∀ x ∈ MakeNArray N, IsInt x) := by
  rw [MakeNArray_eq]
  refine ⟨by simp, ?_, ?_, ?_, rfl, rfl, ?_⟩
  · intro i hi
    simp [List.getElem?_map, List.getElem?_range hi]
  · intro i hi
    simp [hi]
  · rw [List.pairwise_map]
    have := List.pairwise_lt_range N
    exact this.imp (fun h => by exact_mod_cast h)
  · intro hN x hx
    simp only [List.mem_map, List.mem_range] at hx
    obtain ⟨i, hi, rfl⟩ := hx
    unfold IsInt
    constructor
    · have : (0 : Int) ≤ (i : Int) := Int.ofNat_nonneg i
      omega
    · have : (i : Int) < (N : Int) := by exact_mod_cast hi
      have h2 : (N : Int) ≤ (2 : Int) ^ 31 := by exact_mod_cast hN
      omega

/-- The array `MakeNArray<4>()`. -/
theorem MakeNArray_four : MakeNArray 4 = [0, 1, 2, 3] := by decide

/-! ## Atomicity on an unmapped reference (C19) -/

/-- When `TransformPortElements` raises, the elements are not rewritten by the mapping. -/
theorem ModelTransformer.transformRanges_of_raise (t : ModelTransformer) (pe : PortElements)
    (e : Error) (h : (ModelTransformer.TransformPortElements pe t).1 = Except.error e) :
    ModelTransformer.transformRanges t.elementsMap pe = none ∧
      e = Error.UnmappedReferenceError := by
  unfold ModelTransformer.TransformPortElements at h
  cases hr : ModelTransformer.transformRanges t.elementsMap pe with
  | none =>
    rw [hr] at h
    simp only [Except.error.injEq] at h
    exact ⟨rfl, h.symm⟩
  | some new =>
    rw [hr] at h
    simp at h

/-- C19: atomicity on an unmapped reference. If `TransformPortElements` raises for the input
of the node (for either of the two inputs of a `SimpleConvolutionComputeNode`), then
`SimpleConvolutionNode::Copy`, `SimpleConvolutionNode::Refine`,
`SimpleConvolutionComputeNode::Copy` and `TryReplaceSinkNode` raise the same error, add no
node to the target model and record no `MapNodeOutput` entry. -/
theorem C19_unmapped_reference_adds_nothing :
    (∀ (V : ValueType) (n : SimpleConvolutionNode) (t : ModelTransformer) (e : Error),
        (ModelTransformer.TransformPortElements n.input t).1 = Except.error e →
        (n.Copy V t).1 = Except.error e ∧ AddsNothing (n.Copy V) t) ∧
    (∀ (V : ValueType) (n : SimpleConvolutionNode) (t : ModelTransformer) (e : Error),
        (ModelTransformer.TransformPortElements n.input t).1 = Except.error e →
        (n.Refine V t).1 = Except.error e ∧ AddsNothing (n.Refine V) t) ∧
    (∀ (V : ValueType) (n : SimpleConvolutionComputeNode) (t : ModelTransformer) (e : Error),
        (ModelTransformer.TransformPortElements n.input t).1 = Except.error e ∨
          (ModelTransformer.TransformPortElements n.filterWeights t).1 = Except.error e →
        (n.Copy V t).1 = Except.error e ∧ AddsNothing (n.Copy V) t) ∧
    (∀ (V : ValueType) (node : Node) (thisNode : SinkNode) (t : ModelTransformer) (e : Error),
        node.asSinkNode V = some thisNode →
        (ModelTransformer.TransformPortElements thisNode.input t).1 = Except.error e →
        (TryReplaceSinkNode V node t).1 = Except.error e ∧
          AddsNothing (TryReplaceSinkNode V node) t) := by
  refine ⟨?_, ?_, ?_, ?_⟩
  · intro V n t e h
    obtain ⟨hr, he⟩ := ModelTransformer.transformRanges_of_raise t _ e h
    subst he
    unfold AddsNothing SimpleConvolutionNode.Copy
    rw [TransformerM.bind_error _ _ _ _ _ (ModelTransformer.TransformPortElements_error t _ hr)]
    simp [addNodeCalls_append, addNodeCalls, mapNodeOutputCalls_append, mapNodeOutputCalls]
  · intro V n t e h
    obtain ⟨hr, he⟩ := ModelTransformer.transformRanges_of_raise t _ e h
    subst he
    unfold AddsNothing SimpleConvolutionNode.Refine
    rw [TransformerM.bind_error _ _ _ _ _ (ModelTransformer.TransformPortElements_error t _ hr)]
    simp [addNodeCalls_append, addNodeCalls, mapNodeOutputCalls_append, mapNodeOutputCalls]
  · intro V n t e h
    unfold AddsNothing SimpleConvolutionComputeNode.Copy
    cases hi : ModelTransformer.transformRanges t.elementsMap n.input with
    | none =>
      have he : e = Error.UnmappedReferenceError := by
        rcases h with h | h
        · exact (ModelTransformer.transformRanges_of_raise t _ e h).2
        · exact (ModelTransformer.transformRanges_of_raise t _ e h).2
      subst he
      rw [TransformerM.bind_error _ _ _ _ _ (ModelTransformer.TransformPortElements_error t _ hi)]
      simp [addNodeCalls_append, addNodeCalls, mapNodeOutputCalls_append, mapNodeOutputCalls]
    | some newInput =>
      rcases h with h | h
      · have := (ModelTransformer.transformRanges_of_raise t _ e h).1
        rw [hi] at this
        simp at this
      · obtain ⟨hr, he⟩ := ModelTransformer.transformRanges_of_raise t _ e h
        subst he
        rw [TransformerM.bind_ok _ _ _ _ _ (ModelTransformer.TransformPortElements_ok t _ _ hi)]
        rw [TransformerM.bind_error _ _ _ _ _
          (ModelTransformer.TransformPortElements_error _ _ (by exact hr))]
        simp [addNodeCalls_append, addNodeCalls, mapNodeOutputCalls_append, mapNodeOutputCalls]
  · intro V node thisNode t e hs h
    obtain ⟨hr, he⟩ := ModelTransformer.transformRanges_of_raise t _ e h
    subst he
    unfold AddsNothing TryReplaceSinkNode
    rw [hs]
    simp only []
    rw [TransformerM.bind_error _ _ _ _ _ (ModelTransformer.TransformPortElements_error t _ hr)]
    simp [addNodeCalls_append, addNodeCalls, mapNodeOutputCalls_append, mapNodeOutputCalls]

/-- C19, instantiated on the empty transformer, in which the inputs of the example nodes are
not mapped. -/
theorem C19_unmapped_reference_adds_nothing_witness :
    ((Example.convNode.Copy ValueType.float Example.emptyTransformer).1 =
        Except.error Error.UnmappedReferenceError ∧
      AddsNothing (Example.convNode.Copy ValueType.float) Example.emptyTransformer) ∧
    ((Example.convNode.Refine ValueType.float Example.emptyTransformer).1 =
        Except.error Error.UnmappedReferenceError ∧
      AddsNothing (Example.convNode.Refine ValueType.float) Example.emptyTransformer) ∧
    ((Example.computeNode.Copy ValueType.float Example.emptyTransformer).1 =
        Except.error Error.UnmappedReferenceError ∧
      AddsNothing (Example.computeNode.Copy ValueType.float) Example.emptyTransformer) ∧
    ((TryReplaceSinkNode ValueType.float
        (Node.Sink ValueType.float (Example.sinkNode ValueType.float))
        Example.emptyTransformer).1 = Except.error Error.UnmappedReferenceError ∧
      AddsNothing
        (TryReplaceSinkNode ValueType.float
          (Node.Sink ValueType.float (Example.sinkNode ValueType.float)))
        Example.emptyTransformer) :=
  ⟨C19_unmapped_reference_adds_nothing.1 ValueType.float Example.convNode
      Example.emptyTransformer Error.UnmappedReferenceError (by decide),
    C19_unmapped_reference_adds_nothing.2.1 ValueType.float Example.convNode
      Example.emptyTransformer Error.UnmappedReferenceError (by decide),
    C19_unmapped_reference_adds_nothing.2.2.1 ValueType.float Example.computeNode
      Example.emptyTransformer Error.UnmappedReferenceError (Or.inr (by decide)),
    C19_unmapped_reference_adds_nothing.2.2.2 ValueType.float
      (Node.Sink ValueType.float (Example.sinkNode ValueType.float))
      (Example.sinkNode ValueType.float) Example.emptyTransformer Error.UnmappedReferenceError
      (by decide) (by decide)⟩

/-! ## Convergence of the refinement of convolutions (C20) -/

/-- The target model after `AddNode`: the new node is appended when the call returns, and
the model is unchanged when it throws. -/
theorem ModelTransformer.AddNode_nodes {α : Type} (inj : α → Node)
    (make : Nat → Except Error α) (t : ModelTransformer) :
    (∃ (a : α) (t1 : ModelTransformer), ModelTransformer.AddNode inj make t = (Except.ok a, t1) ∧
        t1.model.nodes = t.model.nodes ++ [inj a]) ∨
      (∃ (e : Error) (t1 : ModelTransformer),
        ModelTransformer.AddNode inj make t = (Except.error e, t1) ∧
        t1.model.nodes = t.model.nodes) := by
  unfold ModelTransformer.AddNode
  split
  · exact Or.inr ⟨_, _, rfl, rfl⟩
  · dsimp only
    split
    · exact Or.inl ⟨_, _, rfl, rfl⟩
    · exact Or.inr ⟨_, _, rfl, rfl⟩

/-- The target model is not touched by `TransformPortElements`. -/
theorem ModelTransformer.TransformPortElements_model (old : PortElements)
    (t : ModelTransformer) :
    (ModelTransformer.TransformPortElements old t).2.model = t.model := by
  unfold ModelTransformer.TransformPortElements
  dsimp only
  split <;> rfl

/-- The nodes `SimpleConvolutionNode::Refine` adds to the target model: a `ConstantNode` and
a `SimpleConvolutionComputeNode` when it returns (and then it returns true); when it throws,
nothing or the `ConstantNode` only. -/
theorem SimpleConvolutionNode.Refine_nodes (V : ValueType) (n : SimpleConvolutionNode)
    (t : ModelTransformer) :
    (∃ (c : ConstantNode) (k : SimpleConvolutionComputeNode),
        (n.Refine V t).1 = Except.ok true ∧
        (n.Refine V t).2.model.nodes =
          t.model.nodes ++ [Node.Constant V c, Node.SimpleConvolutionCompute V k]) ∨
      (∃ e : Error, (n.Refine V t).1 = Except.error e ∧
        ((n.Refine V t).2.model.nodes = t.model.nodes ∨
          ∃ c : ConstantNode, (n.Refine V t).2.model.nodes = t.model.nodes ++ [Node.Constant V c])) := by
  unfold SimpleConvolutionNode.Refine
  rw [TransformerM.bind_apply]
  have h0 := ModelTransformer.TransformPortElements_model n.input t
  cases h1 : ModelTransformer.TransformPortElements n.input t with
  | mk r1 t1 =>
    rw [h1] at h0
    simp only at h0
    cases r1 with
    | error e => exact Or.inr ⟨e, rfl, Or.inl (by rw [h0])⟩
    | ok newInput =>
      simp only []
      rw [TransformerM.bind_apply]
      rcases ModelTransformer.AddNode_nodes (Node.Constant V)
        (fun self => ConstantNode.ctor V self n.filterWeights.ReferenceAsMatrix.ToArray) t1 with
        ⟨c, t2, h2, h2n⟩ | ⟨e, t2, h2, h2n⟩
      · rw [h2]
        simp only []
        rw [TransformerM.bind_apply]
        rcases ModelTransformer.AddNode_nodes (Node.SimpleConvolutionCompute V)
          (fun self => SimpleConvolutionComputeNode.ctor V self newInput
            (PortElements.ofPort c.output) n.inputMemoryLayout
            n.GetOutputMemoryLayout (toInt n.filterWeights.NumColumns) n.stride
            n.isDepthwiseSeparable) t2 with
          ⟨k, t3, h3, h3n⟩ | ⟨e, t3, h3, h3n⟩
        · rw [h3]
          refine Or.inl ⟨c, k, rfl, ?_⟩
          simp only [TransformerM.bind_apply, ModelTransformer.MapNodeOutput,
            TransformerM.pure_apply]
          rw [h3n, h2n, h0]
          simp
        · rw [h3]
          exact Or.inr ⟨e, rfl, Or.inr ⟨c, by simp only []; rw [h3n, h2n, h0]⟩⟩
      · rw [h2]
        exact Or.inr ⟨e, rfl, Or.inl (by simp only []; rw [h2n, h0])⟩

/-- The property of a transformer that its target model holds no `SimpleConvolutionNode` is
kept by `SimpleConvolutionNode::Refine`. -/
theorem SimpleConvolutionNode.Refine_adds_no_convolution (V : ValueType)
    (n : SimpleConvolutionNode) (t : ModelTransformer)
    (h : ∀ x ∈ t.model.nodes, x.isSimpleConvolution = false) :
    ∀ x ∈ (n.Refine V t).2.model.nodes, x.isSimpleConvolution = false := by
  rcases SimpleConvolutionNode.Refine_nodes V n t with
    ⟨c, k, _, hn⟩ | ⟨e, _, hn | ⟨c, hn⟩⟩
  · rw [hn]
    intro x hx
    simp only [List.mem_append, List.mem_cons, List.mem_singleton, List.not_mem_nil,
      or_false] at hx
    rcases hx with hx | hx | hx
    · exact h x hx
    · subst hx; rfl
    · subst hx; rfl
  · rw [hn]
    exact h
  · rw [hn]
    intro x hx
    simp only [List.mem_append, List.mem_singleton] at hx
    rcases hx with hx | hx
    · exact h x hx
    · subst hx; rfl

/-- The copy of a `SimpleConvolutionComputeNode` adds no `SimpleConvolutionNode`. -/
theorem SimpleConvolutionComputeNode.ComputeCopy_adds_no_convolution (V : ValueType)
    (n : SimpleConvolutionComputeNode) (t : ModelTransformer)
    (h : ∀ x ∈ t.model.nodes, x.isSimpleConvolution = false) :
    ∀ x ∈ (n.Copy V t).2.model.nodes, x.isSimpleConvolution = false := by
  unfold SimpleConvolutionComputeNode.Copy
  rw [TransformerM.bind_apply]
  have h0 := ModelTransformer.TransformPortElements_model n.input t
  cases h1 : ModelTransformer.TransformPortElements n.input t with
  | mk r1 t1 =>
    rw [h1] at h0
    simp only at h0
    cases r1 with
    | error e => simpa [h0] using h
    | ok newInput =>
      simp only []
      rw [TransformerM.bind_apply]
      have h0' := ModelTransformer.TransformPortElements_model n.filterWeights t1
      cases h1' : ModelTransformer.TransformPortElements n.filterWeights t1 with
      | mk r2 t2 =>
        rw [h1'] at h0'
        simp only at h0'
        cases r2 with
        | error e => simpa [h0', h0] using h
        | ok newFilterWeights =>
          simp only []
          rw [TransformerM.bind_apply]
          rcases ModelTransformer.AddNode_nodes (Node.SimpleConvolutionCompute V)
            (fun self => SimpleConvolutionComputeNode.ctor V self newInput newFilterWeights
              n.inputMemoryLayout n.GetOutputMemoryLayout n.filterSize n.stride
              n.isDepthwiseSeparable) t2 with
            ⟨k, t3, h3, h3n⟩ | ⟨e, t3, h3, h3n⟩
          · rw [h3]
            simp only [ModelTransformer.MapNodeOutput]
            rw [h3n, h0', h0]
            intro x hx
            simp only [List.mem_append, List.mem_singleton] at hx
            rcases hx with hx | hx
            · exact h x hx
            · subst hx; rfl
          · rw [h3]
            simp only []
            rw [h3n, h0', h0]
            exact h

/-- The `Refine` of a node that is not a `SimpleConvolutionNode` reports no decomposition
and leaves the transformer as it is, when the overrides that are not among the sources
do. -/
theorem Node.Refine_of_not_convolution (refineOther : Node → TransformerM Bool)
    (hOther : ∀ (node : Node) (t : ModelTransformer), refineOther node t = (Except.ok false, t))
    (node : Node) (hNode : node.isSimpleConvolution = false) (t : ModelTransformer) :
    node.Refine refineOther t = (Except.ok false, t) := by
  cases node with
  | SimpleConvolution V n => cases hNode
  | SimpleConvolutionCompute V n => rfl
  | BinaryFunction V n => rfl
  | ReorderData V n => rfl
  | Constant V n => exact hOther _ t
  | Input V n => exact hOther _ t
  | Output V n => exact hOther _ t
  | Source V n => exact hOther _ t
  | Sink V n => exact hOther _ t
  | Other n => exact hOther _ t

/-- The `Copy` of a node that is not a `SimpleConvolutionNode` adds no
`SimpleConvolutionNode`, when the overrides that are not among the sources add none. -/
theorem Node.Copy_adds_no_convolution (copyOther : Node → TransformerM Unit)
    (hCopy : ∀ (node : Node) (t : ModelTransformer),
      (∀ x ∈ t.model.nodes, x.isSimpleConvolution = false) →
      ∀ x ∈ (copyOther node t).2.model.nodes, x.isSimpleConvolution = false)
    (node : Node) (hNode : node.isSimpleConvolution = false) (t : ModelTransformer)
    (h : ∀ x ∈ t.model.nodes, x.isSimpleConvolution = false) :
    ∀ x ∈ (node.Copy copyOther t).2.model.nodes, x.isSimpleConvolution = false := by
  cases node with
  | SimpleConvolution V n => cases hNode
  | SimpleConvolutionCompute V n =>
    exact SimpleConvolutionComputeNode.ComputeCopy_adds_no_convolution V n t h
  | BinaryFunction V n => exact hCopy _ t h
  | ReorderData V n => exact hCopy _ t h
  | Constant V n => exact hCopy _ t h
  | Input V n => exact hCopy _ t h
  | Output V n => exact hCopy _ t h
  | Source V n => exact hCopy _ t h
  | Sink V n => exact hCopy _ t h
  | Other n => exact hCopy _ t h

/-- One step of the driving loop on a node that is not a `SimpleConvolutionNode` is its
`Copy`, and reports no decomposition. -/
theorem RefineNode_of_not_convolution (refineOther : Node → TransformerM Bool)
    (copyOther : Node → TransformerM Unit)
    (hOther : ∀ (node : Node) (t : ModelTransformer), refineOther node t = (Except.ok false, t))
    (node : Node) (hNode : node.isSimpleConvolution = false) (t : ModelTransformer) :
    RefineNode refineOther copyOther node t =
      (Except.map (fun _ => false) (node.Copy copyOther t).1, (node.Copy copyOther t).2) := by
  unfold RefineNode
  rw [TransformerM.bind_ok _ _ t t false
    (Node.Refine_of_not_convolution refineOther hOther node hNode t)]
  simp only [Bool.false_eq_true, if_false]
  rw [TransformerM.bind_apply]
  cases node.Copy copyOther t with
  | mk r t1 =>
    cases r with
    | error e => rfl
    | ok u => rfl

/-- One step of the driving loop adds no `SimpleConvolutionNode` to the target model. -/
theorem RefineNode_adds_no_convolution (refineOther : Node → TransformerM Bool)
    (copyOther : Node → TransformerM Unit)
    (hOther : ∀ (node : Node) (t : ModelTransformer), refineOther node t = (Except.ok false, t))
    (hCopy : ∀ (node : Node) (t : ModelTransformer),
      (∀ x ∈ t.model.nodes, x.isSimpleConvolution = false) →
      ∀ x ∈ (copyOther node t).2.model.nodes, x.isSimpleConvolution = false)
    (node : Node) (t : ModelTransformer)
    (h : ∀ x ∈ t.model.nodes, x.isSimpleConvolution = false) :
    ∀ x ∈ (RefineNode refineOther copyOther node t).2.model.nodes,
      x.isSimpleConvolution = false := by
  cases hNode : node.isSimpleConvolution with
  | false =>
    rw [RefineNode_of_not_convolution refineOther copyOther hOther node hNode t]
    exact Node.Copy_adds_no_convolution copyOther hCopy node hNode t h
  | true =>
    cases node with
    | SimpleConvolution V n =>
      have hP := SimpleConvolutionNode.Refine_adds_no_convolution V n t h
      have hTrue := SimpleConvolutionNode.Refine_returns_true V n t
      unfold RefineNode
      rw [TransformerM.bind_apply]
      simp only [Node.Refine]
      cases hR : n.Refine V t with
      | mk r t1 =>
        rw [hR] at hP hTrue
        cases r with
        | error e => exact hP
        | ok b =>
          have hb := hTrue b rfl
          subst hb
          exact hP
    | SimpleConvolutionCompute V n => cases hNode
    | BinaryFunction V n => cases hNode
    | ReorderData V n => cases hNode
    | Constant V n => cases hNode
    | Input V n => cases hNode
    | Output V n => cases hNode
    | Source V n => cases hNode
    | Sink V n => cases hNode
    | Other n => cases hNode

/-- The driving loop adds no `SimpleConvolutionNode` to the target model. -/
theorem RefineNodes_adds_no_convolution (refineOther : Node → TransformerM Bool)
    (copyOther : Node → TransformerM Unit)
    (hOther : ∀ (node : Node) (t : ModelTransformer), refineOther node t = (Except.ok false, t))
    (hCopy : ∀ (node : Node) (t : ModelTransformer),
      (∀ x ∈ t.model.nodes, x.isSimpleConvolution = false) →
      ∀ x ∈ (copyOther node t).2.model.nodes, x.isSimpleConvolution = false)
    (nodes : List Node) (t : ModelTransformer)
    (h : ∀ x ∈ t.model.nodes, x.isSimpleConvolution = false) :
    ∀ x ∈ (RefineNodes refineOther copyOther nodes t).2.model.nodes,
      x.isSimpleConvolution = false := by
  induction nodes generalizing t with
  | nil => exact h
  | cons node rest ih =>
    have h1 := RefineNode_adds_no_convolution refineOther copyOther hOther hCopy node t h
    unfold RefineNodes
    rw [TransformerM.bind_apply]
    cases hR : RefineNode refineOther copyOther node t with
    | mk r t1 =>
      rw [hR] at h1
      cases r with
      | error e => exact h1
      | ok refined =>
        simp only []
        rw [TransformerM.bind_apply]
        have h2 := ih t1 h1
        cases hRest : RefineNodes refineOther copyOther rest t1 with
        | mk r2 t2 =>
          rw [hRest] at h2
          cases r2 with
          | error e => exact h2
          | ok count => exact h2

/-- Over nodes none of which is a `SimpleConvolutionNode` the driving loop is the copying
loop, and it counts no decomposition. -/
theorem RefineNodes_of_no_convolution (refineOther : Node → TransformerM Bool)
    (copyOther : Node → TransformerM Unit)
    (hOther : ∀ (node : Node) (t : ModelTransformer), refineOther node t = (Except.ok false, t))
    (nodes : List Node) (hNodes : ∀ x ∈ nodes, x.isSimpleConvolution = false)
    (t : ModelTransformer) :
    RefineNodes refineOther copyOther nodes t =
      (Except.map (fun _ => 0) (CopyNodes copyOther nodes t).1,
        (CopyNodes copyOther nodes t).2) := by
  induction nodes generalizing t with
  | nil => rfl
  | cons node rest ih =>
    have hNode := hNodes node (List.mem_cons_self _ _)
    have hRest := fun t1 => ih (fun x hx => hNodes x (List.mem_cons_of_mem _ hx)) t1
    unfold RefineNodes CopyNodes
    rw [TransformerM.bind_apply, TransformerM.bind_apply,
      RefineNode_of_not_convolution refineOther copyOther hOther node hNode t]
    cases node.Copy copyOther t with
    | mk r t1 =>
      cases r with
      | error e => rfl
      | ok u =>
        simp only [Except.map]
        rw [TransformerM.bind_apply, hRest t1]
        cases CopyNodes copyOther rest t1 with
        | mk r2 t2 =>
          cases r2 with
          | error e => rfl
          | ok u2 => rfl

/-- The stand-in `Example.copyOther` adds no `SimpleConvolutionNode`. -/
theorem Example.copyOther_adds_no_convolution (node : Node) (t : ModelTransformer)
    (h : ∀ x ∈ t.model.nodes, x.isSimpleConvolution = false) :
    ∀ x ∈ (Example.copyOther node t).2.model.nodes, x.isSimpleConvolution = false := by
  unfold Example.copyOther
  rw [TransformerM.bind_apply]
  rcases ModelTransformer.AddNode_nodes Node.Other
    (fun self => Except.ok
      { typeName := "Copy", inputs := [],
        output := { id := { node := self, index := 0 }, type := node.output.type,
                    layout := node.output.layout } }) t with
    ⟨a, t1, h1, h1n⟩ | ⟨e, t1, h1, h1n⟩
  · rw [h1]
    simp only [ModelTransformer.MapNodeOutput]
    rw [h1n]
    intro x hx
    simp only [List.mem_append, List.mem_singleton] at hx
    rcases hx with hx | hx
    · exact h x hx
    · subst hx; rfl
  · rw [h1]
    simp only []
    rw [h1n]
    exact h

/-- C20: refinement of convolution converges after one pass. Whenever
`SimpleConvolutionNode::Refine` returns, the nodes it has added to the target model are a
`ConstantNode` and a `SimpleConvolutionComputeNode`, and no `SimpleConvolutionNode`; the
`Refine` of a `SimpleConvolutionComputeNode` is the inherited default. So, given that the
`Refine` of the node classes that are not among the sources decomposes nothing (the only
refinable nodes are `SimpleConvolutionNode`s) and that their `Copy` adds no
`SimpleConvolutionNode`, the model a refinement pass produces holds no
`SimpleConvolutionNode`, a second pass over it is the copying pass, and the number of
decompositions it performs is 0. -/
theorem C20_convolution_refinement_converges (refineOther : Node → TransformerM Bool)
    (copyOther : Node → TransformerM Unit) (model : Model)
    (hOther : ∀ (node : Node) (t : ModelTransformer), refineOther node t = (Except.ok false, t))
    (hCopy : ∀ (node : Node) (t : ModelTransformer),
      (∀ x ∈ t.model.nodes, x.isSimpleConvolution = false) →
      ∀ x ∈ (copyOther node t).2.model.nodes, x.isSimpleConvolution = false) :
    (∀ (V : ValueType) (n : SimpleConvolutionNode) (t : ModelTransformer) (b : Bool),
        (n.Refine V t).1 = Except.ok b →
        ∃ (c : ConstantNode) (k : SimpleConvolutionComputeNode),
          (n.Refine V t).2.model.nodes =
            t.model.nodes ++ [Node.Constant V c, Node.SimpleConvolutionCompute V k]) ∧
      (∀ (V : ValueType) (k : SimpleConvolutionComputeNode),
        (Node.SimpleConvolutionCompute V k).Refine refineOther = Node.defaultRefine ∧
          ∀ t : ModelTransformer, Node.defaultRefine t = (Except.ok false, t)) ∧
      (∀ x ∈ (RefineModel refineOther copyOther model).2.model.nodes,
        x.isSimpleConvolution = false) ∧
      RefineModel refineOther copyOther (RefineModel refineOther copyOther model).2.model =
        (Except.map (fun _ => 0)
            (CopyNodes copyOther (RefineModel refineOther copyOther model).2.model.nodes
              ModelTransformer.initial).1,
          (CopyNodes copyOther (RefineModel refineOther copyOther model).2.model.nodes
            ModelTransformer.initial).2) ∧
      (∀ count : Nat,
        (RefineModel refineOther copyOther (RefineModel refineOther copyOther model).2.model).1 =
          Except.ok count → count = 0) := by
  have hNone : ∀ x ∈ (RefineModel refineOther copyOther model).2.model.nodes,
      x.isSimpleConvolution = false :=
    RefineNodes_adds_no_convolution refineOther copyOther hOther hCopy model.nodes
      ModelTransformer.initial (by intro x hx; cases hx)
  have hSecond := RefineNodes_of_no_convolution refineOther copyOther hOther
    (RefineModel refineOther copyOther model).2.model.nodes hNone ModelTransformer.initial
  refine ⟨?_, fun V k => ⟨rfl, fun t => rfl⟩, hNone, hSecond, ?_⟩
  · intro V n t b hb
    rcases SimpleConvolutionNode.Refine_nodes V n t with ⟨c, k, _, hn⟩ | ⟨e, he, _⟩
    · exact ⟨c, k, hn⟩
    · rw [he] at hb; cases hb
  · intro count hCount
    have h1 : RefineModel refineOther copyOther (RefineModel refineOther copyOther model).2.model =
        RefineNodes refineOther copyOther (RefineModel refineOther copyOther model).2.model.nodes
          ModelTransformer.initial := rfl
    rw [h1, hSecond] at hCount
    simp only at hCount
    cases hC : (CopyNodes copyOther (RefineModel refineOther copyOther model).2.model.nodes
        ModelTransformer.initial).1 with
    | error e => rw [hC] at hCount; cases hCount
    | ok u =>
      rw [hC] at hCount
      simp only [Except.map, Except.ok.injEq] at hCount
      exact hCount.symm

/-- C20, instantiated at the example model of an input node and a convolution node: the
first pass performs one decomposition and produces three nodes, none of them a
`SimpleConvolutionNode`; the second pass returns, and performs none. -/
theorem C20_convolution_refinement_converges_witness :
    (RefineModel Example.refineOther Example.copyOther Example.convModel).1 = Except.ok 1 ∧
      (RefineModel Example.refineOther Example.copyOther Example.convModel).2.model.nodes.map
          Node.isSimpleConvolution = [false, false, false] ∧
      (RefineModel Example.refineOther Example.copyOther
          (RefineModel Example.refineOther Example.copyOther Example.convModel).2.model).1 =
        Except.ok 0 ∧
      (RefineModel Example.refineOther Example.copyOther
          (RefineModel Example.refineOther Example.copyOther Example.convModel).2.model).2 =
        (CopyNodes Example.copyOther
          (RefineModel Example.refineOther Example.copyOther Example.convModel).2.model.nodes
          ModelTransformer.initial).2 :=
  ⟨by decide, by decide, by decide,
    congrArg Prod.snd
      (C20_convolution_refinement_converges Example.refineOther Example.copyOther
        Example.convModel (fun _ _ => rfl) Example.copyOther_adds_no_convolution).2.2.2.1⟩

/-! ## The offsets of the standard kernel -/

/-- The branch that loops over the window columns takes its dot products at `inputOffset`
and `filterOffset`. -/
theorem SimpleConvolutionCode.windowColumns_cons (k : ConvolutionKernel)
    (filterIndex outputRow outputColumn : Int) (windowRow windowColumn : Nat)
    (rest : List Nat) (val : Value) (m : Memory) :
    SimpleConvolutionCode.windowColumns k filterIndex outputRow outputColumn windowRow
        (windowColumn :: rest) val m =
      ((SimpleConvolutionCode.windowColumns k filterIndex outputRow outputColumn windowRow rest
          (val +
            (DotProduct (k.inputLayout.ActiveSize 2)
              (k.input,
                SimpleConvolutionCode.inputOffset k outputRow outputColumn windowRow windowColumn)
              (k.filterWeights,
                SimpleConvolutionCode.filterOffset k filterIndex windowRow windowColumn) m).1)
          m).1,
        (DotProduct (k.inputLayout.ActiveSize 2)
            (k.input,
              SimpleConvolutionCode.inputOffset k outputRow outputColumn windowRow windowColumn)
            (k.filterWeights,
              SimpleConvolutionCode.filterOffset k filterIndex windowRow windowColumn) m).2 ++
          (SimpleConvolutionCode.windowColumns k filterIndex outputRow outputColumn windowRow rest
            (val +
              (DotProduct (k.inputLayout.ActiveSize 2)
                (k.input,
                  SimpleConvolutionCode.inputOffset k outputRow outputColumn windowRow
                    windowColumn)
                (k.filterWeights,
                  SimpleConvolutionCode.filterOffset k filterIndex windowRow windowColumn) m).1)
            m).2) :=
  rfl

/-- The branch that combines the columns takes its dot product at `combinedInputOffset` and
`combinedFilterOffset`. -/
theorem SimpleConvolutionCode.windowRow_combined (k : ConvolutionKernel)
    (filterIndex outputRow outputColumn : Int) (windowRow : Nat) (val : Value) (m : Memory)
    (h : SimpleConvolutionCode.canCombineColumns k = true) :
    SimpleConvolutionCode.windowRow k filterIndex outputRow outputColumn windowRow val m =
      (val +
          (DotProduct (k.filterSize * k.inputLayout.ActiveSize 2)
            (k.input, SimpleConvolutionCode.combinedInputOffset k outputRow outputColumn windowRow)
            (k.filterWeights,
              SimpleConvolutionCode.combinedFilterOffset k filterIndex windowRow) m).1,
        (DotProduct (k.filterSize * k.inputLayout.ActiveSize 2)
          (k.input, SimpleConvolutionCode.combinedInputOffset k outputRow outputColumn windowRow)
          (k.filterWeights,
            SimpleConvolutionCode.combinedFilterOffset k filterIndex windowRow) m).2) := by
  unfold SimpleConvolutionCode.windowRow
  rw [if_pos h]
  rfl

/-- The branch that loops over the window columns is taken when the columns cannot be
combined. -/
theorem SimpleConvolutionCode.windowRow_separate (k : ConvolutionKernel)
    (filterIndex outputRow outputColumn : Int) (windowRow : Nat) (val : Value) (m : Memory)
    (h : SimpleConvolutionCode.canCombineColumns k = false) :
    SimpleConvolutionCode.windowRow k filterIndex outputRow outputColumn windowRow val m =
      SimpleConvolutionCode.windowColumns k filterIndex outputRow outputColumn windowRow
        (List.range k.filterSize.toNat) val m := by
  unfold SimpleConvolutionCode.windowRow
  rw [if_neg (by rw [h]; decide)]

/-- The filter offset is the row-major index of `(filterIndex, windowRow, windowColumn)` in
an array with extents `_ x filterSize x filterSize`, times `inputDepth`. -/
theorem SimpleConvolutionCode.filterOffset_eq (k : ConvolutionKernel) (filterIndex : Int)
    (windowRow windowColumn : Nat) :
    SimpleConvolutionCode.filterOffset k filterIndex windowRow windowColumn =
      ((filterIndex * k.filterSize + windowRow) * k.filterSize + windowColumn) *
        k.inputLayout.ActiveSize 2 := by
  unfold SimpleConvolutionCode.filterOffset
  ring

/-- The combined-column filter offset is the filter offset of window column 0. -/
theorem SimpleConvolutionCode.combinedFilterOffset_eq (k : ConvolutionKernel)
    (filterIndex : Int) (windowRow : Nat) :
    SimpleConvolutionCode.combinedFilterOffset k filterIndex windowRow =
      SimpleConvolutionCode.filterOffset k filterIndex windowRow 0 := by
  unfold SimpleConvolutionCode.combinedFilterOffset SimpleConvolutionCode.filterOffset
  simp

/-- A row-major index `((f * K + r) * K + c) * d + ch` over extents `F x K x K x d` is below
`F * K * K * d`. -/
theorem rowMajorIndex_lt (F K d f r c ch : Int) (hf : 0 ≤ f) (hfF : f < F) (hr : 0 ≤ r)
    (hrK : r < K) (hc : 0 ≤ c) (hcK : c < K) (hch : 0 ≤ ch) (hchd : ch < d) :
    0 ≤ ((f * K + r) * K + c) * d + ch ∧ ((f * K + r) * K + c) * d + ch < F * K * K * d := by
  have hK : 0 < K := by omega
  have hd : 0 < d := by omega
  have h1 : 0 ≤ f * K := mul_nonneg hf hK.le
  have h2 : f * K + r + 1 ≤ F * K := by nlinarith
  have h3 : 0 ≤ (f * K + r) * K := mul_nonneg (by omega) hK.le
  have h4 : (f * K + r) * K + c + 1 ≤ F * K * K := by nlinarith
  have h5 : 0 ≤ ((f * K + r) * K + c) * d := mul_nonneg (by omega) hd.le
  constructor
  · omega
  · nlinarith

/-! ## What the kernels compute: values -/

/-- The value of the dot-product loop: the products are added to `sum`. -/
theorem dotProductLoop_value (left right : Pointer × Int) (l : List Nat) (sum : Value)
    (m : Memory) :
    (dotProductLoop left right l sum m).1 =
      sum + (List.map (fun i : Nat => m left.1 (left.2 + i) * m right.1 (right.2 + i)) l).sum := by
  induction l generalizing sum with
  | nil => simp [dotProductLoop]
  | cons i rest ih =>
    simp only [dotProductLoop, load, List.map_cons, List.sum_cons]
    rw [ih]
    ring

/-- The value of `DotProduct(size, left, right)`. -/
theorem DotProduct_value (size : Int) (left right : Pointer × Int) (m : Memory) :
    (DotProduct size left right m).1 =
      (List.map (fun i : Nat => m left.1 (left.2 + i) * m right.1 (right.2 + i))
        (List.range size.toNat)).sum := by
  unfold DotProduct
  rw [dotProductLoop_value]
  ring

/-- The value of the window-column loop of the standard kernel. -/
theorem SimpleConvolutionCode.windowColumns_value (k : ConvolutionKernel)
    (filterIndex outputRow outputColumn : Int) (windowRow : Nat) (l : List Nat) (val : Value)
    (m : Memory) :
    (SimpleConvolutionCode.windowColumns k filterIndex outputRow outputColumn windowRow l val
        m).1 =
      val +
        (List.map
          (fun windowColumn : Nat =>
            (List.map
              (fun channel : Nat =>
                m k.input
                    (SimpleConvolutionCode.inputOffset k outputRow outputColumn windowRow
                      windowColumn + channel) *
                  m k.filterWeights
                    (SimpleConvolutionCode.filterOffset k filterIndex windowRow windowColumn +
                      channel))
              (List.range (k.inputLayout.ActiveSize 2).toNat)).sum)
          l).sum := by
  induction l generalizing val with
  | nil => simp [SimpleConvolutionCode.windowColumns]
  | cons wc rest ih =>
    rw [SimpleConvolutionCode.windowColumns_cons]
    simp only [List.map_cons, List.sum_cons]
    rw [ih, DotProduct_value]
    ring

/-- A store into a buffer does not change what is read from another buffer. -/
theorem storeAt_other (m : Memory) (buffer other : Pointer) (address a : Int) (value : Value)
    (h : other ≠ buffer) : storeAt m buffer address value other a = m other a := by
  simp [storeAt, h]

/-- A store is overwritten by a later store at the same place. -/
theorem storeAt_storeAt (m : Memory) (buffer : Pointer) (address : Int) (v w : Value) :
    storeAt (storeAt m buffer address v) buffer address w = storeAt m buffer address w := by
  funext b a
  unfold storeAt
  split <;> rfl

/-- The value read at the place of a store. -/
theorem storeAt_same (m : Memory) (buffer : Pointer) (address : Int) (value : Value) :
    storeAt m buffer address value buffer address = value := by
  simp [storeAt]

/-- The statement `tensor({ coordinates }) = value` is a store at the flat offset of the
element. -/
theorem LocalTensor.set_memory (tensor : LocalTensor) (coordinates : List Int) (value : Value)
    (m : Memory) :
    (tensor.set coordinates value m).1 =
      storeAt m tensor.data (tensor.offsetOf coordinates) value := rfl

/-- Stores into the result buffer do not change the value of the window-column loop, when
the result buffer is neither the input nor the weights buffer. -/
theorem SimpleConvolutionCode.windowColumns_value_storeAt (k : ConvolutionKernel)
    (hIn : k.result ≠ k.input) (hW : k.result ≠ k.filterWeights)
    (filterIndex outputRow outputColumn : Int) (windowRow : Nat) (l : List Nat) (val : Value)
    (m : Memory) (address : Int) (value : Value) :
    (SimpleConvolutionCode.windowColumns k filterIndex outputRow outputColumn windowRow l val
        (storeAt m k.result address value)).1 =
      (SimpleConvolutionCode.windowColumns k filterIndex outputRow outputColumn windowRow l val
        m).1 := by
  rw [SimpleConvolutionCode.windowColumns_value, SimpleConvolutionCode.windowColumns_value]
  simp only [storeAt_other _ _ _ _ _ _ (Ne.symm hIn), storeAt_other _ _ _ _ _ _ (Ne.symm hW)]

/-- The memory after the window-row loop of the standard kernel, in the branch that loops
over the window columns: unchanged when there is no window row, and otherwise the output
element holds `val` plus the values of all the window rows; every earlier store to the
element has been overwritten. -/
theorem SimpleConvolutionCode.windowRows_memory (k : ConvolutionKernel)
    (hBranch : SimpleConvolutionCode.canCombineColumns k = false)
    (hIn : k.result ≠ k.input) (hW : k.result ≠ k.filterWeights)
    (filterIndex outputRow outputColumn : Int) (rows : List Nat) (val : Value) (m : Memory) :
    (SimpleConvolutionCode.windowRows k filterIndex outputRow outputColumn rows val m).1 =
      if rows = [] then m
      else
        storeAt m k.result
          ((SimpleConvolutionCode.outputTensor k).offsetOf [outputRow, outputColumn, filterIndex])
          (val +
            (List.map
              (fun row : Nat =>
                (SimpleConvolutionCode.windowColumns k filterIndex outputRow outputColumn row
                  (List.range k.filterSize.toNat) 0 m).1)
              rows).sum) := by
  induction rows generalizing val m with
  | nil => simp [SimpleConvolutionCode.windowRows]
  | cons row rest ih =>
    simp only [SimpleConvolutionCode.windowRows, LocalTensor.set_memory, reduceCtorEq, if_false,
      List.map_cons, List.sum_cons]
    rw [ih, SimpleConvolutionCode.windowRow_separate k _ _ _ _ _ _ hBranch]
    have hval : (SimpleConvolutionCode.windowColumns k filterIndex outputRow outputColumn row
        (List.range k.filterSize.toNat) val m).1 =
        val + (SimpleConvolutionCode.windowColumns k filterIndex outputRow outputColumn row
          (List.range k.filterSize.toNat) 0 m).1 := by
      rw [SimpleConvolutionCode.windowColumns_value, SimpleConvolutionCode.windowColumns_value]
      ring
    by_cases hrest : rest = []
    · subst hrest
      simp [hval, SimpleConvolutionCode.outputTensor]
    · rw [if_neg hrest]
      simp only [SimpleConvolutionCode.outputTensor, storeAt_storeAt,
        SimpleConvolutionCode.windowColumns_value_storeAt k hIn hW]
      rw [hval, add_assoc]

/-- The sum of the values of the window rows is the convolution sum of C22. -/
theorem SimpleConvolutionCode.convolutionSum_eq (k : ConvolutionKernel) (m : Memory)
    (outputRow outputColumn filterIndex : Int) :
    (List.map
        (fun row : Nat =>
          (SimpleConvolutionCode.windowColumns k filterIndex outputRow outputColumn row
            (List.range k.filterSize.toNat) 0 m).1)
        (List.range k.filterSize.toNat)).sum =
      convolutionSum k m outputRow outputColumn filterIndex := by
  unfold convolutionSum
  refine congrArg List.sum (List.map_congr_left fun wr _ => ?_)
  rw [SimpleConvolutionCode.windowColumns_value, zero_add]
  refine congrArg List.sum (List.map_congr_left fun wc _ => ?_)
  refine congrArg List.sum (List.map_congr_left fun ch _ => ?_)
  unfold SimpleConvolutionCode.inputOffset SimpleConvolutionCode.filterOffset
  congr 2
  ring

/-- Stores into the result buffer do not change the convolution sum, when the result buffer
is neither the input nor the weights buffer. -/
theorem convolutionSum_storeAt (k : ConvolutionKernel) (hIn : k.result ≠ k.input)
    (hW : k.result ≠ k.filterWeights) (m : Memory) (address : Int) (value : Value)
    (r c f : Int) :
    convolutionSum k (storeAt m k.result address value) r c f = convolutionSum k m r c f := by
  unfold convolutionSum
  simp only [storeAt_other _ _ _ _ _ _ (Ne.symm hIn), storeAt_other _ _ _ _ _ _ (Ne.symm hW)]

/-- The memory after the code for one output element of the standard kernel, in the branch
that loops over the window columns and for a filter size of at least 1: the element holds
the convolution sum, and nothing else has changed. -/
theorem SimpleConvolutionCode.element_memory (k : ConvolutionKernel)
    (hBranch : SimpleConvolutionCode.canCombineColumns k = false) (hSize : 1 ≤ k.filterSize)
    (hIn : k.result ≠ k.input) (hW : k.result ≠ k.filterWeights)
    (filterIndex outputRow outputColumn : Int) (m : Memory) :
    (SimpleConvolutionCode.element k filterIndex outputRow outputColumn m).1 =
      storeAt m k.result
        ((SimpleConvolutionCode.outputTensor k).offsetOf [outputRow, outputColumn, filterIndex])
        (convolutionSum k m outputRow outputColumn filterIndex) := by
  unfold SimpleConvolutionCode.element
  rw [SimpleConvolutionCode.windowRows_memory k hBranch hIn hW]
  have hne : List.range k.filterSize.toNat ≠ [] := by
    intro h
    have := congrArg List.length h
    simp at this
    omega
  rw [if_neg hne, zero_add, SimpleConvolutionCode.convolutionSum_eq]

/-- Stores of a list of writes one after the other. -/
theorem applyWrites_append (buffer : Pointer) (ws ws' : List (Int × Value)) (m : Memory) :
    applyWrites buffer (ws ++ ws') m = applyWrites buffer ws' (applyWrites buffer ws m) := by
  induction ws generalizing m with
  | nil => rfl
  | cons w rest ih =>
    show applyWrites buffer (rest ++ ws') (storeAt m buffer w.1 w.2) = _
    rw [ih]
    rfl

/-- Writes into a buffer leave the other buffers as they are. -/
theorem applyWrites_other (buffer other : Pointer) (h : other ≠ buffer)
    (ws : List (Int × Value)) (m : Memory) (a : Int) :
    applyWrites buffer ws m other a = m other a := by
  induction ws generalizing m with
  | nil => rfl
  | cons w rest ih => rw [applyWrites, ih, storeAt_other _ _ _ _ _ _ h]

/-- Writes leave the offsets they do not name as they are. -/
theorem applyWrites_not_mem (buffer : Pointer) (ws : List (Int × Value)) (m : Memory) (a : Int)
    (h : ∀ w ∈ ws, w.1 ≠ a) : applyWrites buffer ws m buffer a = m buffer a := by
  induction ws generalizing m with
  | nil => rfl
  | cons w rest ih =>
    rw [applyWrites, ih _ (fun x hx => h x (List.mem_cons_of_mem _ hx))]
    have := h w (List.mem_cons_self _ _)
    simp [storeAt, Ne.symm this]

/-- After a list of writes in which `address` is written, and always with `value`, the
buffer holds `value` at `address`. -/
theorem applyWrites_get (buffer : Pointer) (ws : List (Int × Value)) (m : Memory)
    (address : Int) (value : Value) (hMem : (address, value) ∈ ws)
    (hSame : ∀ w ∈ ws, w.1 = address → w.2 = value) :
    applyWrites buffer ws m buffer address = value := by
  induction ws generalizing m with
  | nil => cases hMem
  | cons w rest ih =>
    rw [applyWrites]
    by_cases hRest : ∃ x ∈ rest, x.1 = address
    · obtain ⟨x, hx, hxa⟩ := hRest
      have hxv := hSame x (List.mem_cons_of_mem _ hx) hxa
      have hx' : (address, value) ∈ rest := by
        have : x = (address, value) := Prod.ext hxa hxv
        rw [← this]
        exact hx
      exact ih _ hx' (fun y hy => hSame y (List.mem_cons_of_mem _ hy))
    · have hNot : ∀ x ∈ rest, x.1 ≠ address := fun x hx hxa => hRest ⟨x, hx, hxa⟩
      rw [applyWrites_not_mem _ _ _ _ hNot]
      rcases List.mem_cons.1 hMem with h | h
      · rw [← h]
        exact storeAt_same _ _ _ _
      · exact absurd rfl (hNot _ h)

/-- A loop whose iterations only store into `buffer`, and whose stores do not depend on what
`buffer` holds, stores what its iterations store, in order. -/
theorem forEach_writes (buffer : Pointer) (body : Int → Code)
    (W : Memory → Nat → List (Int × Value))
    (hBody : ∀ (i : Nat) (m : Memory), (body i m).1 = applyWrites buffer (W m i) m)
    (hStable : ∀ (m : Memory) (a : Int) (v : Value) (i : Nat),
      W (storeAt m buffer a v) i = W m i)
    (l : List Nat) (m : Memory) :
    (forEach body l m).1 = applyWrites buffer (l.flatMap (W m)) m := by
  have hStable' : ∀ (ws : List (Int × Value)) (m : Memory) (i : Nat),
      W (applyWrites buffer ws m) i = W m i := by
    intro ws
    induction ws with
    | nil => intro m i; rfl
    | cons w rest ih => intro m i; rw [applyWrites, ih, hStable]
  induction l generalizing m with
  | nil => rfl
  | cons i rest ih =>
    simp only [forEach, List.flatMap_cons, applyWrites_append]
    rw [ih, hBody]
    have hW : rest.flatMap (W (applyWrites buffer (W m i) m)) = rest.flatMap (W m) :=
      List.flatMap_congr fun j _ => hStable' _ _ _
    rw [hW]

/-- The flat offsets of the output elements `{row, column, channel}` with the column and the
channel within the active size are pairwise different, when the active size does not exceed
the stride in dimensions 1 and 2. -/
theorem outputOffset_injective (layout : PortMemoryLayout)
    (h1 : layout.ActiveSize 1 ≤ layout.Stride 1) (h2 : layout.ActiveSize 2 ≤ layout.Stride 2)
    (r c f r' c' f' : Nat) (hc : c < (layout.ActiveSize 1).toNat)
    (hf : f < (layout.ActiveSize 2).toNat) (hc' : c' < (layout.ActiveSize 1).toNat)
    (hf' : f' < (layout.ActiveSize 2).toNat)
    (h : rowMajorOffset layout.GetStride [(r : Int), (c : Int), (f : Int)] 0 =
      rowMajorOffset layout.GetStride [(r' : Int), (c' : Int), (f' : Int)] 0) :
    r = r' ∧ c = c' ∧ f = f' := by
  rw [rowMajorOffset_three _ _ _ _ (by omega), rowMajorOffset_three _ _ _ _ (by omega)] at h
  obtain ⟨hx, hff⟩ := flatOffset_injective _ _ _ _ _ (by omega) (by omega) (by omega)
    (by omega) h
  obtain ⟨hrr, hcc⟩ := flatOffset_injective _ _ _ _ _ (by omega) (by omega) (by omega)
    (by omega) hx
  exact ⟨by exact_mod_cast hrr, by exact_mod_cast hcc, by exact_mod_cast hff⟩

/-- The memory after the loop nest of the standard kernel, in the branch that loops over
the window columns: the stores of the convolution sums to the output elements, filter by
filter, row by row and column by column. -/
theorem SimpleConvolutionCode.run_memory (k : ConvolutionKernel)
    (hBranch : SimpleConvolutionCode.canCombineColumns k = false) (hSize : 1 ≤ k.filterSize)
    (hIn : k.result ≠ k.input) (hW : k.result ≠ k.filterWeights) (m : Memory) :
    (SimpleConvolutionCode.run k m).1 =
      applyWrites k.result
        ((List.range (k.outputLayout.ActiveSize 2).toNat).flatMap fun f : Nat =>
          (List.range (k.outputLayout.ActiveSize 0).toNat).flatMap fun r : Nat =>
            (List.range (k.outputLayout.ActiveSize 1).toNat).flatMap fun c : Nat =>
              [((SimpleConvolutionCode.outputTensor k).offsetOf [(r : Int), (c : Int), (f : Int)],
                convolutionSum k m r c f)])
        m := by
  unfold SimpleConvolutionCode.run ParallelFor
  refine forEach_writes k.result _
    (fun m (f : Nat) =>
      (List.range (k.outputLayout.ActiveSize 0).toNat).flatMap fun r : Nat =>
        (List.range (k.outputLayout.ActiveSize 1).toNat).flatMap fun c : Nat =>
          [((SimpleConvolutionCode.outputTensor k).offsetOf [(r : Int), (c : Int), (f : Int)],
            convolutionSum k m r c f)])
    ?_ ?_ _ m
  · intro f m
    unfold SimpleConvolutionCode.iteration For
    refine forEach_writes k.result _
      (fun m (r : Nat) =>
        (List.range (k.outputLayout.ActiveSize 1).toNat).flatMap fun c : Nat =>
          [((SimpleConvolutionCode.outputTensor k).offsetOf [(r : Int), (c : Int), (f : Int)],
            convolutionSum k m r c f)])
      ?_ ?_ _ m
    · intro r m
      refine forEach_writes k.result _
        (fun m (c : Nat) =>
          [((SimpleConvolutionCode.outputTensor k).offsetOf [(r : Int), (c : Int), (f : Int)],
            convolutionSum k m r c f)])
        ?_ ?_ _ m
      · intro c m
        rw [SimpleConvolutionCode.element_memory k hBranch hSize hIn hW]
        rfl
      · intro m a v c
        simp only [convolutionSum_storeAt k hIn hW]
    · intro m a v r
      simp only [convolutionSum_storeAt k hIn hW]
  · intro m a v f
    simp only [convolutionSum_storeAt k hIn hW]

/-- The flat index of the filter element `{f, windowRow, windowColumn}` of the
depthwise-separable kernel: the first extent given to the array does not enter it. -/
theorem SimpleDepthwiseSeparableConvolutionCode.filter_offsetOf (k : ConvolutionKernel)
    (f windowRow windowColumn : Int) :
    (SimpleDepthwiseSeparableConvolutionCode.filter k).offsetOf [f, windowRow, windowColumn] =
      f * k.filterSize * k.filterSize + windowRow * k.filterSize + windowColumn := by
  simp only [SimpleDepthwiseSeparableConvolutionCode.filter, LocalTensor.offsetOf, rowMajorOffset]
  ring

/-- The value of the window-column loop of the depthwise-separable kernel. -/
theorem SimpleDepthwiseSeparableConvolutionCode.depthwise_windowColumns_value
    (k : ConvolutionKernel) (outputRow outputColumn filterIndex : Int) (windowRow : Nat)
    (l : List Nat) (val : Value) (m : Memory) :
    (SimpleDepthwiseSeparableConvolutionCode.windowColumns k outputRow outputColumn filterIndex
        windowRow l val m).1 =
      val +
        (List.map
          (fun windowColumn : Nat =>
            m k.input
                (rowMajorOffset k.inputLayout.GetStride
                  [outputRow * k.stride + windowRow, outputColumn * k.stride + windowColumn,
                    filterIndex] 0) *
              m k.filterWeights
                (filterIndex * k.filterSize * k.filterSize + windowRow * k.filterSize +
                  windowColumn))
          l).sum := by
  induction l generalizing val with
  | nil => simp [SimpleDepthwiseSeparableConvolutionCode.windowColumns]
  | cons wc rest ih =>
    simp only [SimpleDepthwiseSeparableConvolutionCode.windowColumns, LocalTensor.get,
      List.map_cons, List.sum_cons]
    rw [ih, SimpleDepthwiseSeparableConvolutionCode.filter_offsetOf]
    simp only [SimpleDepthwiseSeparableConvolutionCode.inputTensor,
      SimpleDepthwiseSeparableConvolutionCode.filter, LocalTensor.offsetOf]
    rw [add_assoc]

/-- The value of the window-row loop of the depthwise-separable kernel. -/
theorem SimpleDepthwiseSeparableConvolutionCode.depthwise_windowRows_value
    (k : ConvolutionKernel) (outputRow outputColumn filterIndex : Int) (rows : List Nat)
    (val : Value) (m : Memory) :
    (SimpleDepthwiseSeparableConvolutionCode.windowRows k outputRow outputColumn filterIndex
        rows val m).1 =
      val +
        (List.map
          (fun windowRow : Nat =>
            (List.map
              (fun windowColumn : Nat =>
                m k.input
                    (rowMajorOffset k.inputLayout.GetStride
                      [outputRow * k.stride + windowRow, outputColumn * k.stride + windowColumn,
                        filterIndex] 0) *
                  m k.filterWeights
                    (filterIndex * k.filterSize * k.filterSize + windowRow * k.filterSize +
                      windowColumn))
              (List.range k.filterSize.toNat)).sum)
          rows).sum := by
  induction rows generalizing val with
  | nil => simp [SimpleDepthwiseSeparableConvolutionCode.windowRows]
  | cons row rest ih =>
    simp only [SimpleDepthwiseSeparableConvolutionCode.windowRows, List.map_cons, List.sum_cons]
    rw [ih, SimpleDepthwiseSeparableConvolutionCode.depthwise_windowColumns_value]
    ring

/-- The memory after the code for one output element of the depthwise-separable kernel: the
element holds the depthwise convolution sum, and nothing else has changed. -/
theorem SimpleDepthwiseSeparableConvolutionCode.depthwise_element_memory
    (k : ConvolutionKernel) (outputRow outputColumn filterIndex : Int) (m : Memory) :
    (SimpleDepthwiseSeparableConvolutionCode.element k outputRow outputColumn filterIndex m).1 =
      storeAt m k.result
        ((SimpleDepthwiseSeparableConvolutionCode.outputTensor k).offsetOf
          [outputRow, outputColumn, filterIndex])
        (depthwiseConvolutionSum k m outputRow outputColumn filterIndex) := by
  simp only [SimpleDepthwiseSeparableConvolutionCode.element, LocalTensor.set_memory,
    SimpleDepthwiseSeparableConvolutionCode.depthwise_windowRows_value, zero_add]
  rfl

/-- Stores into the result buffer do not change the depthwise convolution sum, when the
result buffer is neither the input nor the weights buffer. -/
theorem depthwiseConvolutionSum_storeAt (k : ConvolutionKernel) (hIn : k.result ≠ k.input)
    (hW : k.result ≠ k.filterWeights) (m : Memory) (address : Int) (value : Value)
    (r c f : Int) :
    depthwiseConvolutionSum k (storeAt m k.result address value) r c f =
      depthwiseConvolutionSum k m r c f := by
  unfold depthwiseConvolutionSum
  simp only [storeAt_other _ _ _ _ _ _ (Ne.symm hIn), storeAt_other _ _ _ _ _ _ (Ne.symm hW)]

/-- The memory after the loop nest of the depthwise-separable kernel: the stores of the
depthwise convolution sums to the output elements, row by row, column by column and channel
by channel. -/
theorem SimpleDepthwiseSeparableConvolutionCode.depthwise_run_memory (k : ConvolutionKernel)
    (hIn : k.result ≠ k.input) (hW : k.result ≠ k.filterWeights) (m : Memory) :
    (SimpleDepthwiseSeparableConvolutionCode.run k m).1 =
      applyWrites k.result
        ((List.range (k.outputLayout.ActiveSize 0).toNat).flatMap fun r : Nat =>
          (List.range (k.outputLayout.ActiveSize 1).toNat).flatMap fun c : Nat =>
            (List.range (k.outputLayout.ActiveSize 2).toNat).flatMap fun f : Nat =>
              [((SimpleDepthwiseSeparableConvolutionCode.outputTensor k).offsetOf
                  [(r : Int), (c : Int), (f : Int)],
                depthwiseConvolutionSum k m r c f)])
        m := by
  unfold SimpleDepthwiseSeparableConvolutionCode.run ParallelFor
  refine forEach_writes k.result _
    (fun m (r : Nat) =>
      (List.range (k.outputLayout.ActiveSize 1).toNat).flatMap fun c : Nat =>
        (List.range (k.outputLayout.ActiveSize 2).toNat).flatMap fun f : Nat =>
          [((SimpleDepthwiseSeparableConvolutionCode.outputTensor k).offsetOf
              [(r : Int), (c : Int), (f : Int)],
            depthwiseConvolutionSum k m r c f)])
    ?_ ?_ _ m
  · intro r m
    unfold SimpleDepthwiseSeparableConvolutionCode.iteration For
    refine forEach_writes k.result _
      (fun m (c : Nat) =>
        (List.range (k.outputLayout.ActiveSize 2).toNat).flatMap fun f : Nat =>
          [((SimpleDepthwiseSeparableConvolutionCode.outputTensor k).offsetOf
              [(r : Int), (c : Int), (f : Int)],
            depthwiseConvolutionSum k m r c f)])
      ?_ ?_ _ m
    · intro c m
      refine forEach_writes k.result _
        (fun m (f : Nat) =>
          [((SimpleDepthwiseSeparableConvolutionCode.outputTensor k).offsetOf
              [(r : Int), (c : Int), (f : Int)],
            depthwiseConvolutionSum k m r c f)])
        ?_ ?_ _ m
      · intro f m
        rw [SimpleDepthwiseSeparableConvolutionCode.depthwise_element_memory]
        rfl
      · intro m a v f
        simp only [depthwiseConvolutionSum_storeAt k hIn hW]
    · intro m a v c
      simp only [depthwiseConvolutionSum_storeAt k hIn hW]
  · intro m a v r
    simp only [depthwiseConvolutionSum_storeAt k hIn hW]

/-! ## The two window-row strategies of the standard kernel (C21) -/

/-- A sum over `K * D` consecutive indices, taken in `K` blocks of `D`. -/
theorem sum_range_mul (K D : Nat) (g : Nat → Int) :
    (List.map g (List.range (K * D))).sum =
      (List.map (fun a : Nat => (List.map (fun b : Nat => g (a * D + b)) (List.range D)).sum)
        (List.range K)).sum := by
  induction K with
  | zero => simp
  | succ K ih =>
    rw [Nat.succ_mul, List.range_add, List.map_append, List.sum_append, ih, List.range_succ,
      List.map_append, List.sum_append, List.map_map]
    simp [Function.comp_def]

/-- Where the columns can be combined, consecutive columns of the input are `inputDepth`
elements apart (the channel dimension is not padded) and the filter size is not negative,
the two window-row strategies of the standard kernel compute the same value. -/
theorem SimpleConvolutionCode.windowRow_eq_windowColumns (k : ConvolutionKernel)
    (hCombine : SimpleConvolutionCode.canCombineColumns k = true)
    (hContiguous : k.inputLayout.GetCumulativeIncrement.getD 1 0 = k.inputLayout.ActiveSize 2)
    (hSize : 0 ≤ k.filterSize)
    (filterIndex outputRow outputColumn : Int) (windowRow : Nat) (val : Value) (m : Memory) :
    (SimpleConvolutionCode.windowRow k filterIndex outputRow outputColumn windowRow val m).1 =
      (SimpleConvolutionCode.windowColumns k filterIndex outputRow outputColumn windowRow
        (List.range k.filterSize.toNat) val m).1 := by
  have hStride : k.stride = 1 := by
    simp only [SimpleConvolutionCode.canCombineColumns, Bool.and_eq_true, decide_eq_true_eq]
      at hCombine
    exact hCombine.2
  rw [SimpleConvolutionCode.windowRow_combined k _ _ _ _ _ _ hCombine,
    SimpleConvolutionCode.windowColumns_value, DotProduct_value]
  dsimp only
  congr 1
  obtain ⟨K, hK⟩ := Int.eq_ofNat_of_zero_le hSize
  by_cases hd : 0 ≤ k.inputLayout.ActiveSize 2
  · obtain ⟨D, hD⟩ := Int.eq_ofNat_of_zero_le hd
    have hKD : (k.filterSize * k.inputLayout.ActiveSize 2).toNat = K * D := by
      rw [hK, hD]
      exact_mod_cast Int.toNat_natCast (K * D)
    rw [hKD, sum_range_mul]
    have hK' : k.filterSize.toNat = K := by rw [hK]; exact Int.toNat_natCast K
    have hD' : (k.inputLayout.ActiveSize 2).toNat = D := by rw [hD]; exact Int.toNat_natCast D
    rw [hK', hD']
    refine congrArg List.sum (List.map_congr_left fun wc _ => ?_)
    refine congrArg List.sum (List.map_congr_left fun ch _ => ?_)
    simp only [SimpleConvolutionCode.combinedInputOffset,
      SimpleConvolutionCode.combinedFilterOffset, SimpleConvolutionCode.inputOffset,
      SimpleConvolutionCode.filterOffset, hStride, hContiguous, hD, hK]
    push_cast
    congr 2 <;> ring
  · have hd0 : (k.inputLayout.ActiveSize 2).toNat = 0 := by omega
    have hKD : (k.filterSize * k.inputLayout.ActiveSize 2).toNat = 0 := by
      have : k.filterSize * k.inputLayout.ActiveSize 2 ≤ 0 :=
        mul_nonpos_of_nonneg_of_nonpos hSize (by omega)
      omega
    rw [hKD, hd0]
    simp

/-- C21 fails at the example channel-padded kernel, an input `EmitSimpleConvolutionCode`
accepts: its input layout has `offset + activeSize <= stride` in every dimension and row
padding `filterSize / 2`, and `canCombineColumns` holds. For window row 0 of output element
`{0, 0, 0}` and the memory whose input buffer holds its own offsets and whose weights are
all 1, the combined dot product reads the input at offsets 0 and 1 and has value 1, whereas
the dot products of the other branch read it at offsets 0 and 2 and add up to 2: offset 1 is
the padding between the two columns. -/
theorem C21_combined_columns_read_channel_padding :
    SimpleConvolutionCode.canCombineColumns Example.channelPaddedKernel = true ∧
      (Example.channelPaddedKernel.inputLayout.Offset 0 +
          Example.channelPaddedKernel.inputLayout.ActiveSize 0 ≤
        Example.channelPaddedKernel.inputLayout.Stride 0 ∧
       Example.channelPaddedKernel.inputLayout.Offset 1 +
          Example.channelPaddedKernel.inputLayout.ActiveSize 1 ≤
        Example.channelPaddedKernel.inputLayout.Stride 1 ∧
       Example.channelPaddedKernel.inputLayout.Offset 2 +
          Example.channelPaddedKernel.inputLayout.ActiveSize 2 ≤
        Example.channelPaddedKernel.inputLayout.Stride 2) ∧
      Example.channelPaddedKernel.inputLayout.GetOffsetAt 0 =
        Except.ok (Example.channelPaddedKernel.filterSize.tdiv 2) ∧
      (SimpleConvolutionCode.windowRow Example.channelPaddedKernel 0 0 0 0 0
          Example.rampMemory).1 = 1 ∧
      (SimpleConvolutionCode.windowColumns Example.channelPaddedKernel 0 0 0 0
          (List.range Example.channelPaddedKernel.filterSize.toNat) 0 Example.rampMemory).1 = 2 ∧
      (SimpleConvolutionCode.windowRow Example.channelPaddedKernel 0 0 0 0 0
          Example.rampMemory).2.map (fun a => (a.buffer, a.address)) =
        [(0, 0), (1, 0), (0, 1), (1, 1)] ∧
      (SimpleConvolutionCode.windowColumns Example.channelPaddedKernel 0 0 0 0
          (List.range Example.channelPaddedKernel.filterSize.toNat) 0
          Example.rampMemory).2.map (fun a => (a.buffer, a.address)) =
        [(0, 0), (1, 0), (0, 2), (1, 1)] ∧
      Example.channelPaddedKernel.inputLayout.GetCumulativeIncrement.getD 1 0 = 2 ∧
      Example.channelPaddedKernel.inputLayout.ActiveSize 2 = 1 := by
  decide

/-! ## What the standard kernel stores (C22) -/

/-- C22: in the branch of the standard kernel that loops over the window columns, for a
filter size of at least 1. The values are modelled with exact arithmetic, the result buffer
is a buffer of its own (neither the input nor the weights buffer), and the output layout
has `activeSize(d) <= stride(d)` in dimensions 1 and 2. Then:
(1) the code for output element `{r, c, f}` leaves the convolution sum of C22, computed
from the input and the weights, in that element and changes nothing else: every store it
makes goes to that element, and the stores made after earlier window rows are overwritten
by the full sum;
(2) after the whole loop nest, for every `r < outputRows`, `c < outputColumns`,
`f < numFilters`, the output element `{r, c, f}` holds the convolution sum computed from the
input and the weights the kernel was started on, and the input and weights buffers are
unchanged. -/
theorem C22_standard_kernel_computes_convolution_sum (k : ConvolutionKernel) (m : Memory)
    (hBranch : SimpleConvolutionCode.canCombineColumns k = false) (hSize : 1 ≤ k.filterSize)
    (hIn : k.result ≠ k.input) (hW : k.result ≠ k.filterWeights)
    (hStride1 : k.outputLayout.ActiveSize 1 ≤ k.outputLayout.Stride 1)
    (hStride2 : k.outputLayout.ActiveSize 2 ≤ k.outputLayout.Stride 2) :
    (∀ (r c f : Int) (m1 : Memory),
        (SimpleConvolutionCode.element k f r c m1).1 =
            storeAt m1 k.result ((SimpleConvolutionCode.outputTensor k).offsetOf [r, c, f])
              (convolutionSum k m1 r c f) ∧
          ∀ a ∈ (SimpleConvolutionCode.element k f r c m1).2, a.isWrite = true →
            a.buffer = k.result ∧ a.element = [r, c, f] ∧
              a.address = (SimpleConvolutionCode.outputTensor k).offsetOf [r, c, f]) ∧
    (∀ r c f : Nat, r < (k.outputLayout.ActiveSize 0).toNat →
        c < (k.outputLayout.ActiveSize 1).toNat → f < (k.outputLayout.ActiveSize 2).toNat →
        (SimpleConvolutionCode.run k m).1 k.result
            ((SimpleConvolutionCode.outputTensor k).offsetOf [(r : Int), (c : Int), (f : Int)]) =
          convolutionSum k m r c f) ∧
    (∀ a : Int, (SimpleConvolutionCode.run k m).1 k.input a = m k.input a ∧
      (SimpleConvolutionCode.run k m).1 k.filterWeights a = m k.filterWeights a) := by
  refine ⟨?_, ?_, ?_⟩
  · intro r c f m1
    refine ⟨SimpleConvolutionCode.element_memory k hBranch hSize hIn hW f r c m1, ?_⟩
    intro a ha haw
    unfold SimpleConvolutionCode.element at ha
    rcases SimpleConvolutionCode.windowRows_accesses k f r c _ _ _ a ha with h | h
    · rw [h.1] at haw; cases haw
    · subst h
      exact ⟨rfl, rfl, rfl⟩
  · intro r c f hr hc hf
    rw [SimpleConvolutionCode.run_memory k hBranch hSize hIn hW]
    apply applyWrites_get
    · simp only [List.mem_flatMap, List.mem_range, List.mem_singleton]
      exact ⟨f, hf, r, hr, c, hc, rfl⟩
    · intro w hw hwa
      simp only [List.mem_flatMap, List.mem_range, List.mem_singleton] at hw
      obtain ⟨f', hf', r', hr', c', hc', hw⟩ := hw
      subst hw
      simp only [SimpleConvolutionCode.outputTensor, LocalTensor.offsetOf] at hwa
      obtain ⟨h1, h2, h3⟩ := outputOffset_injective k.outputLayout hStride1 hStride2 _ _ _ _ _ _
        hc' hf' hc hf hwa
      subst h1
      subst h2
      subst h3
      rfl
  · intro a
    rw [SimpleConvolutionCode.run_memory k hBranch hSize hIn hW]
    exact ⟨applyWrites_other _ _ (Ne.symm hIn) _ _ _, applyWrites_other _ _ (Ne.symm hW) _ _ _⟩

/-- C22, instantiated at the example kernel (3 x 3 filters over 2 channels of a padded
3 x 3 input, 2 filters) and the memory whose input buffer holds its own offsets and whose
weights are all 1: after the loop nest the last output element `{2, 2, 1}` holds the sum
657 of the 18 input offsets of its window. -/
theorem C22_standard_kernel_computes_convolution_sum_witness :
    SimpleConvolutionCode.canCombineColumns Example.kernel = false ∧
      (1 : Int) ≤ Example.kernel.filterSize ∧
      Example.kernel.result ≠ Example.kernel.input ∧
      Example.kernel.result ≠ Example.kernel.filterWeights ∧
      Example.kernel.outputLayout.ActiveSize 1 ≤ Example.kernel.outputLayout.Stride 1 ∧
      Example.kernel.outputLayout.ActiveSize 2 ≤ Example.kernel.outputLayout.Stride 2 ∧
      (SimpleConvolutionCode.run Example.kernel Example.rampMemory).1 Example.kernel.result
          ((SimpleConvolutionCode.outputTensor Example.kernel).offsetOf
            [((2 : Nat) : Int), ((2 : Nat) : Int), ((1 : Nat) : Int)]) =
        convolutionSum Example.kernel Example.rampMemory ((2 : Nat) : Int) ((2 : Nat) : Int)
          ((1 : Nat) : Int) ∧
      convolutionSum Example.kernel Example.rampMemory 2 2 1 = 657 ∧
      (SimpleConvolutionCode.outputTensor Example.kernel).offsetOf [2, 2, 1] = 17 :=
  ⟨by decide, by decide, by decide, by decide, by decide, by decide,
    (C22_standard_kernel_computes_convolution_sum Example.kernel Example.rampMemory (by decide)
      (by decide) (by decide) (by decide) (by decide) (by decide)).2.1 2 2 1 (by decide)
      (by decide) (by decide),
    by decide, by decide⟩

/-! ## What the depthwise-separable kernel stores (C23) -/

/-- C23: the depthwise-separable kernel. The values are modelled with exact arithmetic.
(1) The flat index of the filter element `{f, windowRow, windowColumn}` is
`f*filterSize*filterSize + windowRow*filterSize + windowColumn`, whatever first extent
(the input stride in dimension 2) the filter array is given.
(2) From every memory, the code for output element `{r, c, f}` stores the depthwise
convolution sum of C23 in that element, and changes nothing else: the sum reads the input
only at channel `f` and the weights only in filter `f`.
(3) When the result buffer is a buffer of its own (neither the input nor the weights
buffer) and the output layout has `activeSize(d) <= stride(d)` in dimensions 1 and 2, then
after the whole loop nest, for every `r < outputRows`, `c < outputColumns`,
`f < numFilters`, the output element `{r, c, f}` holds the depthwise convolution sum
computed from the input and the weights the kernel was started on, and these are
unchanged. -/
theorem C23_depthwise_kernel_computes_channelwise_sum (k : ConvolutionKernel) (m : Memory) :
    (∀ f windowRow windowColumn : Int,
        (SimpleDepthwiseSeparableConvolutionCode.filter k).offsetOf
            [f, windowRow, windowColumn] =
          f * k.filterSize * k.filterSize + windowRow * k.filterSize + windowColumn) ∧
    (∀ (r c f : Int) (m1 : Memory),
        (SimpleDepthwiseSeparableConvolutionCode.element k r c f m1).1 =
          storeAt m1 k.result
            ((SimpleDepthwiseSeparableConvolutionCode.outputTensor k).offsetOf [r, c, f])
            (depthwiseConvolutionSum k m1 r c f)) ∧
    (k.result ≠ k.input → k.result ≠ k.filterWeights →
      k.outputLayout.ActiveSize 1 ≤ k.outputLayout.Stride 1 →
      k.outputLayout.ActiveSize 2 ≤ k.outputLayout.Stride 2 →
      (∀ r c f : Nat, r < (k.outputLayout.ActiveSize 0).toNat →
          c < (k.outputLayout.ActiveSize 1).toNat → f < (k.outputLayout.ActiveSize 2).toNat →
          (SimpleDepthwiseSeparableConvolutionCode.run k m).1 k.result
              ((SimpleDepthwiseSeparableConvolutionCode.outputTensor k).offsetOf
                [(r : Int), (c : Int), (f : Int)]) =
            depthwiseConvolutionSum k m r c f) ∧
        ∀ a : Int,
          (SimpleDepthwiseSeparableConvolutionCode.run k m).1 k.input a = m k.input a ∧
          (SimpleDepthwiseSeparableConvolutionCode.run k m).1 k.filterWeights a =
            m k.filterWeights a) := by
  refine ⟨SimpleDepthwiseSeparableConvolutionCode.filter_offsetOf k,
    SimpleDepthwiseSeparableConvolutionCode.depthwise_element_memory k, ?_⟩
  intro hIn hW hStride1 hStride2
  constructor
  · intro r c f hr hc hf
    rw [SimpleDepthwiseSeparableConvolutionCode.depthwise_run_memory k hIn hW]
    apply applyWrites_get
    · simp only [List.mem_flatMap, List.mem_range, List.mem_singleton]
      exact ⟨r, hr, c, hc, f, hf, rfl⟩
    · intro w hw hwa
      simp only [List.mem_flatMap, List.mem_range, List.mem_singleton] at hw
      obtain ⟨r', hr', c', hc', f', hf', hw⟩ := hw
      subst hw
      simp only [SimpleDepthwiseSeparableConvolutionCode.outputTensor, LocalTensor.offsetOf]
        at hwa
      obtain ⟨h1, h2, h3⟩ := outputOffset_injective k.outputLayout hStride1 hStride2 _ _ _ _ _ _
        hc' hf' hc hf hwa
      subst h1
      subst h2
      subst h3
      rfl
  · intro a
    rw [SimpleDepthwiseSeparableConvolutionCode.depthwise_run_memory k hIn hW]
    exact ⟨applyWrites_other _ _ (Ne.symm hIn) _ _ _, applyWrites_other _ _ (Ne.symm hW) _ _ _⟩

/-- C23, instantiated at the example kernel and the memory whose input buffer holds its own
offsets and whose weights are all 1: after the loop nest the last output element
`{2, 2, 1}` holds the sum 333 of the 9 input offsets of channel 1 of its window, and the
last filter element `{1, 2, 2}` has flat index 17. -/
theorem C23_depthwise_kernel_computes_channelwise_sum_witness :
    (SimpleDepthwiseSeparableConvolutionCode.filter Example.kernel).offsetOf [1, 2, 2] = 17 ∧
      (SimpleDepthwiseSeparableConvolutionCode.element Example.kernel 2 2 1
          Example.rampMemory).1 =
        storeAt Example.rampMemory Example.kernel.result
          ((SimpleDepthwiseSeparableConvolutionCode.outputTensor Example.kernel).offsetOf
            [2, 2, 1])
          (depthwiseConvolutionSum Example.kernel Example.rampMemory 2 2 1) ∧
      (SimpleDepthwiseSeparableConvolutionCode.run Example.kernel Example.rampMemory).1
          Example.kernel.result
          ((SimpleDepthwiseSeparableConvolutionCode.outputTensor Example.kernel).offsetOf
            [((2 : Nat) : Int), ((2 : Nat) : Int), ((1 : Nat) : Int)]) =
        depthwiseConvolutionSum Example.kernel Example.rampMemory ((2 : Nat) : Int)
          ((2 : Nat) : Int) ((1 : Nat) : Int) ∧
      depthwiseConvolutionSum Example.kernel Example.rampMemory 2 2 1 = 333 :=
  ⟨by decide,
    (C23_depthwise_kernel_computes_channelwise_sum Example.kernel Example.rampMemory).2.1 2 2 1
      Example.rampMemory,
    ((C23_depthwise_kernel_computes_channelwise_sum Example.kernel Example.rampMemory).2.2
      (by decide) (by decide) (by decide) (by decide)).1 2 2 1 (by decide) (by decide)
      (by decide),
    by decide⟩

/-! ## The filter offsets of the standard kernel (C24) -/

/-- C24: the filter offsets of the standard kernel are row-major indices of an
`F x k x k x d` array (`k` the filter size, `d` the input depth, `F` any number of filters).
The two branches take their dot products at `filterOffset` and `combinedFilterOffset`; for
`filterIndex < F`, `windowRow < k`, `windowColumn < k` and `channel < d` the offset
`filterOffset + channel` lies in `[0, F * k * k * d)`; distinct tuples
`(filterIndex, windowRow, windowColumn, channel)` give distinct offsets; and for `j < k * d`
the offset `combinedFilterOffset + j` lies in the same range. -/
theorem C24_filter_offset_is_row_major_index (k : ConvolutionKernel) :
    (∀ (filterIndex outputRow outputColumn : Int) (windowRow : Nat) (val : Value) (m : Memory),
        (SimpleConvolutionCode.canCombineColumns k = true →
          SimpleConvolutionCode.windowRow k filterIndex outputRow outputColumn windowRow val m =
            (val +
                (DotProduct (k.filterSize * k.inputLayout.ActiveSize 2)
                  (k.input,
                    SimpleConvolutionCode.combinedInputOffset k outputRow outputColumn windowRow)
                  (k.filterWeights,
                    SimpleConvolutionCode.combinedFilterOffset k filterIndex windowRow) m).1,
              (DotProduct (k.filterSize * k.inputLayout.ActiveSize 2)
                (k.input,
                  SimpleConvolutionCode.combinedInputOffset k outputRow outputColumn windowRow)
                (k.filterWeights,
                  SimpleConvolutionCode.combinedFilterOffset k filterIndex windowRow) m).2)) ∧
        ∀ (windowColumn : Nat) (rest : List Nat),
          (SimpleConvolutionCode.windowColumns k filterIndex outputRow outputColumn windowRow
              (windowColumn :: rest) val m).2 =
            (DotProduct (k.inputLayout.ActiveSize 2)
                (k.input,
                  SimpleConvolutionCode.inputOffset k outputRow outputColumn windowRow
                    windowColumn)
                (k.filterWeights,
                  SimpleConvolutionCode.filterOffset k filterIndex windowRow windowColumn)
                m).2 ++
              (SimpleConvolutionCode.windowColumns k filterIndex outputRow outputColumn windowRow
                rest
                (val +
                  (DotProduct (k.inputLayout.ActiveSize 2)
                    (k.input,
                      SimpleConvolutionCode.inputOffset k outputRow outputColumn windowRow
                        windowColumn)
                    (k.filterWeights,
                      SimpleConvolutionCode.filterOffset k filterIndex windowRow windowColumn)
                    m).1)
                m).2) ∧
    (∀ (F filterIndex windowRow windowColumn channel : Nat),
        filterIndex < F → windowRow < k.filterSize.toNat → windowColumn < k.filterSize.toNat →
        channel < (k.inputLayout.ActiveSize 2).toNat →
        0 ≤ SimpleConvolutionCode.filterOffset k filterIndex windowRow windowColumn + channel ∧
          SimpleConvolutionCode.filterOffset k filterIndex windowRow windowColumn + channel <
            F * k.filterSize * k.filterSize * k.inputLayout.ActiveSize 2) ∧
    (∀ (filterIndex windowRow windowColumn channel : Nat)
        (filterIndex' windowRow' windowColumn' channel' : Nat),
        windowRow < k.filterSize.toNat → windowColumn < k.filterSize.toNat →
        channel < (k.inputLayout.ActiveSize 2).toNat →
        windowRow' < k.filterSize.toNat → windowColumn' < k.filterSize.toNat →
        channel' < (k.inputLayout.ActiveSize 2).toNat →
        SimpleConvolutionCode.filterOffset k filterIndex windowRow windowColumn + channel =
          SimpleConvolutionCode.filterOffset k filterIndex' windowRow' windowColumn' + channel' →
        filterIndex = filterIndex' ∧ windowRow = windowRow' ∧ windowColumn = windowColumn' ∧
          channel = channel') ∧
    (∀ (F filterIndex windowRow j : Nat),
        filterIndex < F → windowRow < k.filterSize.toNat →
        j < (k.filterSize * k.inputLayout.ActiveSize 2).toNat →
        0 ≤ SimpleConvolutionCode.combinedFilterOffset k filterIndex windowRow + j ∧
          SimpleConvolutionCode.combinedFilterOffset k filterIndex windowRow + j <
            F * k.filterSize * k.filterSize * k.inputLayout.ActiveSize 2) := by
  refine ⟨?_, ?_, ?_, ?_⟩
  · intro f r c wr val m
    exact ⟨fun h => SimpleConvolutionCode.windowRow_combined k f r c wr val m h,
      fun wc rest => rfl⟩
  · intro F f wr wc ch hf hwr hwc hch
    rw [SimpleConvolutionCode.filterOffset_eq]
    exact rowMajorIndex_lt F k.filterSize (k.inputLayout.ActiveSize 2) f wr wc ch
      (by omega) (by omega) (by omega) (by omega) (by omega) (by omega) (by omega) (by omega)
  · intro f wr wc ch f' wr' wc' ch' hwr hwc hch hwr' hwc' hch' h
    rw [SimpleConvolutionCode.filterOffset_eq, SimpleConvolutionCode.filterOffset_eq] at h
    obtain ⟨h1, hch1⟩ := flatOffset_injective _ _ _ _ _ (by omega) (by omega) (by omega)
      (by omega) h
    obtain ⟨h2, hwc1⟩ := flatOffset_injective _ _ _ _ _ (by omega) (by omega) (by omega)
      (by omega) h1
    obtain ⟨h3, hwr1⟩ := flatOffset_injective _ _ _ _ _ (by omega) (by omega) (by omega)
      (by omega) h2
    exact ⟨by exact_mod_cast h3, by exact_mod_cast hwr1, by exact_mod_cast hwc1,
      by exact_mod_cast hch1⟩
  · intro F f wr j hf hwr hj
    rw [SimpleConvolutionCode.combinedFilterOffset_eq, SimpleConvolutionCode.filterOffset_eq]
    have hK : 0 < k.filterSize := by omega
    have hjj : (j : Int) < k.filterSize * k.inputLayout.ActiveSize 2 := by omega
    have hd : 0 < k.inputLayout.ActiveSize 2 := by
      by_contra hneg
      have : k.filterSize * k.inputLayout.ActiveSize 2 ≤ 0 :=
        mul_nonpos_of_nonneg_of_nonpos hK.le (by omega)
      omega
    have hwrK : (wr : Int) < k.filterSize := by omega
    have hf1 : (f : Int) * k.filterSize + wr + 1 ≤ F * k.filterSize := by
      have h1 : (f : Int) + 1 ≤ F := by exact_mod_cast hf
      have h2 := mul_le_mul_of_nonneg_right h1 hK.le
      linarith
    have h0 : 0 ≤ ((f : Int) * k.filterSize + wr) * k.filterSize :=
      mul_nonneg (by positivity) hK.le
    have hKd : 0 ≤ k.filterSize * k.inputLayout.ActiveSize 2 := mul_nonneg hK.le hd.le
    have h3 := mul_le_mul_of_nonneg_right hf1 hKd
    simp only [Nat.cast_zero, add_zero]
    constructor
    · have : 0 ≤ (((f : Int) * k.filterSize + wr) * k.filterSize) *
          k.inputLayout.ActiveSize 2 := mul_nonneg h0 hd.le
      omega
    · linarith

/-- C24, instantiated at the example kernel (3 x 3 filters over 2 channels) with 2 filters:
the last weight, of filter 1 at window row 2, window column 2 and channel 1, is at offset 35
of 36, and the last element of the last combined row is at the same offset. -/
theorem C24_filter_offset_is_row_major_index_witness :
    SimpleConvolutionCode.filterOffset Example.kernel 1 2 2 + 1 = 35 ∧
      SimpleConvolutionCode.combinedFilterOffset Example.kernel 1 2 + 5 = 35 ∧
      (0 ≤ SimpleConvolutionCode.filterOffset Example.kernel ((1 : Nat) : Int) 2 2 +
            ((1 : Nat) : Int) ∧
        SimpleConvolutionCode.filterOffset Example.kernel ((1 : Nat) : Int) 2 2 +
            ((1 : Nat) : Int) <
          ((2 : Nat) : Int) * Example.kernel.filterSize * Example.kernel.filterSize *
            Example.kernel.inputLayout.ActiveSize 2) ∧
      (0 ≤ SimpleConvolutionCode.combinedFilterOffset Example.kernel ((1 : Nat) : Int) 2 +
            ((5 : Nat) : Int) ∧
        SimpleConvolutionCode.combinedFilterOffset Example.kernel ((1 : Nat) : Int) 2 +
            ((5 : Nat) : Int) <
          ((2 : Nat) : Int) * Example.kernel.filterSize * Example.kernel.filterSize *
            Example.kernel.inputLayout.ActiveSize 2) :=
  ⟨by decide, by decide,
    (C24_filter_offset_is_row_major_index Example.kernel).2.1 2 1 2 2 1 (by decide) (by decide)
      (by decide) (by decide),
    (C24_filter_offset_is_row_major_index Example.kernel).2.2.2 2 1 2 5 (by decide) (by decide)
      (by decide)⟩

/-! ## The depthwise flag and the padding assertion (C25, C26) -/

/-- When `AddNode` returns, the node it returns is the one constructed for the next handle,
and it has been appended to the target model. -/
theorem ModelTransformer.AddNode_ok_inv {α : Type} (inj : α → Node)
    (make : Nat → Except Error α) (t t1 : ModelTransformer) (a : α)
    (h : ModelTransformer.AddNode inj make t = (Except.ok a, t1)) :
    make t.model.nodes.length = Except.ok a ∧ t1.model.nodes = t.model.nodes ++ [inj a] ∧
      t1.elementsMap = t.elementsMap := by
  unfold ModelTransformer.AddNode at h
  cases hm : make t.model.nodes.length with
  | error e => rw [hm] at h; simp at h
  | ok a' =>
    rw [hm] at h
    dsimp only at h
    split at h
    · simp only [Prod.mk.injEq, Except.ok.injEq] at h
      obtain ⟨h1, h2⟩ := h
      subst h1
      subst h2
      exact ⟨rfl, rfl, rfl⟩
    · simp at h

/-- When `SimpleConvolutionNode::Refine` returns, the compute node it has added carries the
input layout, the output layout, the stride and the depthwise flag of the refined node, and
the number of columns of its weights, converted to `int`, as filter size. -/
theorem SimpleConvolutionNode.Refine_compute_node (V : ValueType) (n : SimpleConvolutionNode)
    (t : ModelTransformer) (b : Bool) (h : (n.Refine V t).1 = Except.ok b) :
    ∃ (newInput : PortElements) (c : ConstantNode),
      (n.Refine V t).2.model.nodes =
        t.model.nodes ++
          [Node.Constant V c,
           Node.SimpleConvolutionCompute V
            { input := newInput
              filterWeights := PortElements.ofPort c.output
              output :=
                { id := { node := t.model.nodes.length + 1, index := 0 }, type := V,
                  layout := n.output.layout }
              inputMemoryLayout := n.inputMemoryLayout
              filterSize := toInt n.filterWeights.NumColumns
              stride := n.stride
              isDepthwiseSeparable := n.isDepthwiseSeparable }] := by
  unfold SimpleConvolutionNode.Refine at h ⊢
  rw [TransformerM.bind_apply] at h ⊢
  have h0 := ModelTransformer.TransformPortElements_model n.input t
  cases h1 : ModelTransformer.TransformPortElements n.input t with
  | mk r1 t1 =>
    rw [h1] at h0 h
    simp only at h0
    cases r1 with
    | error e => simp at h
    | ok newInput =>
      simp only [] at h ⊢
      rw [TransformerM.bind_apply] at h ⊢
      cases h2 : ModelTransformer.AddNode (Node.Constant V)
        (fun self => ConstantNode.ctor V self n.filterWeights.ReferenceAsMatrix.ToArray) t1 with
      | mk r2 t2 =>
        rw [h2] at h
        cases r2 with
        | error e => simp at h
        | ok c =>
          obtain ⟨_, h2n, _⟩ := ModelTransformer.AddNode_ok_inv _ _ _ _ _ h2
          simp only [] at h ⊢
          rw [TransformerM.bind_apply] at h ⊢
          cases h3 : ModelTransformer.AddNode (Node.SimpleConvolutionCompute V)
            (fun self => SimpleConvolutionComputeNode.ctor V self newInput
              (PortElements.ofPort c.output) n.inputMemoryLayout
              n.GetOutputMemoryLayout (toInt n.filterWeights.NumColumns) n.stride
              n.isDepthwiseSeparable) t2 with
          | mk r3 t3 =>
            rw [h3] at h
            cases r3 with
            | error e => simp at h
            | ok k =>
              obtain ⟨h3m, h3n, _⟩ := ModelTransformer.AddNode_ok_inv _ _ _ _ _ h3
              simp only [SimpleConvolutionComputeNode.ctor, Except.ok.injEq] at h3m
              refine ⟨newInput, c, ?_⟩
              simp only [TransformerM.bind_apply, ModelTransformer.MapNodeOutput,
                TransformerM.pure_apply]
              rw [h3n, h2n, h0, ← h3m]
              simp [SimpleConvolutionNode.GetOutputMemoryLayout, OutputPortBase.GetMemoryLayout,
                h2n, h0]

/-- When `SimpleConvolutionNode::Copy` returns, the node it has added was built by the
constructor from the members of the copied node. -/
theorem SimpleConvolutionNode.Copy_node (V : ValueType) (n : SimpleConvolutionNode)
    (t : ModelTransformer) (h : (n.Copy V t).1 = Except.ok ()) :
    ∃ (newInput : PortElements) (n1 : SimpleConvolutionNode),
      SimpleConvolutionNode.ctor V t.model.nodes.length newInput n.inputMemoryLayout
          n.GetOutputMemoryLayout n.filterWeights (toSizeT n.stride) = Except.ok n1 ∧
        (n.Copy V t).2.model.nodes = t.model.nodes ++ [Node.SimpleConvolution V n1] := by
  unfold SimpleConvolutionNode.Copy at h ⊢
  rw [TransformerM.bind_apply] at h ⊢
  have h0 := ModelTransformer.TransformPortElements_model n.input t
  cases h1 : ModelTransformer.TransformPortElements n.input t with
  | mk r1 t1 =>
    rw [h1] at h0 h
    simp only at h0
    cases r1 with
    | error e => simp at h
    | ok newInput =>
      simp only [] at h ⊢
      rw [TransformerM.bind_apply] at h ⊢
      cases h2 : ModelTransformer.AddNode (Node.SimpleConvolution V)
        (fun self => SimpleConvolutionNode.ctor V self newInput n.inputMemoryLayout
          n.GetOutputMemoryLayout n.filterWeights (toSizeT n.stride)) t1 with
      | mk r2 t2 =>
        rw [h2] at h
        cases r2 with
        | error e => simp at h
        | ok n1 =>
          obtain ⟨h2m, h2n, _⟩ := ModelTransformer.AddNode_ok_inv _ _ _ _ _ h2
          refine ⟨newInput, n1, ?_, ?_⟩
          · rw [← h2m, h0]
          · simp only [ModelTransformer.MapNodeOutput]
            rw [h2n, h0]

/-- The value of the expression that sets `_isDepthwiseSeparable`, when its evaluation is
defined: true if and only if the weights have exactly 1 channel and the active size of the
layout in dimension 2 is greater than 1. -/
theorem isDepthwiseSeparableOf_iff (filterWeights : Tensor) (inputMemoryLayout : PortMemoryLayout)
    (b : Bool) (h : isDepthwiseSeparableOf filterWeights inputMemoryLayout = Except.ok b) :
    b = true ↔ filterWeights.NumChannels = 1 ∧ 1 < inputMemoryLayout.ActiveSize 2 := by
  unfold isDepthwiseSeparableOf at h
  by_cases hc : filterWeights.NumChannels = 1
  · rw [if_pos hc] at h
    unfold PortMemoryLayout.GetActiveSize at h
    unfold PortMemoryLayout.ActiveSize
    cases hg : inputMemoryLayout.size.get? 2 with
    | none => rw [hg] at h; simp at h
    | some d =>
      rw [hg] at h
      simp only [Except.ok.injEq] at h
      subst h
      have hg' : inputMemoryLayout.size[2]? = some d := by simpa using hg
      simp [List.getD, hg', hc]
  · rw [if_neg hc] at h
    simp only [Except.ok.injEq] at h
    subst h
    simp [hc]

/-- The members of a node the constructor has built. -/
theorem SimpleConvolutionNode.ctor_members (V : ValueType) (self : Nat) (input : PortElements)
    (inputMemoryLayout outputMemoryLayout : PortMemoryLayout) (filterWeights : Tensor)
    (stride : Nat) (n : SimpleConvolutionNode)
    (h : SimpleConvolutionNode.ctor V self input inputMemoryLayout outputMemoryLayout
      filterWeights stride = Except.ok n) :
    n.input = input ∧ n.inputMemoryLayout = inputMemoryLayout ∧
      n.output.layout = outputMemoryLayout ∧ n.filterWeights = filterWeights ∧
      n.stride = toInt stride ∧ n.output.id = { node := self, index := 0 } ∧
      n.output.type = V ∧
      isDepthwiseSeparableOf filterWeights inputMemoryLayout = Except.ok n.isDepthwiseSeparable := by
  unfold SimpleConvolutionNode.ctor at h
  cases hb : isDepthwiseSeparableOf filterWeights inputMemoryLayout with
  | error e => rw [hb] at h; simp at h
  | ok b =>
    rw [hb] at h
    simp only [Except.ok.injEq] at h
    subst h
    exact ⟨rfl, rfl, rfl, rfl, rfl, rfl, rfl, rfl⟩

/-- Where `assert` is compiled in and the input padding differs from `filterSize / 2`,
`Compile` fails its padding assertion. -/
theorem SimpleConvolutionComputeNode.Compile_padding_assertion_fails
    (k : SimpleConvolutionComputeNode) (compiler : IRMapCompiler) (function : IRFunctionEmitter)
    (p : Int) (hp : k.inputMemoryLayout.GetOffsetAt 0 = Except.ok p)
    (hne : p ≠ k.filterSize.tdiv 2) :
    (k.Compile true compiler function).1 = Except.error Error.AssertionFailure := by
  simp [SimpleConvolutionComputeNode.Compile, SimpleConvolutionComputeNode.GetInputMemoryLayout,
    hp, hne]

/-- Where the input padding is `filterSize / 2`, the only assertion `Compile` and the kernel
helpers can fail is that of the depthwise-separable helper on the number of filters. -/
theorem SimpleConvolutionComputeNode.Compile_padding_assertion_holds
    (k : SimpleConvolutionComputeNode) (compiler : IRMapCompiler) (function : IRFunctionEmitter)
    (hp : k.inputMemoryLayout.GetOffsetAt 0 = Except.ok (k.filterSize.tdiv 2))
    (h : (k.Compile true compiler function).1 = Except.error Error.AssertionFailure) :
    k.isDepthwiseSeparable = true ∧
      ∃ numFilters inputDepth : Int,
        k.GetOutputMemoryLayout.GetActiveSizeAt 2 = Except.ok numFilters ∧
        k.inputMemoryLayout.GetActiveSizeAt 2 = Except.ok inputDepth ∧
        numFilters ≠ inputDepth := by
  cases hFlag : k.isDepthwiseSeparable with
  | false =>
    exfalso
    simp only [SimpleConvolutionComputeNode.Compile,
      SimpleConvolutionComputeNode.GetInputMemoryLayout, hp, hFlag,
      EmitSimpleConvolutionCode] at h
    simp only [ne_eq, not_true_eq_false, decide_False, Bool.and_false, Bool.false_eq_true,
      if_false, Bool.not_false, if_true] at h
    split at h
    · simp at h
    · rename_i x e heq
      simp only [Except.error.injEq] at h
      subst h
      split at heq <;> simp at heq
  | true =>
    refine ⟨rfl, ?_⟩
    simp only [SimpleConvolutionComputeNode.Compile,
      SimpleConvolutionComputeNode.GetInputMemoryLayout, hp, hFlag,
      EmitSimpleDepthwiseSeparableConvolutionCode] at h
    simp only [ne_eq, not_true_eq_false, decide_False, Bool.and_false, Bool.false_eq_true,
      if_false, Bool.not_true, if_true] at h
    cases hd : k.inputMemoryLayout.GetActiveSizeAt 2 with
    | error e =>
      rw [hd] at h
      simp only at h
      have hd' := hd
      unfold PortMemoryLayout.GetActiveSizeAt at hd'
      split at hd'
      · cases hd'
      · cases hd'
        simp at h
    | ok d =>
      rw [hd] at h
      simp only at h
      cases hn : k.GetOutputMemoryLayout.GetActiveSizeAt 2 with
      | error e =>
        rw [hn] at h
        simp only at h
        have hn' := hn
        unfold PortMemoryLayout.GetActiveSizeAt at hn'
        split at hn'
        · cases hn'
        · cases hn'
          simp at h
      | ok nf =>
        rw [hn] at h
        simp only at h
        refine ⟨nf, d, rfl, rfl, ?_⟩
        intro he
        subst he
        simp only [Bool.true_and, ne_eq, not_true_eq_false, decide_False, Bool.false_eq_true,
          if_false] at h
        split at h
        · simp at h
        · rename_i x e heq
          simp only [Except.error.injEq] at h
          subst h
          split at heq <;> simp at heq

/-- C25 as stated fails: the constructor accepts an input layout without padding. The node
it builds from 3 x 3 filters and the unpadded 3 x 3 x 1 layout refines to a compute node
with input padding 0 and `filterSize / 2 = 1`, and `Compile` of that node fails its
assertion where `assert` is compiled in. -/
theorem C25_unpadded_layout_counterexample :
    SimpleConvolutionNode.ctor ValueType.float 1
        [{ port := { node := 0, index := 0 }, start := 0, count := 9 }]
        Example.plainLayout Example.plainLayout Example.smallWeights 1 =
      Except.ok Example.unpaddedNode ∧
    (Example.unpaddedNode.Refine ValueType.float Example.transformer).1 = Except.ok true ∧
    (Example.unpaddedNode.Refine ValueType.float Example.transformer).2.model.nodes.get? 2 =
      some (Node.SimpleConvolutionCompute ValueType.float Example.unpaddedComputeNode) ∧
    Example.unpaddedComputeNode.GetInputMemoryLayout.GetOffsetAt 0 = Except.ok 0 ∧
    Example.unpaddedComputeNode.filterSize.tdiv 2 = 1 ∧
    (Example.unpaddedComputeNode.Compile true Example.compiler Example.function).1 =
      Except.error Error.AssertionFailure := by
  decide

/-- C25, amended: for every `SimpleConvolutionNode` built by its constructor and then
refined, the resulting `SimpleConvolutionComputeNode` has the input layout given to the
constructor and, as filter size, the number of columns of the weights converted to `int`.
So it satisfies `inputLayout.GetOffset(0) == filterSize / 2` if and only if the input layout
given to the constructor has that offset in dimension 0. When it has, the padding assertions
in `Compile` and in the kernel helpers do not fail (the only assertion that can fail is that
of the depthwise-separable helper on the number of filters); when it has another offset,
`Compile` fails its assertion where `assert` is compiled in. -/
theorem C25_padding_assertion_holds_iff_layout_padded (V : ValueType) (self : Nat)
    (input : PortElements) (inputMemoryLayout outputMemoryLayout : PortMemoryLayout)
    (filterWeights : Tensor) (stride : Nat) (n : SimpleConvolutionNode) (t : ModelTransformer)
    (b : Bool)
    (hCtor : SimpleConvolutionNode.ctor V self input inputMemoryLayout outputMemoryLayout
      filterWeights stride = Except.ok n)
    (hRefine : (n.Refine V t).1 = Except.ok b) :
    ∃ (c : ConstantNode) (k : SimpleConvolutionComputeNode),
      (n.Refine V t).2.model.nodes =
        t.model.nodes ++ [Node.Constant V c, Node.SimpleConvolutionCompute V k] ∧
      k.GetInputMemoryLayout = inputMemoryLayout ∧
      k.filterSize = toInt filterWeights.NumColumns ∧
      (k.GetInputMemoryLayout.GetOffsetAt 0 = Except.ok (k.filterSize.tdiv 2) ↔
        inputMemoryLayout.GetOffsetAt 0 =
          Except.ok ((toInt filterWeights.NumColumns).tdiv 2)) ∧
      (inputMemoryLayout.GetOffsetAt 0 = Except.ok ((toInt filterWeights.NumColumns).tdiv 2) →
        ∀ (compiler : IRMapCompiler) (function : IRFunctionEmitter),
          (k.Compile true compiler function).1 = Except.error Error.AssertionFailure →
          k.isDepthwiseSeparable = true ∧
            ∃ numFilters inputDepth : Int,
              k.GetOutputMemoryLayout.GetActiveSizeAt 2 = Except.ok numFilters ∧
              k.GetInputMemoryLayout.GetActiveSizeAt 2 = Except.ok inputDepth ∧
              numFilters ≠ inputDepth) ∧
      (∀ p : Int, inputMemoryLayout.GetOffsetAt 0 = Except.ok p →
        p ≠ (toInt filterWeights.NumColumns).tdiv 2 →
        ∀ (compiler : IRMapCompiler) (function : IRFunctionEmitter),
          (k.Compile true compiler function).1 = Except.error Error.AssertionFailure) := by
  obtain ⟨_, hLayout, _, hWeights, _⟩ :=
    SimpleConvolutionNode.ctor_members V self input inputMemoryLayout outputMemoryLayout
      filterWeights stride n hCtor
  obtain ⟨newInput, c, hNodes⟩ := SimpleConvolutionNode.Refine_compute_node V n t b hRefine
  rw [hLayout, hWeights] at hNodes
  refine ⟨c, _, hNodes, rfl, rfl, Iff.rfl, ?_, ?_⟩
  · intro hp compiler function hFail
    exact SimpleConvolutionComputeNode.Compile_padding_assertion_holds _ compiler function hp hFail
  · intro p hp hne compiler function
    exact SimpleConvolutionComputeNode.Compile_padding_assertion_fails _ compiler function p hp hne

/-- C25, instantiated: the example convolution node, built by the constructor over the
layout padded by one row and column for its 3 x 3 filters, refines on the example
transformer to a compute node that satisfies the padding condition. -/
theorem C25_padding_assertion_holds_iff_layout_padded_witness :
    SimpleConvolutionNode.ctor ValueType.float 1 Example.convNode.input Example.paddedLayout
        Example.plainLayout Example.weights 1 = Except.ok Example.convNode ∧
      (Example.convNode.Refine ValueType.float Example.transformer).1 = Except.ok true ∧
      Example.paddedLayout.GetOffsetAt 0 =
        Except.ok ((toInt Example.weights.NumColumns).tdiv 2) ∧
      ∃ (c : ConstantNode) (k : SimpleConvolutionComputeNode),
        (Example.convNode.Refine ValueType.float Example.transformer).2.model.nodes =
          Example.transformer.model.nodes ++
            [Node.Constant ValueType.float c, Node.SimpleConvolutionCompute ValueType.float k] ∧
        k.GetInputMemoryLayout.GetOffsetAt 0 = Except.ok (k.filterSize.tdiv 2) := by
  refine ⟨by decide, by decide, by decide, ?_⟩
  obtain ⟨c, k, hNodes, _, _, hIff, _, _⟩ :=
    C25_padding_assertion_holds_iff_layout_padded ValueType.float 1 Example.convNode.input
      Example.paddedLayout Example.plainLayout Example.weights 1 Example.convNode
      Example.transformer true (by decide) (by decide)
  exact ⟨c, k, hNodes, hIff.2 (by decide)⟩

/-- C26: the depthwise flag is a function of the node's data. After the constructor, and
after `ReadFromArchive`, `isDepthwiseSeparable` is true if and only if the filter weights
have exactly 1 channel and the active size of the input layout in dimension 2 is greater
than 1; the compute node `Refine` adds carries the flag of the refined node; and the node
`Copy` adds has the flag recomputed from the weights and the input layout of the copied
node, which are those of the new node: true under the same condition, and hence equal to the
flag of the copied node whenever that was set by the constructor or by
`ReadFromArchive`. -/
theorem C26_depthwise_flag_is_function_of_data :
    (∀ (V : ValueType) (self : Nat) (input : PortElements)
        (inputMemoryLayout outputMemoryLayout : PortMemoryLayout) (filterWeights : Tensor)
        (stride : Nat) (n : SimpleConvolutionNode),
        SimpleConvolutionNode.ctor V self input inputMemoryLayout outputMemoryLayout
          filterWeights stride = Except.ok n →
        n.filterWeights = filterWeights ∧ n.inputMemoryLayout = inputMemoryLayout ∧
          (n.isDepthwiseSeparable = true ↔
            filterWeights.NumChannels = 1 ∧ 1 < inputMemoryLayout.ActiveSize 2)) ∧
    (∀ (baseRead : Unarchiver → Except Error Unit × Unarchiver)
        (target : SimpleConvolutionNode) (unarchiver : Unarchiver)
        (read : SimpleConvolutionNode) (u : Unarchiver),
        target.ReadFromArchive baseRead unarchiver = (Except.ok (), read, u) →
        (read.isDepthwiseSeparable = true ↔
          read.filterWeights.NumChannels = 1 ∧ 1 < read.inputMemoryLayout.ActiveSize 2)) ∧
    (∀ (V : ValueType) (n : SimpleConvolutionNode) (t : ModelTransformer) (b : Bool),
        (n.Refine V t).1 = Except.ok b →
        ∃ (c : ConstantNode) (k : SimpleConvolutionComputeNode),
          (n.Refine V t).2.model.nodes =
            t.model.nodes ++ [Node.Constant V c, Node.SimpleConvolutionCompute V k] ∧
          k.isDepthwiseSeparable = n.isDepthwiseSeparable) ∧
    (∀ (V : ValueType) (n : SimpleConvolutionNode) (t : ModelTransformer),
        (n.Copy V t).1 = Except.ok () →
        ∃ n1 : SimpleConvolutionNode,
          (n.Copy V t).2.model.nodes = t.model.nodes ++ [Node.SimpleConvolution V n1] ∧
          n1.filterWeights = n.filterWeights ∧ n1.inputMemoryLayout = n.inputMemoryLayout ∧
          (n1.isDepthwiseSeparable = true ↔
            n.filterWeights.NumChannels = 1 ∧ 1 < n.inputMemoryLayout.ActiveSize 2) ∧
          (isDepthwiseSeparableOf n.filterWeights n.inputMemoryLayout =
              Except.ok n.isDepthwiseSeparable →
            n1.isDepthwiseSeparable = n.isDepthwiseSeparable)) := by
  refine ⟨?_, ?_, ?_, ?_⟩
  · intro V self input inputMemoryLayout outputMemoryLayout filterWeights stride n h
    obtain ⟨_, hLayout, _, hWeights, _, _, _, hFlag⟩ :=
      SimpleConvolutionNode.ctor_members V self input inputMemoryLayout outputMemoryLayout
        filterWeights stride n h
    exact ⟨hWeights, hLayout, isDepthwiseSeparableOf_iff _ _ _ hFlag⟩
  · intro baseRead target unarchiver read u h
    obtain ⟨u0, _, _, _, _, _, _, _, _, hFlag, _⟩ :=
      SimpleConvolutionNode.ReadFromArchive_ok baseRead target unarchiver read u h
    exact isDepthwiseSeparableOf_iff _ _ _ hFlag
  · intro V n t b h
    obtain ⟨newInput, c, hNodes⟩ := SimpleConvolutionNode.Refine_compute_node V n t b h
    exact ⟨c, _, hNodes, rfl⟩
  · intro V n t h
    obtain ⟨newInput, n1, hCtor, hNodes⟩ := SimpleConvolutionNode.Copy_node V n t h
    obtain ⟨_, hLayout, _, hWeights, _, _, _, hFlag⟩ :=
      SimpleConvolutionNode.ctor_members _ _ _ _ _ _ _ _ hCtor
    refine ⟨n1, hNodes, hWeights, hLayout, isDepthwiseSeparableOf_iff _ _ _ hFlag, ?_⟩
    intro hOld
    rw [hOld] at hFlag
    simp only [Except.ok.injEq] at hFlag
    exact hFlag.symm

/-- C26, instantiated: the constructor sets the flag of the example depthwise-separable node
(1 channel of weights, 2 input channels) and clears that of the example convolution node
(2 channels of weights); refining and copying the depthwise-separable node on the example
transformer hand the flag on. -/
theorem C26_depthwise_flag_is_function_of_data_witness :
    SimpleConvolutionNode.ctor ValueType.float 1 Example.depthwiseNode.input
        Example.paddedLayout Example.deepLayout Example.depthwiseWeights 1 =
      Except.ok Example.depthwiseNode ∧
    (Example.depthwiseNode.isDepthwiseSeparable = true ↔
      Example.depthwiseWeights.NumChannels = 1 ∧ 1 < Example.paddedLayout.ActiveSize 2) ∧
    (Example.convNode.isDepthwiseSeparable = true ↔
      Example.weights.NumChannels = 1 ∧ 1 < Example.paddedLayout.ActiveSize 2) ∧
    (∃ (c : ConstantNode) (k : SimpleConvolutionComputeNode),
      (Example.depthwiseNode.Refine ValueType.float Example.transformer).2.model.nodes =
        Example.transformer.model.nodes ++
          [Node.Constant ValueType.float c, Node.SimpleConvolutionCompute ValueType.float k] ∧
      k.isDepthwiseSeparable = Example.depthwiseNode.isDepthwiseSeparable) ∧
    (Example.depthwiseNode.Copy ValueType.float Example.transformer).2.model.nodes.get? 1 =
      some (Node.SimpleConvolution ValueType.float Example.depthwiseNode) :=
  ⟨by decide,
    (C26_depthwise_flag_is_function_of_data.1 ValueType.float 1 Example.depthwiseNode.input
      Example.paddedLayout Example.deepLayout Example.depthwiseWeights 1 Example.depthwiseNode
      (by decide)).2.2,
    (C26_depthwise_flag_is_function_of_data.1 ValueType.float 1 Example.convNode.input
      Example.paddedLayout Example.plainLayout Example.weights 1 Example.convNode
      (by decide)).2.2,
    C26_depthwise_flag_is_function_of_data.2.2.1 ValueType.float Example.depthwiseNode
      Example.transformer true (by decide),
    by decide⟩

/-! ## The walk of ReplaceSourceAndSinkNodesPass (C27) -/

/-- Sequencing rule: what the first computation ensures is what the second starts from. -/
theorem TransformerM.Ensures_bind {α β : Type} {P : ModelTransformer → Prop}
    {Q : α → ModelTransformer → Prop} {R : β → ModelTransformer → Prop}
    {E : ModelTransformer → Prop} {m : TransformerM α} {f : α → TransformerM β}
    (h1 : TransformerM.Ensures P m Q E) (h2 : ∀ a : α, TransformerM.Ensures (Q a) (f a) R E) :
    TransformerM.Ensures P (m >>= f) R E := by
  intro t hP
  obtain ⟨hOk, hErr⟩ := h1 t hP
  rw [TransformerM.bind_apply]
  cases hm : m t with
  | mk r t1 =>
    cases r with
    | error e =>
      refine ⟨fun a t2 h => ?_, fun e2 t2 h => ?_⟩
      · simp at h
      · simp only [Prod.mk.injEq, Except.error.injEq] at h
        rw [← h.2]
        exact hErr e t1 hm
    | ok a => exact h2 a t1 (hOk a t1 hm)

/-- A computation that returns at once keeps the state. -/
theorem TransformerM.Ensures_pure {α : Type} (a : α) (Q : α → ModelTransformer → Prop)
    (E : ModelTransformer → Prop) :
    TransformerM.Ensures (Q a) (pure a : TransformerM α) Q E := by
  intro t hP
  refine ⟨fun b t1 h => ?_, fun e t1 h => ?_⟩
  · rw [TransformerM.pure_apply] at h
    simp only [Prod.mk.injEq, Except.ok.injEq] at h
    rw [← h.1, ← h.2]
    exact hP
  · rw [TransformerM.pure_apply] at h
    simp at h

/-- `TransformPortElements` leaves the target model and the mapping as they are; when it
returns, its result is the rewriting of its argument through the mapping. -/
theorem ModelTransformer.TransformPortElements_ensures (t0 : ModelTransformer)
    (old : PortElements) :
    TransformerM.Ensures t0.SameAs (ModelTransformer.TransformPortElements old)
      (fun new t => t0.SameAs t ∧
        ModelTransformer.transformRanges t0.elementsMap old = some new)
      t0.SameAs := by
  intro t hP
  obtain ⟨hModel, hMap⟩ := hP
  unfold ModelTransformer.TransformPortElements
  dsimp only
  cases hT : ModelTransformer.transformRanges t.elementsMap old with
  | none =>
    refine ⟨fun a t1 h => ?_, fun e t1 h => ?_⟩
    · simp at h
    · simp only [Prod.mk.injEq] at h
      rw [← h.2]
      exact ⟨hModel, hMap⟩
  | some new =>
    refine ⟨fun a t1 h => ?_, fun e t1 h => ?_⟩
    · simp only [Prod.mk.injEq, Except.ok.injEq] at h
      rw [← h.1, ← h.2]
      exact ⟨⟨hModel, hMap⟩, by rw [← hMap]; exact hT⟩
    · simp at h

/-- `AddNode` appends the node constructed for the next handle when it returns, and leaves
the target model as it is when it throws; it leaves the mapping as it is. -/
theorem ModelTransformer.AddNode_ensures {α : Type} (t0 : ModelTransformer) (inj : α → Node)
    (make : Nat → Except Error α) :
    TransformerM.Ensures t0.SameAs (ModelTransformer.AddNode inj make)
      (fun a t => make t0.model.nodes.length = Except.ok a ∧
        t.model.nodes = t0.model.nodes ++ [inj a] ∧ t.elementsMap = t0.elementsMap)
      t0.SameAs := by
  intro t hP
  obtain ⟨hModel, hMap⟩ := hP
  refine ⟨fun a t1 h => ?_, fun e t1 h => ?_⟩
  · obtain ⟨h1, h2, h3⟩ := ModelTransformer.AddNode_ok_inv inj make t t1 a h
    rw [hModel] at h1 h2
    exact ⟨h1, h2, h3.trans hMap⟩
  · unfold ModelTransformer.AddNode at h
    cases hm : make t.model.nodes.length with
    | error e2 =>
      rw [hm] at h
      simp only [Prod.mk.injEq] at h
      rw [← h.2]
      exact ⟨hModel, hMap⟩
    | ok a =>
      rw [hm] at h
      dsimp only at h
      split at h
      · simp at h
      · simp only [Prod.mk.injEq] at h
        rw [← h.2]
        exact ⟨hModel, hMap⟩

/-- `MapNodeOutput` returns, having appended one entry to the mapping. -/
theorem ModelTransformer.MapNodeOutput_ensures (N : List Node) (M : List (PortId × PortElements))
    (old new : OutputPortBase) (E : ModelTransformer → Prop) :
    TransformerM.Ensures (fun t => t.model.nodes = N ∧ t.elementsMap = M)
      (ModelTransformer.MapNodeOutput old new)
      (fun _ t => t.model.nodes = N ∧
        t.elementsMap = M ++ [(old.id, PortElements.ofPort new)])
      E := by
  intro t hP
  refine ⟨fun a t1 h => ?_, fun e t1 h => ?_⟩
  · unfold ModelTransformer.MapNodeOutput at h
    simp only [Prod.mk.injEq] at h
    rw [← h.2]
    exact ⟨hP.1, by rw [← hP.2]⟩
  · unfold ModelTransformer.MapNodeOutput at h
    simp at h

/-- Weakening of what a computation ensures. -/
theorem TransformerM.Ensures_weaken {α : Type} {P P1 : ModelTransformer → Prop}
    {Q Q1 : α → ModelTransformer → Prop} {E E1 : ModelTransformer → Prop} {m : TransformerM α}
    (h : TransformerM.Ensures P m Q E) (hP : ∀ t, P1 t → P t) (hQ : ∀ a t, Q a t → Q1 a t)
    (hE : ∀ t, E t → E1 t) : TransformerM.Ensures P1 m Q1 E1 := by
  intro t hP1
  obtain ⟨hOk, hErr⟩ := h t (hP t hP1)
  exact ⟨fun a t1 hm => hQ a t1 (hOk a t1 hm), fun e t1 hm => hE t1 (hErr e t1 hm)⟩

/-- What a computation ensures, read off its final state. -/
theorem TransformerM.Ensures_state {α : Type} {P : ModelTransformer → Prop}
    {Q : α → ModelTransformer → Prop} {E : ModelTransformer → Prop} {m : TransformerM α}
    (h : TransformerM.Ensures P m Q E) (R : ModelTransformer → Prop)
    (hQ : ∀ a t, Q a t → R t) (hE : ∀ t, E t → R t) (t : ModelTransformer) (hP : P t) :
    R (m t).2 := by
  obtain ⟨hOk, hErr⟩ := h t hP
  cases hm : m t with
  | mk r t1 =>
    cases r with
    | error e => exact hE t1 (hErr e t1 hm)
    | ok a => exact hQ a t1 (hOk a t1 hm)

/-- The ranges of a slice of a whole output port select elements of that port. -/
theorem PortElements.slice_ofPort_valid (p : OutputPortBase) (start count : Nat) (r : PortRange)
    (h : r ∈ PortElements.slice (PortElements.ofPort p) start count) :
    r.port = p.id ∧ 0 < r.count ∧ r.start + r.count ≤ p.Size := by
  unfold PortElements.ofPort at h
  unfold PortElements.slice at h
  split at h
  · simp at h
  · rename_i hc
    split at h
    · simp [PortElements.slice] at h
    · rename_i hs
      simp only [PortElements.slice, List.mem_singleton] at h
      subst h
      simp only at hs
      refine ⟨rfl, ?_, ?_⟩
      · show 0 < min (p.Size - start) count
        omega
      · show 0 + start + min (p.Size - start) count ≤ p.Size
        omega

/-- A slice of a whole output port that lies within the port is the range itself. -/
theorem PortElements.slice_ofPort_self (p : OutputPortBase) (r : PortRange)
    (hp : r.port = p.id) (hc : 0 < r.count) (hs : r.start + r.count ≤ p.Size) :
    PortElements.slice (PortElements.ofPort p) r.start r.count = [r] := by
  unfold PortElements.ofPort
  unfold PortElements.slice
  rw [if_neg (by omega)]
  simp only
  rw [if_neg (by omega)]
  simp only [PortElements.slice, Nat.zero_add, List.cons.injEq, and_true]
  cases r with
  | mk port start count =>
    simp only at hp hc hs ⊢
    rw [hp, Nat.min_eq_right (by omega)]

/-- A range that is valid in a list of nodes is valid in every extension of the list. -/
theorem PortRange.ValidIn_append (nodes extra : List Node) (r : PortRange)
    (h : r.ValidIn nodes) : r.ValidIn (nodes ++ extra) := by
  obtain ⟨node, hg, hrest⟩ := h
  refine ⟨node, ?_, hrest⟩
  have hlt : r.port.node < nodes.length := by
    by_contra hge
    rw [List.get?_eq_none.2 (by omega)] at hg
    cases hg
  rw [List.get?_eq_getElem?] at hg ⊢
  rw [List.getElem?_append_left hlt]
  exact hg

/-- A range that is valid in a list of nodes names a handle of the list. -/
theorem PortRange.ValidIn_lt (nodes : List Node) (r : PortRange) (h : r.ValidIn nodes) :
    r.port.node < nodes.length := by
  obtain ⟨node, hg, _⟩ := h
  by_contra hge
  rw [List.get?_eq_none.2 (by omega)] at hg
  cases hg

/-- The rewriting of elements through a mapping that refers to whole outputs of target
nodes selects elements of target nodes. -/
theorem ModelTransformer.transformRanges_valid (t : ModelTransformer) (h : t.MapsToOutputs)
    (pe new : PortElements)
    (hT : ModelTransformer.transformRanges t.elementsMap pe = some new) :
    ∀ r ∈ new, r.ValidIn t.model.nodes := by
  induction pe generalizing new with
  | nil =>
    simp only [ModelTransformer.transformRanges, Option.some.injEq] at hT
    subst hT
    intro r hr
    cases hr
  | cons q qs ih =>
    unfold ModelTransformer.transformRanges at hT
    cases hl : ModelTransformer.lookup t.elementsMap q.port with
    | none => rw [hl] at hT; simp at hT
    | some e =>
      cases hrest : ModelTransformer.transformRanges t.elementsMap qs with
      | none => rw [hl, hrest] at hT; simp at hT
      | some rest =>
        rw [hl, hrest] at hT
        simp only [Option.some.injEq] at hT
        subst hT
        intro r hr
        rcases List.mem_append.1 hr with hr | hr
        · obtain ⟨node, hg, he⟩ := h _ (ModelTransformer.lookup_mem _ _ _ hl)
          simp only at he
          rw [he] at hr
          obtain ⟨h1, h2, h3⟩ := PortElements.slice_ofPort_valid _ _ _ _ hr
          exact ⟨node, by rw [h1]; exact hg, h1, h2, h3⟩
        · exact ih rest hrest r hr

/-- A node of a well-formed list owns the output port of its handle. -/
theorem WellFormedNodes.wellFormed_output_id (nodes : List Node) (h : WellFormedNodes nodes) (i : Nat)
    (x : Node) (hx : nodes.get? i = some x) : x.output.id = { node := i, index := 0 } := by
  have hlt : i < nodes.length := by
    by_contra hge
    rw [List.get?_eq_none.2 (by omega)] at hx
    cases hx
  have := (h i x hx).1
  rw [List.length_take, Nat.min_eq_left hlt.le] at this
  exact this

/-- Adding a node that fits keeps a list of nodes well-formed. -/
theorem WellFormedNodes.wellFormed_append (nodes : List Node) (h : WellFormedNodes nodes) (x : Node)
    (hx : x.FitsAfter nodes) : WellFormedNodes (nodes ++ [x]) := by
  intro i y hy
  rw [List.get?_eq_getElem?] at hy
  by_cases hlt : i < nodes.length
  · rw [List.getElem?_append_left hlt] at hy
    rw [List.take_append_of_le_length hlt.le]
    exact h i y (by rw [List.get?_eq_getElem?]; exact hy)
  · have hi : i = nodes.length := by
      by_contra hne
      rw [List.getElem?_eq_none (by simp; omega)] at hy
      cases hy
    subst hi
    rw [List.getElem?_append_right (le_refl _)] at hy
    simp only [Nat.sub_self, List.getElem?_cons_zero, Option.some.injEq] at hy
    subst hy
    rw [List.take_left']
    · exact hx
    · rfl

/-- The empty list of nodes is well-formed. -/
theorem WellFormedNodes.wellFormed_nil : WellFormedNodes [] := by
  intro i x hx
  simp at hx

/-- The invariant of a walk whose handlers add nodes that fit: the target model is
well-formed and the mapping refers to whole outputs of its nodes. It is kept when nothing
is added, and when one node that fits is added and an old output is mapped to its output. -/
theorem ModelTransformer.wellFormed_extends (t0 t1 : ModelTransformer) (old : PortId)
    (X : Node → Prop) (hX : ∀ x, X x → x.FitsAfter t0.model.nodes)
    (hW : WellFormedNodes t0.model.nodes) (hM : t0.MapsToOutputs)
    (hE : t0.Extends t1 old X) : WellFormedNodes t1.model.nodes ∧ t1.MapsToOutputs := by
  rcases hE with ⟨hModel, hMap⟩ | ⟨x, hx, hModel, hMap⟩
  · refine ⟨by rw [hModel]; exact hW, ?_⟩
    intro e he
    rw [hMap] at he
    rw [hModel]
    exact hM e he
  · have hFit := hX x hx
    refine ⟨by rw [hModel]; exact WellFormedNodes.wellFormed_append _ hW x hFit, ?_⟩
    intro e he
    rw [hMap] at he
    rw [hModel]
    rcases List.mem_append.1 he with he | he
    · obtain ⟨node, hg, hn⟩ := hM e he
      refine ⟨node, ?_, hn⟩
      have hlt : node.output.id.node < t0.model.nodes.length := by
        by_contra hge
        rw [List.get?_eq_none.2 (by omega)] at hg
        cases hg
      rw [List.get?_eq_getElem?] at hg ⊢
      rw [List.getElem?_append_left hlt]
      exact hg
    · simp only [List.mem_singleton] at he
      subst he
      refine ⟨x, ?_, rfl⟩
      rw [hFit.1, List.get?_eq_getElem?]
      simp

/-- The absence of source and sink nodes from the target model is kept when nothing is added
and when a node that is neither is added. -/
theorem ModelTransformer.noSourceOrSink_extends (t0 t1 : ModelTransformer) (old : PortId)
    (X : Node → Prop) (hX : ∀ x, X x → x.isSourceOrSink = false) (h : t0.NoSourceOrSink)
    (hE : t0.Extends t1 old X) : t1.NoSourceOrSink := by
  rcases hE with ⟨hModel, _⟩ | ⟨x, hx, hModel, _⟩
  · intro y hy
    rw [hModel] at hy
    exact h y hy
  · intro y hy
    rw [hModel] at hy
    rcases List.mem_append.1 hy with hy | hy
    · exact h y hy
    · simp only [List.mem_singleton] at hy
      subst hy
      exact hX y hx

/-- A node of the kind of a node that is neither a source nor a sink node is neither. -/
theorem Node.SameKind_isSourceOrSink (x node : Node) (h : x.SameKind node = true)
    (hn : node.isSourceOrSink = false) : x.isSourceOrSink = false := by
  cases x <;> cases node <;> simp_all [Node.SameKind, Node.isSourceOrSink]

/-- A rebuilt node is of the kind of the node it was rebuilt from. -/
theorem Node.withInputs_sameKind (self : Nat) (inputs : List PortElements) (node : Node) :
    (node.withInputs self inputs).SameKind node = true := by
  cases node <;> simp [Node.withInputs, Node.SameKind]

/-- The output port of a rebuilt node is owned by the handle given. -/
theorem Node.withInputs_output_id (self : Nat) (inputs : List PortElements) (node : Node) :
    (node.withInputs self inputs).output.id = { node := self, index := 0 } := by
  cases node <;> rfl

/-- The inputs of a rebuilt node are the inputs given, when there are as many as the node
has input ports. -/
theorem Node.withInputs_inputs (self : Nat) (inputs : List PortElements) (node : Node)
    (h : inputs.length = node.inputs.length) : (node.withInputs self inputs).inputs = inputs := by
  cases node with
  | Other n => rfl
  | Constant V n =>
    simp only [Node.inputs, List.length_nil, List.length_eq_zero] at h
    subst h
    rfl
  | Input V n =>
    simp only [Node.inputs, List.length_nil, List.length_eq_zero] at h
    subst h
    rfl
  | SimpleConvolution V n =>
    match inputs, h with
    | [a], _ => rfl
  | Output V n =>
    match inputs, h with
    | [a], _ => rfl
  | Source V n =>
    match inputs, h with
    | [a], _ => rfl
  | Sink V n =>
    match inputs, h with
    | [a], _ => rfl
  | ReorderData V n =>
    match inputs, h with
    | [a], _ => rfl
  | SimpleConvolutionCompute V n =>
    match inputs, h with
    | [a, b], _ => rfl
  | BinaryFunction V n =>
    match inputs, h with
    | [a, b], _ => rfl

/-- A node rebuilt over its own inputs for its own handle is the node itself. -/
theorem Node.withInputs_self (self : Nat) (node : Node)
    (h : node.output.id = { node := self, index := 0 }) :
    node.withInputs self node.inputs = node := by
  cases node with
  | Other n => cases n; simp only [Node.output] at h; simp [Node.withInputs, Node.inputs, ← h]
  | Constant V n =>
    cases n; simp only [Node.output] at h; simp [Node.withInputs, ← h]
  | Input V n =>
    cases n; simp only [Node.output] at h; simp [Node.withInputs, ← h]
  | SimpleConvolution V n =>
    cases n; simp only [Node.output] at h; simp [Node.withInputs, Node.inputs, ← h]
  | Output V n =>
    cases n; simp only [Node.output] at h; simp [Node.withInputs, Node.inputs, ← h]
  | Source V n =>
    cases n; simp only [Node.output] at h; simp [Node.withInputs, Node.inputs, ← h]
  | Sink V n =>
    cases n; simp only [Node.output] at h; simp [Node.withInputs, Node.inputs, ← h]
  | ReorderData V n =>
    cases n; simp only [Node.output] at h; simp [Node.withInputs, Node.inputs, ← h]
  | SimpleConvolutionCompute V n =>
    cases n; simp only [Node.output] at h; simp [Node.withInputs, Node.inputs, ← h]
  | BinaryFunction V n =>
    cases n; simp only [Node.output] at h; simp [Node.withInputs, Node.inputs, ← h]

/-- Rebuilding keeps what the constructors establish. -/
theorem Node.withInputs_classInvariant (self : Nat) (inputs : List PortElements) (node : Node)
    (h : node.ClassInvariant) : (node.withInputs self inputs).ClassInvariant := by
  cases node <;> exact h

/-- An input or output node is neither a source nor a sink node. -/
theorem Node.isInputOrOutput_isSourceOrSink (x : Node) (h : x.isInputOrOutput = true) :
    x.isSourceOrSink = false := by
  cases x <;> simp_all [Node.isInputOrOutput, Node.isSourceOrSink]

/-- What was added between two states of which the second extends the first. -/
theorem ModelTransformer.Extends_added (t0 t1 : ModelTransformer) (old : PortId)
    (X : Node → Prop) (h : t0.Extends t1 old X) :
    ∃ added : List Node, t1.model.nodes = t0.model.nodes ++ added ∧ ∀ x ∈ added, X x := by
  rcases h with ⟨hModel, _⟩ | ⟨x, hx, hModel, _⟩
  · exact ⟨[], by rw [hModel, List.append_nil], fun x hx => by cases hx⟩
  · refine ⟨[x], hModel, fun y hy => ?_⟩
    simp only [List.mem_singleton] at hy
    subst hy
    exact hx

/-- Weakening of what the added node satisfies. -/
theorem ModelTransformer.Extends_weaken (t0 t1 : ModelTransformer) (old : PortId)
    (X Y : Node → Prop) (hXY : ∀ x, X x → Y x) (h : t0.Extends t1 old X) :
    t0.Extends t1 old Y := by
  rcases h with h | ⟨x, hx, hModel, hMap⟩
  · exact Or.inl h
  · exact Or.inr ⟨x, hXY x hx, hModel, hMap⟩

/-- `SimpleConvolutionNode::Copy` adds nothing, or one convolution node of the same element
type that fits after the nodes of the target model. -/
theorem SimpleConvolutionNode.Copy_ensures (V : ValueType) (n : SimpleConvolutionNode)
    (t0 : ModelTransformer) :
    TransformerM.Ensures t0.SameAs (n.Copy V)
      (fun _ t => t0.Extends t n.output.id fun x =>
        x.SameKind (Node.SimpleConvolution V n) = true ∧
          (t0.MapsToOutputs → x.FitsAfter t0.model.nodes))
      (fun t => t0.Extends t n.output.id fun x =>
        x.SameKind (Node.SimpleConvolution V n) = true ∧
          (t0.MapsToOutputs → x.FitsAfter t0.model.nodes)) := by
  unfold SimpleConvolutionNode.Copy
  refine TransformerM.Ensures_bind
    (TransformerM.Ensures_weaken (ModelTransformer.TransformPortElements_ensures t0 n.input)
      (fun _ h => h) (fun _ _ h => h) (fun _ h => Or.inl h)) ?_
  intro newInput t hP
  obtain ⟨hSame, hT⟩ := hP
  refine TransformerM.Ensures_bind
    (TransformerM.Ensures_weaken (ModelTransformer.AddNode_ensures t0 _ _)
      (fun _ h => h) (fun _ _ h => h) (fun _ h => Or.inl h)) ?_ t hSame
  intro a t2 hP2
  obtain ⟨hMake, hNodes, hMap⟩ := hP2
  refine TransformerM.Ensures_weaken
    (ModelTransformer.MapNodeOutput_ensures _ _ n.output a.output _)
    (fun _ h => h) (fun _ t3 h => Or.inr ⟨Node.SimpleConvolution V a, ?_, h.1, h.2⟩)
    (fun _ h => h) t2 ⟨hNodes, hMap⟩
  obtain ⟨h1, _, _, _, _, h6, h7, _⟩ := SimpleConvolutionNode.ctor_members _ _ _ _ _ _ _ _ hMake
  refine ⟨by simp [Node.SameKind], fun hM => ⟨h6, ⟨?_, h7⟩, ?_⟩⟩
  · exact SimpleConvolutionNode.ctor_invariant _ _ _ _ _ _ _ _ hMake
  · intro pe hpe
    simp only [Node.inputs, List.mem_singleton] at hpe
    subst hpe
    rw [h1]
    exact ModelTransformer.transformRanges_valid t0 hM n.input newInput hT

/-- `SimpleConvolutionComputeNode::Copy` adds nothing, or one compute node of the same
element type that fits after the nodes of the target model. -/
theorem SimpleConvolutionComputeNode.ComputeCopy_ensures (V : ValueType)
    (n : SimpleConvolutionComputeNode) (t0 : ModelTransformer) :
    TransformerM.Ensures t0.SameAs (n.Copy V)
      (fun _ t => t0.Extends t n.output.id fun x =>
        x.SameKind (Node.SimpleConvolutionCompute V n) = true ∧
          (t0.MapsToOutputs → x.FitsAfter t0.model.nodes))
      (fun t => t0.Extends t n.output.id fun x =>
        x.SameKind (Node.SimpleConvolutionCompute V n) = true ∧
          (t0.MapsToOutputs → x.FitsAfter t0.model.nodes)) := by
  unfold SimpleConvolutionComputeNode.Copy
  refine TransformerM.Ensures_bind
    (TransformerM.Ensures_weaken (ModelTransformer.TransformPortElements_ensures t0 n.input)
      (fun _ h => h) (fun _ _ h => h) (fun _ h => Or.inl h)) ?_
  intro newInput t hP
  obtain ⟨hSame, hT⟩ := hP
  refine TransformerM.Ensures_bind
    (TransformerM.Ensures_weaken
      (ModelTransformer.TransformPortElements_ensures t0 n.filterWeights)
      (fun _ h => h) (fun _ _ h => h) (fun _ h => Or.inl h)) ?_ t hSame
  intro newFilterWeights t1 hP1
  obtain ⟨hSame1, hW⟩ := hP1
  refine TransformerM.Ensures_bind
    (TransformerM.Ensures_weaken (ModelTransformer.AddNode_ensures t0 _ _)
      (fun _ h => h) (fun _ _ h => h) (fun _ h => Or.inl h)) ?_ t1 hSame1
  intro a t2 hP2
  obtain ⟨hMake, hNodes, hMap⟩ := hP2
  refine TransformerM.Ensures_weaken
    (ModelTransformer.MapNodeOutput_ensures _ _ n.output a.output _)
    (fun _ h => h) (fun _ t3 h => Or.inr ⟨Node.SimpleConvolutionCompute V a, ?_, h.1, h.2⟩)
    (fun _ h => h) t2 ⟨hNodes, hMap⟩
  unfold SimpleConvolutionComputeNode.ctor at hMake
  simp only [Except.ok.injEq] at hMake
  subst hMake
  refine ⟨by simp [Node.SameKind], fun hM => ⟨rfl, rfl, ?_⟩⟩
  intro pe hpe
  simp only [Node.inputs, List.mem_cons, List.mem_singleton, List.not_mem_nil, or_false] at hpe
  rcases hpe with hpe | hpe
  · subst hpe
    exact ModelTransformer.transformRanges_valid t0 hM n.input _ hT
  · subst hpe
    exact ModelTransformer.transformRanges_valid t0 hM n.filterWeights _ hW

/-- `TryReplaceSinkNode` on a sink node of its element type returns true or throws, having
added nothing, or one output node that fits after the nodes of the target model. -/
theorem TryReplaceSinkNode_ensures (V : ValueType) (n : SinkNode) (t0 : ModelTransformer) :
    TransformerM.Ensures t0.SameAs (TryReplaceSinkNode V (Node.Sink V n))
      (fun b t => b = true ∧ t0.Extends t n.output.id fun x =>
        x.isInputOrOutput = true ∧ (t0.MapsToOutputs → x.FitsAfter t0.model.nodes))
      (fun t => t0.Extends t n.output.id fun x =>
        x.isInputOrOutput = true ∧ (t0.MapsToOutputs → x.FitsAfter t0.model.nodes)) := by
  unfold TryReplaceSinkNode
  have hs : (Node.Sink V n).asSinkNode V = some n := by simp [Node.asSinkNode]
  rw [hs]
  dsimp only
  refine TransformerM.Ensures_bind
    (TransformerM.Ensures_weaken (ModelTransformer.TransformPortElements_ensures t0 n.input)
      (fun _ h => h) (fun _ _ h => h) (fun _ h => Or.inl h)) ?_
  intro newInput t hP
  obtain ⟨hSame, hT⟩ := hP
  refine TransformerM.Ensures_bind
    (TransformerM.Ensures_weaken (ModelTransformer.AddNode_ensures t0 _ _)
      (fun _ h => h) (fun _ _ h => h) (fun _ h => Or.inl h)) ?_ t hSame
  intro a t2 hP2
  obtain ⟨hMake, hNodes, hMap⟩ := hP2
  have hX : (Node.Output V a).isInputOrOutput = true ∧
      (t0.MapsToOutputs → (Node.Output V a).FitsAfter t0.model.nodes) := by
    unfold OutputNode.ctor at hMake
    simp only [Except.ok.injEq] at hMake
    subst hMake
    refine ⟨rfl, fun hM => ⟨rfl, trivial, ?_⟩⟩
    intro pe hpe
    simp only [Node.inputs, List.mem_singleton] at hpe
    subst hpe
    exact ModelTransformer.transformRanges_valid t0 hM n.input _ hT
  refine TransformerM.Ensures_bind
    (TransformerM.Ensures_weaken
      (ModelTransformer.MapNodeOutput_ensures _ _ n.output a.output _)
      (fun _ h => h) (fun _ _ h => h) (fun _ h => h)) ?_ t2 ⟨hNodes, hMap⟩
  intro _
  refine TransformerM.Ensures_weaken
    (TransformerM.Ensures_pure true
      (fun b t => b = true ∧ t0.Extends t n.output.id fun x =>
        x.isInputOrOutput = true ∧ (t0.MapsToOutputs → x.FitsAfter t0.model.nodes)) _)
    (fun t3 h => ⟨rfl, Or.inr ⟨Node.Output V a, hX, h.1, h.2⟩⟩) (fun _ _ h => h) (fun _ h => h)

/-- `TryReplaceSourceNode` on a source node of its element type adds one input node that fits
after the nodes of the target model. -/
theorem TryReplaceSourceNode_extends (V : ValueType) (n : SourceNode) (t : ModelTransformer) :
    t.Extends (TryReplaceSourceNode V (Node.Source V n) t).2 n.outputBase.id fun x =>
      x.isInputOrOutput = true ∧ x.FitsAfter t.model.nodes := by
  have hs : (Node.Source V n).asSourceNode V = some n := by simp [Node.asSourceNode]
  rw [TryReplaceSourceNode_eq V _ n t hs]
  refine Or.inr
    ⟨Node.Input V
      { outputBase :=
          { id := { node := t.model.nodes.length, index := 0 }, type := V,
            layout := PortMemoryLayout.ofShape n.GetShape } },
      ⟨rfl, rfl, trivial, ?_⟩, rfl, rfl⟩
  intro pe hpe
  simp [Node.inputs] at hpe

/-- `TransformAll` leaves the target model and the mapping as they are; when it returns, its
results are as many as its arguments, each the rewriting of an argument through the
mapping. -/
theorem ModelTransformer.TransformAll_ensures (t0 : ModelTransformer)
    (inputs : List PortElements) :
    TransformerM.Ensures t0.SameAs (ModelTransformer.TransformAll inputs)
      (fun news t => t0.SameAs t ∧ news.length = inputs.length ∧
        ∀ new ∈ news, ∃ old : PortElements,
          ModelTransformer.transformRanges t0.elementsMap old = some new)
      t0.SameAs := by
  induction inputs with
  | nil =>
    exact TransformerM.Ensures_weaken
      (TransformerM.Ensures_pure []
        (fun news t => t0.SameAs t ∧ news.length = ([] : List PortElements).length ∧
          ∀ new ∈ news, ∃ old : PortElements,
            ModelTransformer.transformRanges t0.elementsMap old = some new) _)
      (fun t h => ⟨h, rfl, fun new hn => by cases hn⟩) (fun _ _ h => h) (fun _ h => h)
  | cons old rest ih =>
    show TransformerM.Ensures _
      (ModelTransformer.TransformPortElements old >>= fun new =>
        ModelTransformer.TransformAll rest >>= fun others => pure (new :: others)) _ _
    refine TransformerM.Ensures_bind
      (ModelTransformer.TransformPortElements_ensures t0 old) ?_
    intro new t hP
    obtain ⟨hSame, hT⟩ := hP
    refine TransformerM.Ensures_bind ih ?_ t hSame
    intro others
    refine TransformerM.Ensures_weaken
      (TransformerM.Ensures_pure (new :: others)
        (fun news t => t0.SameAs t ∧ news.length = (old :: rest).length ∧
          ∀ new ∈ news, ∃ old : PortElements,
            ModelTransformer.transformRanges t0.elementsMap old = some new) _)
      (fun t1 h => ⟨h.1, by simp [h.2.1], fun x hx => ?_⟩) (fun _ _ h => h) (fun _ h => h)
    rcases List.mem_cons.1 hx with hx | hx
    · exact ⟨old, by rw [hx]; exact hT⟩
    · exact h.2.2 x hx

/-- A copy by the contract adds nothing, or one node of the kind of the node copied, which
fits after the nodes of the target model when the node copied satisfies what its constructor
establishes. -/
theorem Node.CopyByContract_ensures (node : Node) (t0 : ModelTransformer) :
    TransformerM.Ensures t0.SameAs node.CopyByContract
      (fun _ t => t0.Extends t node.output.id fun x =>
        x.SameKind node = true ∧
          (t0.MapsToOutputs → node.ClassInvariant → x.FitsAfter t0.model.nodes))
      (fun t => t0.Extends t node.output.id fun x =>
        x.SameKind node = true ∧
          (t0.MapsToOutputs → node.ClassInvariant → x.FitsAfter t0.model.nodes)) := by
  unfold Node.CopyByContract
  refine TransformerM.Ensures_bind
    (TransformerM.Ensures_weaken (ModelTransformer.TransformAll_ensures t0 node.inputs)
      (fun _ h => h) (fun _ _ h => h) (fun _ h => Or.inl h)) ?_
  intro newInputs t hP
  obtain ⟨hSame, hLen, hT⟩ := hP
  refine TransformerM.Ensures_bind
    (TransformerM.Ensures_weaken (ModelTransformer.AddNode_ensures t0 _ _)
      (fun _ h => h) (fun _ _ h => h) (fun _ h => Or.inl h)) ?_ t hSame
  intro a t2 hP2
  obtain ⟨hMake, hNodes, hMap⟩ := hP2
  refine TransformerM.Ensures_weaken
    (ModelTransformer.MapNodeOutput_ensures _ _ node.output a.output _)
    (fun _ h => h) (fun _ t3 h => Or.inr ⟨a, ?_, h.1, h.2⟩)
    (fun _ h => h) t2 ⟨hNodes, hMap⟩
  simp only [Except.ok.injEq] at hMake
  subst hMake
  refine ⟨Node.withInputs_sameKind _ _ _, fun hM hC =>
    ⟨Node.withInputs_output_id _ _ _, Node.withInputs_classInvariant _ _ _ hC, ?_⟩⟩
  rw [Node.withInputs_inputs _ _ _ hLen]
  intro pe hpe
  obtain ⟨old, hOld⟩ := hT pe hpe
  exact ModelTransformer.transformRanges_valid t0 hM old pe hOld

/-- When the `Copy` of the other classes follows the contract, `node.Copy` adds nothing, or
one node of the kind of the node copied that fits after the nodes of the target model. -/
theorem Node.Copy_extends (copyOther : Node → TransformerM Unit)
    (hContract : ∀ node : Node, copyOther node = node.CopyByContract) (node : Node)
    (t : ModelTransformer) :
    t.Extends (node.Copy copyOther t).2 node.output.id fun x =>
      x.SameKind node = true ∧ (t.MapsToOutputs → x.FitsAfter t.model.nodes) := by
  have hOther : node.ClassInvariant →
      t.Extends (copyOther node t).2 node.output.id fun x =>
        x.SameKind node = true ∧ (t.MapsToOutputs → x.FitsAfter t.model.nodes) := by
    intro hC
    rw [hContract]
    exact TransformerM.Ensures_state (Node.CopyByContract_ensures node t) _
      (fun _ t1 h => ModelTransformer.Extends_weaken _ _ _ _ _
        (fun x hx => ⟨hx.1, fun hM => hx.2 hM hC⟩) h)
      (fun t1 h => ModelTransformer.Extends_weaken _ _ _ _ _
        (fun x hx => ⟨hx.1, fun hM => hx.2 hM hC⟩) h) t ⟨rfl, rfl⟩
  cases node with
  | SimpleConvolution V n =>
    exact TransformerM.Ensures_state (SimpleConvolutionNode.Copy_ensures V n t) _
      (fun _ _ h => h) (fun _ h => h) t ⟨rfl, rfl⟩
  | SimpleConvolutionCompute V n =>
    exact TransformerM.Ensures_state (SimpleConvolutionComputeNode.ComputeCopy_ensures V n t) _
      (fun _ _ h => h) (fun _ h => h) t ⟨rfl, rfl⟩
  | _ => exact hOther trivial

/-- When the `Copy` of every node that is not replaced adds nodes of that node's kind, so
does `node.Copy`. -/
theorem Node.Copy_adds_kind (copyOther : Node → TransformerM Unit)
    (hKind : ∀ (node : Node) (t : ModelTransformer), node.isFloatOrDoubleSourceOrSink = false →
      ∃ added : List Node, (copyOther node t).2.model.nodes = t.model.nodes ++ added ∧
        ∀ x ∈ added, x.SameKind node = true)
    (node : Node) (hn : node.isFloatOrDoubleSourceOrSink = false) (t : ModelTransformer) :
    ∃ added : List Node, (node.Copy copyOther t).2.model.nodes = t.model.nodes ++ added ∧
      ∀ x ∈ added, x.SameKind node = true := by
  cases node with
  | SimpleConvolution V n =>
    exact ModelTransformer.Extends_added _ _ _ _
      (TransformerM.Ensures_state (SimpleConvolutionNode.Copy_ensures V n t) _
        (fun _ t1 h => ModelTransformer.Extends_weaken _ _ _ _ _ (fun x hx => hx.1) h)
        (fun t1 h => ModelTransformer.Extends_weaken _ _ _ _ _ (fun x hx => hx.1) h)
        t ⟨rfl, rfl⟩)
  | SimpleConvolutionCompute V n =>
    exact ModelTransformer.Extends_added _ _ _ _
      (TransformerM.Ensures_state (SimpleConvolutionComputeNode.ComputeCopy_ensures V n t) _
        (fun _ t1 h => ModelTransformer.Extends_weaken _ _ _ _ _ (fun x hx => hx.1) h)
        (fun t1 h => ModelTransformer.Extends_weaken _ _ _ _ _ (fun x hx => hx.1) h)
        t ⟨rfl, rfl⟩)
  | _ => exact hKind _ t hn

/-- On a node that is no float or double source or sink node `ReplaceSourceOrSinkNode` is
`node.Copy`. -/
theorem ReplaceSourceOrSinkNode_copy (copyOther : Node → TransformerM Unit) (node : Node)
    (hn : node.isFloatOrDoubleSourceOrSink = false) (t : ModelTransformer) :
    ReplaceSourceOrSinkNode copyOther node t = node.Copy copyOther t := by
  apply ReplaceSourceOrSinkNode_unmatched
  · cases node <;> simp_all [Node.asSourceNode, Node.isFloatOrDoubleSourceOrSink]
  · cases node <;> simp_all [Node.asSourceNode, Node.isFloatOrDoubleSourceOrSink]
  · cases node <;> simp_all [Node.asSinkNode, Node.isFloatOrDoubleSourceOrSink]
  · cases node <;> simp_all [Node.asSinkNode, Node.isFloatOrDoubleSourceOrSink]

/-- The handler `ReplaceSourceOrSinkNode` applies to a node: `TryReplaceSourceNode` to a
float or double source node, `TryReplaceSinkNode` to a float or double sink node, and
`node.Copy` to every other node. -/
theorem ReplaceSourceOrSinkNode_cases (copyOther : Node → TransformerM Unit) (node : Node)
    (t : ModelTransformer) :
    (∃ (V : ValueType) (n : SourceNode), node = Node.Source V n ∧
        (ReplaceSourceOrSinkNode copyOther node t).2 = (TryReplaceSourceNode V node t).2) ∨
      (∃ (V : ValueType) (n : SinkNode), node = Node.Sink V n ∧
        (ReplaceSourceOrSinkNode copyOther node t).2 = (TryReplaceSinkNode V node t).2) ∨
      (node.isFloatOrDoubleSourceOrSink = false ∧
        ReplaceSourceOrSinkNode copyOther node t = node.Copy copyOther t) := by
  by_cases hn : node.isFloatOrDoubleSourceOrSink = true
  · cases node with
    | Source V n =>
      refine Or.inl ⟨V, n, rfl, ?_⟩
      rw [ReplaceSourceOrSinkNode_source copyOther V n t
        (by simpa [Node.isFloatOrDoubleSourceOrSink] using hn)]
    | Sink V n =>
      refine Or.inr (Or.inl ⟨V, n, rfl, ?_⟩)
      have hV : V = ValueType.float ∨ V = ValueType.double := by
        simpa [Node.isFloatOrDoubleSourceOrSink] using hn
      obtain ⟨hOk, hErr⟩ := TryReplaceSinkNode_ensures V n t t ⟨rfl, rfl⟩
      unfold ReplaceSourceOrSinkNode
      rw [TransformerM.bind_ok _ _ _ _ _
        (TryReplaceSourceNode_none ValueType.float _ t (by simp [Node.asSourceNode]))]
      simp only [Bool.false_eq_true, if_false]
      rw [TransformerM.bind_ok _ _ _ _ _
        (TryReplaceSourceNode_none ValueType.double _ t (by simp [Node.asSourceNode]))]
      simp only [Bool.false_eq_true, if_false]
      cases hm : TryReplaceSinkNode V (Node.Sink V n) t with
      | mk r t1 =>
        cases r with
        | error e =>
          rcases hV with hV | hV
          · subst hV
            rw [TransformerM.bind_error _ _ _ _ _ hm]
          · subst hV
            rw [TransformerM.bind_ok _ _ _ _ _
              (TryReplaceSinkNode_none ValueType.float _ t (by simp [Node.asSinkNode]))]
            simp only [Bool.false_eq_true, if_false]
            rw [TransformerM.bind_error _ _ _ _ _ hm]
        | ok b =>
          have hb : b = true := (hOk b t1 hm).1
          subst hb
          rcases hV with hV | hV
          · subst hV
            rw [TransformerM.bind_ok _ _ _ _ _ hm]
            rfl
          · subst hV
            rw [TransformerM.bind_ok _ _ _ _ _
              (TryReplaceSinkNode_none ValueType.float _ t (by simp [Node.asSinkNode]))]
            simp only [Bool.false_eq_true, if_false]
            rw [TransformerM.bind_ok _ _ _ _ _ hm]
            rfl
    | _ => simp [Node.isFloatOrDoubleSourceOrSink] at hn
  · have hn2 : node.isFloatOrDoubleSourceOrSink = false := by simpa using hn
    exact Or.inr (Or.inr ⟨hn2, ReplaceSourceOrSinkNode_copy copyOther node hn2 t⟩)

/-! ## One step and the whole walk of the pass -/

/-- For a float or double source or sink node `ReplaceSourceOrSinkNode` adds input and
output nodes only. -/
theorem ReplaceSourceOrSinkNode_adds_input_or_output (copyOther : Node → TransformerM Unit)
    (node : Node) (hn : node.isFloatOrDoubleSourceOrSink = true) (t : ModelTransformer) :
    ∃ added : List Node,
      (ReplaceSourceOrSinkNode copyOther node t).2.model.nodes = t.model.nodes ++ added ∧
        ∀ x ∈ added, x.isInputOrOutput = true := by
  rcases ReplaceSourceOrSinkNode_cases copyOther node t with
    ⟨V, n, hNode, hState⟩ | ⟨V, n, hNode, hState⟩ | ⟨hFalse, _⟩
  · rw [hState, hNode]
    exact ModelTransformer.Extends_added _ _ _ _
      (ModelTransformer.Extends_weaken _ _ _ _ _ (fun x hx => hx.1)
        (TryReplaceSourceNode_extends V n t))
  · rw [hState, hNode]
    exact ModelTransformer.Extends_added _ _ _ _
      (TransformerM.Ensures_state (TryReplaceSinkNode_ensures V n t) _
        (fun _ t1 h => ModelTransformer.Extends_weaken _ _ _ _ _ (fun x hx => hx.1) h.2)
        (fun t1 h => ModelTransformer.Extends_weaken _ _ _ _ _ (fun x hx => hx.1) h)
        t ⟨rfl, rfl⟩)
  · rw [hFalse] at hn
    cases hn

/-- When the `Copy` of every node that is not replaced adds nodes of that node's kind,
`ReplaceSourceOrSinkNode` adds no source or sink node for a node that is no source or sink
node of another element type than float and double. -/
theorem ReplaceSourceOrSinkNode_adds_no_source_or_sink (copyOther : Node → TransformerM Unit)
    (hKind : ∀ (node : Node) (t : ModelTransformer), node.isFloatOrDoubleSourceOrSink = false →
      ∃ added : List Node, (copyOther node t).2.model.nodes = t.model.nodes ++ added ∧
        ∀ x ∈ added, x.SameKind node = true)
    (node : Node) (hType : node.isSourceOrSink = true → node.isFloatOrDoubleSourceOrSink = true)
    (t : ModelTransformer) :
    ∃ added : List Node,
      (ReplaceSourceOrSinkNode copyOther node t).2.model.nodes = t.model.nodes ++ added ∧
        ∀ x ∈ added, x.isSourceOrSink = false := by
  by_cases hn : node.isFloatOrDoubleSourceOrSink = true
  · obtain ⟨added, h1, h2⟩ := ReplaceSourceOrSinkNode_adds_input_or_output copyOther node hn t
    exact ⟨added, h1, fun x hx => Node.isInputOrOutput_isSourceOrSink x (h2 x hx)⟩
  · have hn2 : node.isFloatOrDoubleSourceOrSink = false := by simpa using hn
    have hNot : node.isSourceOrSink = false := by
      cases h : node.isSourceOrSink with
      | false => rfl
      | true => exact absurd (hType h) hn
    rcases ReplaceSourceOrSinkNode_cases copyOther node t with
      ⟨V, n, hNode, _⟩ | ⟨V, n, hNode, _⟩ | ⟨_, hCopy⟩
    · rw [hNode] at hNot
      cases hNot
    · rw [hNode] at hNot
      cases hNot
    · rw [hCopy]
      obtain ⟨added, h1, h2⟩ := Node.Copy_adds_kind copyOther hKind node hn2 t
      exact ⟨added, h1, fun x hx => Node.SameKind_isSourceOrSink x node (h2 x hx) hNot⟩

/-- When the `Copy` of the other classes follows the contract, `ReplaceSourceOrSinkNode` adds
nothing, or one node that fits after the nodes of the target model. -/
theorem ReplaceSourceOrSinkNode_extends (copyOther : Node → TransformerM Unit)
    (hContract : ∀ node : Node, copyOther node = node.CopyByContract) (node : Node)
    (t : ModelTransformer) :
    t.Extends (ReplaceSourceOrSinkNode copyOther node t).2 node.output.id fun x =>
      t.MapsToOutputs → x.FitsAfter t.model.nodes := by
  rcases ReplaceSourceOrSinkNode_cases copyOther node t with
    ⟨V, n, hNode, hState⟩ | ⟨V, n, hNode, hState⟩ | ⟨_, hCopy⟩
  · rw [hState, hNode]
    exact ModelTransformer.Extends_weaken _ _ _ _ _ (fun x hx _ => hx.2)
      (TryReplaceSourceNode_extends V n t)
  · rw [hState, hNode]
    exact TransformerM.Ensures_state (TryReplaceSinkNode_ensures V n t) _
      (fun _ t1 h => ModelTransformer.Extends_weaken _ _ _ _ _ (fun x hx => hx.2) h.2)
      (fun t1 h => ModelTransformer.Extends_weaken _ _ _ _ _ (fun x hx => hx.2) h)
      t ⟨rfl, rfl⟩
  · rw [hCopy]
    exact ModelTransformer.Extends_weaken _ _ _ _ _ (fun x hx => hx.2)
      (Node.Copy_extends copyOther hContract node t)

/-- The transformer `OptimizeNode` leaves in the context is the one `ReplaceSourceOrSinkNode`
leaves, and its outcome is that of `ReplaceSourceOrSinkNode`. -/
theorem ReplaceSourceAndSinkNodesPass.OptimizeNode_eq {MapCompilerOptions : Type}
    (copyOther : Node → TransformerM Unit) (node : Node) (settings : MapCompilerOptions)
    (context : ModelOptimizerContext) :
    ReplaceSourceAndSinkNodesPass.OptimizeNode copyOther node settings context =
      ((ReplaceSourceOrSinkNode copyOther node context.transformer).1,
        { transformer := (ReplaceSourceOrSinkNode copyOther node context.transformer).2 }) := by
  unfold ReplaceSourceAndSinkNodesPass.OptimizeNode
  cases ReplaceSourceOrSinkNode copyOther node context.transformer with
  | mk r t => rfl

/-- A property of the transformer that every step of the walk keeps holds at its end. -/
theorem ReplaceSourceAndSinkNodesPass.OptimizeNodes_invariant {MapCompilerOptions : Type}
    (copyOther : Node → TransformerM Unit) (settings : MapCompilerOptions)
    (Inv : ModelTransformer → Prop) (nodes : List Node)
    (hStep : ∀ node ∈ nodes, ∀ t : ModelTransformer, Inv t →
      Inv (ReplaceSourceOrSinkNode copyOther node t).2)
    (context : ModelOptimizerContext) (h : Inv context.transformer) :
    Inv (ReplaceSourceAndSinkNodesPass.OptimizeNodes copyOther settings nodes
      context).2.transformer := by
  induction nodes generalizing context with
  | nil => exact h
  | cons node rest ih =>
    unfold ReplaceSourceAndSinkNodesPass.OptimizeNodes
    rw [ReplaceSourceAndSinkNodesPass.OptimizeNode_eq]
    have hNext := hStep node (List.mem_cons_self _ _) context.transformer h
    cases hr : ReplaceSourceOrSinkNode copyOther node context.transformer with
    | mk r t1 =>
      rw [hr] at hNext
      cases r with
      | error e => exact hNext
      | ok u =>
        exact ih (fun n hn t ht => hStep n (List.mem_cons_of_mem _ hn) t ht) _ hNext

/-- The transformer a run of the pass ends with is the one its walk ends with. -/
theorem ReplaceSourceAndSinkNodesPass.Run_eq {MapCompilerOptions : Type}
    (copyOther : Node → TransformerM Unit) (settings : MapCompilerOptions) (model : Model) :
    ReplaceSourceAndSinkNodesPass.Run copyOther settings model =
      ((ReplaceSourceAndSinkNodesPass.OptimizeNodes copyOther settings model.nodes
        { transformer := ModelTransformer.initial }).1,
       (ReplaceSourceAndSinkNodesPass.OptimizeNodes copyOther settings model.nodes
        { transformer := ModelTransformer.initial }).2.transformer) := by
  unfold ReplaceSourceAndSinkNodesPass.Run
  cases ReplaceSourceAndSinkNodesPass.OptimizeNodes copyOther settings model.nodes
    { transformer := ModelTransformer.initial } with
  | mk r context => rfl

/-- When every source and sink node of the model has element type float or double, and the
`Copy` of every node that is not replaced adds nodes of that node's kind, the model a run of
the pass builds holds no source or sink node. -/
theorem ReplaceSourceAndSinkNodesPass.Run_noSourceOrSink {MapCompilerOptions : Type}
    (copyOther : Node → TransformerM Unit) (settings : MapCompilerOptions) (model : Model)
    (hTypes : ∀ node ∈ model.nodes, node.isSourceOrSink = true →
      node.isFloatOrDoubleSourceOrSink = true)
    (hKind : ∀ (node : Node) (t : ModelTransformer), node.isFloatOrDoubleSourceOrSink = false →
      ∃ added : List Node, (copyOther node t).2.model.nodes = t.model.nodes ++ added ∧
        ∀ x ∈ added, x.SameKind node = true) :
    (ReplaceSourceAndSinkNodesPass.Run copyOther settings model).2.NoSourceOrSink := by
  rw [ReplaceSourceAndSinkNodesPass.Run_eq]
  refine ReplaceSourceAndSinkNodesPass.OptimizeNodes_invariant copyOther settings
    ModelTransformer.NoSourceOrSink model.nodes ?_ _ ?_
  · intro node hNode t hInv x hx
    obtain ⟨added, h1, h2⟩ :=
      ReplaceSourceOrSinkNode_adds_no_source_or_sink copyOther hKind node (hTypes node hNode) t
    rw [h1] at hx
    rcases List.mem_append.1 hx with hx | hx
    · exact hInv x hx
    · exact h2 x hx
  · intro x hx
    simp [ModelTransformer.initial] at hx

/-- When the `Copy` of the other classes follows the contract, the model a run of the pass
builds is well-formed. -/
theorem ReplaceSourceAndSinkNodesPass.Run_wellFormed {MapCompilerOptions : Type}
    (copyOther : Node → TransformerM Unit) (settings : MapCompilerOptions) (model : Model)
    (hContract : ∀ node : Node, copyOther node = node.CopyByContract) :
    WellFormedNodes (ReplaceSourceAndSinkNodesPass.Run copyOther settings model).2.model.nodes := by
  rw [ReplaceSourceAndSinkNodesPass.Run_eq]
  refine (ReplaceSourceAndSinkNodesPass.OptimizeNodes_invariant copyOther settings
    (fun t => WellFormedNodes t.model.nodes ∧ t.MapsToOutputs) model.nodes ?_ _ ?_).1
  · intro node _ t hInv
    exact ModelTransformer.wellFormed_extends t _ node.output.id _
      (fun x hx => hx hInv.2) hInv.1 hInv.2
      (ReplaceSourceOrSinkNode_extends copyOther hContract node t)
  · refine ⟨WellFormedNodes.wellFormed_nil, ?_⟩
    intro e he
    simp [ModelTransformer.initial] at he

/-! ## A walk that copies every node of a well-formed model rebuilds the model -/

/-- In a list whose members own the output ports of consecutive handles, each member is the
first one found by its output port. -/
theorem find_by_output_id (k : Nat) (nodes : List Node)
    (hKey : ∀ (j : Nat) (y : Node), nodes.get? j = some y →
      y.output.id = { node := k + j, index := 0 })
    (i : Nat) (x : Node) (hx : nodes.get? i = some x) :
    nodes.find? (fun y => decide (y.output.id = x.output.id)) = some x := by
  induction nodes generalizing k i with
  | nil => simp at hx
  | cons y rest ih =>
    cases i with
    | zero =>
      simp only [List.get?_cons_zero, Option.some.injEq] at hx
      subst hx
      simp
    | succ i =>
      simp only [List.get?_cons_succ] at hx
      have hy := hKey 0 y rfl
      have hxk := hKey (i + 1) x (by simpa using hx)
      have hne : ¬ y.output.id = x.output.id := by
        rw [hy, hxk]
        intro h
        simp only [PortId.mk.injEq, and_true] at h
        omega
      rw [List.find?_cons_of_neg _ (by simpa using hne)]
      refine ih (k + 1) (fun j z hz => ?_) i hx
      have := hKey (j + 1) z (by simpa using hz)
      rw [this]
      congr 1
      omega

/-- The identity mapping of a well-formed list of nodes sends the output of each node to
itself. -/
theorem identityMap_lookup (nodes : List Node) (h : WellFormedNodes nodes) (i : Nat) (x : Node)
    (hx : nodes.get? i = some x) :
    ModelTransformer.lookup (identityMap nodes) x.output.id =
      some (PortElements.ofPort x.output) := by
  unfold ModelTransformer.lookup identityMap
  rw [List.find?_map]
  have hFind := find_by_output_id 0 nodes
    (fun j y hy => by rw [Nat.zero_add]; exact WellFormedNodes.wellFormed_output_id nodes h j y hy) i x hx
  have hEq : ((fun e : PortId × PortElements => decide (e.1 = x.output.id)) ∘
      fun node : Node => (node.output.id, PortElements.ofPort node.output)) =
      fun y : Node => decide (y.output.id = x.output.id) := rfl
  rw [hEq, hFind]
  rfl

/-- Elements of the nodes of a well-formed list are rewritten to themselves by the identity
mapping of the list. -/
theorem transformRanges_identityMap (nodes : List Node) (h : WellFormedNodes nodes)
    (pe : PortElements) (hpe : ∀ r ∈ pe, r.ValidIn nodes) :
    ModelTransformer.transformRanges (identityMap nodes) pe = some pe := by
  induction pe with
  | nil => rfl
  | cons r rest ih =>
    obtain ⟨node, hg, hp, hc, hs⟩ := hpe r (List.mem_cons_self _ _)
    have hl := identityMap_lookup nodes h _ node hg
    rw [← hp] at hl
    unfold ModelTransformer.transformRanges
    rw [hl, ih (fun q hq => hpe q (List.mem_cons_of_mem _ hq))]
    simp only
    rw [PortElements.slice_ofPort_self node.output r hp hc hs]
    rfl

/-- When the mapping rewrites each of the inputs to itself, `TransformAll` returns the
inputs and leaves the target model and the mapping as they are. -/
theorem ModelTransformer.TransformAll_identity (inputs : List PortElements)
    (t : ModelTransformer)
    (h : ∀ pe ∈ inputs, ModelTransformer.transformRanges t.elementsMap pe = some pe) :
    ∃ t1 : ModelTransformer,
      ModelTransformer.TransformAll inputs t = (Except.ok inputs, t1) ∧ t.SameAs t1 := by
  induction inputs generalizing t with
  | nil => exact ⟨t, rfl, rfl, rfl⟩
  | cons pe rest ih =>
    obtain ⟨t2, h2, hSame⟩ :=
      ih { t with calls := t.calls ++ [Call.TransformPortElements pe] }
        (fun q hq => h q (List.mem_cons_of_mem _ hq))
    refine ⟨t2, ?_, hSame⟩
    show (ModelTransformer.TransformPortElements pe >>= fun new =>
        ModelTransformer.TransformAll rest >>= fun others => pure (new :: others)) t = _
    rw [TransformerM.bind_ok _ _ _ _ _
      (ModelTransformer.TransformPortElements_ok t pe pe (h pe (List.mem_cons_self _ _)))]
    rw [TransformerM.bind_ok _ _ _ _ _ h2]
    rfl

/-- The nodes before a point of a well-formed list are a well-formed list. -/
theorem WellFormedNodes.wellFormed_of_append (nodes rest : List Node)
    (h : WellFormedNodes (nodes ++ rest)) : WellFormedNodes nodes := by
  intro i x hx
  have hlt : i < nodes.length := by
    by_contra hge
    rw [List.get?_eq_none.2 (by omega)] at hx
    cases hx
  have := h i x (by
    rw [List.get?_eq_getElem?] at hx ⊢
    rw [List.getElem?_append_left hlt]
    exact hx)
  rw [List.take_append_of_le_length hlt.le] at this
  exact this

/-- A copy by the contract of a node that fits after the nodes of the target model, under
the identity mapping of these nodes, adds the node itself and maps its output to itself. -/
theorem Node.CopyByContract_identity (done : List Node) (x : Node) (t : ModelTransformer)
    (hW : WellFormedNodes done) (hFit : x.FitsAfter done) (hN : t.model.nodes = done)
    (hM : t.elementsMap = identityMap done) :
    ∃ t1 : ModelTransformer, x.CopyByContract t = (Except.ok (), t1) ∧
      t1.model.nodes = done ++ [x] ∧ t1.elementsMap = identityMap (done ++ [x]) := by
  obtain ⟨t1, hAll, hModel, hMap⟩ := ModelTransformer.TransformAll_identity x.inputs t
    (fun pe hpe => by rw [hM]; exact transformRanges_identityMap done hW pe (hFit.2.2 pe hpe))
  have hLen : t1.model.nodes.length = done.length := by rw [hModel, hN]
  have hSelf : x.withInputs t1.model.nodes.length x.inputs = x :=
    Node.withInputs_self _ x (by rw [hLen]; exact hFit.1)
  have hAdd := ModelTransformer.AddNode_ok id
    (fun self => Except.ok (x.withInputs self x.inputs)) t1 x (by dsimp only; rw [hSelf])
    (fun pe hpe r hr => by
      rw [hLen]
      exact PortRange.ValidIn_lt done r (hFit.2.2 pe hpe r hr))
  unfold Node.CopyByContract
  rw [TransformerM.bind_ok _ _ _ _ _ hAll, TransformerM.bind_ok _ _ _ _ _ hAdd]
  refine ⟨_, rfl, ?_, ?_⟩
  · show t1.model.nodes ++ [x] = done ++ [x]
    rw [hModel, hN]
  · show t1.elementsMap ++ [(x.output.id, PortElements.ofPort x.output)] = _
    rw [hMap, hM]
    simp [identityMap]

/-- When the `Copy` of the other classes follows the contract, `node.Copy` of a node that
fits after the nodes of the target model, under the identity mapping of these nodes, adds
the node itself and maps its output to itself. -/
theorem Node.Copy_identity (copyOther : Node → TransformerM Unit)
    (hContract : ∀ node : Node, copyOther node = node.CopyByContract)
    (done : List Node) (x : Node) (t : ModelTransformer)
    (hW : WellFormedNodes done) (hFit : x.FitsAfter done) (hN : t.model.nodes = done)
    (hM : t.elementsMap = identityMap done) :
    ∃ t1 : ModelTransformer, x.Copy copyOther t = (Except.ok (), t1) ∧
      t1.model.nodes = done ++ [x] ∧ t1.elementsMap = identityMap (done ++ [x]) := by
  have hOther : ∃ t1 : ModelTransformer, copyOther x t = (Except.ok (), t1) ∧
      t1.model.nodes = done ++ [x] ∧ t1.elementsMap = identityMap (done ++ [x]) := by
    rw [hContract]
    exact Node.CopyByContract_identity done x t hW hFit hN hM
  cases x with
  | SimpleConvolution V n =>
    obtain ⟨hId, ⟨hInv, hType⟩, hIn⟩ := hFit
    have hT : ModelTransformer.transformRanges t.elementsMap n.input = some n.input := by
      rw [hM]
      exact transformRanges_identityMap done hW n.input
        (hIn n.input (by simp [Node.inputs]))
    have hC : ∀ r ∈ n.input, r.port.node < t.model.nodes.length := by
      intro r hr
      rw [hN]
      exact PortRange.ValidIn_lt done r (hIn n.input (by simp [Node.inputs]) r hr)
    refine ⟨_, SimpleConvolutionNode.Copy_eq V n t n.input hT hC hInv, ?_, ?_⟩
    · obtain ⟨input, output, iml, fw, stride, flag⟩ := n
      obtain ⟨id, type, layout⟩ := output
      simp only [Node.output] at hId hType
      subst hId
      subst hType
      simp only [hN]
    · obtain ⟨input, output, iml, fw, stride, flag⟩ := n
      obtain ⟨id, type, layout⟩ := output
      simp only [Node.output] at hId hType
      subst hId
      subst hType
      simp only [hN, hM, identityMap, List.map_append, List.map_cons, List.map_nil, Node.output]
  | SimpleConvolutionCompute V n =>
    obtain ⟨hId, hType, hIn⟩ := hFit
    have hT : ModelTransformer.transformRanges t.elementsMap n.input = some n.input := by
      rw [hM]
      exact transformRanges_identityMap done hW n.input
        (hIn n.input (by simp [Node.inputs]))
    have hF : ModelTransformer.transformRanges t.elementsMap n.filterWeights =
        some n.filterWeights := by
      rw [hM]
      exact transformRanges_identityMap done hW n.filterWeights
        (hIn n.filterWeights (by simp [Node.inputs]))
    have hC : ∀ r ∈ n.input, r.port.node < t.model.nodes.length := by
      intro r hr
      rw [hN]
      exact PortRange.ValidIn_lt done r (hIn n.input (by simp [Node.inputs]) r hr)
    have hD : ∀ r ∈ n.filterWeights, r.port.node < t.model.nodes.length := by
      intro r hr
      rw [hN]
      exact PortRange.ValidIn_lt done r (hIn n.filterWeights (by simp [Node.inputs]) r hr)
    refine ⟨_, SimpleConvolutionComputeNode.ComputeCopy_eq V n t n.input n.filterWeights
      hT hF hC hD, ?_, ?_⟩
    · obtain ⟨input, weights, output, iml, fs, stride, flag⟩ := n
      obtain ⟨id, type, layout⟩ := output
      simp only [Node.output] at hId
      change type = V at hType
      subst hId
      subst hType
      simp only [hN]
    · obtain ⟨input, weights, output, iml, fs, stride, flag⟩ := n
      obtain ⟨id, type, layout⟩ := output
      simp only [Node.output] at hId
      change type = V at hType
      subst hId
      subst hType
      simp only [hN, hM, identityMap, List.map_append, List.map_cons, List.map_nil, Node.output]
  | _ => exact hOther

/-- When the `Copy` of the other classes follows the contract, the walk of the pass over the
rest of a well-formed list of nodes without float or double source and sink nodes, started
with the nodes before the rest as target model and their identity mapping, returns and has
rebuilt the list. -/
theorem ReplaceSourceAndSinkNodesPass.OptimizeNodes_rebuilds {MapCompilerOptions : Type}
    (copyOther : Node → TransformerM Unit)
    (hContract : ∀ node : Node, copyOther node = node.CopyByContract)
    (settings : MapCompilerOptions) (rest done : List Node) (context : ModelOptimizerContext)
    (hW : WellFormedNodes (done ++ rest))
    (hNo : ∀ x ∈ rest, x.isFloatOrDoubleSourceOrSink = false)
    (hN : context.transformer.model.nodes = done)
    (hM : context.transformer.elementsMap = identityMap done) :
    ∃ context2 : ModelOptimizerContext,
      ReplaceSourceAndSinkNodesPass.OptimizeNodes copyOther settings rest context =
        (Except.ok (), context2) ∧
      context2.transformer.model.nodes = done ++ rest := by
  induction rest generalizing done context with
  | nil => exact ⟨context, rfl, by rw [hN, List.append_nil]⟩
  | cons x rest ih =>
    have hFit : x.FitsAfter done := by
      have := hW done.length x (by
        rw [List.get?_eq_getElem?, List.getElem?_append_right (le_refl _)]
        simp)
      rw [List.take_left'] at this
      · exact this
      · rfl
    obtain ⟨t1, hCopy, hN1, hM1⟩ := Node.Copy_identity copyOther hContract done x
      context.transformer (WellFormedNodes.wellFormed_of_append done (x :: rest) hW) hFit hN hM
    obtain ⟨context2, hRun, hNodes⟩ := ih (done ++ [x]) { transformer := t1 }
      (by rw [List.append_assoc]; exact hW)
      (fun y hy => hNo y (List.mem_cons_of_mem _ hy)) hN1 hM1
    refine ⟨context2, ?_, by rw [hNodes, List.append_assoc]; rfl⟩
    unfold ReplaceSourceAndSinkNodesPass.OptimizeNodes
    rw [ReplaceSourceAndSinkNodesPass.OptimizeNode_eq,
      ReplaceSourceOrSinkNode_copy copyOther x (hNo x (List.mem_cons_self _ _)), hCopy]
    exact hRun

/-- A copy by the contract adds nodes of the kind of the node copied only. -/
theorem Node.CopyByContract_adds_kind (node : Node) (t : ModelTransformer) :
    ∃ added : List Node, (node.CopyByContract t).2.model.nodes = t.model.nodes ++ added ∧
      ∀ x ∈ added, x.SameKind node = true :=
  ModelTransformer.Extends_added _ _ _ _
    (TransformerM.Ensures_state (Node.CopyByContract_ensures node t) _
      (fun _ _ h => ModelTransformer.Extends_weaken _ _ _ _ _ (fun _ hx => hx.1) h)
      (fun _ h => ModelTransformer.Extends_weaken _ _ _ _ _ (fun _ hx => hx.1) h)
      t ⟨rfl, rfl⟩)

/-- A node that is neither a source nor a sink node is no float or double source or sink
node. -/
theorem Node.isFloatOrDoubleSourceOrSink_of_not (x : Node) (h : x.isSourceOrSink = false) :
    x.isFloatOrDoubleSourceOrSink = false := by
  cases x <;> simp_all [Node.isSourceOrSink, Node.isFloatOrDoubleSourceOrSink]

/-! ## C27: the pass is idempotent -/

/-- C27: `ReplaceSourceAndSinkNodesPass` is idempotent on models whose source and sink nodes
all have element type float or double. For such a model, and when the `Copy` of every node
that is not replaced adds nodes of that node's own kind: (1) the nodes
`ReplaceSourceOrSinkNode` adds for a float or double source or sink node are input and
output nodes only; (2) the model a run of the pass builds holds no source and no sink node;
(3) on every node of that model `OptimizeNode` is `node.Copy`; (4) when the `Copy` of the
classes whose override is not among the sources follows the contract of section 4.2, a
second run of the pass, on the model the first run built, returns and builds a model equal
to it: the same nodes with the same inputs. -/
theorem C27_pass_is_idempotent {MapCompilerOptions : Type}
    (copyOther : Node → TransformerM Unit) (settings : MapCompilerOptions) (model : Model)
    (hTypes : ∀ node ∈ model.nodes, node.isSourceOrSink = true →
      node.isFloatOrDoubleSourceOrSink = true)
    (hKind : ∀ (node : Node) (t : ModelTransformer), node.isFloatOrDoubleSourceOrSink = false →
      ∃ added : List Node, (copyOther node t).2.model.nodes = t.model.nodes ++ added ∧
        ∀ x ∈ added, x.SameKind node = true) :
    (∀ node ∈ model.nodes, node.isFloatOrDoubleSourceOrSink = true →
      ∀ t : ModelTransformer, ∃ added : List Node,
        (ReplaceSourceOrSinkNode copyOther node t).2.model.nodes = t.model.nodes ++ added ∧
          ∀ x ∈ added, x.isInputOrOutput = true) ∧
    (ReplaceSourceAndSinkNodesPass.Run copyOther settings model).2.NoSourceOrSink ∧
    (∀ x ∈ (ReplaceSourceAndSinkNodesPass.Run copyOther settings model).2.model.nodes,
      ∀ context : ModelOptimizerContext,
        ReplaceSourceAndSinkNodesPass.OptimizeNode copyOther x settings context =
          ((x.Copy copyOther context.transformer).1,
            { transformer := (x.Copy copyOther context.transformer).2 })) ∧
    ((∀ node : Node, copyOther node = node.CopyByContract) →
      ∃ t2 : ModelTransformer,
        ReplaceSourceAndSinkNodesPass.Run copyOther settings
            (ReplaceSourceAndSinkNodesPass.Run copyOther settings model).2.model =
          (Except.ok (), t2) ∧
        t2.model = (ReplaceSourceAndSinkNodesPass.Run copyOther settings model).2.model) := by
  have hNo := ReplaceSourceAndSinkNodesPass.Run_noSourceOrSink copyOther settings model
    hTypes hKind
  refine ⟨fun node _ hn t => ReplaceSourceOrSinkNode_adds_input_or_output copyOther node hn t,
    hNo, fun x hx context => ?_, fun hContract => ?_⟩
  · rw [ReplaceSourceAndSinkNodesPass.OptimizeNode_eq,
      ReplaceSourceOrSinkNode_copy copyOther x
        (Node.isFloatOrDoubleSourceOrSink_of_not x (hNo x hx))]
  · obtain ⟨context2, hRun, hNodes⟩ :=
      ReplaceSourceAndSinkNodesPass.OptimizeNodes_rebuilds copyOther hContract settings
        (ReplaceSourceAndSinkNodesPass.Run copyOther settings model).2.model.nodes []
        { transformer := ModelTransformer.initial }
        (by
          rw [List.nil_append]
          exact ReplaceSourceAndSinkNodesPass.Run_wellFormed copyOther settings model hContract)
        (fun x hx => Node.isFloatOrDoubleSourceOrSink_of_not x (hNo x hx)) rfl rfl
    refine ⟨context2.transformer, ?_, ?_⟩
    · rw [ReplaceSourceAndSinkNodesPass.Run_eq
        copyOther settings (ReplaceSourceAndSinkNodesPass.Run copyOther settings model).2.model,
        hRun]
    · rw [List.nil_append] at hNodes
      cases hm : context2.transformer.model with
      | mk nodes =>
        rw [hm] at hNodes
        simp only at hNodes
        rw [hNodes]

/-- C27 on a model of an input node, a double source node, a convolution node and a float
sink node, with the `Copy` of the other classes as the contract states it: the first run
returns, having replaced the source node by an input node and the sink node by an output
node, and the second run rebuilds the model of the first. -/
theorem C27_pass_is_idempotent_witness :
    (∀ node ∈ Example.sourceSinkModel.nodes, node.isSourceOrSink = true →
      node.isFloatOrDoubleSourceOrSink = true) ∧
    Example.sourceSinkModel.nodes.map Node.isSourceOrSink = [false, true, false, true] ∧
    (ReplaceSourceAndSinkNodesPass.Run Node.CopyByContract () Example.sourceSinkModel).1 =
      Except.ok () ∧
    (ReplaceSourceAndSinkNodesPass.Run Node.CopyByContract ()
      Example.sourceSinkModel).2.model.nodes.map Node.isInputOrOutput =
        [true, true, false, true] ∧
    (ReplaceSourceAndSinkNodesPass.Run Node.CopyByContract ()
      Example.sourceSinkModel).2.NoSourceOrSink ∧
    ∃ t2 : ModelTransformer,
      ReplaceSourceAndSinkNodesPass.Run Node.CopyByContract ()
          (ReplaceSourceAndSinkNodesPass.Run Node.CopyByContract ()
            Example.sourceSinkModel).2.model =
        (Except.ok (), t2) ∧
      t2.model = (ReplaceSourceAndSinkNodesPass.Run Node.CopyByContract ()
        Example.sourceSinkModel).2.model :=
  have h := C27_pass_is_idempotent Node.CopyByContract () Example.sourceSinkModel
    (by decide) (fun node t _ => Node.CopyByContract_adds_kind node t)
  ⟨by decide, by decide, by decide, by decide, h.2.1, h.2.2.2 (fun _ => rfl)⟩

end ell
